import Mathlib

/-!
ASTRA-sim: a verification development.

A shallow embedding of parts of the ASTRA-sim sources, with theorems about them.

Conventions of the embedding.

* C++ `int` and `long` quantities are carried in `Int`.  Signed overflow is undefined
  behaviour in C++, so only the defined executions are described; for the constructor of
  `Ring`, `Ring.stream_count_int32` gives the value of the 32-bit computation, to tell up to
  which ring size they agree.
* The ns3 frontend keeps its byte counts in `int`, while the sizes that `sim_recv` takes
  are `uint64_t`: there every `int` sum and difference is reduced to 32 bits in two's
  complement (`int32`), which is what the compiled program keeps after an overflow.
* Unsigned quantities (`uint32_t`, `uint64_t`) are carried in `Nat` and every arithmetic
  operation on them is reduced modulo `2^32` / `2^64` explicitly.
* A failed `assert` aborts the process: functions that contain assertions return
  `Option`, and `none` stands for the abort.
* Calls into code that is outside the repository (invoking a registered callback, handing
  a chunk to the network topology, `sim_schedule`) are recorded, in order, in a log that is
  part of the state.
* A registered callback is recorded when it is invoked, not executed: what a callback
  does (further `sim_send` / `sim_recv` calls, say) appears as separate operations of a
  run, after the operation that invoked it.
* `std::map` objects are association lists; the maps of the reachable states have
  pairwise different keys.
* A conversion of a `uint64_t` to `int` keeps the low 32 bits in two's complement, and a
  comparison of an `int` with a `uint64_t` converts the `int` (modulo `2^64`).
* In the workload engine the ways in which a call does not return (a failed assertion,
  `exit(EXIT_FAILURE)`, undefined behaviour) are the errors of an `Except`; `Sys::sys_panic`
  in `Ring` is `none`.
* The feeder of the execution trace is outside the sources at hand: the workload engine
  is described over the interface it uses, and the loop that fetches nodes from it is
  bounded by a fuel argument; it is shown to end when the fuel exceeds a bound of the
  feeder.
-/

set_option autoImplicit false

namespace AstraSim

/-! ## `astra-sim/common/Common.hh` -/

/-- The enum `ComType`. -/
inductive ComType where
  | None
  | Reduce_Scatter
  | All_Gather
  | All_Reduce
  | All_to_All
  | All_Reduce_All_to_All
  deriving DecidableEq, Repr

/-- The enum `InjectionPolicy`. -/
inductive InjectionPolicy where
  | Infinite
  | Aggressive
  | SemiAggressive
  | ExtraAggressive
  | Normal
  deriving DecidableEq, Repr

/-- The enum `StreamState`. -/
inductive StreamState where
  | Created
  | Transferring
  | Ready
  | Executing
  | Zombie
  | Dead
  deriving DecidableEq, Repr

/-- The value of a C++ `int` after conversion to `uint64_t`. -/
def intToUInt64 (i : Int) : Nat :=
  (i % (2 ^ 64 : Int)).toNat

/-- The value that a 32-bit `int` holds when an `int` computation has the mathematical
value `x`: `x` itself within the range of `int`, and `x` modulo `2^32` in two's complement
beyond it (what the compiled program keeps after a signed overflow). -/
def int32 (x : Int) : Int :=
  (x + 2 ^ 31) % 2 ^ 32 - 2 ^ 31

/-! ## `astra-sim/system/collective/Ring.cc`: the constructor -/

/-- The enum `RingTopology::Direction` (the topology classes are outside the repository
sources at hand; only their interface is used). -/
inductive Direction where
  | Clockwise
  | Anticlockwise
  deriving DecidableEq, Repr

/-- The enum `RingTopology::Dimension`. -/
inductive Dimension where
  | Local
  | Vertical
  | Horizontal
  | NA
  deriving DecidableEq, Repr

/-- The enum `MemBus::Transmition`. -/
inductive Transmition where
  | Fast
  | Usual
  deriving DecidableEq, Repr

/-- The enum `Algorithm::Name`. -/
inductive AlgorithmName where
  | Ring
  | DoubleBinaryTree
  | AllToAll
  | HalvingDoubling
  deriving DecidableEq, Repr

/-- The interface of `RingTopology` that `Ring` uses: the results of `get_nodes_in_ring()`,
`get_receiver(id, direction)`, `get_sender(id, direction)` and `get_dimension()`. -/
structure RingTopology where
  get_nodes_in_ring : Int
  get_receiver : Int → Direction → Int
  get_sender : Int → Direction → Int
  get_dimension : Dimension

/-- A packet of the pending list: `MyPacket(preferred_vnet, preferred_src, preferred_dest)`. -/
structure MyPacket where
  preferred_vnet : Int
  preferred_src : Int
  preferred_dest : Int
  deriving DecidableEq, Repr

/-- The data members of `Ring` (with those inherited from `Algorithm`), as declared in
`Ring.hh` and `Algorithm.hh`.  `stream_state`, `stream_id` and `current_queue_id` are the
members of the stream object behind the `stream` pointer; the topology behind the
`logical_topo` pointer is not stored, it is an argument of what reads it. -/
structure Ring where
  -- Algorithm
  name : AlgorithmName
  id : Int
  data_size : Nat
  final_data_size : Nat
  comType : ComType
  enabled : Bool
  stream_state : StreamState
  stream_id : Int
  current_queue_id : Int
  -- Ring
  dimension : Direction
  direction : Direction
  transmition : Transmition
  zero_latency_packets : Int
  non_zero_latency_packets : Int
  curr_receiver : Int
  curr_sender : Int
  nodes_in_ring : Int
  stream_count : Int
  max_count : Int
  remained_packets_per_max_count : Int
  remained_packets_per_message : Int
  parallel_reduce : Int
  injection_policy : InjectionPolicy
  packets : List MyPacket
  toggle : Bool
  free_packets : Int
  total_packets_sent : Int
  total_packets_received : Int
  msg_size : Nat
  locked_packets : List MyPacket
  processed : Bool
  send_back : Bool
  NPU_to_MA : Bool

namespace Ring

/-- The first `switch (type)` of the constructor (Ring.cc, lines 56-82), which sets
`stream_count` and, for `All_to_All`, `parallel_reduce`. -/
def ctor_stream_count (type : ComType) (injection_policy : InjectionPolicy) (r : Ring) : Ring :=
  match type with
  | ComType.All_Reduce => { r with stream_count := 2 * (r.nodes_in_ring - 1) }
  | ComType.All_to_All =>
    let r1 := { r with stream_count := Int.tdiv ((r.nodes_in_ring - 1) * r.nodes_in_ring) 2 }
    match injection_policy with
    | InjectionPolicy.Aggressive => { r1 with parallel_reduce := r1.nodes_in_ring - 1 }
    | InjectionPolicy.Normal => { r1 with parallel_reduce := 1 }
    | _ => { r1 with parallel_reduce := 1 }
  | _ => { r with stream_count := r.nodes_in_ring - 1 }

/-- The `stream_count` that the first `switch (type)` of the constructor (Ring.cc, lines
56-82) computes for `nodes_in_ring = n` when every `int` operation is reduced to 32 bits:
`2 * (n - 1)`, `((n - 1) * n) / 2` with the truncating division, and `n - 1`. -/
def stream_count_int32 (type : ComType) (n : Int) : Int :=
  match type with
  | ComType.All_Reduce => int32 (2 * int32 (n - 1))
  | ComType.All_to_All => Int.tdiv (int32 (int32 (n - 1) * n)) 2
  | _ => int32 (n - 1)

/-- The `if` that sets `max_count` (Ring.cc, lines 84-88). -/
def ctor_max_count (type : ComType) (r : Ring) : Ring :=
  if type = ComType.All_to_All ∨ type = ComType.All_Gather then
    { r with max_count := 0 }
  else
    { r with max_count := r.nodes_in_ring - 1 }

/-- The second `switch (type)` of the constructor (Ring.cc, lines 95-115), which sets
`final_data_size` and `msg_size`.  `data_size / nodes_in_ring` is a `uint64_t` division
after the conversion of the `int` divisor; with a zero divisor C++ leaves the result
undefined, and the value of this definition there carries no meaning. -/
def ctor_sizes (type : ComType) (data_size : Nat) (r : Ring) : Ring :=
  match type with
  | ComType.All_Reduce =>
    { r with final_data_size := data_size,
             msg_size := data_size / intToUInt64 r.nodes_in_ring }
  | ComType.All_Gather =>
    { r with final_data_size := (data_size * intToUInt64 r.nodes_in_ring) % 2 ^ 64,
             msg_size := data_size }
  | ComType.Reduce_Scatter =>
    { r with final_data_size := data_size / intToUInt64 r.nodes_in_ring,
             msg_size := data_size / intToUInt64 r.nodes_in_ring }
  | ComType.All_to_All =>
    { r with final_data_size := data_size,
             msg_size := data_size / intToUInt64 r.nodes_in_ring }
  | _ => r

/-- The constructor `Ring::Ring(type, id, ring_topology, data_size, direction,
injection_policy)`.  `storage` is the content of the object before the constructor body
runs: the members the constructor does not assign (`dimension`, `processed`, `send_back`,
`NPU_to_MA`, the stream members, and `msg_size` / `final_data_size` for the collective
types without a case) keep it. -/
def ctor (storage : Ring) (type : ComType) (id : Int) (ring_topology : RingTopology)
    (data_size : Nat) (direction : Direction) (injection_policy : InjectionPolicy) : Ring :=
  let r0 : Ring :=
    { storage with
      enabled := true
      comType := type
      id := id
      data_size := data_size
      direction := direction
      nodes_in_ring := ring_topology.get_nodes_in_ring
      curr_receiver := ring_topology.get_receiver id direction
      curr_sender := ring_topology.get_sender id direction
      parallel_reduce := 1
      injection_policy := injection_policy
      total_packets_sent := 0
      total_packets_received := 0
      free_packets := 0
      zero_latency_packets := 0
      non_zero_latency_packets := 0
      toggle := false
      name := AlgorithmName.Ring
      packets := []
      locked_packets := []
      transmition :=
        if ring_topology.get_dimension = Dimension.Local then Transmition.Fast
        else Transmition.Usual }
  let r1 := ctor_stream_count type injection_policy r0
  let r2 := ctor_max_count type r1
  let r3 : Ring := { r2 with remained_packets_per_message := 1,
                             remained_packets_per_max_count := 1 }
  ctor_sizes type data_size r3

end Ring

/-- An arbitrary content for the storage of a `Ring` before construction, for evaluating
the constructor on concrete inputs. -/
def Ring.sampleStorage : Ring :=
  { name := AlgorithmName.HalvingDoubling, id := 77, data_size := 5, final_data_size := 6,
    comType := ComType.None, enabled := false, stream_state := StreamState.Created,
    stream_id := 0, current_queue_id := 0,
    dimension := Direction.Clockwise, direction := Direction.Anticlockwise,
    transmition := Transmition.Fast, zero_latency_packets := 9,
    non_zero_latency_packets := 8, curr_receiver := 7, curr_sender := 6,
    nodes_in_ring := 5, stream_count := 4, max_count := 3,
    remained_packets_per_max_count := 2, remained_packets_per_message := 11,
    parallel_reduce := 12, injection_policy := InjectionPolicy.Infinite, packets := [],
    toggle := true, free_packets := 13, total_packets_sent := 14,
    total_packets_received := 15, msg_size := 16, locked_packets := [],
    processed := true, send_back := true, NPU_to_MA := true }

/-- A ring of `n` ranks numbered `0 .. n-1`: in direction `Clockwise` the receiver of a
rank is its successor and its sender the predecessor, and the other way round in
direction `Anticlockwise`. -/
def RingTopology.ofSize (n : Int) (dim : Dimension) : RingTopology :=
  { get_nodes_in_ring := n
    get_receiver := fun i d =>
      match d with
      | Direction.Clockwise => (i + 1) % n
      | Direction.Anticlockwise => (i - 1) % n
    get_sender := fun i d =>
      match d with
      | Direction.Clockwise => (i - 1) % n
      | Direction.Anticlockwise => (i + 1) % n
    get_dimension := dim }

/-! ## `astra-sim/workload/HardwareResource.cc` -/

/-- The enum `ChakraProtoMsg::NodeType` of the Chakra execution-trace schema. -/
inductive ChakraNodeType where
  | INVALID_NODE
  | METADATA_NODE
  | MEM_LOAD_NODE
  | MEM_STORE_NODE
  | COMP_NODE
  | COMM_SEND_NODE
  | COMM_RECV_NODE
  | COMM_COLL_NODE
  deriving DecidableEq, Repr

/-- The part of a `Chakra::ETFeederNode` that the hardware resource reads: the results of
`id()`, `is_cpu_op()` and `type()`. -/
structure ETFeederNode where
  id : Nat
  is_cpu_op : Bool
  type : ChakraNodeType
  deriving DecidableEq, Repr

/-- The data members of `HardwareResource` (HardwareResource.hh).  The three in-flight
counters are `uint32_t`, the cumulative counters `uint64_t`; a null `shared_ptr` is
`none`. -/
structure HardwareResource where
  cpu_ops_node : Option ETFeederNode
  gpu_ops_node : Option ETFeederNode
  gpu_comms_node : Option ETFeederNode
  num_npus : Nat
  num_in_flight_cpu_ops : Nat
  num_in_flight_gpu_comp_ops : Nat
  num_in_flight_gpu_comm_ops : Nat
  num_cpu_ops : Nat
  num_gpu_ops : Nat
  num_gpu_comms : Nat
  tics_cpu_ops : Nat
  tics_gpu_ops : Nat
  tics_gpu_comms : Nat
  deriving DecidableEq, Repr

namespace HardwareResource

/-- The constructor `HardwareResource::HardwareResource(num_npus)`. -/
def ctor (num_npus : Nat) : HardwareResource :=
  { num_npus := num_npus
    num_in_flight_cpu_ops := 0
    num_in_flight_gpu_comm_ops := 0
    num_in_flight_gpu_comp_ops := 0
    num_cpu_ops := 0
    num_gpu_ops := 0
    num_gpu_comms := 0
    tics_cpu_ops := 0
    tics_gpu_ops := 0
    tics_gpu_comms := 0
    cpu_ops_node := none
    gpu_ops_node := none
    gpu_comms_node := none }

/-- The method `HardwareResource::occupy(node)`; `none` is a failed assertion. -/
def occupy (hw : HardwareResource) (node : ETFeederNode) : Option HardwareResource :=
  if node.is_cpu_op then
    if hw.num_in_flight_cpu_ops = 0 then
      some { hw with
        num_in_flight_cpu_ops := (hw.num_in_flight_cpu_ops + 1) % 2 ^ 32
        num_cpu_ops := (hw.num_cpu_ops + 1) % 2 ^ 64 }
    else none
  else
    if node.type = ChakraNodeType.COMP_NODE then
      if hw.num_in_flight_gpu_comp_ops = 0 then
        some { hw with
          num_in_flight_gpu_comp_ops := (hw.num_in_flight_gpu_comp_ops + 1) % 2 ^ 32
          num_gpu_ops := (hw.num_gpu_ops + 1) % 2 ^ 64
          gpu_ops_node := some node }
      else none
    else
      if node.type = ChakraNodeType.COMM_RECV_NODE then
        some hw
      else if hw.num_in_flight_gpu_comm_ops = 0 then
        some { hw with
          num_in_flight_gpu_comm_ops := (hw.num_in_flight_gpu_comm_ops + 1) % 2 ^ 32
          num_gpu_comms := (hw.num_gpu_comms + 1) % 2 ^ 64
          gpu_comms_node := some node }
      else none

/-- The `uint32_t` decrement `--x`. -/
def dec32 (x : Nat) : Nat :=
  (x + (2 ^ 32 - 1)) % 2 ^ 32

/-- The method `HardwareResource::release(node)`; `none` is a failed assertion (the
assertions come after the decrement). -/
def release (hw : HardwareResource) (node : ETFeederNode) : Option HardwareResource :=
  if node.is_cpu_op then
    let hw1 := { hw with num_in_flight_cpu_ops := dec32 hw.num_in_flight_cpu_ops }
    if hw1.num_in_flight_cpu_ops = 0 then some hw1 else none
  else
    if node.type = ChakraNodeType.COMP_NODE then
      let hw1 := { hw with num_in_flight_gpu_comp_ops := dec32 hw.num_in_flight_gpu_comp_ops }
      if hw1.num_in_flight_gpu_comp_ops = 0 then some hw1 else none
    else
      if node.type = ChakraNodeType.COMM_RECV_NODE then
        some hw
      else
        let hw1 :=
          { hw with num_in_flight_gpu_comm_ops := dec32 hw.num_in_flight_gpu_comm_ops }
        if hw1.num_in_flight_gpu_comm_ops = 0 then some hw1 else none

/-- The method `HardwareResource::is_available(node)`. -/
def is_available (hw : HardwareResource) (node : ETFeederNode) : Bool :=
  if node.is_cpu_op then
    if hw.num_in_flight_cpu_ops = 0 then true else false
  else
    if node.type = ChakraNodeType.COMP_NODE then
      if hw.num_in_flight_gpu_comp_ops = 0 then true else false
    else
      if hw.num_in_flight_gpu_comm_ops = 0 then true
      else
        if node.type = ChakraNodeType.COMM_RECV_NODE then true
        else if hw.num_in_flight_gpu_comm_ops = 0 then true
        else false

end HardwareResource

/-- The three hardware resource classes of a rank. -/
inductive ResourceClass where
  | cpu
  | gpuComp
  | gpuComm
  deriving DecidableEq, Repr

/-- The resource class of a trace node: CPU for a node with `is_cpu_op`, GPU compute for
a non-CPU `COMP_NODE`, GPU communication for every other non-CPU node. -/
def ETFeederNode.resourceClass (node : ETFeederNode) : ResourceClass :=
  if node.is_cpu_op then ResourceClass.cpu
  else if node.type = ChakraNodeType.COMP_NODE then ResourceClass.gpuComp
  else ResourceClass.gpuComm

/-- A non-CPU `COMM_RECV_NODE`: the receive that is modelled as passive. -/
def ETFeederNode.isGpuRecv (node : ETFeederNode) : Bool :=
  !node.is_cpu_op && decide (node.type = ChakraNodeType.COMM_RECV_NODE)

/-- The in-flight counter of a resource class. -/
def HardwareResource.inFlight (hw : HardwareResource) : ResourceClass → Nat
  | ResourceClass.cpu => hw.num_in_flight_cpu_ops
  | ResourceClass.gpuComp => hw.num_in_flight_gpu_comp_ops
  | ResourceClass.gpuComm => hw.num_in_flight_gpu_comm_ops

/-- The cumulative operation counter of a resource class (`num_cpu_ops`, `num_gpu_ops`,
`num_gpu_comms`). -/
def HardwareResource.opCount (hw : HardwareResource) : ResourceClass → Nat
  | ResourceClass.cpu => hw.num_cpu_ops
  | ResourceClass.gpuComp => hw.num_gpu_ops
  | ResourceClass.gpuComm => hw.num_gpu_comms

/-- An operation on a hardware resource. -/
inductive HwOp where
  | occupy (node : ETFeederNode)
  | release (node : ETFeederNode)
  deriving DecidableEq, Repr

/-- One operation applied to a hardware resource. -/
def HardwareResource.step (hw : HardwareResource) : HwOp → Option HardwareResource
  | HwOp.occupy node => hw.occupy node
  | HwOp.release node => hw.release node

/-- A sequence of operations applied in order; `none` as soon as an assertion fails. -/
def HardwareResource.run (hw : HardwareResource) : List HwOp → Option HardwareResource
  | [] => some hw
  | op :: ops => (hw.step op).bind (fun hw1 => hw1.run ops)

/-- The node that holds each resource class, if any: book-keeping of the caller. -/
abbrev Occupants := ResourceClass → Option ETFeederNode

/-- The occupants after one operation: `occupy` of a node other than a GPU receive
records it as the holder of its class, `release` of such a node clears the class. -/
def Occupants.step (occ : Occupants) : HwOp → Occupants
  | HwOp.occupy node =>
    if node.isGpuRecv then occ
    else fun c => if c = node.resourceClass then some node else occ c
  | HwOp.release node =>
    if node.isGpuRecv then occ
    else fun c => if c = node.resourceClass then none else occ c

/-- The usage discipline of the workload engine for a sequence of operations starting in
state `hw` with holders `occ`: `occupy(node)` is performed only when `is_available(node)`
is true, and `release(node)` only for a node that currently holds its class (a GPU
receive never holds one and its release is unconstrained). -/
def Disciplined : HardwareResource → Occupants → List HwOp → Prop
  | _, _, [] => True
  | hw, occ, op :: ops =>
    (match op with
      | HwOp.occupy node => hw.is_available node = true
      | HwOp.release node => node.isGpuRecv = true ∨ occ node.resourceClass = some node) ∧
    (match hw.step op with
      | some hw1 => Disciplined hw1 (occ.step op) ops
      | none => True)

/-- Each of the three in-flight counters is 0 or 1. -/
def HardwareResource.Exclusive (hw : HardwareResource) : Prop :=
  ∀ c : ResourceClass, hw.inFlight c = 0 ∨ hw.inFlight c = 1

/-- The invariant behind resource exclusivity: every in-flight counter is 0 or 1, and a
class with a recorded holder has its counter at 1. -/
def HwInv (hw : HardwareResource) (occ : Occupants) : Prop :=
  ∀ c : ResourceClass,
    (hw.inFlight c = 0 ∨ hw.inFlight c = 1) ∧ ((occ c).isSome = true → hw.inFlight c = 1)

/-- A sample sequence of operations: a GPU compute node, a CPU node and a GPU send are
occupied, a GPU receive is occupied and released while the send is in flight, and the
compute node is released and another one occupied. -/
def sampleHwOps : List HwOp :=
  [ HwOp.occupy ⟨1, false, ChakraNodeType.COMP_NODE⟩,
    HwOp.occupy ⟨2, true, ChakraNodeType.COMP_NODE⟩,
    HwOp.occupy ⟨3, false, ChakraNodeType.COMM_SEND_NODE⟩,
    HwOp.occupy ⟨4, false, ChakraNodeType.COMM_RECV_NODE⟩,
    HwOp.release ⟨4, false, ChakraNodeType.COMM_RECV_NODE⟩,
    HwOp.release ⟨1, false, ChakraNodeType.COMP_NODE⟩,
    HwOp.occupy ⟨5, false, ChakraNodeType.COMP_NODE⟩,
    HwOp.release ⟨3, false, ChakraNodeType.COMM_SEND_NODE⟩ ]

end AstraSim

namespace AstraSimAnalytical

/-! ## Association lists for the `std::map` members -/

/-- A `std::map`: an association list; `find` returns the first entry with the key. -/
abbrev Map (κ : Type) (ν : Type) := List (κ × ν)

namespace Map

variable {κ ν : Type} [DecidableEq κ]

/-- The lookup `map.find(key)`; `none` is `map.end()`. -/
def find : Map κ ν → κ → Option ν
  | [], _ => none
  | (k1, v) :: rest, k => if k1 = k then some v else find rest k

/-- The insertion `map.emplace(key, value)`: nothing is inserted when the key is present. -/
def emplace (m : Map κ ν) (k : κ) (v : ν) : Map κ ν :=
  match m.find k with
  | some _ => m
  | none => (k, v) :: m

/-- The write through a pointer or iterator to the entry of `k`: its value becomes `v`. -/
def set : Map κ ν → κ → ν → Map κ ν
  | [], _, _ => []
  | (k1, v1) :: rest, k, v =>
    if k1 = k then (k1, v) :: rest else (k1, v1) :: set rest k v

/-- The removal `map.erase(it)` of the entry of `k`. -/
def erase : Map κ ν → κ → Map κ ν
  | [], _ => []
  | (k1, v1) :: rest, k =>
    if k1 = k then rest else (k1, v1) :: erase rest k

/-- The assignment `map[key] = value`: the entry of the key is overwritten, or inserted
when the key is absent. -/
def assign (m : Map κ ν) (k : κ) (v : ν) : Map κ ν :=
  match m.find k with
  | some _ => m.set k v
  | none => (k, v) :: m

/-- The keys of a map are pairwise different. -/
def NodupKeys (m : Map κ ν) : Prop :=
  (m.map Prod.fst).Nodup

end Map

/-! ## `common/ChunkIdGeneratorEntry.cc` and `common/ChunkIdGenerator.cc` -/

/-- The data members of `ChunkIdGeneratorEntry`. -/
structure ChunkIdGeneratorEntry where
  send_id : Int
  recv_id : Int
  deriving DecidableEq, Repr

namespace ChunkIdGeneratorEntry

/-- The constructor `ChunkIdGeneratorEntry()`. -/
def ctor : ChunkIdGeneratorEntry :=
  { send_id := -1, recv_id := -1 }

/-- The method `get_send_id()`; `none` is the failed assertion `send_id >= 0`. -/
def get_send_id (e : ChunkIdGeneratorEntry) : Option Int :=
  if 0 ≤ e.send_id then some e.send_id else none

/-- The method `get_recv_id()`; `none` is the failed assertion `recv_id >= 0`. -/
def get_recv_id (e : ChunkIdGeneratorEntry) : Option Int :=
  if 0 ≤ e.recv_id then some e.recv_id else none

/-- The method `increment_send_id()`. -/
def increment_send_id (e : ChunkIdGeneratorEntry) : ChunkIdGeneratorEntry :=
  { e with send_id := e.send_id + 1 }

/-- The method `increment_recv_id()`. -/
def increment_recv_id (e : ChunkIdGeneratorEntry) : ChunkIdGeneratorEntry :=
  { e with recv_id := e.recv_id + 1 }

end ChunkIdGeneratorEntry

/-- The key `(tag, src, dest, chunk_size)` of `chunk_id_map`. -/
abbrev StreamKey := Int × Int × Int × Nat

/-- The key `(tag, src, dest, chunk_size, chunk_id)` of the callback tracker, which is
also the argument tuple of `process_chunk_arrival`. -/
abbrev ChunkKey := Int × Int × Int × Nat × Int

/-- The tracker key of chunk `chunk_id` of a stream. -/
def StreamKey.chunk (key : StreamKey) (chunk_id : Int) : ChunkKey :=
  (key.1, key.2.1, key.2.2.1, key.2.2.2, chunk_id)

/-- The four assertions at the head of the generator and tracker methods:
`tag >= 0`, `src >= 0`, `dest >= 0`, `chunk_size > 0`. -/
def args_ok (tag src dest : Int) (chunk_size : Nat) : Bool :=
  decide (0 ≤ tag) && decide (0 ≤ src) && decide (0 ≤ dest) && decide (0 < chunk_size)

/-- The data member `chunk_id_map` of `ChunkIdGenerator`. -/
structure ChunkIdGenerator where
  chunk_id_map : Map StreamKey ChunkIdGeneratorEntry
  deriving DecidableEq, Repr

namespace ChunkIdGenerator

/-- The constructor `ChunkIdGenerator()`. -/
def ctor : ChunkIdGenerator :=
  { chunk_id_map := [] }

/-- The method `create_send_chunk_id(tag, src, dest, chunk_size)`: the new state of the
generator and the returned id; `none` is a failed assertion. -/
def create_send_chunk_id (g : ChunkIdGenerator) (tag src dest : Int) (chunk_size : Nat) :
    Option (ChunkIdGenerator × Int) :=
  if args_ok tag src dest chunk_size then
    let key : StreamKey := (tag, src, dest, chunk_size)
    let map1 :=
      match g.chunk_id_map.find key with
      | some _ => g.chunk_id_map
      | none => g.chunk_id_map.emplace key ChunkIdGeneratorEntry.ctor
    match map1.find key with
    | some entry =>
      let entry1 := entry.increment_send_id
      match entry1.get_send_id with
      | some id => some ({ chunk_id_map := map1.set key entry1 }, id)
      | none => none
    | none => none
  else none

/-- The method `create_recv_chunk_id(tag, src, dest, chunk_size)`: the new state of the
generator and the returned id; `none` is a failed assertion. -/
def create_recv_chunk_id (g : ChunkIdGenerator) (tag src dest : Int) (chunk_size : Nat) :
    Option (ChunkIdGenerator × Int) :=
  if args_ok tag src dest chunk_size then
    let key : StreamKey := (tag, src, dest, chunk_size)
    let map1 :=
      match g.chunk_id_map.find key with
      | some _ => g.chunk_id_map
      | none => g.chunk_id_map.emplace key ChunkIdGeneratorEntry.ctor
    match map1.find key with
    | some entry =>
      let entry1 := entry.increment_recv_id
      match entry1.get_recv_id with
      | some id => some ({ chunk_id_map := map1.set key entry1 }, id)
      | none => none
    | none => none
  else none

end ChunkIdGenerator

/-- A call of one of the two methods of the generator, for the stream `key`. -/
inductive GenCall where
  | send (key : StreamKey)
  | recv (key : StreamKey)
  deriving DecidableEq, Repr

/-- The stream of a call. -/
def GenCall.key : GenCall → StreamKey
  | GenCall.send key => key
  | GenCall.recv key => key

/-- One call applied to the generator. -/
def ChunkIdGenerator.call (g : ChunkIdGenerator) : GenCall → Option (ChunkIdGenerator × Int)
  | GenCall.send key => g.create_send_chunk_id key.1 key.2.1 key.2.2.1 key.2.2.2
  | GenCall.recv key => g.create_recv_chunk_id key.1 key.2.1 key.2.2.1 key.2.2.2

/-- A sequence of calls applied in order: the final generator and the list of the
returned ids; `none` as soon as an assertion fails. -/
def ChunkIdGenerator.calls (g : ChunkIdGenerator) :
    List GenCall → Option (ChunkIdGenerator × List Int)
  | [] => some (g, [])
  | c :: cs =>
    match g.call c with
    | none => none
    | some (g1, id) =>
      match g1.calls cs with
      | none => none
      | some (g2, ids) => some (g2, id :: ids)

/-- The stream key of a call satisfies the asserted ranges. -/
def GenCall.ok (c : GenCall) : Bool :=
  args_ok c.key.1 c.key.2.1 c.key.2.2.1 c.key.2.2.2

/-- The number of `create_send_chunk_id` calls made so far on a stream, read off the
generator: `send_id + 1`, or 0 without an entry. -/
def ChunkIdGenerator.sendCount (g : ChunkIdGenerator) (key : StreamKey) : Int :=
  match g.chunk_id_map.find key with
  | some e => e.send_id + 1
  | none => 0

/-- The number of `create_recv_chunk_id` calls made so far on a stream, read off the
generator: `recv_id + 1`, or 0 without an entry. -/
def ChunkIdGenerator.recvCount (g : ChunkIdGenerator) (key : StreamKey) : Int :=
  match g.chunk_id_map.find key with
  | some e => e.recv_id + 1
  | none => 0

/-- The counter read off the generator for a call: `sendCount` or `recvCount`. -/
def ChunkIdGenerator.count (g : ChunkIdGenerator) : GenCall → Int
  | GenCall.send key => g.sendCount key
  | GenCall.recv key => g.recvCount key

/-- A sample sequence of calls on two streams, in both directions. -/
def sampleGenCalls : List GenCall :=
  [ GenCall.send (1, 0, 1, 64), GenCall.recv (1, 0, 1, 64), GenCall.send (1, 0, 1, 64),
    GenCall.send (1, 0, 1, 128), GenCall.recv (1, 0, 1, 64), GenCall.send (1, 0, 1, 64) ]

/-- Both ids of every entry of the generator are at least -1. -/
def ChunkIdGenerator.Wf (g : ChunkIdGenerator) : Prop :=
  ∀ key e, g.chunk_id_map.find key = some e → -1 ≤ e.send_id ∧ -1 ≤ e.recv_id

/-! ## `common/CallbackTrackerEntry.cc` and `common/CallbackTracker.cc` -/

/-- An `Event(callback, arg)`: a function pointer and its argument pointer, as addresses. -/
structure Event where
  callback : Nat
  arg : Nat
  deriving DecidableEq, Repr

/-- The data members of `CallbackTrackerEntry`. -/
structure CallbackTrackerEntry where
  send_event : Option Event
  recv_event : Option Event
  transmission_finished : Bool
  deriving DecidableEq, Repr

namespace CallbackTrackerEntry

/-- The constructor `CallbackTrackerEntry()`. -/
def ctor : CallbackTrackerEntry :=
  { send_event := none, recv_event := none, transmission_finished := false }

/-- The method `register_send_callback(callback, arg)`; `none` is the failed assertion
`!send_event.has_value()`. -/
def register_send_callback (e : CallbackTrackerEntry) (callback arg : Nat) :
    Option CallbackTrackerEntry :=
  if e.send_event.isSome then none
  else some { e with send_event := some ⟨callback, arg⟩ }

/-- The method `register_recv_callback(callback, arg)`; `none` is the failed assertion
`!recv_event.has_value()`. -/
def register_recv_callback (e : CallbackTrackerEntry) (callback arg : Nat) :
    Option CallbackTrackerEntry :=
  if e.recv_event.isSome then none
  else some { e with recv_event := some ⟨callback, arg⟩ }

/-- The method `is_transmission_finished()`. -/
def is_transmission_finished (e : CallbackTrackerEntry) : Bool :=
  e.transmission_finished

/-- The method `set_transmission_finished()`. -/
def set_transmission_finished (e : CallbackTrackerEntry) : CallbackTrackerEntry :=
  { e with transmission_finished := true }

/-- The method `both_callbacks_registered()`. -/
def both_callbacks_registered (e : CallbackTrackerEntry) : Bool :=
  e.send_event.isSome && e.recv_event.isSome

/-- The method `invoke_send_handler()`: the event whose `invoke_event()` is called;
`none` is the failed assertion `send_event.has_value()`. -/
def invoke_send_handler (e : CallbackTrackerEntry) : Option Event :=
  e.send_event

/-- The method `invoke_recv_handler()`: the event whose `invoke_event()` is called;
`none` is the failed assertion `recv_event.has_value()`. -/
def invoke_recv_handler (e : CallbackTrackerEntry) : Option Event :=
  e.recv_event

end CallbackTrackerEntry

/-- The data member `tracker` of `CallbackTracker`. -/
structure CallbackTracker where
  tracker : Map ChunkKey CallbackTrackerEntry
  deriving DecidableEq, Repr

namespace CallbackTracker

/-- The constructor `CallbackTracker()`. -/
def ctor : CallbackTracker :=
  { tracker := [] }

/-- The five assertions at the head of the tracker methods. -/
def key_ok (tag src dest : Int) (chunk_size : Nat) (chunk_id : Int) : Bool :=
  args_ok tag src dest chunk_size && decide (0 ≤ chunk_id)

/-- The method `search_entry(tag, src, dest, chunk_size, chunk_id)`: the outer `none` is
a failed assertion, the inner one is `std::nullopt`; the entry found stands for the
pointer to it. -/
def search_entry (t : CallbackTracker) (tag src dest : Int) (chunk_size : Nat)
    (chunk_id : Int) : Option (Option CallbackTrackerEntry) :=
  if key_ok tag src dest chunk_size chunk_id then
    some (t.tracker.find (tag, src, dest, chunk_size, chunk_id))
  else none

/-- The method `create_new_entry(tag, src, dest, chunk_size, chunk_id)`: the tracker
after the `emplace`; `none` is a failed assertion.  The returned pointer is the entry
of the key in the new tracker. -/
def create_new_entry (t : CallbackTracker) (tag src dest : Int) (chunk_size : Nat)
    (chunk_id : Int) : Option CallbackTracker :=
  if key_ok tag src dest chunk_size chunk_id then
    some { tracker :=
      t.tracker.emplace (tag, src, dest, chunk_size, chunk_id) CallbackTrackerEntry.ctor }
  else none

/-- The method `pop_entry(tag, src, dest, chunk_size, chunk_id)`; `none` is a failed
assertion (one of the five at the head, or `entry != tracker.end()`). -/
def pop_entry (t : CallbackTracker) (tag src dest : Int) (chunk_size : Nat)
    (chunk_id : Int) : Option CallbackTracker :=
  if key_ok tag src dest chunk_size chunk_id then
    match t.tracker.find (tag, src, dest, chunk_size, chunk_id) with
    | some _ => some { tracker := t.tracker.erase (tag, src, dest, chunk_size, chunk_id) }
    | none => none
  else none

/-- The write through the entry pointer obtained from `search_entry` or
`create_new_entry`: the entry of the key becomes `e`. -/
def write (t : CallbackTracker) (key : ChunkKey) (e : CallbackTrackerEntry) :
    CallbackTracker :=
  { tracker := t.tracker.set key e }

end CallbackTracker

/-! ## `common/CommonNetworkApi.cc` and `congestion_aware/CongestionAwareNetworkApi.cc` -/

/-- The enum `time_type_e`. -/
inductive time_type_e where
  | SE
  | MS
  | US
  | NS
  | FS
  deriving DecidableEq, Repr

/-- A `timespec_t` whose `time_val` is a whole number. -/
structure timespec_t where
  time_res : time_type_e
  time_val : Nat
  deriving DecidableEq, Repr

/-- A call that leaves the rendezvous matcher, in the order of the calls:
`invoke_event()` of the send event of an entry (made by `invoke_send_handler`),
`invoke_event()` of the recv event of an entry (made by `invoke_recv_handler`), and
`sim_schedule(delta, fun_ptr, fun_arg)`. -/
inductive Effect where
  | send_handler (e : Event)
  | recv_handler (e : Event)
  | sim_schedule (delta : timespec_t) (e : Event)
  deriving DecidableEq, Repr

/-- The static members `chunk_id_generator` and `callback_tracker` of `CommonNetworkApi`,
shared by the API objects of all ranks, with the two things outside the matcher that a
run is observed through: `in_flight`, the chunks handed to `topology->send` whose arrival
callback has not run yet, and `log`, the calls that left the matcher. -/
structure ApiState where
  chunk_id_generator : ChunkIdGenerator
  callback_tracker : CallbackTracker
  in_flight : List ChunkKey
  log : List Effect
  deriving DecidableEq, Repr

namespace ApiState

/-- The state at program start: the static members as initialised in
CommonNetworkApi.cc, nothing in flight, nothing called. -/
def init : ApiState :=
  { chunk_id_generator := ChunkIdGenerator.ctor
    callback_tracker := CallbackTracker.ctor
    in_flight := []
    log := [] }

/-- The function `CommonNetworkApi::process_chunk_arrival(args)` with
`args = (tag, src, dest, count, chunk_id)`; `none` is a failed assertion. -/
def process_chunk_arrival (s : ApiState) (args : ChunkKey) : Option ApiState :=
  match s.callback_tracker.search_entry args.1 args.2.1 args.2.2.1 args.2.2.2.1
      args.2.2.2.2 with
  | none => none
  | some none => none
  | some (some entry) =>
    if entry.both_callbacks_registered then
      match entry.invoke_send_handler, entry.invoke_recv_handler with
      | some send_ev, some recv_ev =>
        match s.callback_tracker.pop_entry args.1 args.2.1 args.2.2.1 args.2.2.2.1
            args.2.2.2.2 with
        | some t1 =>
          some { s with
            callback_tracker := t1
            log := s.log ++ [Effect.send_handler send_ev, Effect.recv_handler recv_ev] }
        | none => none
      | _, _ => none
    else
      match entry.invoke_send_handler with
      | some send_ev =>
        some { s with
          callback_tracker := s.callback_tracker.write args entry.set_transmission_finished
          log := s.log ++ [Effect.send_handler send_ev] }
      | none => none

/-- The method `CongestionAwareNetworkApi::sim_send(buffer, count, type, dst, tag, request,
msg_handler, fun_arg)` of the API object of rank `rank` (`buffer`, `type` and `request`
are not read); `none` is a failed assertion.  The chunk handed to `topology->send`
carries the arrival argument `(tag, src, dst, count, chunk_id)`. -/
def sim_send (s : ApiState) (rank : Int) (count : Nat) (dst tag : Int)
    (msg_handler fun_arg : Nat) : Option ApiState :=
  let src := rank
  match s.chunk_id_generator.create_send_chunk_id tag src dst count with
  | none => none
  | some (g1, chunk_id) =>
    let key : ChunkKey := (tag, src, dst, count, chunk_id)
    match s.callback_tracker.search_entry tag src dst count chunk_id with
    | none => none
    | some (some entry) =>
      match entry.register_send_callback msg_handler fun_arg with
      | some entry1 =>
        some { s with
          chunk_id_generator := g1
          callback_tracker := s.callback_tracker.write key entry1
          in_flight := s.in_flight ++ [key] }
      | none => none
    | some none =>
      match s.callback_tracker.create_new_entry tag src dst count chunk_id with
      | none => none
      | some t1 =>
        match t1.tracker.find key with
        | none => none
        | some new_entry =>
          match new_entry.register_send_callback msg_handler fun_arg with
          | some entry1 =>
            some { s with
              chunk_id_generator := g1
              callback_tracker := t1.write key entry1
              in_flight := s.in_flight ++ [key] }
          | none => none

/-- The method `CommonNetworkApi::sim_recv(buffer, count, type, src, tag, request,
msg_handler, fun_arg)` of the API object of rank `rank` (`buffer`, `type` and `request`
are not read); `none` is a failed assertion. -/
def sim_recv (s : ApiState) (rank : Int) (count : Nat) (src tag : Int)
    (msg_handler fun_arg : Nat) : Option ApiState :=
  let dst := rank
  match s.chunk_id_generator.create_recv_chunk_id tag src dst count with
  | none => none
  | some (g1, chunk_id) =>
    let key : ChunkKey := (tag, src, dst, count, chunk_id)
    match s.callback_tracker.search_entry tag src dst count chunk_id with
    | none => none
    | some (some entry) =>
      if entry.is_transmission_finished then
        match s.callback_tracker.pop_entry tag src dst count chunk_id with
        | none => none
        | some t1 =>
          some { s with
            chunk_id_generator := g1
            callback_tracker := t1
            log := s.log ++ [Effect.sim_schedule ⟨time_type_e.NS, 0⟩ ⟨msg_handler, fun_arg⟩] }
      else
        match entry.register_recv_callback msg_handler fun_arg with
        | some entry1 =>
          some { s with
            chunk_id_generator := g1
            callback_tracker := s.callback_tracker.write key entry1 }
        | none => none
    | some none =>
      match s.callback_tracker.create_new_entry tag src dst count chunk_id with
      | none => none
      | some t1 =>
        match t1.tracker.find key with
        | none => none
        | some new_entry =>
          match new_entry.register_recv_callback msg_handler fun_arg with
          | some entry1 =>
            some { s with
              chunk_id_generator := g1
              callback_tracker := t1.write key entry1 }
          | none => none

end ApiState

/-- An operation of a run of the analytical frontend: a `sim_send` or a `sim_recv` made
on the API object of a rank, or the network running the arrival callback of a chunk. -/
inductive Op where
  | sim_send (rank : Int) (count : Nat) (dst tag : Int) (msg_handler fun_arg : Nat)
  | sim_recv (rank : Int) (count : Nat) (src tag : Int) (msg_handler fun_arg : Nat)
  | chunk_arrival (args : ChunkKey)
  deriving DecidableEq, Repr

/-- One operation applied to the state.  An arrival takes the chunk out of the network
and runs `process_chunk_arrival` on its argument. -/
def ApiState.step (s : ApiState) : Op → Option ApiState
  | Op.sim_send rank count dst tag msg_handler fun_arg =>
    s.sim_send rank count dst tag msg_handler fun_arg
  | Op.sim_recv rank count src tag msg_handler fun_arg =>
    s.sim_recv rank count src tag msg_handler fun_arg
  | Op.chunk_arrival args =>
    ApiState.process_chunk_arrival { s with in_flight := s.in_flight.erase args } args

/-- A sequence of operations applied in order; `none` as soon as an assertion fails. -/
def ApiState.run (s : ApiState) : List Op → Option ApiState
  | [] => some s
  | op :: ops =>
    match s.step op with
    | none => none
    | some s1 => s1.run ops

/-- The state after a sequence of operations, or the start state when an assertion
fails on the way: a name for the states of concrete runs. -/
def ApiState.runD (s : ApiState) (ops : List Op) : ApiState :=
  (s.run ops).getD s

/-! ## Runs of the rendezvous matcher: what a sequence of operations registers -/

/-- The stream `(tag, src, dest, chunk_size)` of a tracker key. -/
def ChunkKey.stream (k : ChunkKey) : StreamKey :=
  (k.1, k.2.1, k.2.2.1, k.2.2.2.1)

/-- The chunk id of a tracker key. -/
def ChunkKey.id (k : ChunkKey) : Int :=
  k.2.2.2.2

/-- The handlers of the `sim_send` operations of a sequence on a stream (the sends of
rank `src` to `dst` with this tag and size), in the order of the calls. -/
def sendsOn (ops : List Op) (key : StreamKey) : List Event :=
  ops.filterMap (fun op =>
    match op with
    | Op.sim_send rank count dst tag h a =>
      if (tag, rank, dst, count) = key then some ⟨h, a⟩ else none
    | _ => none)

/-- The handlers of the `sim_recv` operations of a sequence on a stream (the recvs of
rank `dst` from `src` with this tag and size), in the order of the calls. -/
def recvsOn (ops : List Op) (key : StreamKey) : List Event :=
  ops.filterMap (fun op =>
    match op with
    | Op.sim_recv rank count src tag h a =>
      if (tag, src, rank, count) = key then some ⟨h, a⟩ else none
    | _ => none)

/-- The chunk of a key has arrived in a sequence of operations. -/
def arrived (ops : List Op) (k : ChunkKey) : Bool :=
  decide (Op.chunk_arrival k ∈ ops)

/-- Element number `c` (from 0) of a list of handlers, for an `int` index. -/
def nth (l : List Event) (c : Int) : Option Event :=
  if c < 0 then none else l[c.toNat]?

/-- The number of `sim_send` operations of a sequence that pass the handler `ev`. -/
def sendRegistered (ops : List Op) (ev : Event) : Nat :=
  ops.countP (fun op =>
    match op with
    | Op.sim_send _ _ _ _ h a => decide ((⟨h, a⟩ : Event) = ev)
    | _ => false)

/-- The number of `sim_recv` operations of a sequence that pass the handler `ev`. -/
def recvRegistered (ops : List Op) (ev : Event) : Nat :=
  ops.countP (fun op =>
    match op with
    | Op.sim_recv _ _ _ _ h a => decide ((⟨h, a⟩ : Event) = ev)
    | _ => false)

/-- The tracker entry of chunk number k-1 of a stream, given the handler of the k-th
`sim_send` on the stream (if made), the handler of the k-th `sim_recv` (if made) and
whether the chunk has arrived. -/
def expectedEntry : Option Event → Option Event → Bool → Option CallbackTrackerEntry
  | none, none, _ => none
  | none, some hr, _ => some ⟨none, some hr, false⟩
  | some hs, none, fin => some ⟨some hs, none, fin⟩
  | some hs, some hr, false => some ⟨some hs, some hr, false⟩
  | some _, some _, true => none

/-- An operation is admissible in a state: the arguments of a `sim_send` or `sim_recv`
satisfy the asserted ranges (tag, src, dst >= 0 and size > 0), and an arrival is the
arrival of a chunk that is in flight, so a chunk arrives only after its `sim_send` and
at most once. -/
def Op.ok (s : ApiState) : Op → Bool
  | Op.sim_send rank count dst tag _ _ => args_ok tag rank dst count
  | Op.sim_recv rank count src tag _ _ => args_ok tag src rank count
  | Op.chunk_arrival args => decide (args ∈ s.in_flight)

/-- A sequence of operations is admissible from a state: each operation is admissible in
the state it is applied to.  (Nothing is required of the operations after a failed
assertion; the theorems show that there is none.) -/
def Admissible : ApiState → List Op → Bool
  | _, [] => true
  | s, op :: ops =>
    op.ok s &&
    match s.step op with
    | some s1 => Admissible s1 ops
    | none => true

/-- A sample run on two streams: on the first, two sends of rank 0 to rank 1 whose chunks
arrive in the opposite order, the first recv of rank 1 coming before the arrivals and
the second after them; on the second, a recv that comes before its send. -/
def sampleOps : List Op :=
  [ Op.sim_send 0 64 1 1 100 0,
    Op.sim_recv 1 64 0 1 200 0,
    Op.sim_recv 0 32 1 7 300 0,
    Op.sim_send 0 64 1 1 101 0,
    Op.chunk_arrival (1, 0, 1, 64, 1),
    Op.sim_send 1 32 0 7 400 0,
    Op.chunk_arrival (1, 0, 1, 64, 0),
    Op.chunk_arrival (7, 1, 0, 32, 0),
    Op.sim_recv 1 64 0 1 201 0 ]

/-- The send side of an entry is pending for `ev`: it holds the send handler `ev` and the
chunk has not arrived. -/
def sendPending (ev : Event) (e : CallbackTrackerEntry) : Bool :=
  decide (e.send_event = some ev) && !e.transmission_finished

/-- The recv side of an entry is pending for `ev`: it holds the recv handler `ev`. -/
def recvPending (ev : Event) (e : CallbackTrackerEntry) : Bool :=
  decide (e.recv_event = some ev)

/-- The invariant of the runs of the matcher: `s` is a state reached by the admissible
sequence `hist`. -/
structure Inv (hist : List Op) (s : ApiState) : Prop where
  wf : s.chunk_id_generator.Wf
  sendCount : ∀ key, s.chunk_id_generator.sendCount key = ((sendsOn hist key).length : Int)
  recvCount : ∀ key, s.chunk_id_generator.recvCount key = ((recvsOn hist key).length : Int)
  valid : ∀ key : StreamKey, sendsOn hist key ≠ [] →
    args_ok key.1 key.2.1 key.2.2.1 key.2.2.2 = true
  nodup : s.in_flight.Nodup
  in_flight : ∀ k, k ∈ s.in_flight ↔
    ((nth (sendsOn hist k.stream) k.id).isSome = true ∧ arrived hist k = false)
  sent : ∀ k, arrived hist k = true → (nth (sendsOn hist k.stream) k.id).isSome = true
  keys : s.callback_tracker.tracker.NodupKeys
  table : ∀ k, s.callback_tracker.tracker.find k =
    expectedEntry (nth (sendsOn hist k.stream) k.id) (nth (recvsOn hist k.stream) k.id)
      (arrived hist k)
  sendFired : ∀ ev, s.log.count (Effect.send_handler ev) +
    s.callback_tracker.tracker.countP (fun p => sendPending ev p.2) = sendRegistered hist ev
  recvFired : ∀ ev, s.log.count (Effect.recv_handler ev) +
    s.log.count (Effect.sim_schedule ⟨time_type_e.NS, 0⟩ ev) +
    s.callback_tracker.tracker.countP (fun p => recvPending ev p.2) = recvRegistered hist ev

end AstraSimAnalytical

namespace Ns3Frontend

/-! ## `network_frontend/ns3/AstraSimNetwork.cc`: `NS3BackendCompletionTracker` -/

/-- The data members of `NS3BackendCompletionTracker`. -/
structure NS3BackendCompletionTracker where
  num_unfinished_ranks_ : Int
  completion_tracker_ : List Int
  deriving DecidableEq, Repr

namespace NS3BackendCompletionTracker

/-- The constructor `NS3BackendCompletionTracker(num_ranks)`, for a number of ranks that
is not negative (`vector<int>(num_ranks, 0)` throws on a negative one). -/
def ctor (num_ranks : Nat) : NS3BackendCompletionTracker :=
  { num_unfinished_ranks_ := (num_ranks : Int)
    completion_tracker_ := List.replicate num_ranks 0 }

/-- The method `mark_rank_as_finished(rank)`: the tracker after the call and whether the
call took the branch that halts the simulator (`Simulator::Stop(); Simulator::Destroy();
exit(0)`); `none` is an index outside `completion_tracker_`, which C++ leaves
undefined. -/
def mark_rank_as_finished (t : NS3BackendCompletionTracker) (rank : Int) :
    Option (NS3BackendCompletionTracker × Bool) :=
  if 0 ≤ rank then
    match t.completion_tracker_[rank.toNat]? with
    | none => none
    | some flag =>
      let t1 : NS3BackendCompletionTracker :=
        if flag = 0 then
          { completion_tracker_ := t.completion_tracker_.set rank.toNat 1
            num_unfinished_ranks_ := t.num_unfinished_ranks_ - 1 }
        else t
      some (t1, decide (t1.num_unfinished_ranks_ = 0))
  else none

/-- A sequence of `mark_rank_as_finished` calls applied in order, each as on a running
process: the final tracker and, call by call, whether the call halts the simulator. -/
def mark_all (t : NS3BackendCompletionTracker) :
    List Int → Option (NS3BackendCompletionTracker × List Bool)
  | [] => some (t, [])
  | rank :: ranks =>
    match t.mark_rank_as_finished rank with
    | none => none
    | some (t1, halted) =>
      match t1.mark_all ranks with
      | none => none
      | some (t2, halts) => some (t2, halted :: halts)

end NS3BackendCompletionTracker

/-- The ranks among `0 .. n-1` that do not occur in a list of marked ranks. -/
def unmarked (n : Nat) (marked : List Int) : List Nat :=
  (List.range n).filter (fun (i : Nat) => decide ((i : Int) ∉ marked))

/-- The tracker that the calls `marked` leave for `n` ranks. -/
def trackerOf (n : Nat) (marked : List Int) : NS3BackendCompletionTracker :=
  { num_unfinished_ranks_ := ((unmarked n marked).length : Int)
    completion_tracker_ :=
      (List.range n).map (fun (i : Nat) => if (i : Int) ∈ marked then (1 : Int) else 0) }

/-! ## `network_frontend/ns3/entry.h` and `ASTRASimNetwork::sim_recv` -/

/-- The value of a `uint64_t` after conversion to a 32-bit `int` (the value modulo `2^32`
in two's complement). -/
def uint64ToInt (x : Nat) : Int :=
  if x % 2 ^ 32 < 2 ^ 31 then ((x % 2 ^ 32 : Nat) : Int) else ((x % 2 ^ 32 : Nat) : Int) - 2 ^ 32

/-- The difference `a - b` of two `uint64_t` values. -/
def uint64Sub (a b : Nat) : Nat :=
  (a + (2 ^ 64 - b % 2 ^ 64)) % 2 ^ 64

/-- The class `MsgEvent`.  The callback `msg_handler` and its argument `fun_arg` are
pointers; they are carried as identifiers. -/
structure MsgEvent where
  src_id : Int
  dst_id : Int
  type : Int
  remaining_msg_bytes : Int
  fun_arg : Nat
  msg_handler : Nat
  deriving DecidableEq, Repr

/-- The type `MsgEventKey`: `pair<tag, pair<src_id, dst_id>>`. -/
abbrev MsgEventKey := Int × (Int × Int)

/-- One invocation `msg_handler(fun_arg)` made by `MsgEvent::callHandler`. -/
structure HandlerCall where
  msg_handler : Nat
  fun_arg : Nat
  deriving DecidableEq, Repr

/-- The global maps of `entry.h`, and the log of the handler invocations. -/
structure Ns3State where
  sender_src_port_map : AstraSimAnalytical.Map (Int × (Int × Int)) Int
  node_to_bytes_sent_map : AstraSimAnalytical.Map (Int × Int) Int
  sim_send_waiting_hash : AstraSimAnalytical.Map (MsgEventKey × Int) MsgEvent
  sim_recv_waiting_hash : AstraSimAnalytical.Map MsgEventKey MsgEvent
  received_msg_standby_hash : AstraSimAnalytical.Map MsgEventKey Int
  calls : List HandlerCall
  deriving DecidableEq, Repr

namespace Ns3State

/-- The maps at program start: all empty. -/
def init : Ns3State :=
  { sender_src_port_map := []
    node_to_bytes_sent_map := []
    sim_send_waiting_hash := []
    sim_recv_waiting_hash := []
    received_msg_standby_hash := []
    calls := [] }

/-- The method `MsgEvent::callHandler`, recorded in the log. -/
def callHandler (st : Ns3State) (e : MsgEvent) : Ns3State :=
  { st with calls := st.calls ++ [{ msg_handler := e.msg_handler, fun_arg := e.fun_arg }] }

/-- The last statement of `notify_receiver_receive_data` (entry.h, lines 278-282): the
bytes received by the node are added up, in `int`, under `(dst_id, 1)`. -/
def count_received (st : Ns3State) (dst_id message_size : Int) : Ns3State :=
  match st.node_to_bytes_sent_map.find (dst_id, 1) with
  | none =>
    { st with node_to_bytes_sent_map := st.node_to_bytes_sent_map.assign (dst_id, 1) message_size }
  | some bytes =>
    { st with node_to_bytes_sent_map :=
        st.node_to_bytes_sent_map.assign (dst_id, 1) (AstraSim.int32 (bytes + message_size)) }

/-- The function `notify_receiver_receive_data(src_id, dst_id, message_size, tag)`
(entry.h, lines 231-283).  The size, the remaining bytes of a `MsgEvent` and the standby
bytes are `int`: the sum and the differences are reduced to 32 bits. -/
def notify_receiver_receive_data (st : Ns3State) (src_id dst_id message_size tag : Int) :
    Ns3State :=
  let recv_expect_event_key : MsgEventKey := (tag, (src_id, dst_id))
  let st1 : Ns3State :=
    match st.sim_recv_waiting_hash.find recv_expect_event_key with
    | some recv_expect_event =>
      if message_size = recv_expect_event.remaining_msg_bytes then
        callHandler
          { st with sim_recv_waiting_hash := st.sim_recv_waiting_hash.erase recv_expect_event_key }
          recv_expect_event
      else if message_size > recv_expect_event.remaining_msg_bytes then
        callHandler
          { st with
            received_msg_standby_hash :=
              (st.received_msg_standby_hash.assign recv_expect_event_key
                (AstraSim.int32 (message_size - recv_expect_event.remaining_msg_bytes)))
            sim_recv_waiting_hash := st.sim_recv_waiting_hash.erase recv_expect_event_key }
          recv_expect_event
      else
        { st with
          sim_recv_waiting_hash :=
            st.sim_recv_waiting_hash.assign recv_expect_event_key
              { recv_expect_event with
                remaining_msg_bytes :=
                  AstraSim.int32 (recv_expect_event.remaining_msg_bytes - message_size) } }
    | none =>
      match st.received_msg_standby_hash.find recv_expect_event_key with
      | none =>
        { st with received_msg_standby_hash :=
            st.received_msg_standby_hash.assign recv_expect_event_key message_size }
      | some bytes =>
        { st with received_msg_standby_hash :=
            (st.received_msg_standby_hash.assign recv_expect_event_key
              (AstraSim.int32 (bytes + message_size))) }
  count_received st1 dst_id message_size

/-- The method `ASTRASimNetwork::sim_recv(buffer, message_size, type, src_id, tag, request,
msg_handler, fun_arg)` of the network of rank `rank` (AstraSimNetwork.cc, lines 202-265).
`message_size` is a `uint64_t`: it is converted to `int` by the `MsgEvent` constructor,
the comparisons with the `int` `received_msg_bytes` and the difference
`received_msg_bytes - message_size` are made in `uint64_t`, and the difference is
converted to `int` when it is stored.  The `-=` and the `+=` on `remaining_msg_bytes` are
`int` operations, reduced to 32 bits. -/
def sim_recv (st : Ns3State) (rank : Int) (message_size : Nat) (src_id tag : Int)
    (msg_handler fun_arg : Nat) : Ns3State :=
  let dst_id := rank
  let recv_event : MsgEvent :=
    { src_id := src_id, dst_id := dst_id, type := 1
      remaining_msg_bytes := uint64ToInt message_size
      fun_arg := fun_arg, msg_handler := msg_handler }
  let recv_event_key : MsgEventKey := (tag, (recv_event.src_id, recv_event.dst_id))
  match st.received_msg_standby_hash.find recv_event_key with
  | some received_msg_bytes =>
    if AstraSim.intToUInt64 received_msg_bytes = message_size then
      callHandler
        { st with received_msg_standby_hash := st.received_msg_standby_hash.erase recv_event_key }
        recv_event
    else if AstraSim.intToUInt64 received_msg_bytes > message_size then
      callHandler
        { st with received_msg_standby_hash :=
            (st.received_msg_standby_hash.assign recv_event_key
              (uint64ToInt (uint64Sub (AstraSim.intToUInt64 received_msg_bytes) message_size))) }
        recv_event
    else
      { st with
        received_msg_standby_hash := st.received_msg_standby_hash.erase recv_event_key
        sim_recv_waiting_hash :=
          (st.sim_recv_waiting_hash.assign recv_event_key
            { recv_event with
              remaining_msg_bytes :=
                AstraSim.int32 (recv_event.remaining_msg_bytes - received_msg_bytes) }) }
  | none =>
    match st.sim_recv_waiting_hash.find recv_event_key with
    | none =>
      { st with sim_recv_waiting_hash :=
          st.sim_recv_waiting_hash.assign recv_event_key recv_event }
    | some waiting =>
      { st with sim_recv_waiting_hash :=
          (st.sim_recv_waiting_hash.assign recv_event_key
            { recv_event with
              remaining_msg_bytes :=
                AstraSim.int32 (recv_event.remaining_msg_bytes + waiting.remaining_msg_bytes) }) }

end Ns3State

/-- The value of a `uint32_t` after conversion to `int`. -/
def uint32ToInt (x : Nat) : Int :=
  if x % 2 ^ 32 < 2 ^ 31 then ((x % 2 ^ 32 : Nat) : Int) else ((x % 2 ^ 32 : Nat) : Int) - 2 ^ 32

/-- The flow that `send_flow` hands to the ns3 `RdmaClientHelper`. -/
structure RdmaFlow where
  src_id : Int
  dst : Int
  port : Nat
  maxPacketCount : Int
  tag : Int
  deriving DecidableEq, Repr

namespace Ns3State

/-- The function `send_flow(src_id, dst, maxPacketCount, msg_handler, fun_arg, tag)`
(entry.h, lines 189-217).  `port` is the value that `portNumber[src_id][dst]++` yields;
the array is outside the sources at hand.  The result is the state of the maps and the
flow that is scheduled in ns3. -/
def send_flow (st : Ns3State) (port : Nat) (src_id dst maxPacketCount : Int)
    (msg_handler fun_arg : Nat) (tag : Int) : Ns3State × RdmaFlow :=
  let send_event : MsgEvent :=
    { src_id := src_id, dst_id := dst, type := 0, remaining_msg_bytes := maxPacketCount
      fun_arg := fun_arg, msg_handler := msg_handler }
  ({ st with
     sender_src_port_map :=
       st.sender_src_port_map.assign (uint32ToInt port, (src_id, dst)) tag
     sim_send_waiting_hash :=
       st.sim_send_waiting_hash.assign
         ((tag, (send_event.src_id, send_event.dst_id)), uint32ToInt port) send_event },
   { src_id := src_id, dst := dst, port := port % 2 ^ 32, maxPacketCount := maxPacketCount
     tag := tag })

/-- The statement of `notify_sender_sending_finished` that adds up the bytes sent by the
node, in `int`, under `(src_id, 0)` (entry.h, lines 323-329). -/
def count_sent (st : Ns3State) (src_id message_size : Int) : Ns3State :=
  match st.node_to_bytes_sent_map.find (src_id, 0) with
  | none =>
    { st with node_to_bytes_sent_map := st.node_to_bytes_sent_map.assign (src_id, 0) message_size }
  | some bytes =>
    { st with node_to_bytes_sent_map :=
        st.node_to_bytes_sent_map.assign (src_id, 0) (AstraSim.int32 (bytes + message_size)) }

/-- The function `notify_sender_sending_finished(src_id, dst_id, message_size, tag,
src_port)` (entry.h, lines 291-332); `none` is `exit(1)`. -/
def notify_sender_sending_finished (st : Ns3State) (src_id dst_id message_size tag src_port : Int) :
    Option Ns3State :=
  match st.sim_send_waiting_hash.find ((tag, (src_id, dst_id)), src_port) with
  | none => none
  | some send_event =>
    if send_event.remaining_msg_bytes ≠ message_size then none
    else
      some (callHandler
        (count_sent
          { st with sim_send_waiting_hash :=
              st.sim_send_waiting_hash.erase ((tag, (src_id, dst_id)), src_port) }
          src_id message_size)
        send_event)

end Ns3State

end Ns3Frontend

namespace AstraSim

/-! ## `astra-sim/workload/Workload.cc` -/

/-- The enum `EventType` (Common.hh). -/
inductive EventType where
  | CallEvents
  | General
  | RendezvousSend
  | RendezvousRecv
  | PacketReceived
  | PacketSent
  | Rec_Finished
  | Send_Finished
  | Processing_Finished
  | NPU_to_MA
  | MA_to_NPU
  | Consider_Process
  | Consider_Retire
  | Consider_Send_Back
  | StreamInit
  | CommProcessingFinished
  | CollectiveCommunicationFinished
  | CompFinished
  | MemLoadFinished
  | MemStoreFinished
  deriving DecidableEq, Repr

/-- The enumerators of `ChakraProtoMsg::CollectiveCommType` that Workload.cc names;
`other` stands for every other enumerator of the Chakra schema (`REDUCE`, `GATHER`,
`BARRIER`, ...), which is outside the repository sources at hand. -/
inductive ChakraCollectiveCommType where
  | ALL_REDUCE
  | ALL_TO_ALL
  | ALL_GATHER
  | REDUCE_SCATTER
  | BROADCAST
  | other (value : Nat)
  deriving DecidableEq, Repr

/-- The attribute `involved_dim` of a node as `issue_comm` reads it: absent
(`has_other_attr` is false), a bool list, or an attribute of another type. -/
inductive InvolvedDimAttr where
  | absent
  | bool_list (values : List Bool)
  | other_type
  deriving DecidableEq, Repr

/-- A `Chakra::ETFeederNode` with the results of the accessors that the workload engine
reads besides `id()`, `is_cpu_op()` and `type()`.  The sizes and ranks are unsigned. -/
structure ETNode extends ETFeederNode where
  runtime : Nat
  num_ops : Nat
  tensor_size : Nat
  comm_type : ChakraCollectiveCommType
  comm_size : Nat
  comm_src : Nat
  comm_dst : Nat
  comm_tag : Nat
  comm_priority : Nat
  involved_dim : InvolvedDimAttr
  deriving DecidableEq, Repr

/-- The members of `Sys` that the workload engine reads.  `Sys`, `Roofline` and
`DataSet` are outside the repository sources at hand: `roofline_runtime num_ops
tensor_size` is the value of `static_cast<uint64_t>(num_ops / roofline->get_perf(num_ops /
tensor_size) * 1e9)`, a floating-point computation, and `dataset_id k` is the `my_id` of
the `k`-th `DataSet` that is created for this workload.  `trace_enabled` only switches
debug logging, which is left out. -/
structure Sys where
  id : Int
  replay_only : Bool
  roofline_enabled : Bool
  trace_enabled : Bool
  roofline_runtime : Nat → Nat → Nat
  dataset_id : Nat → Int

/-- The `Callable` that an event is registered for: the workload itself, or a `DataSet`. -/
inductive CallableRef where
  | workload
  | data_set (my_id : Int)
  deriving DecidableEq, Repr

/-- The `CallData*` argument of an event: a null pointer, an `IntData` or a
`WorkloadLayerHandlerData`. -/
inductive CallData where
  | null
  | int_data (data : Int) (execution_time : Nat)
  | wlhd (node_id : Nat)
  deriving DecidableEq, Repr

/-- The calls that the workload engine makes into `Sys`, the remote memory, the `DataSet`
objects and the network interface, as they are recorded in the log. -/
inductive WorkloadEffect where
  | register_event (callable : CallableRef) (event : EventType) (data : CallData) (delta : Nat)
  | remote_mem_issue (tensor_size : Nat) (sys_id : Int) (node_id : Nat)
  | generate_collective (comm_type : ChakraCollectiveCommType) (comm_size : Nat)
      (involved_dim : List Bool) (comm_priority : Nat) (my_id : Int)
  | new_DataSet (total_streams : Nat) (my_id : Int)
  | set_notifier (my_id : Int) (event : EventType)
  | front_end_sim_send (comm_size : Nat) (dst : Nat) (tag : Nat) (srcRank : Nat)
      (dstRank : Nat) (node_id : Nat)
  | front_end_sim_recv (comm_size : Nat) (src : Nat) (tag : Nat) (node_id : Nat)
  | delete_DataSet (ptr : Option Int)
  | report
  | sim_notify_finished
  deriving DecidableEq, Repr

/-- The ways in which a call into the workload engine does not return. -/
inductive Stop where
  | assertion
  | exit_failure
  | undefined
  | nontermination
  deriving DecidableEq, Repr

/-- The interface of `Chakra::ETFeeder` (outside the repository sources at hand) that the
workload engine uses, over a type `F` of feeder states.  `getNextIssuableNode` returns
`none` for a null pointer. -/
structure ETFeeder (F : Type) where
  getNextIssuableNode : F → Option ETNode × F
  pushBackIssuableNode : F → Nat → F
  freeChildrenNodes : F → Nat → F
  lookupNode : F → Nat → Option ETNode
  removeNode : F → Nat → F
  hasNodesToIssue : F → Bool

/-- The data members of `Workload` (Workload.hh), the number of `DataSet` objects created
for it, and the log of its calls to the outside.  A `DataSet*` is carried as the `my_id`
of the object.  The communicator group is fixed at construction and is left out. -/
structure Workload (F : Type) where
  et_feeder : F
  hw_resource : HardwareResource
  sys : Sys
  collective_comm_node_id_map : AstraSimAnalytical.Map Int Nat
  collective_comm_wrapper_map : AstraSimAnalytical.Map Int Int
  is_finished : Bool
  datasets_created : Nat
  log : List WorkloadEffect

namespace Workload

variable {F : Type}

/-- The state that the constructor `Workload::Workload` leaves, for a feeder that has
opened the trace file: one NPU, no collective in flight, not finished. -/
def ctor (sys : Sys) (et_feeder : F) : Workload F :=
  { et_feeder := et_feeder
    hw_resource := HardwareResource.ctor 1
    sys := sys
    collective_comm_node_id_map := []
    collective_comm_wrapper_map := []
    is_finished := false
    datasets_created := 0
    log := [] }

/-- The call `hw_resource->occupy(node)`; a failed assertion stops the process. -/
def occupy (w : Workload F) (node : ETNode) : Except Stop (Workload F) :=
  match w.hw_resource.occupy node.toETFeederNode with
  | none => Except.error Stop.assertion
  | some hw => Except.ok { w with hw_resource := hw }

/-- The statement `hw_resource->tics_cpu_ops += runtime` or `tics_gpu_ops += runtime` of
`issue_replay` and `issue_comp`. -/
def add_tics (w : Workload F) (node : ETNode) (runtime : Nat) : Workload F :=
  if node.is_cpu_op then
    { w with hw_resource :=
        { w.hw_resource with tics_cpu_ops := (w.hw_resource.tics_cpu_ops + runtime) % 2 ^ 64 } }
  else
    { w with hw_resource :=
        { w.hw_resource with tics_gpu_ops := (w.hw_resource.tics_gpu_ops + runtime) % 2 ^ 64 } }

/-- The delay computed in `issue_replay` and in the `BROADCAST` branch of `issue_comm`:
`uint64_t runtime = 1ul; if (node->runtime() != 0ul) runtime = node->runtime() * 1000;`. -/
def replay_runtime (node : ETNode) : Nat :=
  if node.runtime ≠ 0 then (node.runtime * 1000) % 2 ^ 64 else 1

/-- The method `Workload::issue_replay(node)` (Workload.cc, lines 219-239). -/
def issue_replay (w : Workload F) (node : ETNode) : Workload F :=
  let runtime := replay_runtime node
  let w1 := w.add_tics node runtime
  { w1 with log := w1.log ++
      [WorkloadEffect.register_event CallableRef.workload EventType.General
        (CallData.wlhd node.id) runtime] }

/-- The method `Workload::issue_remote_mem(node)`. -/
def issue_remote_mem (w : Workload F) (node : ETNode) : Except Stop (Workload F) :=
  match w.occupy node with
  | Except.error e => Except.error e
  | Except.ok w1 =>
    Except.ok { w1 with log := w1.log ++
      [WorkloadEffect.remote_mem_issue node.tensor_size w1.sys.id node.id] }

/-- The method `Workload::issue_comp(node)` (Workload.cc, lines 263-299). -/
def issue_comp (w : Workload F) (node : ETNode) : Except Stop (Workload F) :=
  match w.occupy node with
  | Except.error e => Except.error e
  | Except.ok w1 =>
    if w1.sys.roofline_enabled then
      let runtime := w1.sys.roofline_runtime node.num_ops node.tensor_size
      let w2 := w1.add_tics node runtime
      Except.ok { w2 with log := w2.log ++
        [WorkloadEffect.register_event CallableRef.workload EventType.General
          (CallData.wlhd node.id) runtime] }
    else
      Except.ok (w1.issue_replay node)

/-- The method `Workload::skip_invalid(node)`. -/
def skip_invalid (E : ETFeeder F) (w : Workload F) (node : ETNode) : Workload F :=
  { w with et_feeder := E.removeNode (E.freeChildrenNodes w.et_feeder node.id) node.id }

/-- The statements shared by the `ALL_REDUCE`, `ALL_TO_ALL`, `ALL_GATHER` and
`REDUCE_SCATTER` branches of `issue_comm`: `sys->generate_...` returns a `DataSet`, the
two maps are assigned under its `my_id`, and the notifier is set. -/
def issue_collective (w : Workload F) (node : ETNode) (involved_dim : List Bool) :
    Workload F :=
  let my_id := w.sys.dataset_id w.datasets_created
  { w with
    datasets_created := w.datasets_created + 1
    collective_comm_node_id_map := w.collective_comm_node_id_map.assign my_id node.id
    collective_comm_wrapper_map := w.collective_comm_wrapper_map.assign my_id my_id
    log := w.log ++
      [WorkloadEffect.generate_collective node.comm_type node.comm_size involved_dim
         node.comm_priority my_id,
       WorkloadEffect.set_notifier my_id EventType.CollectiveCommunicationFinished] }

/-- The `BROADCAST` branch of `issue_comm` (Workload.cc, lines 408-438). -/
def issue_broadcast (w : Workload F) (node : ETNode) : Workload F :=
  let runtime := replay_runtime node
  let my_id := w.sys.dataset_id w.datasets_created
  { w with
    datasets_created := w.datasets_created + 1
    collective_comm_node_id_map := w.collective_comm_node_id_map.assign my_id node.id
    collective_comm_wrapper_map := w.collective_comm_wrapper_map.assign my_id my_id
    log := w.log ++
      [WorkloadEffect.new_DataSet 1 my_id,
       WorkloadEffect.set_notifier my_id EventType.CollectiveCommunicationFinished,
       WorkloadEffect.register_event (CallableRef.data_set my_id) EventType.General
         CallData.null runtime,
       WorkloadEffect.set_notifier my_id EventType.CollectiveCommunicationFinished] }

/-- The first part of `issue_comm` (Workload.cc, lines 309-346): the vector
`involved_dim`; an attribute that is not a bool list ends the process. -/
def involved_dim_of (node : ETNode) : Except Stop (List Bool) :=
  match node.involved_dim with
  | InvolvedDimAttr.bool_list values => Except.ok values
  | InvolvedDimAttr.other_type => Except.error Stop.exit_failure
  | InvolvedDimAttr.absent => Except.ok [true, true, true, true]

/-- The method `Workload::issue_comm(node)` (Workload.cc, lines 306-495). -/
def issue_comm (w : Workload F) (node : ETNode) : Except Stop (Workload F) :=
  match w.occupy node with
  | Except.error e => Except.error e
  | Except.ok w1 =>
    match involved_dim_of node with
    | Except.error e => Except.error e
    | Except.ok involved_dim =>
      if node.is_cpu_op = false ∧ node.type = ChakraNodeType.COMM_COLL_NODE then
        match node.comm_type with
        | ChakraCollectiveCommType.ALL_REDUCE => Except.ok (w1.issue_collective node involved_dim)
        | ChakraCollectiveCommType.ALL_TO_ALL => Except.ok (w1.issue_collective node involved_dim)
        | ChakraCollectiveCommType.ALL_GATHER => Except.ok (w1.issue_collective node involved_dim)
        | ChakraCollectiveCommType.REDUCE_SCATTER =>
          Except.ok (w1.issue_collective node involved_dim)
        | ChakraCollectiveCommType.BROADCAST => Except.ok (w1.issue_broadcast node)
        | ChakraCollectiveCommType.other _ => Except.ok w1
      else if node.type = ChakraNodeType.COMM_SEND_NODE then
        Except.ok { w1 with log := w1.log ++
          [WorkloadEffect.front_end_sim_send node.comm_size node.comm_dst node.comm_tag
            node.comm_src node.comm_dst node.id] }
      else if node.type = ChakraNodeType.COMM_RECV_NODE then
        Except.ok { w1 with log := w1.log ++
          [WorkloadEffect.front_end_sim_recv node.comm_size node.comm_src node.comm_tag
            node.id] }
      else Except.error Stop.exit_failure

/-- The method `Workload::issue(node)` (Workload.cc, lines 162-212). -/
def issue (E : ETFeeder F) (w : Workload F) (node : ETNode) : Except Stop (Workload F) :=
  if w.sys.replay_only then
    match w.occupy node with
    | Except.error e => Except.error e
    | Except.ok w1 => Except.ok (w1.issue_replay node)
  else if node.type = ChakraNodeType.MEM_LOAD_NODE ∨ node.type = ChakraNodeType.MEM_STORE_NODE then
    w.issue_remote_mem node
  else if node.is_cpu_op = true ∨
      (node.is_cpu_op = false ∧ node.type = ChakraNodeType.COMP_NODE) then
    if node.runtime = 0 ∧ node.num_ops = 0 then Except.ok (skip_invalid E w node)
    else w.issue_comp node
  else if node.is_cpu_op = false ∧
      (node.type = ChakraNodeType.COMM_COLL_NODE ∨ node.type = ChakraNodeType.COMM_SEND_NODE ∨
        node.type = ChakraNodeType.COMM_RECV_NODE) then
    w.issue_comm node
  else if node.type = ChakraNodeType.INVALID_NODE then Except.ok (skip_invalid E w node)
  else Except.ok w

end Workload

end AstraSim

namespace AstraSim

namespace Workload

variable {F : Type}

/-- The first loop of `issue_dep_free_nodes` (Workload.cc, lines 136-147), with the queue
`push_back_queue` as a list.  Every iteration fetches a node; `fuel` bounds the number of
iterations, and `Stop.nontermination` is returned when it is used up. -/
def issue_loop (E : ETFeeder F) :
    Nat → Workload F → List ETNode → Except Stop (Workload F × List ETNode)
  | 0, _, _ => Except.error Stop.nontermination
  | fuel + 1, w, push_back_queue =>
    match E.getNextIssuableNode w.et_feeder with
    | (none, f) => Except.ok ({ w with et_feeder := f }, push_back_queue)
    | (some node, f) =>
      let w1 : Workload F := { w with et_feeder := f }
      if w1.hw_resource.is_available node.toETFeederNode then
        match issue E w1 node with
        | Except.error e => Except.error e
        | Except.ok w2 => issue_loop E fuel w2 push_back_queue
      else issue_loop E fuel w1 (push_back_queue ++ [node])

/-- The second loop of `issue_dep_free_nodes` (Workload.cc, lines 150-154): the parked
nodes go back to the feeder, first parked first. -/
def push_back (E : ETFeeder F) (f : F) (push_back_queue : List ETNode) : F :=
  push_back_queue.foldl (fun (g : F) (node : ETNode) => E.pushBackIssuableNode g node.id) f

/-- The method `Workload::issue_dep_free_nodes()` (Workload.cc, lines 134-155). -/
def issue_dep_free_nodes (E : ETFeeder F) (fuel : Nat) (w : Workload F) :
    Except Stop (Workload F) :=
  match issue_loop E fuel w [] with
  | Except.error e => Except.error e
  | Except.ok (w1, push_back_queue) =>
    Except.ok { w1 with et_feeder := push_back E w1.et_feeder push_back_queue }

/-- The condition of the last `if` of `Workload::call` (Workload.cc, lines 566-569). -/
def all_done (E : ETFeeder F) (w : Workload F) : Bool :=
  !E.hasNodesToIssue w.et_feeder && decide (w.hw_resource.num_in_flight_cpu_ops = 0) &&
    decide (w.hw_resource.num_in_flight_gpu_comp_ops = 0) &&
    decide (w.hw_resource.num_in_flight_gpu_comm_ops = 0)

/-- The last `if` of `Workload::call` (Workload.cc, lines 566-573). -/
def check_finished (E : ETFeeder F) (w : Workload F) : Workload F :=
  if all_done E w then
    { w with
      log := w.log ++ [WorkloadEffect.report, WorkloadEffect.sim_notify_finished]
      is_finished := true }
  else w

/-- The statements of `Workload::call` for a node that has completed, from
`hw_resource->release(node)` on; `free_id` is the argument of `freeChildrenNodes` and
`remove_id` that of `removeNode`. -/
def complete_node (E : ETFeeder F) (fuel : Nat) (w : Workload F) (node : ETNode)
    (free_id remove_id : Nat) (wrapper : Option Int) : Except Stop (Workload F) :=
  match w.hw_resource.release node.toETFeederNode with
  | none => Except.error Stop.assertion
  | some hw =>
    let w1 : Workload F :=
      { w with hw_resource := hw, et_feeder := E.freeChildrenNodes w.et_feeder free_id }
    match issue_dep_free_nodes E fuel w1 with
    | Except.error e => Except.error e
    | Except.ok w2 =>
      match wrapper with
      | none => Except.ok { w2 with et_feeder := E.removeNode w2.et_feeder remove_id }
      | some data =>
        Except.ok { w2 with
          log := w2.log ++
            [WorkloadEffect.delete_DataSet (w2.collective_comm_wrapper_map.find data)]
          collective_comm_wrapper_map := w2.collective_comm_wrapper_map.erase data
          et_feeder := E.removeNode w2.et_feeder remove_id }

/-- The body of `Workload::call(event, data)` between the test of `is_finished` and the
last `if` (Workload.cc, lines 509-563).  The casts of `data` are unchecked: data of
another class than the one the branch casts to is undefined behaviour, as is a node that
the feeder does not find.  `collective_comm_node_id_map[key]` inserts the value 0 for an
absent key. -/
def call_body (E : ETFeeder F) (fuel : Nat) (w : Workload F) (event : EventType)
    (data : CallData) : Except Stop (Workload F) :=
  if event = EventType.CollectiveCommunicationFinished then
    match data with
    | CallData.int_data key execution_time =>
      let hw : HardwareResource :=
        { w.hw_resource with
          tics_gpu_comms := (w.hw_resource.tics_gpu_comms + execution_time) % 2 ^ 64 }
      let node_id : Nat := (w.collective_comm_node_id_map.find key).getD 0
      let w1 : Workload F :=
        { w with
          hw_resource := hw
          collective_comm_node_id_map :=
            (match w.collective_comm_node_id_map.find key with
              | some _ => w.collective_comm_node_id_map
              | none => w.collective_comm_node_id_map.assign key 0) }
      match E.lookupNode w1.et_feeder node_id with
      | none => Except.error Stop.undefined
      | some node => complete_node E fuel w1 node node_id node_id (some key)
    | _ => Except.error Stop.undefined
  else
    match data with
    | CallData.null => issue_dep_free_nodes E fuel w
    | CallData.wlhd node_id =>
      match E.lookupNode w.et_feeder node_id with
      | none => Except.error Stop.undefined
      | some node => complete_node E fuel w node node.id node_id none
    | CallData.int_data _ _ => Except.error Stop.undefined

/-- The method `Workload::call(event, data)` (Workload.cc, lines 504-576). -/
def call (E : ETFeeder F) (fuel : Nat) (w : Workload F) (event : EventType)
    (data : CallData) : Except Stop (Workload F) :=
  if w.is_finished then Except.ok w
  else
    match call_body E fuel w event data with
    | Except.error e => Except.error e
    | Except.ok w1 => Except.ok (check_finished E w1)

/-- A sequence of `Workload::call` invocations, each with the bound of its fetch loop. -/
def calls (E : ETFeeder F) (w : Workload F) :
    List (Nat × EventType × CallData) → Except Stop (Workload F)
  | [] => Except.ok w
  | (fuel, event, data) :: rest =>
    match call E fuel w event data with
    | Except.error e => Except.error e
    | Except.ok w1 => calls E w1 rest

/-- The number of `sim_notify_finished` calls in a log. -/
def notifications (log : List WorkloadEffect) : Nat :=
  log.countP (fun (e : WorkloadEffect) => decide (e = WorkloadEffect.sim_notify_finished))

end Workload

/-- A feeder for evaluating the workload engine on concrete traces whose nodes do not
depend on each other: the nodes ready to issue, in order, and the nodes of the graph. -/
structure SampleFeeder where
  issuable : List ETNode
  graph : List ETNode
  deriving DecidableEq, Repr

/-- The operations of the sample feeder: `getNextIssuableNode` takes the first ready
node, `pushBackIssuableNode` makes the node of the graph with the given id ready again,
`removeNode` deletes the node from the graph, and there are nodes to issue as long as
the graph or the ready list is not empty. -/
def SampleFeeder.ops : ETFeeder SampleFeeder :=
  { getNextIssuableNode := fun (f : SampleFeeder) =>
      match f.issuable with
      | [] => (none, f)
      | node :: rest => (some node, { f with issuable := rest })
    pushBackIssuableNode := fun (f : SampleFeeder) (id : Nat) =>
      match f.graph.find? (fun (n : ETNode) => decide (n.id = id)) with
      | none => f
      | some node => { f with issuable := f.issuable ++ [node] }
    freeChildrenNodes := fun (f : SampleFeeder) (_ : Nat) => f
    lookupNode := fun (f : SampleFeeder) (id : Nat) =>
      f.graph.find? (fun (n : ETNode) => decide (n.id = id))
    removeNode := fun (f : SampleFeeder) (id : Nat) =>
      { f with graph := f.graph.filter (fun (n : ETNode) => decide (n.id ≠ id)) }
    hasNodesToIssue := fun (f : SampleFeeder) => !(f.graph.isEmpty && f.issuable.isEmpty) }

/-- A feeder whose trace consists of the given nodes, all ready. -/
def SampleFeeder.ofNodes (nodes : List ETNode) : SampleFeeder :=
  { issuable := nodes, graph := nodes }

/-- A system for evaluation: rank 0, a roofline model that estimates 7 ns for every
operation, and `DataSet` ids 100, 101, ... -/
def Sys.sample (replay_only roofline_enabled : Bool) : Sys :=
  { id := 0
    replay_only := replay_only
    roofline_enabled := roofline_enabled
    trace_enabled := false
    roofline_runtime := fun (_ : Nat) (_ : Nat) => 7
    dataset_id := fun (k : Nat) => 100 + (k : Int) }

/-- A trace node for evaluation: the given id, kind and recorded runtime, 10 operations
on a tensor of 64 bytes, a collective of 1024 bytes of the given type. -/
def ETNode.sample (id : Nat) (is_cpu_op : Bool) (type : ChakraNodeType) (runtime : Nat)
    (comm_type : ChakraCollectiveCommType) : ETNode :=
  { id := id, is_cpu_op := is_cpu_op, type := type, runtime := runtime, num_ops := 10
    tensor_size := 64, comm_type := comm_type, comm_size := 1024, comm_src := 0
    comm_dst := 1, comm_tag := 0, comm_priority := 0
    involved_dim := InvolvedDimAttr.absent }

end AstraSim

namespace AstraSim

namespace Workload

variable {F : Type}

/-- A stretch of the log that holds neither a completion report nor a
`sim_notify_finished`. -/
def quiet (l : List WorkloadEffect) : Prop :=
  ∀ e ∈ l, e ≠ WorkloadEffect.report ∧ e ≠ WorkloadEffect.sim_notify_finished

/-- The workload `w1` continues `w` without finishing: `is_finished` is the same and the
log has grown by a stretch without report and notification. -/
def Continues (w w1 : Workload F) : Prop :=
  w1.is_finished = w.is_finished ∧ ∃ s, w1.log = w.log ++ s ∧ quiet s

end Workload

end AstraSim

namespace AstraSim

/-! ## `astra-sim/system/collective/Ring.cc`: `run` -/

/-- The calls that `Ring` makes into the owner of its stream (`front_end_sim_send`,
`front_end_sim_recv`, `proceed_to_next_vnet_baseline`) and the launches of a
`PacketBundle` on the memory bus. -/
inductive RingEffect where
  | front_end_sim_send (msg_size : Nat) (dst : Int) (tag : Int)
  | front_end_sim_recv (msg_size : Nat) (src : Int) (tag : Int)
  | send_to_MA (locked_packets : List MyPacket) (processed : Bool) (send_back : Bool)
      (msg_size : Nat) (transmition : Transmition)
  | send_to_NPU (locked_packets : List MyPacket) (processed : Bool) (send_back : Bool)
      (msg_size : Nat) (transmition : Transmition)
  | proceed_to_next_vnet_baseline
  deriving DecidableEq, Repr

namespace Ring

/-- The method `Ring::get_non_zero_latency_packets()`. -/
def get_non_zero_latency_packets (r : Ring) : Int :=
  (r.nodes_in_ring - 1) * r.parallel_reduce * 1

/-- The method `Ring::release_packets()`: the ring after the call and the bundle that is
launched. -/
def release_packets (r : Ring) : Ring × List RingEffect :=
  ({ r with locked_packets := [] },
    [if r.NPU_to_MA = true then
      RingEffect.send_to_MA r.locked_packets r.processed r.send_back r.msg_size r.transmition
     else
      RingEffect.send_to_NPU r.locked_packets r.processed r.send_back r.msg_size r.transmition])

/-- The method `Ring::process_stream_count()` (Ring.cc, lines 173-194). -/
def process_stream_count (r : Ring) : Ring :=
  let r1 : Ring :=
    if r.remained_packets_per_message > 0 then
      { r with remained_packets_per_message := r.remained_packets_per_message - 1 }
    else r
  let r2 : Ring :=
    if r1.remained_packets_per_message = 0 ∧ r1.stream_count > 0 then
      if r1.stream_count - 1 > 0 then
        { r1 with stream_count := r1.stream_count - 1, remained_packets_per_message := 1 }
      else { r1 with stream_count := r1.stream_count - 1 }
    else r1
  if r2.remained_packets_per_message = 0 ∧ r2.stream_count = 0 ∧
      r2.stream_state ≠ StreamState.Dead then
    { r2 with stream_state := StreamState.Zombie }
  else r2

/-- The method `Ring::process_max_count()` (Ring.cc, lines 200-210). -/
def process_max_count (r : Ring) : Ring × List RingEffect :=
  let r1 : Ring :=
    if r.remained_packets_per_max_count > 0 then
      { r with remained_packets_per_max_count := r.remained_packets_per_max_count - 1 }
    else r
  if r1.remained_packets_per_max_count = 0 then
    let r2 : Ring := { r1 with max_count := r1.max_count - 1 }
    ({ (release_packets r2).1 with remained_packets_per_max_count := 1 }, (release_packets r2).2)
  else (r1, [])

/-- The method `Ring::reduce()` (Ring.cc, lines 215-220); `pop_front` is only reached with
a pending packet. -/
def reduce (r : Ring) : Ring :=
  { process_stream_count r with
    packets := (process_stream_count r).packets.tail
    free_packets := (process_stream_count r).free_packets - 1
    total_packets_sent := (process_stream_count r).total_packets_sent + 1 }

/-- The method `Ring::exit()`. -/
def exit (r : Ring) : Ring × List RingEffect :=
  ({ r with packets := [], locked_packets := [] }, [RingEffect.proceed_to_next_vnet_baseline])

/-- The method `Ring::iteratable()`: its result, the ring after the call and the calls
made. -/
def iteratable (r : Ring) : Bool × Ring × List RingEffect :=
  if r.stream_count = 0 ∧ r.free_packets = r.parallel_reduce * 1 then
    (false, (exit r).1, (exit r).2)
  else (true, r, [])

/-- The first statement of `Ring::insert_packet` (Ring.cc, lines 240-244): when both
latency counters are 0 a new pass starts. -/
def start_pass (r : Ring) : Ring :=
  if r.zero_latency_packets = 0 ∧ r.non_zero_latency_packets = 0 then
    { r with
      zero_latency_packets := r.parallel_reduce * 1
      non_zero_latency_packets := r.get_non_zero_latency_packets
      toggle := !r.toggle }
  else r

/-- The method `Ring::insert_packet(sender)` for the null `sender` that `run` passes
(Ring.cc, lines 239-291); `none` is `Sys::sys_panic`. -/
def insert_packet (r : Ring) : Option (Ring × List RingEffect) :=
  let r1 : Ring := start_pass r
  let packet : MyPacket :=
    { preferred_vnet := r1.current_queue_id, preferred_src := r1.curr_sender
      preferred_dest := r1.curr_receiver }
  if r1.zero_latency_packets > 0 then
    let r2 : Ring :=
      { r1 with
        packets := r1.packets ++ [packet]
        locked_packets := r1.locked_packets ++ [packet]
        processed := false
        send_back := false
        NPU_to_MA := true }
    some ({ (process_max_count r2).1 with
            zero_latency_packets := (process_max_count r2).1.zero_latency_packets - 1 },
          (process_max_count r2).2)
  else if r1.non_zero_latency_packets > 0 then
    let r2 : Ring :=
      { r1 with
        packets := r1.packets ++ [packet]
        locked_packets := r1.locked_packets ++ [packet]
        processed :=
          decide (r1.comType = ComType.Reduce_Scatter ∨
            (r1.comType = ComType.All_Reduce ∧ r1.toggle = true))
        send_back := !decide (r1.non_zero_latency_packets ≤ r1.parallel_reduce * 1)
        NPU_to_MA := false }
    some ({ (process_max_count r2).1 with
            non_zero_latency_packets := (process_max_count r2).1.non_zero_latency_packets - 1 },
          (process_max_count r2).2)
  else none

/-- The first statement of `Ring::ready()` (Ring.cc, lines 298-301): a stream that is
`Created` or `Ready` becomes `Executing`. -/
def start_executing (r : Ring) : Ring :=
  if r.stream_state = StreamState.Created ∨ r.stream_state = StreamState.Ready then
    { r with stream_state := StreamState.Executing }
  else r

/-- The method `Ring::ready()` (Ring.cc, lines 297-345): its result, the ring after the
call and the send and recv that are issued. -/
def ready (r : Ring) : Bool × Ring × List RingEffect :=
  match (start_executing r).packets with
  | [] => (false, start_executing r, [])
  | packet :: _ =>
    if (start_executing r).stream_count = 0 ∨ (start_executing r).free_packets = 0 then
      (false, start_executing r, [])
    else
      (true, reduce (start_executing r),
        [RingEffect.front_end_sim_send (start_executing r).msg_size packet.preferred_dest
           (start_executing r).stream_id,
         RingEffect.front_end_sim_recv (start_executing r).msg_size packet.preferred_src
           (start_executing r).stream_id])

/-- The loop `for (int i = 0; i < parallel_reduce; i++) insert_packet(nullptr);` of `run`,
for the number of iterations left (`insert_packet` does not write `parallel_reduce`). -/
def insert_packets : Nat → Ring → Option (Ring × List RingEffect)
  | 0, r => some (r, [])
  | k + 1, r =>
    match insert_packet r with
    | none => none
    | some (r1, es1) =>
      match insert_packets k r1 with
      | none => none
      | some (r2, es2) => some (r2, es1 ++ es2)

/-- The method `Ring::run(event, data)` (Ring.cc, lines 133-146): the ring after the call
and the calls made, in order; `none` is `Sys::sys_panic`. -/
def run (r : Ring) (event : EventType) : Option (Ring × List RingEffect) :=
  if event = EventType.General then
    let r1 : Ring := { r with free_packets := r.free_packets + 1 }
    some ((iteratable (ready r1).2.1).2.1, (ready r1).2.2 ++ (iteratable (ready r1).2.1).2.2)
  else if event = EventType.PacketReceived then
    insert_packet { r with total_packets_received := r.total_packets_received + 1 }
  else if event = EventType.StreamInit then
    insert_packets r.parallel_reduce.toNat r
  else some (r, [])

/-- A sequence of events delivered to `run`, in order. -/
def runs (r : Ring) : List EventType → Option (Ring × List RingEffect)
  | [] => some (r, [])
  | event :: events =>
    match run r event with
    | none => none
    | some (r1, es1) =>
      match runs r1 events with
      | none => none
      | some (r2, es2) => some (r2, es1 ++ es2)

end Ring

end AstraSim

namespace AstraSim

end AstraSim

namespace AstraSim

/-- The ring after a sequence of events, or the start ring when `run` panics on the way:
a name for the rings of concrete runs. -/
def Ring.runsD (r : Ring) (events : List EventType) : Ring :=
  ((r.runs events).map Prod.fst).getD r

/-! ## `astra-sim/system/collective/ChakraImpl.cc` -/

/-- The calls that `ChakraImpl` makes into the owner of its stream. -/
inductive ChakraImplEffect where
  | front_end_sim_send (comm_size : Nat) (dst : Nat) (tag : Nat) (srcRank : Nat)
      (dstRank : Nat) (node_id : Nat)
  | front_end_sim_recv (comm_size : Nat) (src : Nat) (tag : Nat) (node_id : Nat)
  | register_event (event : EventType) (node_id : Nat) (delta : Nat)
  deriving DecidableEq, Repr

/-- The data members of `ChakraImpl` that its methods read or write (ChakraImpl.hh), over
a type `F` of feeder states, and the log of its calls to the outside.  The member
`hw_resource` is declared in the header, but no statement of ChakraImpl.cc assigns or
reads it. -/
structure ChakraImpl (F : Type) where
  id : Int
  et_feeder : F
  log : List ChakraImplEffect

namespace ChakraImpl

variable {F : Type}

/-- The method `ChakraImpl::issue(node)` (ChakraImpl.cc, lines 32-99). -/
def issue (c : ChakraImpl F) (node : ETNode) : ChakraImpl F :=
  if node.type = ChakraNodeType.COMM_SEND_NODE then
    { c with log := c.log ++
        [ChakraImplEffect.front_end_sim_send node.comm_size node.comm_dst node.comm_tag
          node.comm_src node.comm_dst node.id] }
  else if node.type = ChakraNodeType.COMM_RECV_NODE then
    { c with log := c.log ++
        [ChakraImplEffect.front_end_sim_recv node.comm_size node.comm_src node.comm_tag
          node.id] }
  else if node.type = ChakraNodeType.COMP_NODE then
    { c with log := c.log ++
        [ChakraImplEffect.register_event EventType.General node.id
          (if node.runtime ≠ 0 then (node.runtime * 1000) % 2 ^ 64 else 1)] }
  else c

/-- The method `ChakraImpl::issue_dep_free_nodes()` (ChakraImpl.cc, lines 104-110).  Every
iteration of its loop fetches a node; `fuel` bounds the number of iterations, and
`Stop.nontermination` is returned when it is used up. -/
def issue_dep_free_nodes (E : ETFeeder F) : Nat → ChakraImpl F → Except Stop (ChakraImpl F)
  | 0, _ => Except.error Stop.nontermination
  | fuel + 1, c =>
    match E.getNextIssuableNode c.et_feeder with
    | (none, f) => Except.ok { c with et_feeder := f }
    | (some node, f) => issue_dep_free_nodes E fuel (issue { c with et_feeder := f } node)

/-- The method `ChakraImpl::run(event, data)`. -/
def run (E : ETFeeder F) (fuel : Nat) (c : ChakraImpl F) (_ : EventType) :
    Except Stop (ChakraImpl F) :=
  issue_dep_free_nodes E fuel c

/-- The sends of a log, as the ids of their nodes. -/
def sends (log : List ChakraImplEffect) : List Nat :=
  log.filterMap (fun (e : ChakraImplEffect) =>
    match e with
    | ChakraImplEffect.front_end_sim_send _ _ _ _ _ node_id => some node_id
    | _ => none)

end ChakraImpl

/-! ## `astra-sim/system/collective/DoubleBinaryTreeAllReduce.cc` -/

/-- The enumerators of `DoubleBinaryTreeAllReduce::State` that
DoubleBinaryTreeAllReduce.cc names (the header is outside the sources at hand). -/
inductive TreeState where
  | Begin
  | WaitingForTwoChildData
  | WaitingForOneChildData
  | SendingDataToParent
  | WaitingDataFromParent
  | SendingDataToChilds
  | End
  deriving DecidableEq, Repr

/-- The enumerators of `BinaryTree::Type` that DoubleBinaryTreeAllReduce.cc names. -/
inductive BinaryTreeType where
  | Leaf
  | Root
  | Intermediate
  deriving DecidableEq, Repr

/-- The interface of `BinaryTree` that the constructor of `DoubleBinaryTreeAllReduce`
uses. -/
structure BinaryTree where
  get_parent_id : Int → Int
  get_left_child_id : Int → Int
  get_right_child_id : Int → Int
  get_node_type : Int → BinaryTreeType

/-- The value of a C++ `int` after conversion to `uint32_t`. -/
def intToUInt32 (i : Int) : Nat :=
  (i % (2 ^ 32 : Int)).toNat

/-- The calls that `DoubleBinaryTreeAllReduce` makes: the launch of a
`PacketBundle(owner, stream, processed, send_back, size, transmition)` on the memory bus,
`front_end_sim_send` and `front_end_sim_recv` of the owner of the stream, with the fields
of the `sim_request` that are assigned, and `proceed_to_next_vnet_baseline` (from
`Algorithm::exit`). -/
inductive TreeEffect where
  | send_to_MA (processed : Bool) (send_back : Bool) (size : Nat) (transmition : Transmition)
  | send_to_NPU (processed : Bool) (send_back : Bool) (size : Nat) (transmition : Transmition)
  | front_end_sim_send (size : Nat) (dst : Int) (tag : Int) (req_srcRank : Nat)
      (req_dstRank : Nat) (req_tag : Nat) (req_vnet : Nat)
  | front_end_sim_recv (size : Nat) (src : Int) (tag : Int) (req_vnet : Nat)
  | proceed_to_next_vnet_baseline
  deriving DecidableEq, Repr

/-- The data members of `DoubleBinaryTreeAllReduce` that DoubleBinaryTreeAllReduce.cc
reads or writes, with those inherited from `Algorithm`.  `owner_id`, `stream_id` and
`current_queue_id` are `stream->owner->id` and the members of the stream object behind
the `stream` pointer. -/
structure DoubleBinaryTreeAllReduce where
  name : AlgorithmName
  id : Int
  data_size : Nat
  final_data_size : Nat
  comType : ComType
  enabled : Bool
  owner_id : Int
  stream_id : Int
  current_queue_id : Int
  type : BinaryTreeType
  state : TreeState
  parent : Int
  left_child : Int
  right_child : Int
  reductions : Int
  deriving DecidableEq, Repr

namespace DoubleBinaryTreeAllReduce

/-- The constructor `DoubleBinaryTreeAllReduce(id, tree, data_size)`.  `storage` is the
content of the object before the constructor body runs: the stream members keep it. -/
def ctor (storage : DoubleBinaryTreeAllReduce) (id : Int) (tree : BinaryTree)
    (data_size : Nat) : DoubleBinaryTreeAllReduce :=
  { storage with
    enabled := true
    id := id
    data_size := data_size
    state := TreeState.Begin
    reductions := 0
    parent := tree.get_parent_id id
    left_child := tree.get_left_child_id id
    right_child := tree.get_right_child_id id
    type := tree.get_node_type id
    final_data_size := data_size
    comType := ComType.All_Reduce
    name := AlgorithmName.DoubleBinaryTree }

/-- The call `front_end_sim_send` to `dst` with the request `snd_req` whose `dstRank` is
`req_dst`, as the branches of `run` make it. -/
def send_effect (t : DoubleBinaryTreeAllReduce) (dst req_dst : Int) : TreeEffect :=
  TreeEffect.front_end_sim_send t.data_size dst t.stream_id (intToUInt32 t.owner_id)
    (intToUInt32 req_dst) (intToUInt32 t.stream_id) (intToUInt32 t.current_queue_id)

/-- The call `front_end_sim_recv` from `src`, as the branches of `run` make it. -/
def recv_effect (t : DoubleBinaryTreeAllReduce) (src : Int) : TreeEffect :=
  TreeEffect.front_end_sim_recv t.data_size src t.stream_id (intToUInt32 t.current_queue_id)

/-- The child that the root talks to: `left_child >= 0 ? left_child : right_child`. -/
def only_child_id (t : DoubleBinaryTreeAllReduce) : Int :=
  if t.left_child ≥ 0 then t.left_child else t.right_child

/-- The method `DoubleBinaryTreeAllReduce::run(event, data)`: the object after the call
and the calls made, in order. -/
def run (t : DoubleBinaryTreeAllReduce) (event : EventType) :
    DoubleBinaryTreeAllReduce × List TreeEffect :=
  if t.state = TreeState.Begin ∧ t.type = BinaryTreeType.Leaf then
    ({ t with state := TreeState.SendingDataToParent },
      [TreeEffect.send_to_MA false false t.data_size Transmition.Usual])
  else if t.state = TreeState.SendingDataToParent ∧ t.type = BinaryTreeType.Leaf then
    ({ t with state := TreeState.WaitingDataFromParent },
      [t.send_effect t.parent t.parent, t.recv_effect t.parent])
  else if t.state = TreeState.WaitingDataFromParent ∧ t.type = BinaryTreeType.Leaf then
    ({ t with state := TreeState.End },
      [TreeEffect.send_to_NPU false false t.data_size Transmition.Usual])
  else if t.state = TreeState.End ∧ t.type = BinaryTreeType.Leaf then
    (t, [TreeEffect.proceed_to_next_vnet_baseline])
  else if t.state = TreeState.Begin ∧ t.type = BinaryTreeType.Intermediate then
    ({ t with state := TreeState.WaitingForTwoChildData },
      [t.recv_effect t.left_child, t.recv_effect t.right_child])
  else if t.state = TreeState.WaitingForTwoChildData ∧ t.type = BinaryTreeType.Intermediate ∧
      event = EventType.PacketReceived then
    ({ t with state := TreeState.WaitingForOneChildData },
      [TreeEffect.send_to_NPU true false t.data_size Transmition.Usual])
  else if t.state = TreeState.WaitingForOneChildData ∧ t.type = BinaryTreeType.Intermediate ∧
      event = EventType.PacketReceived then
    ({ t with state := TreeState.SendingDataToParent },
      [TreeEffect.send_to_NPU true true t.data_size Transmition.Usual])
  else if t.reductions < 1 ∧ t.type = BinaryTreeType.Intermediate ∧
      event = EventType.General then
    ({ t with reductions := t.reductions + 1 }, [])
  else if t.state = TreeState.SendingDataToParent ∧ t.type = BinaryTreeType.Intermediate then
    ({ t with state := TreeState.WaitingDataFromParent },
      [t.send_effect t.parent t.parent, t.recv_effect t.parent])
  else if t.state = TreeState.WaitingDataFromParent ∧ t.type = BinaryTreeType.Intermediate ∧
      event = EventType.PacketReceived then
    ({ t with state := TreeState.SendingDataToChilds },
      [TreeEffect.send_to_NPU true true t.data_size Transmition.Usual])
  else if t.state = TreeState.SendingDataToChilds ∧ t.type = BinaryTreeType.Intermediate then
    (t, [t.send_effect t.left_child t.left_child, t.send_effect t.right_child t.left_child,
      TreeEffect.proceed_to_next_vnet_baseline])
  else if t.state = TreeState.Begin ∧ t.type = BinaryTreeType.Root then
    ({ t with state := TreeState.WaitingForOneChildData }, [t.recv_effect t.only_child_id])
  else if t.state = TreeState.WaitingForOneChildData ∧ t.type = BinaryTreeType.Root then
    ({ t with state := TreeState.SendingDataToChilds },
      [TreeEffect.send_to_NPU true true t.data_size Transmition.Usual])
  else if t.state = TreeState.SendingDataToChilds ∧ t.type = BinaryTreeType.Root then
    (t, [t.send_effect t.only_child_id t.only_child_id,
      TreeEffect.proceed_to_next_vnet_baseline])
  else (t, [])

/-- A sequence of events delivered to `run`: the object after the last call and the
calls made by each call, call by call. -/
def trace (t : DoubleBinaryTreeAllReduce) :
    List EventType → DoubleBinaryTreeAllReduce × List (List TreeEffect)
  | [] => (t, [])
  | event :: events =>
    ((trace (t.run event).1 events).1, (t.run event).2 :: (trace (t.run event).1 events).2)

/-- The call is the send to the parent. -/
def is_parent_send (t : DoubleBinaryTreeAllReduce) (e : TreeEffect) : Bool :=
  match e with
  | TreeEffect.front_end_sim_send _ dst _ _ _ _ _ => decide (dst = t.parent)
  | _ => false

/-- The call is the launch of a bundle that is reduced on the memory bus
(`processed = true`). -/
def is_reduce_bundle (e : TreeEffect) : Bool :=
  match e with
  | TreeEffect.send_to_NPU processed _ _ _ => processed
  | TreeEffect.send_to_MA processed _ _ _ => processed
  | _ => false

/-- An object for evaluation: an intermediate rank 1 with parent 3 and children 0 and 2,
on stream 5 of the system of id 1, a fresh object of 1024 bytes. -/
def sample (type : BinaryTreeType) : DoubleBinaryTreeAllReduce :=
  { name := AlgorithmName.DoubleBinaryTree, id := 1, data_size := 1024
    final_data_size := 1024, comType := ComType.All_Reduce, enabled := true, owner_id := 1
    stream_id := 5, current_queue_id := 0, type := type, state := TreeState.Begin
    parent := 3, left_child := 0, right_child := 2, reductions := 0 }

end DoubleBinaryTreeAllReduce

end AstraSim

namespace AstraSim

/-! ## `astra-sim/system/collective/AllToAll.cc` -/

/-- The data members of `AllToAll` (AllToAll.hh): those of its base class `Ring`, and
`middle_point`. -/
structure AllToAll extends Ring where
  middle_point : Int

namespace AllToAll

/-- The constructor `AllToAll::AllToAll(type, window, id, allToAllTopology, data_size,
direction, injection_policy)` (AllToAll.cc, lines 20-40): the constructor of `Ring`,
then the body. -/
def ctor (storage : AllToAll) (type : ComType) (window : Int) (id : Int)
    (topo : RingTopology) (data_size : Nat) (direction : Direction)
    (policy : InjectionPolicy) : AllToAll :=
  let a1 : AllToAll :=
    { toRing :=
        { Ring.ctor storage.toRing type id topo data_size direction policy with
          name := AlgorithmName.AllToAll }
      middle_point :=
        (Ring.ctor storage.toRing type id topo data_size direction policy).nodes_in_ring - 1 }
  let a2 : AllToAll :=
    if window = -1 then { a1 with parallel_reduce := a1.nodes_in_ring - 1 }
    else { a1 with parallel_reduce := min window (a1.nodes_in_ring - 1) }
  if type = ComType.All_to_All then { a2 with stream_count := a2.nodes_in_ring - 1 } else a2

/-- The advance of `curr_receiver` in `AllToAll::process_max_count` (AllToAll.cc, lines
90-95): one step along the ring, and one more when the step lands on the rank itself. -/
def next_receiver (topo : RingTopology) (a : AllToAll) : Int :=
  if topo.get_receiver a.curr_receiver a.direction = a.id then
    topo.get_receiver (topo.get_receiver a.curr_receiver a.direction) a.direction
  else topo.get_receiver a.curr_receiver a.direction

/-- The advance of `curr_sender` in `AllToAll::process_max_count` (AllToAll.cc, lines
97-102). -/
def next_sender (topo : RingTopology) (a : AllToAll) : Int :=
  if topo.get_sender a.curr_sender a.direction = a.id then
    topo.get_sender (topo.get_sender a.curr_sender a.direction) a.direction
  else topo.get_sender a.curr_sender a.direction

/-- The method `AllToAll::process_max_count()` (AllToAll.cc, lines 79-104), which
overrides the virtual `Ring::process_max_count`. -/
def process_max_count (topo : RingTopology) (a : AllToAll) : AllToAll × List RingEffect :=
  let a1 : AllToAll :=
    if a.remained_packets_per_max_count > 0 then
      { a with remained_packets_per_max_count := a.remained_packets_per_max_count - 1 }
    else a
  if a1.remained_packets_per_max_count = 0 then
    let a2 : AllToAll := { a1 with max_count := a1.max_count - 1 }
    let a3 : AllToAll :=
      { a2 with locked_packets := [], remained_packets_per_max_count := 1 }
    ({ a3 with curr_receiver := next_receiver topo a3, curr_sender := next_sender topo a3 },
      (Ring.release_packets a2.toRing).2)
  else (a1, [])

/-- The method `AllToAll::get_non_zero_latency_packets()`, which overrides the virtual
`Ring::get_non_zero_latency_packets`. -/
def get_non_zero_latency_packets (topo : RingTopology) (a : AllToAll) : Int :=
  if topo.get_dimension ≠ Dimension.Local then a.parallel_reduce * 1
  else (a.nodes_in_ring - 1) * a.parallel_reduce * 1

/-- The first statement of `Ring::insert_packet` on an `AllToAll` object: the virtual
call goes to `AllToAll::get_non_zero_latency_packets`. -/
def start_pass (topo : RingTopology) (a : AllToAll) : AllToAll :=
  if a.zero_latency_packets = 0 ∧ a.non_zero_latency_packets = 0 then
    { a with
      zero_latency_packets := a.parallel_reduce * 1
      non_zero_latency_packets := get_non_zero_latency_packets topo a
      toggle := !a.toggle }
  else a

/-- The method `Ring::insert_packet(sender)` on an `AllToAll` object, for the null
`sender` that `run` passes: the virtual calls go to `AllToAll::process_max_count` and
`AllToAll::get_non_zero_latency_packets`; `none` is `Sys::sys_panic`. -/
def insert_packet (topo : RingTopology) (a : AllToAll) : Option (AllToAll × List RingEffect) :=
  let a1 : AllToAll := start_pass topo a
  let packet : MyPacket :=
    { preferred_vnet := a1.current_queue_id, preferred_src := a1.curr_sender
      preferred_dest := a1.curr_receiver }
  if a1.zero_latency_packets > 0 then
    let a2 : AllToAll :=
      { a1 with
        packets := a1.packets ++ [packet]
        locked_packets := a1.locked_packets ++ [packet]
        processed := false
        send_back := false
        NPU_to_MA := true }
    some ({ (process_max_count topo a2).1 with
            zero_latency_packets := (process_max_count topo a2).1.zero_latency_packets - 1 },
          (process_max_count topo a2).2)
  else if a1.non_zero_latency_packets > 0 then
    let a2 : AllToAll :=
      { a1 with
        packets := a1.packets ++ [packet]
        locked_packets := a1.locked_packets ++ [packet]
        processed :=
          decide (a1.comType = ComType.Reduce_Scatter ∨
            (a1.comType = ComType.All_Reduce ∧ a1.toggle = true))
        send_back := !decide (a1.non_zero_latency_packets ≤ a1.parallel_reduce * 1)
        NPU_to_MA := false }
    some ({ (process_max_count topo a2).1 with
            non_zero_latency_packets := (process_max_count topo a2).1.non_zero_latency_packets - 1 },
          (process_max_count topo a2).2)
  else none

/-- A number of successive `insert_packet` calls on an `AllToAll` object. -/
def insert_packets (topo : RingTopology) : Nat → AllToAll → Option (AllToAll × List RingEffect)
  | 0, a => some (a, [])
  | k + 1, a =>
    match insert_packet topo a with
    | none => none
    | some (a1, es1) =>
      match insert_packets topo k a1 with
      | none => none
      | some (a2, es2) => some (a2, es1 ++ es2)

/-- An arbitrary content for the storage of an `AllToAll` before construction. -/
def sampleStorage : AllToAll :=
  { toRing := Ring.sampleStorage, middle_point := 21 }

end AllToAll

end AstraSim

namespace Ns3Frontend

/-! ## The receiving side of the ns3 frontend as a sequence of calls -/

/-- One call at the receiving side of the ns3 frontend: `sim_recv` on the network of rank
`rank`, or `notify_receiver_receive_data` for an arrival. -/
inductive RecvOp where
  | sim_recv (rank : Int) (message_size : Nat) (src_id tag : Int) (msg_handler fun_arg : Nat)
  | notify_receiver_receive_data (src_id dst_id message_size tag : Int)
  deriving DecidableEq, Repr

namespace RecvOp

/-- The key (tag, (src, dst)) that the call works on. -/
def key : RecvOp → MsgEventKey
  | sim_recv rank _ src_id tag _ _ => (tag, (src_id, rank))
  | notify_receiver_receive_data src_id dst_id _ tag => (tag, (src_id, dst_id))

/-- The number of bytes that the call requests or reports. -/
def size : RecvOp → Int
  | sim_recv _ message_size _ _ _ _ => (message_size : Int)
  | notify_receiver_receive_data _ _ message_size _ => message_size

/-- The bytes that the call requests on `k`: the size of a `sim_recv` on `k`, else 0. -/
def requested (k : MsgEventKey) (op : RecvOp) : Int :=
  match op with
  | sim_recv _ _ _ _ _ _ => if op.key = k then op.size else 0
  | notify_receiver_receive_data _ _ _ _ => 0

/-- The bytes that the call reports as arrived on `k`. -/
def arrived (k : MsgEventKey) (op : RecvOp) : Int :=
  match op with
  | sim_recv _ _ _ _ _ _ => 0
  | notify_receiver_receive_data _ _ _ _ => if op.key = k then op.size else 0

end RecvOp

namespace Ns3State

/-- The state after one call. -/
def step (st : Ns3State) : RecvOp → Ns3State
  | RecvOp.sim_recv rank message_size src_id tag msg_handler fun_arg =>
    st.sim_recv rank message_size src_id tag msg_handler fun_arg
  | RecvOp.notify_receiver_receive_data src_id dst_id message_size tag =>
    st.notify_receiver_receive_data src_id dst_id message_size tag

/-- The state after a sequence of calls, in order. -/
def run (st : Ns3State) (ops : List RecvOp) : Ns3State :=
  ops.foldl step st

/-- The standby bytes of a key, an absent entry counting as 0. -/
def standbyBytes (st : Ns3State) (k : MsgEventKey) : Int :=
  (st.received_msg_standby_hash.find k).getD 0

/-- The remaining bytes of the waiting recv of a key, an absent entry counting as 0. -/
def waitingBytes (st : Ns3State) (k : MsgEventKey) : Int :=
  ((st.sim_recv_waiting_hash.find k).map MsgEvent.remaining_msg_bytes).getD 0

end Ns3State

/-- The sum of the bytes requested on `k` by a sequence of calls. -/
def requestedOn (k : MsgEventKey) (ops : List RecvOp) : Int :=
  (ops.map (RecvOp.requested k)).sum

/-- The sum of the bytes reported as arrived on `k` by a sequence of calls. -/
def arrivedOn (k : MsgEventKey) (ops : List RecvOp) : Int :=
  (ops.map (RecvOp.arrived k)).sum

/-- The bytes arrived on `k` minus the bytes requested on `k` by a sequence of calls. -/
def balanceOn (k : MsgEventKey) (ops : List RecvOp) : Int :=
  arrivedOn k ops - requestedOn k ops

/-- The byte balance of the key `k` in a state, for `balance` = the bytes arrived on `k`
minus the bytes requested on `k`: the key is not in both maps, the stored counts are
positive, and `balance` is the standby count minus the waiting count. -/
def Ns3State.Balance (st : Ns3State) (k : MsgEventKey) (balance : Int) : Prop :=
  (st.sim_recv_waiting_hash.find k = none ∨ st.received_msg_standby_hash.find k = none) ∧
  (∀ e, st.sim_recv_waiting_hash.find k = some e → 0 < e.remaining_msg_bytes) ∧
  (∀ s, st.received_msg_standby_hash.find k = some s → 0 < s) ∧
  balance = st.standbyBytes k - st.waitingBytes k

/-- All sizes of the sequence are positive. -/
def PositiveSizes (ops : List RecvOp) : Bool :=
  ops.all (fun (op : RecvOp) => decide (0 < op.size))

/-- Every byte count that the run has to store fits `int`: after every prefix of the
sequence, for every key of the sequence, the bytes arrived on the key and the bytes
requested on it differ by less than `2^31`; that difference is the standby count of the key
or, negated, the remaining count of its waiting recv. -/
def CountsFitInt (ops : List RecvOp) : Bool :=
  ops.inits.all (fun (p : List RecvOp) =>
    ops.all (fun (op : RecvOp) =>
      decide (-(2 ^ 31) < balanceOn op.key p ∧ balanceOn op.key p < 2 ^ 31)))

end Ns3Frontend

namespace AstraSim

/-! ## `astra-sim/system/collective/AllToAll.cc`: `run` -/

/-- The loop `for (int i = 0; i < parallel_reduce; i++) ready();` of `AllToAll::run`, for
the number of iterations left (`ready` does not write `parallel_reduce`): the ring after
the loop and the sends and recvs issued, in order. -/
def Ring.readys : Nat → Ring → Ring × List RingEffect
  | 0, r => (r, [])
  | k + 1, r =>
    ((Ring.readys k (Ring.ready r).2.1).1,
      (Ring.ready r).2.2 ++ (Ring.readys k (Ring.ready r).2.1).2)

/-- The method `AllToAll::run(event, data)` (AllToAll.cc, lines 47-74): the object after
the call and the calls made, in order; `none` is `Sys::sys_panic`.  `ready`, `iteratable`
and the functions below them are not virtual and call no virtual function: they are those
of `Ring`. -/
def AllToAll.run (topo : RingTopology) (a : AllToAll) (event : EventType) :
    Option (AllToAll × List RingEffect) :=
  if event = EventType.General then
    let a1 : AllToAll := { a with free_packets := a.free_packets + 1 }
    if a1.comType = ComType.All_Reduce ∧ a1.stream_count ≤ a1.middle_point then
      if a1.total_packets_received < a1.middle_point then some (a1, [])
      else
        some ({ a1 with
                toRing :=
                  (Ring.iteratable (Ring.readys a1.parallel_reduce.toNat a1.toRing).1).2.1 },
          (Ring.readys a1.parallel_reduce.toNat a1.toRing).2 ++
            (Ring.iteratable (Ring.readys a1.parallel_reduce.toNat a1.toRing).1).2.2)
    else
      some ({ a1 with toRing := (Ring.iteratable (Ring.ready a1.toRing).2.1).2.1 },
        (Ring.ready a1.toRing).2.2 ++ (Ring.iteratable (Ring.ready a1.toRing).2.1).2.2)
  else if event = EventType.PacketReceived then
    AllToAll.insert_packet topo
      { a with total_packets_received := a.total_packets_received + 1 }
  else if event = EventType.StreamInit then
    AllToAll.insert_packets topo a.parallel_reduce.toNat a
  else some (a, [])

/-! ## `astra-sim/system/collective/DoubleBinaryTreeAllReduce.cc`: the requests -/

/-- The `sim_request` of a send agrees with the arguments of `front_end_sim_send`:
`dstRank` is the destination rank, `srcRank` the id of the owner and `tag` the stream id
(the three fields are `uint32_t`), and the tag argument is the stream id.  Every other
call agrees trivially. -/
def TreeEffect.request_agrees (owner_id stream_id : Int) : TreeEffect → Bool
  | TreeEffect.front_end_sim_send _ dst tag req_srcRank req_dstRank req_tag _ =>
    decide (req_dstRank = intToUInt32 dst) && decide (req_srcRank = intToUInt32 owner_id) &&
      decide (req_tag = intToUInt32 stream_id) && decide (tag = stream_id)
  | _ => true

/-! ## `astra-sim/system/Usage.cc` and `astra-sim/system/UsageTracker.cc` -/

/-- The class `Usage`: the members that the constructor `Usage(level, start, end)` assigns
(Usage.cc), with the types of its parameters. -/
structure Usage where
  level : Int
  start : Nat
  end_ : Nat
  deriving DecidableEq, Repr

/-- The data members of `UsageTracker` (UsageTracker.hh); `Tick` is `unsigned long
long`. -/
structure UsageTracker where
  levels : Int
  current_level : Int
  last_tick : Nat
  usage : List Usage
  deriving DecidableEq, Repr

namespace UsageTracker

/-- The constructor `UsageTracker(levels)`. -/
def ctor (levels : Int) : UsageTracker :=
  { levels := levels, current_level := 0, last_tick := 0, usage := [] }

/-- The method `increase_usage()`; `now` is the value of `Sys::boostedTick()`. -/
def increase_usage (now : Nat) (t : UsageTracker) : UsageTracker :=
  if t.current_level < t.levels - 1 then
    { t with
      usage := t.usage ++ [{ level := t.current_level, start := t.last_tick, end_ := now }]
      current_level := t.current_level + 1
      last_tick := now }
  else t

/-- The method `decrease_usage()`. -/
def decrease_usage (now : Nat) (t : UsageTracker) : UsageTracker :=
  if t.current_level > 0 then
    { t with
      usage := t.usage ++ [{ level := t.current_level, start := t.last_tick, end_ := now }]
      current_level := t.current_level - 1
      last_tick := now }
  else t

/-- The method `set_usage(level)`. -/
def set_usage (now : Nat) (t : UsageTracker) (level : Int) : UsageTracker :=
  if t.current_level ≠ level then
    { t with
      usage := t.usage ++ [{ level := t.current_level, start := t.last_tick, end_ := now }]
      current_level := level
      last_tick := now }
  else t

/-- The loop of `report_percentage` (UsageTracker.cc, lines 102-121) from the entry that
`usage_pointer` points to: the result list collected from here on.  An entry of the
result is `(period_end, current_activity)`: the percentage that the code stores is the
`double` value `current_activity / total_activity_possible * 100`.  All counters are
`uint64_t`.  A failed `assert(begin <= end)` is `Stop.assertion`; every iteration uses one
unit of `fuel`, and `Stop.nontermination` is returned when it is used up. -/
def report_loop (cycles : Nat) :
    Nat → List Usage → Nat → Nat → Nat → Except Stop (List (Nat × Nat))
  | 0, _, _, _, _ => Except.error Stop.nontermination
  | _ + 1, [], _, _, _ => Except.ok []
  | fuel + 1, current_usage :: rest, current_activity, period_start, period_end =>
    let begin_ := max period_start current_usage.start
    let end_ := min period_end current_usage.end_
    if begin_ ≤ end_ then
      let activity :=
        (current_activity + ((end_ - begin_) * intToUInt64 current_usage.level) % 2 ^ 64) % 2 ^ 64
      if current_usage.end_ ≥ period_end then
        match report_loop cycles fuel (current_usage :: rest) 0
            ((period_start + cycles) % 2 ^ 64) ((period_end + cycles) % 2 ^ 64) with
        | Except.error e => Except.error e
        | Except.ok result => Except.ok ((period_end, activity) :: result)
      else report_loop cycles fuel rest activity period_start period_end
    else Except.error Stop.assertion

/-- The method `report_percentage(cycles)`: the tracker after the call and the result. -/
def report_percentage (now : Nat) (cycles : Nat) (fuel : Nat) (t : UsageTracker) :
    Except Stop (UsageTracker × List (Nat × Nat)) :=
  let t1 := increase_usage now (decrease_usage now t)
  match report_loop cycles fuel t1.usage 0 0 (cycles % 2 ^ 64) with
  | Except.error e => Except.error e
  | Except.ok result => Except.ok (t1, result)

end UsageTracker

end AstraSim

/-! # Theorems -/

namespace AstraSim

/-- Conversion of a non-negative `int` to `uint64_t` keeps the value. -/
theorem intToUInt64_natCast (n : Nat) (h : n < 2 ^ 64) : intToUInt64 (n : Int) = n := by
  unfold intToUInt64
  have h1 : ((n : Int) % (2 ^ 64 : Int)) = (n : Int) := by
    apply Int.emod_eq_of_lt
    · exact Int.natCast_nonneg n
    · exact_mod_cast h
  rw [h1]
  simp

/-! ## Ring constructor -/

/-- The `int` computation `((n - 1) * n) / 2` for n = m + 1, as a natural number. -/
theorem tdiv_pairs (m : Nat) :
    Int.tdiv ((((m + 1 : Nat) : Int) - 1) * ((m + 1 : Nat) : Int)) 2
      = (((m + 1) * (m + 1 - 1) / 2 : Nat) : Int) := by
  have h1 : (((m + 1 : Nat) : Int) - 1) * ((m + 1 : Nat) : Int)
      = (((m + 1) * (m + 1 - 1) : Nat) : Int) := by
    push_cast
    simp
    ring
  rw [h1, Int.tdiv_eq_ediv (Int.natCast_nonneg _) (by decide)]
  norm_cast


/-- A value in the range of `int` is kept by the reduction to 32 bits. -/
theorem int32_of_range (x : Int) (h1 : -(2 ^ 31) ≤ x) (h2 : x < 2 ^ 31) : int32 x = x := by
  unfold int32
  omega

/-- Counterexample to C9: for a ring of 46342 ranks the product `(n - 1) * n` is
2147534622, above the largest `int`; computed in 32 bits the All_to_All `stream_count` is
-1073716337, not n(n-1)/2 = 1073767311.  For a ring of 2^30 + 1 ranks the All_Reduce
`stream_count` `2 * (n - 1)` computed in 32 bits is -2147483648, not 2(n-1) = 2147483648. -/
theorem ring_ctor_stream_count_counterexample :
    Ring.stream_count_int32 ComType.All_to_All 46342 = -1073716337 ∧
    Ring.stream_count_int32 ComType.All_to_All 46342
      ≠ ((46342 * (46342 - 1) / 2 : Nat) : Int) ∧
    Ring.stream_count_int32 ComType.All_Reduce 1073741825 = -2147483648 ∧
    Ring.stream_count_int32 ComType.All_Reduce 1073741825
      ≠ ((2 * (1073741825 - 1) : Nat) : Int) := by
  decide

/-- C9 (amended): for every ring size n >= 1 (an `int`) the Ring constructor sets
`stream_count` to n-1 for All_Gather and for Reduce_Scatter, to 2(n-1) for All_Reduce when
n <= 2^30, and to n(n-1)/2 for All_to_All when n <= 46341.  For these sizes no `int`
operation of the computation overflows: the value computed in 32 bits is the same. -/
theorem ring_ctor_stream_count (n : Nat) (hn : 1 ≤ n) (hn31 : n < 2 ^ 31) (storage : Ring)
    (id : Int) (topo : RingTopology) (htopo : topo.get_nodes_in_ring = (n : Int))
    (data_size : Nat) (direction : Direction) (policy : InjectionPolicy) :
    (n ≤ 2 ^ 30 →
      (Ring.ctor storage ComType.All_Reduce id topo data_size direction policy).stream_count
          = ((2 * (n - 1) : Nat) : Int) ∧
      Ring.stream_count_int32 ComType.All_Reduce (n : Int) = ((2 * (n - 1) : Nat) : Int)) ∧
    ((Ring.ctor storage ComType.All_Gather id topo data_size direction policy).stream_count
        = ((n - 1 : Nat) : Int) ∧
      Ring.stream_count_int32 ComType.All_Gather (n : Int) = ((n - 1 : Nat) : Int)) ∧
    ((Ring.ctor storage ComType.Reduce_Scatter id topo data_size direction policy).stream_count
        = ((n - 1 : Nat) : Int) ∧
      Ring.stream_count_int32 ComType.Reduce_Scatter (n : Int) = ((n - 1 : Nat) : Int)) ∧
    (n ≤ 46341 →
      (Ring.ctor storage ComType.All_to_All id topo data_size direction policy).stream_count
          = ((n * (n - 1) / 2 : Nat) : Int) ∧
      Ring.stream_count_int32 ComType.All_to_All (n : Int)
          = ((n * (n - 1) / 2 : Nat) : Int)) := by
  obtain ⟨m, rfl⟩ : ∃ m, n = m + 1 := ⟨n - 1, by omega⟩
  have hsub : (((m + 1 : Nat) : Int) - 1) = (m : Int) := by push_cast; ring
  have h1 : int32 (((m + 1 : Nat) : Int) - 1) = (m : Int) := by
    rw [hsub]
    exact int32_of_range _ (by omega) (by omega)
  refine ⟨?_, ⟨?_, ?_⟩, ⟨?_, ?_⟩, ?_⟩
  · intro h30
    refine ⟨?_, ?_⟩
    · simp [Ring.ctor, Ring.ctor_stream_count, Ring.ctor_max_count, Ring.ctor_sizes, htopo]
    · simp only [Ring.stream_count_int32, h1]
      rw [int32_of_range _ (by omega) (by omega)]
      simp
  · simp [Ring.ctor, Ring.ctor_stream_count, Ring.ctor_max_count, Ring.ctor_sizes, htopo]
  · simp only [Ring.stream_count_int32, h1]
    simp
  · simp [Ring.ctor, Ring.ctor_stream_count, Ring.ctor_max_count, Ring.ctor_sizes, htopo]
  · simp only [Ring.stream_count_int32, h1]
    simp
  · intro hb
    refine ⟨?_, ?_⟩
    · cases policy <;>
        simpa [Ring.ctor, Ring.ctor_stream_count, Ring.ctor_max_count, Ring.ctor_sizes, htopo]
          using tdiv_pairs m
    · have hm : (m : Int) ≤ 46340 := by omega
      have hm1 : ((m + 1 : Nat) : Int) ≤ 46341 := by omega
      have hprod0 : 0 ≤ (m : Int) * ((m + 1 : Nat) : Int) :=
        Int.mul_nonneg (by omega) (by omega)
      have hprod : (m : Int) * ((m + 1 : Nat) : Int) ≤ 46340 * 46341 :=
        Int.mul_le_mul hm hm1 (by omega) (by omega)
      simp only [Ring.stream_count_int32, h1]
      rw [int32_of_range _ (by omega) (by omega), ← hsub]
      exact tdiv_pairs m

/-- Witness of C9 (amended): a ring of 4 ranks. -/
theorem ring_ctor_stream_count_witness :
    (Ring.ctor Ring.sampleStorage ComType.All_Reduce 0 (RingTopology.ofSize 4 Dimension.Local)
        4096 Direction.Clockwise InjectionPolicy.Normal).stream_count = 6 ∧
    (Ring.ctor Ring.sampleStorage ComType.All_Gather 0 (RingTopology.ofSize 4 Dimension.Local)
        4096 Direction.Clockwise InjectionPolicy.Normal).stream_count = 3 ∧
    (Ring.ctor Ring.sampleStorage ComType.Reduce_Scatter 0
        (RingTopology.ofSize 4 Dimension.Local)
        4096 Direction.Clockwise InjectionPolicy.Normal).stream_count = 3 ∧
    (Ring.ctor Ring.sampleStorage ComType.All_to_All 0 (RingTopology.ofSize 4 Dimension.Local)
        4096 Direction.Clockwise InjectionPolicy.Normal).stream_count = 6 :=
  ⟨((ring_ctor_stream_count 4 (by decide) (by decide) Ring.sampleStorage 0
      (RingTopology.ofSize 4 Dimension.Local) rfl 4096 Direction.Clockwise
      InjectionPolicy.Normal).1 (by decide)).1,
   (ring_ctor_stream_count 4 (by decide) (by decide) Ring.sampleStorage 0
      (RingTopology.ofSize 4 Dimension.Local) rfl 4096 Direction.Clockwise
      InjectionPolicy.Normal).2.1.1,
   (ring_ctor_stream_count 4 (by decide) (by decide) Ring.sampleStorage 0
      (RingTopology.ofSize 4 Dimension.Local) rfl 4096 Direction.Clockwise
      InjectionPolicy.Normal).2.2.1.1,
   ((ring_ctor_stream_count 4 (by decide) (by decide) Ring.sampleStorage 0
      (RingTopology.ofSize 4 Dimension.Local) rfl 4096 Direction.Clockwise
      InjectionPolicy.Normal).2.2.2 (by decide)).1⟩

/-- C10: for every ring size n >= 1 (an `int`) and unsigned 64-bit `data_size` S, the Ring
constructor sets (msg_size, final_data_size) to (S div n, S) for All_Reduce,
(S, S*n mod 2^64) for All_Gather, (S div n, S div n) for Reduce_Scatter and (S div n, S)
for All_to_All, with div the truncating integer division. -/
theorem ring_ctor_sizes (n : Nat) (hn : 1 ≤ n) (hn31 : n < 2 ^ 31) (S : Nat)
    (storage : Ring) (id : Int) (topo : RingTopology)
    (htopo : topo.get_nodes_in_ring = (n : Int)) (direction : Direction)
    (policy : InjectionPolicy) :
    ((Ring.ctor storage ComType.All_Reduce id topo S direction policy).msg_size = S / n ∧
     (Ring.ctor storage ComType.All_Reduce id topo S direction policy).final_data_size = S) ∧
    ((Ring.ctor storage ComType.All_Gather id topo S direction policy).msg_size = S ∧
     (Ring.ctor storage ComType.All_Gather id topo S direction policy).final_data_size
        = (S * n) % 2 ^ 64) ∧
    ((Ring.ctor storage ComType.Reduce_Scatter id topo S direction policy).msg_size = S / n ∧
     (Ring.ctor storage ComType.Reduce_Scatter id topo S direction policy).final_data_size
        = S / n) ∧
    ((Ring.ctor storage ComType.All_to_All id topo S direction policy).msg_size = S / n ∧
     (Ring.ctor storage ComType.All_to_All id topo S direction policy).final_data_size = S) := by
  have hconv : intToUInt64 (n : Int) = n := intToUInt64_natCast n (by omega)
  refine ⟨?_, ?_, ?_, ?_⟩
  · simp [Ring.ctor, Ring.ctor_stream_count, Ring.ctor_max_count, Ring.ctor_sizes, htopo, hconv]
  · simp [Ring.ctor, Ring.ctor_stream_count, Ring.ctor_max_count, Ring.ctor_sizes, htopo, hconv]
  · simp [Ring.ctor, Ring.ctor_stream_count, Ring.ctor_max_count, Ring.ctor_sizes, htopo, hconv]
  · cases policy <;>
      simp [Ring.ctor, Ring.ctor_stream_count, Ring.ctor_max_count, Ring.ctor_sizes, htopo,
        hconv]

/-- Witness of C10: a 4-rank Reduce-Scatter with S = 4096 has msg_size = 1024 and
final_data_size = 1024. -/
theorem ring_ctor_sizes_witness :
    (Ring.ctor Ring.sampleStorage ComType.Reduce_Scatter 0
        (RingTopology.ofSize 4 Dimension.Local) 4096 Direction.Clockwise
        InjectionPolicy.Normal).msg_size = 1024 ∧
    (Ring.ctor Ring.sampleStorage ComType.Reduce_Scatter 0
        (RingTopology.ofSize 4 Dimension.Local) 4096 Direction.Clockwise
        InjectionPolicy.Normal).final_data_size = 1024 := by
  have h := (ring_ctor_sizes 4 (by decide) (by decide) 4096 Ring.sampleStorage 0
    (RingTopology.ofSize 4 Dimension.Local) rfl Direction.Clockwise
    InjectionPolicy.Normal).2.2.1
  simpa using h

/-! ## Hardware resource -/

/-- C7: `is_available(node)` is false if and only if the in-flight counter of the node's
class is non-zero and the node is not a non-CPU COMM_RECV node, the class being CPU for a
node with `is_cpu_op`, GPU compute for a non-CPU COMP node and GPU communication for every
other non-CPU node; a non-CPU COMM_RECV node is available in every state. -/
theorem is_available_false_iff (hw : HardwareResource) (node : ETFeederNode) :
    (hw.is_available node = false ↔
      (hw.inFlight node.resourceClass ≠ 0 ∧ node.isGpuRecv = false)) ∧
    hw.is_available { node with is_cpu_op := false, type := ChakraNodeType.COMM_RECV_NODE }
      = true ∧
    node.resourceClass =
      (if node.is_cpu_op = true then ResourceClass.cpu
       else if node.type = ChakraNodeType.COMP_NODE then ResourceClass.gpuComp
       else ResourceClass.gpuComm) := by
  refine ⟨?_, ?_, rfl⟩
  · cases hcpu : node.is_cpu_op <;> by_cases hcomp : node.type = ChakraNodeType.COMP_NODE <;>
      by_cases hrecv : node.type = ChakraNodeType.COMM_RECV_NODE <;>
      simp_all [HardwareResource.is_available, HardwareResource.inFlight,
        ETFeederNode.resourceClass, ETFeederNode.isGpuRecv]
  · simp [HardwareResource.is_available]

/-- C8: for every node other than a non-CPU COMM_RECV, `occupy(node)` fails its assertion
when the in-flight counter of the node's class is non-zero, and when that counter is 0 it
succeeds, leaves the counter at 1 and raises the cumulative count of the class by one (a
`uint64_t` increment); so it succeeds exactly when the counter was 0. -/
theorem occupy_succeeds_iff (hw : HardwareResource) (node : ETFeederNode)
    (hnode : node.isGpuRecv = false) :
    (hw.inFlight node.resourceClass ≠ 0 → hw.occupy node = none) ∧
    (hw.inFlight node.resourceClass = 0 →
      ∃ hw1, hw.occupy node = some hw1 ∧
        hw1.inFlight node.resourceClass = 1 ∧
        hw1.opCount node.resourceClass = (hw.opCount node.resourceClass + 1) % 2 ^ 64 ∧
        (hw.opCount node.resourceClass + 1 < 2 ^ 64 →
          hw1.opCount node.resourceClass = hw.opCount node.resourceClass + 1)) ∧
    ((hw.occupy node).isSome = true ↔ hw.inFlight node.resourceClass = 0) := by
  cases hcpu : node.is_cpu_op <;> by_cases hcomp : node.type = ChakraNodeType.COMP_NODE <;>
    by_cases hrecv : node.type = ChakraNodeType.COMM_RECV_NODE <;>
    by_cases h0 : hw.num_in_flight_cpu_ops = 0 <;>
    by_cases h1 : hw.num_in_flight_gpu_comp_ops = 0 <;>
    by_cases h2 : hw.num_in_flight_gpu_comm_ops = 0 <;>
    simp_all [HardwareResource.occupy, HardwareResource.inFlight, HardwareResource.opCount,
      ETFeederNode.resourceClass, ETFeederNode.isGpuRecv]

/-- Witness of C8: a GPU compute node on a freshly constructed resource, and on the
resource it has just occupied. -/
theorem occupy_succeeds_iff_witness :
    (∃ hw1, (HardwareResource.ctor 8).occupy ⟨1, false, ChakraNodeType.COMP_NODE⟩ = some hw1 ∧
      hw1.num_in_flight_gpu_comp_ops = 1 ∧ hw1.num_gpu_ops = 1 ∧
      hw1.occupy ⟨2, false, ChakraNodeType.COMP_NODE⟩ = none) := by
  have h := occupy_succeeds_iff (HardwareResource.ctor 8) ⟨1, false, ChakraNodeType.COMP_NODE⟩ rfl
  obtain ⟨hw1, h1, h2, h3, _⟩ := h.2.1 rfl
  refine ⟨hw1, h1, h2, h3, ?_⟩
  have h' := occupy_succeeds_iff hw1 ⟨2, false, ChakraNodeType.COMP_NODE⟩ rfl
  exact h'.1 (by
    have : hw1.inFlight ResourceClass.gpuComp = 1 := h2
    show hw1.inFlight ResourceClass.gpuComp ≠ 0
    omega)

/-- One disciplined operation on a state satisfying the invariant succeeds and keeps the
invariant. -/
theorem hwInv_step (hw : HardwareResource) (occ : Occupants) (op : HwOp)
    (hinv : HwInv hw occ)
    (hop : match op with
      | HwOp.occupy node => hw.is_available node = true
      | HwOp.release node => node.isGpuRecv = true ∨ occ node.resourceClass = some node) :
    ∃ hw1, hw.step op = some hw1 ∧ HwInv hw1 (occ.step op) := by
  have hcpu := hinv ResourceClass.cpu
  have hcomp := hinv ResourceClass.gpuComp
  have hcomm := hinv ResourceClass.gpuComm
  cases op with
  | occupy node =>
    cases hc : node.is_cpu_op <;> by_cases hcmp : node.type = ChakraNodeType.COMP_NODE <;>
      by_cases hrecv : node.type = ChakraNodeType.COMM_RECV_NODE <;>
      simp_all [HardwareResource.step, HardwareResource.occupy, HardwareResource.is_available,
        HardwareResource.inFlight, ETFeederNode.resourceClass, ETFeederNode.isGpuRecv,
        Occupants.step, HwInv] <;>
      (intro c; cases c <;> simp_all [HardwareResource.inFlight])
  | release node =>
    cases hc : node.is_cpu_op <;> by_cases hcmp : node.type = ChakraNodeType.COMP_NODE <;>
      by_cases hrecv : node.type = ChakraNodeType.COMM_RECV_NODE <;>
      simp_all [HardwareResource.step, HardwareResource.release, HardwareResource.dec32,
        HardwareResource.inFlight, ETFeederNode.resourceClass, ETFeederNode.isGpuRecv,
        Occupants.step, HwInv] <;>
      (intro c; cases c <;> simp_all [HardwareResource.inFlight])

/-- Resource exclusivity from any state that satisfies the invariant. -/
theorem exclusive_of_inv (ops : List HwOp) :
    ∀ (hw : HardwareResource) (occ : Occupants), HwInv hw occ → Disciplined hw occ ops →
      ∀ pre, pre <+: ops → ∃ hw1, hw.run pre = some hw1 ∧ hw1.Exclusive := by
  induction ops with
  | nil =>
    intro hw occ hinv _ pre hpre
    have : pre = [] := List.prefix_nil.mp hpre
    subst this
    exact ⟨hw, rfl, fun c => (hinv c).1⟩
  | cons op ops ih =>
    intro hw occ hinv hd pre hpre
    cases pre with
    | nil => exact ⟨hw, rfl, fun c => (hinv c).1⟩
    | cons a pre1 =>
      have hcons := List.cons_prefix_cons.mp hpre
      obtain ⟨rfl, hpre1⟩ := hcons
      obtain ⟨hw1, hstep, hinv1⟩ := hwInv_step hw occ a hinv hd.1
      have hd2 := hd.2
      rw [hstep] at hd2
      obtain ⟨hw2, hrun, hex⟩ := ih hw1 (occ.step a) hinv1 hd2 pre1 hpre1
      exact ⟨hw2, by simp [HardwareResource.run, hstep, hrun], hex⟩

/-- C6: starting from a freshly constructed HardwareResource, for every sequence of
operations in which `occupy(node)` is performed only when `is_available(node)` is true and
`release(node)` only for a node that currently occupies its class, no assertion of
`occupy` or `release` fails and each of the three in-flight counters is 0 or 1 after
every operation (after every prefix of the sequence). -/
theorem resource_exclusivity (num_npus : Nat) (ops : List HwOp)
    (hd : Disciplined (HardwareResource.ctor num_npus) (fun _ => none) ops) :
    ∀ pre, pre <+: ops →
      ∃ hw, (HardwareResource.ctor num_npus).run pre = some hw ∧
        (hw.num_in_flight_cpu_ops = 0 ∨ hw.num_in_flight_cpu_ops = 1) ∧
        (hw.num_in_flight_gpu_comp_ops = 0 ∨ hw.num_in_flight_gpu_comp_ops = 1) ∧
        (hw.num_in_flight_gpu_comm_ops = 0 ∨ hw.num_in_flight_gpu_comm_ops = 1) := by
  intro pre hpre
  have hinv : HwInv (HardwareResource.ctor num_npus) (fun _ => none) := by
    intro c
    cases c <;> simp [HardwareResource.inFlight, HardwareResource.ctor]
  obtain ⟨hw, hrun, hex⟩ :=
    exclusive_of_inv ops (HardwareResource.ctor num_npus) (fun _ => none) hinv hd pre hpre
  exact ⟨hw, hrun, hex ResourceClass.cpu, hex ResourceClass.gpuComp, hex ResourceClass.gpuComm⟩

/-- Witness of C6: the sample sequence is disciplined, and after all of it the counters
are 0 or 1. -/
theorem resource_exclusivity_witness :
    Disciplined (HardwareResource.ctor 8) (fun _ => none) sampleHwOps ∧
    ∃ hw, (HardwareResource.ctor 8).run sampleHwOps = some hw ∧
      (hw.num_in_flight_cpu_ops = 0 ∨ hw.num_in_flight_cpu_ops = 1) ∧
      (hw.num_in_flight_gpu_comp_ops = 0 ∨ hw.num_in_flight_gpu_comp_ops = 1) ∧
      (hw.num_in_flight_gpu_comm_ops = 0 ∨ hw.num_in_flight_gpu_comm_ops = 1) := by
  have hd : Disciplined (HardwareResource.ctor 8) (fun _ => none) sampleHwOps := by
    simp [Disciplined, sampleHwOps, HardwareResource.step, HardwareResource.occupy,
      HardwareResource.release, HardwareResource.is_available, HardwareResource.ctor,
      HardwareResource.dec32, Occupants.step, ETFeederNode.isGpuRecv,
      ETFeederNode.resourceClass]
  exact ⟨hd, resource_exclusivity 8 sampleHwOps hd sampleHwOps (List.prefix_refl _)⟩

end AstraSim

namespace AstraSimAnalytical

/-! ## Association lists -/

namespace Map

variable {κ ν : Type} [DecidableEq κ]

/-- Lookup after a write through the entry of `k`. -/
theorem find_set (m : Map κ ν) (k k1 : κ) (v : ν) :
    (m.set k v).find k1 = if k1 = k then (m.find k).map (fun _ => v) else m.find k1 := by
  induction m with
  | nil => simp [set, find]
  | cons p rest ih =>
    obtain ⟨k0, v0⟩ := p
    by_cases h1 : k0 = k <;> by_cases h2 : k1 = k
    · subst h1; subst h2; simp [find, set]
    · subst h1
      have : ¬ k0 = k1 := fun h => h2 h.symm
      simp [find, set, this, h2]
    · subst h2
      simp [find, set, h1, ih]
    · by_cases h3 : k0 = k1
      · subst h3; simp [find, set, h1]
      · simp [find, set, h1, h3, ih, h2]

/-- A key that is not among the keys is not found. -/
theorem find_eq_none_of_not_mem (m : Map κ ν) (k : κ) (h : k ∉ m.map Prod.fst) :
    m.find k = none := by
  induction m with
  | nil => rfl
  | cons p rest ih =>
    obtain ⟨k0, v0⟩ := p
    simp only [List.map_cons, List.mem_cons, not_or] at h
    have h0 : ¬ k0 = k := fun e => h.1 e.symm
    simp [find, h0, ih h.2]

/-- A key that is found is among the keys. -/
theorem mem_keys_of_find (m : Map κ ν) (k : κ) (v : ν) (h : m.find k = some v) :
    k ∈ m.map Prod.fst := by
  by_contra hk
  rw [find_eq_none_of_not_mem m k hk] at h
  cases h

/-- Lookup after the removal of the entry of `k`. -/
theorem find_erase (m : Map κ ν) (k k1 : κ) (hm : m.NodupKeys) :
    (m.erase k).find k1 = if k1 = k then none else m.find k1 := by
  induction m with
  | nil => simp [erase, find]
  | cons p rest ih =>
    obtain ⟨k0, v0⟩ := p
    have hnd : k0 ∉ rest.map Prod.fst ∧ NodupKeys rest := by
      simpa [NodupKeys] using hm
    by_cases h1 : k0 = k
    · subst h1
      by_cases h2 : k1 = k0
      · subst h2; simp [erase, find_eq_none_of_not_mem rest k1 hnd.1]
      · have : ¬ k0 = k1 := fun h => h2 h.symm
        simp [erase, h2, find, this]
    · by_cases h2 : k1 = k
      · subst h2
        simp [erase, h1, find, ih hnd.2]
      · by_cases h3 : k0 = k1
        · subst h3; simp [erase, h1, find]
        · simp [erase, h1, find, h3, ih hnd.2, h2]

/-- Lookup after the insertion of a key that was absent. -/
theorem find_emplace (m : Map κ ν) (k k1 : κ) (v : ν) (h : m.find k = none) :
    (m.emplace k v).find k1 = if k1 = k then some v else m.find k1 := by
  by_cases h2 : k1 = k
  · subst h2; simp [emplace, h, find]
  · have : ¬ k = k1 := fun h' => h2 h'.symm
    simp [emplace, h, find, h2, this]

/-- The keys after a write are the keys before. -/
theorem keys_set (m : Map κ ν) (k : κ) (v : ν) :
    (m.set k v).map Prod.fst = m.map Prod.fst := by
  induction m with
  | nil => rfl
  | cons p rest ih =>
    obtain ⟨k0, v0⟩ := p
    by_cases h1 : k0 = k
    · simp [set, h1]
    · simp [set, h1, ih]

/-- A write keeps the keys pairwise different. -/
theorem nodupKeys_set (m : Map κ ν) (k : κ) (v : ν) (hm : m.NodupKeys) :
    (m.set k v).NodupKeys := by
  unfold NodupKeys
  rw [keys_set]
  exact hm

/-- The keys after a removal are among the keys before. -/
theorem keys_erase_sublist (m : Map κ ν) (k : κ) :
    ((m.erase k).map Prod.fst).Sublist (m.map Prod.fst) := by
  induction m with
  | nil => simp [erase]
  | cons p rest ih =>
    obtain ⟨k0, v0⟩ := p
    by_cases h1 : k0 = k
    · simp [erase, h1]
    · simp [erase, h1, ih]

/-- A removal keeps the keys pairwise different. -/
theorem nodupKeys_erase (m : Map κ ν) (k : κ) (hm : m.NodupKeys) :
    (m.erase k).NodupKeys :=
  List.Nodup.sublist (keys_erase_sublist m k) hm

/-- An insertion keeps the keys pairwise different. -/
theorem nodupKeys_emplace (m : Map κ ν) (k : κ) (v : ν) (hm : m.NodupKeys) :
    (m.emplace k v).NodupKeys := by
  unfold emplace
  cases h : m.find k with
  | some e => simpa using hm
  | none =>
    simp only [NodupKeys, List.map_cons, List.nodup_cons]
    refine ⟨?_, hm⟩
    intro hk
    obtain ⟨p, hp, hpk⟩ := List.mem_map.mp hk
    clear hm
    induction m with
    | nil => cases hp
    | cons q rest ih =>
      obtain ⟨k0, v0⟩ := q
      by_cases h0 : k0 = k
      · simp [find, h0] at h
      · simp only [find, h0, if_false] at h
        rcases List.mem_cons.mp hp with hq | hq
        · subst hq; exact h0 hpk
        · exact ih h (List.mem_map.mpr ⟨p, hq, hpk⟩) hq

/-- A map in which no key is found is empty. -/
theorem eq_nil_of_find_none (m : Map κ ν) (h : ∀ k, m.find k = none) : m = [] := by
  cases m with
  | nil => rfl
  | cons p rest =>
    obtain ⟨k0, v0⟩ := p
    have := h k0
    simp [find] at this

end Map


/-! ## Chunk ids -/

/-- The freshly constructed generator is well formed. -/
theorem ChunkIdGenerator.wf_ctor : ChunkIdGenerator.ctor.Wf := by
  intro key e h
  simp [ChunkIdGenerator.ctor, Map.find] at h

/-- The result of `create_send_chunk_id` on a stream without an entry. -/
theorem ChunkIdGenerator.create_send_chunk_id_none (g : ChunkIdGenerator) (tag src dest : Int)
    (size : Nat) (hok : args_ok tag src dest size = true)
    (hfind : g.chunk_id_map.find (tag, src, dest, size) = none) :
    g.create_send_chunk_id tag src dest size
      = some ({ chunk_id_map :=
          (Map.set (g.chunk_id_map.emplace (tag, src, dest, size) ChunkIdGeneratorEntry.ctor)
            (tag, src, dest, size) ⟨0, -1⟩) }, 0) := by
  simp [ChunkIdGenerator.create_send_chunk_id, hok, hfind, Map.find_emplace,
    ChunkIdGeneratorEntry.ctor, ChunkIdGeneratorEntry.increment_send_id,
    ChunkIdGeneratorEntry.get_send_id]

/-- The result of `create_send_chunk_id` on a stream with an entry. -/
theorem ChunkIdGenerator.create_send_chunk_id_some (g : ChunkIdGenerator) (tag src dest : Int)
    (size : Nat) (hok : args_ok tag src dest size = true) (e : ChunkIdGeneratorEntry)
    (hfind : g.chunk_id_map.find (tag, src, dest, size) = some e) (he : -1 ≤ e.send_id) :
    g.create_send_chunk_id tag src dest size
      = some ({ chunk_id_map :=
          g.chunk_id_map.set (tag, src, dest, size) ⟨e.send_id + 1, e.recv_id⟩ },
          e.send_id + 1) := by
  have hpos : 0 ≤ e.send_id + 1 := by omega
  simp [ChunkIdGenerator.create_send_chunk_id, hok, hfind,
    ChunkIdGeneratorEntry.increment_send_id, ChunkIdGeneratorEntry.get_send_id, hpos]

/-- The result of `create_recv_chunk_id` on a stream without an entry. -/
theorem ChunkIdGenerator.create_recv_chunk_id_none (g : ChunkIdGenerator) (tag src dest : Int)
    (size : Nat) (hok : args_ok tag src dest size = true)
    (hfind : g.chunk_id_map.find (tag, src, dest, size) = none) :
    g.create_recv_chunk_id tag src dest size
      = some ({ chunk_id_map :=
          (Map.set (g.chunk_id_map.emplace (tag, src, dest, size) ChunkIdGeneratorEntry.ctor)
            (tag, src, dest, size) ⟨-1, 0⟩) }, 0) := by
  simp [ChunkIdGenerator.create_recv_chunk_id, hok, hfind, Map.find_emplace,
    ChunkIdGeneratorEntry.ctor, ChunkIdGeneratorEntry.increment_recv_id,
    ChunkIdGeneratorEntry.get_recv_id]

/-- The result of `create_recv_chunk_id` on a stream with an entry. -/
theorem ChunkIdGenerator.create_recv_chunk_id_some (g : ChunkIdGenerator) (tag src dest : Int)
    (size : Nat) (hok : args_ok tag src dest size = true) (e : ChunkIdGeneratorEntry)
    (hfind : g.chunk_id_map.find (tag, src, dest, size) = some e) (he : -1 ≤ e.recv_id) :
    g.create_recv_chunk_id tag src dest size
      = some ({ chunk_id_map :=
          g.chunk_id_map.set (tag, src, dest, size) ⟨e.send_id, e.recv_id + 1⟩ },
          e.recv_id + 1) := by
  have hpos : 0 ≤ e.recv_id + 1 := by omega
  simp [ChunkIdGenerator.create_recv_chunk_id, hok, hfind,
    ChunkIdGeneratorEntry.increment_recv_id, ChunkIdGeneratorEntry.get_recv_id, hpos]

/-- A call of `create_send_chunk_id` with admissible arguments on a well-formed generator
returns the number of earlier send calls on the stream, advances that count by one and
changes no other count. -/
theorem ChunkIdGenerator.create_send_chunk_id_spec (g : ChunkIdGenerator) (key : StreamKey)
    (hok : args_ok key.1 key.2.1 key.2.2.1 key.2.2.2 = true) (hwf : g.Wf) :
    ∃ g1, g.create_send_chunk_id key.1 key.2.1 key.2.2.1 key.2.2.2
        = some (g1, g.sendCount key) ∧ g1.Wf ∧
      (∀ k, g1.sendCount k = g.sendCount k + if k = key then 1 else 0) ∧
      (∀ k, g1.recvCount k = g.recvCount k) := by
  obtain ⟨tag, src, dest, size⟩ := key
  simp only at hok
  cases hfind : g.chunk_id_map.find (tag, src, dest, size) with
  | none =>
    have hc : g.sendCount (tag, src, dest, size) = 0 := by
      simp [ChunkIdGenerator.sendCount, hfind]
    rw [ChunkIdGenerator.create_send_chunk_id_none g tag src dest size hok hfind, hc]
    refine ⟨_, rfl, ?_, ?_, ?_⟩
    · intro k e hk
      simp only [Map.find_set, Map.find_emplace _ _ _ _ hfind] at hk
      by_cases hkk : k = (tag, src, dest, size)
      · simp [hkk] at hk
        subst hk
        simp
      · simp [hkk] at hk
        exact hwf k e hk
    · intro k
      by_cases hkk : k = (tag, src, dest, size)
      · subst hkk
        simp [ChunkIdGenerator.sendCount, Map.find_set, Map.find_emplace _ _ _ _ hfind, hfind]
      · simp [ChunkIdGenerator.sendCount, Map.find_set, Map.find_emplace _ _ _ _ hfind, hkk]
    · intro k
      by_cases hkk : k = (tag, src, dest, size)
      · subst hkk
        simp [ChunkIdGenerator.recvCount, Map.find_set, Map.find_emplace _ _ _ _ hfind, hfind]
      · simp [ChunkIdGenerator.recvCount, Map.find_set, Map.find_emplace _ _ _ _ hfind, hkk]
  | some e =>
    have he := hwf _ e hfind
    have hc : g.sendCount (tag, src, dest, size) = e.send_id + 1 := by
      simp [ChunkIdGenerator.sendCount, hfind]
    rw [ChunkIdGenerator.create_send_chunk_id_some g tag src dest size hok e hfind he.1, hc]
    refine ⟨_, rfl, ?_, ?_, ?_⟩
    · intro k e1 hk
      simp only [Map.find_set] at hk
      by_cases hkk : k = (tag, src, dest, size)
      · simp [hkk, hfind] at hk
        subst hk
        simp
        omega
      · simp [hkk] at hk
        exact hwf k e1 hk
    · intro k
      by_cases hkk : k = (tag, src, dest, size)
      · subst hkk
        simp [ChunkIdGenerator.sendCount, Map.find_set, hfind]
      · simp [ChunkIdGenerator.sendCount, Map.find_set, hkk]
    · intro k
      by_cases hkk : k = (tag, src, dest, size)
      · subst hkk
        simp [ChunkIdGenerator.recvCount, Map.find_set, hfind]
      · simp [ChunkIdGenerator.recvCount, Map.find_set, hkk]

/-- A call of `create_recv_chunk_id` with admissible arguments on a well-formed generator
returns the number of earlier recv calls on the stream, advances that count by one and
changes no other count. -/
theorem ChunkIdGenerator.create_recv_chunk_id_spec (g : ChunkIdGenerator) (key : StreamKey)
    (hok : args_ok key.1 key.2.1 key.2.2.1 key.2.2.2 = true) (hwf : g.Wf) :
    ∃ g1, g.create_recv_chunk_id key.1 key.2.1 key.2.2.1 key.2.2.2
        = some (g1, g.recvCount key) ∧ g1.Wf ∧
      (∀ k, g1.recvCount k = g.recvCount k + if k = key then 1 else 0) ∧
      (∀ k, g1.sendCount k = g.sendCount k) := by
  obtain ⟨tag, src, dest, size⟩ := key
  simp only at hok
  cases hfind : g.chunk_id_map.find (tag, src, dest, size) with
  | none =>
    have hc : g.recvCount (tag, src, dest, size) = 0 := by
      simp [ChunkIdGenerator.recvCount, hfind]
    rw [ChunkIdGenerator.create_recv_chunk_id_none g tag src dest size hok hfind, hc]
    refine ⟨_, rfl, ?_, ?_, ?_⟩
    · intro k e hk
      simp only [Map.find_set, Map.find_emplace _ _ _ _ hfind] at hk
      by_cases hkk : k = (tag, src, dest, size)
      · simp [hkk] at hk
        subst hk
        simp
      · simp [hkk] at hk
        exact hwf k e hk
    · intro k
      by_cases hkk : k = (tag, src, dest, size)
      · subst hkk
        simp [ChunkIdGenerator.recvCount, Map.find_set, Map.find_emplace _ _ _ _ hfind, hfind]
      · simp [ChunkIdGenerator.recvCount, Map.find_set, Map.find_emplace _ _ _ _ hfind, hkk]
    · intro k
      by_cases hkk : k = (tag, src, dest, size)
      · subst hkk
        simp [ChunkIdGenerator.sendCount, Map.find_set, Map.find_emplace _ _ _ _ hfind, hfind]
      · simp [ChunkIdGenerator.sendCount, Map.find_set, Map.find_emplace _ _ _ _ hfind, hkk]
  | some e =>
    have he := hwf _ e hfind
    have hc : g.recvCount (tag, src, dest, size) = e.recv_id + 1 := by
      simp [ChunkIdGenerator.recvCount, hfind]
    rw [ChunkIdGenerator.create_recv_chunk_id_some g tag src dest size hok e hfind he.2, hc]
    refine ⟨_, rfl, ?_, ?_, ?_⟩
    · intro k e1 hk
      simp only [Map.find_set] at hk
      by_cases hkk : k = (tag, src, dest, size)
      · simp [hkk, hfind] at hk
        subst hk
        simp
        omega
      · simp [hkk] at hk
        exact hwf k e1 hk
    · intro k
      by_cases hkk : k = (tag, src, dest, size)
      · subst hkk
        simp [ChunkIdGenerator.recvCount, Map.find_set, hfind]
      · simp [ChunkIdGenerator.recvCount, Map.find_set, hkk]
    · intro k
      by_cases hkk : k = (tag, src, dest, size)
      · subst hkk
        simp [ChunkIdGenerator.sendCount, Map.find_set, hfind]
      · simp [ChunkIdGenerator.sendCount, Map.find_set, hkk]


/-- A call with admissible arguments on a well-formed generator returns the number of
earlier calls of the same kind on the same stream, advances that count by one and changes
no other count. -/
theorem ChunkIdGenerator.call_spec (g : ChunkIdGenerator) (c : GenCall) (hok : c.ok = true)
    (hwf : g.Wf) :
    ∃ g1, g.call c = some (g1, g.count c) ∧ g1.Wf ∧
      ∀ c1, g1.count c1 = g.count c1 + if c1 = c then 1 else 0 := by
  cases c with
  | send key =>
    obtain ⟨g1, h1, h2, h3, h4⟩ := g.create_send_chunk_id_spec key hok hwf
    refine ⟨g1, h1, h2, ?_⟩
    intro c1
    cases c1 with
    | send k => simpa [ChunkIdGenerator.count] using h3 k
    | recv k => simpa [ChunkIdGenerator.count] using h4 k
  | recv key =>
    obtain ⟨g1, h1, h2, h3, h4⟩ := g.create_recv_chunk_id_spec key hok hwf
    refine ⟨g1, h1, h2, ?_⟩
    intro c1
    cases c1 with
    | send k => simpa [ChunkIdGenerator.count] using h4 k
    | recv k => simpa [ChunkIdGenerator.count] using h3 k

/-- A sequence of calls with admissible arguments on a well-formed generator succeeds, and
call number `i` returns the count the generator started with plus the number of identical
calls among the `i` earlier ones. -/
theorem ChunkIdGenerator.calls_spec (cs : List GenCall) :
    ∀ (g : ChunkIdGenerator), g.Wf → (∀ c ∈ cs, c.ok = true) →
      ∃ g1 ids, g.calls cs = some (g1, ids) ∧ ids.length = cs.length ∧
        ∀ i c, cs[i]? = some c → ids[i]? = some (g.count c + ((cs.take i).count c : Nat)) := by
  induction cs with
  | nil =>
    intro g _ _
    exact ⟨g, [], rfl, rfl, by simp⟩
  | cons c0 cs ih =>
    intro g hwf hok
    obtain ⟨g1, hcall, hwf1, hcount⟩ := g.call_spec c0 (hok c0 (List.mem_cons_self _ _)) hwf
    obtain ⟨g2, ids, hcalls, hlen, hids⟩ :=
      ih g1 hwf1 (fun c hc => hok c (List.mem_cons_of_mem _ hc))
    refine ⟨g2, g.count c0 :: ids, ?_, by simp [hlen], ?_⟩
    · simp [ChunkIdGenerator.calls, hcall, hcalls]
    · intro i c hi
      cases i with
      | zero =>
        simp at hi
        subst hi
        simp
      | succ j =>
        simp only [List.getElem?_cons_succ] at hi ⊢
        rw [hids j c hi, hcount c]
        by_cases hcc : c = c0
        · subst hcc
          simp [List.take_succ_cons, List.count_cons_self]
          ring
        · have : ¬ c0 = c := fun h => hcc h.symm
          simp [List.take_succ_cons, List.count_cons, hcc, this]

/-! ## Chunk ids: the claim -/

/-- C1: for every sequence of `create_send_chunk_id` / `create_recv_chunk_id` calls whose
keys (tag, src, dst, size) have tag, src, dst >= 0 and size > 0, made on a fresh
ChunkIdGenerator, no assertion fails and each call returns the number of earlier calls
of the same direction on the same key: the k-th send call on a key returns k-1 and the
k-th recv call on a key returns k-1, whatever calls on other keys or of the other
direction are interleaved. -/
theorem chunk_id_is_call_count (cs : List GenCall) (hok : ∀ c ∈ cs, c.ok = true) :
    ∃ g ids, ChunkIdGenerator.ctor.calls cs = some (g, ids) ∧ ids.length = cs.length ∧
      ∀ i c, cs[i]? = some c → ids[i]? = some (((cs.take i).count c : Nat) : Int) := by
  obtain ⟨g, ids, h1, h2, h3⟩ :=
    ChunkIdGenerator.calls_spec cs ChunkIdGenerator.ctor ChunkIdGenerator.wf_ctor hok
  refine ⟨g, ids, h1, h2, ?_⟩
  intro i c hi
  rw [h3 i c hi]
  cases c <;> simp [ChunkIdGenerator.count, ChunkIdGenerator.sendCount,
    ChunkIdGenerator.recvCount, ChunkIdGenerator.ctor, Map.find]

/-- Witness of C1: on the sample sequence the returned ids are 0, 0, 1, 0, 1, 2. -/
theorem chunk_id_is_call_count_witness :
    (∀ c ∈ sampleGenCalls, c.ok = true) ∧
    ∃ g, ChunkIdGenerator.ctor.calls sampleGenCalls = some (g, [0, 0, 1, 0, 1, 2]) := by
  have hok : ∀ c ∈ sampleGenCalls, c.ok = true := by decide
  refine ⟨hok, ?_⟩
  obtain ⟨g, ids, h1, _, _⟩ := chunk_id_is_call_count sampleGenCalls hok
  have h2 : (ChunkIdGenerator.ctor.calls sampleGenCalls).map Prod.snd
      = some [0, 0, 1, 0, 1, 2] := by decide
  rw [h1] at h2
  simp at h2
  subst h2
  exact ⟨g, h1⟩


/-! ## Rendezvous matcher: single operations -/

namespace Map

variable {κ ν : Type} [DecidableEq κ]

/-- Insertion of an absent key followed by a write to it. -/
theorem set_emplace (m : Map κ ν) (k : κ) (v0 v : ν) (h : m.find k = none) :
    Map.set (m.emplace k v0) k v = (k, v) :: m := by
  simp [emplace, h, set]

/-- The number of entries with a property after a write. -/
theorem countP_set (m : Map κ ν) (k : κ) (e v : ν) (P : ν → Bool) (h : m.find k = some e) :
    (m.set k v).countP (fun p => P p.2) + (if P e = true then 1 else 0)
      = m.countP (fun p => P p.2) + (if P v = true then 1 else 0) := by
  induction m with
  | nil => simp [find] at h
  | cons p rest ih =>
    obtain ⟨k0, v0⟩ := p
    by_cases h0 : k0 = k
    · subst h0
      simp [find] at h
      subst h
      simp only [set, if_true, List.countP_cons]
      omega
    · simp only [find, h0, if_false] at h
      have := ih h
      simp only [set, h0, if_false, List.countP_cons]
      omega

/-- The number of entries with a property after a removal. -/
theorem countP_erase (m : Map κ ν) (k : κ) (e : ν) (P : ν → Bool) (h : m.find k = some e) :
    (m.erase k).countP (fun p => P p.2) + (if P e = true then 1 else 0)
      = m.countP (fun p => P p.2) := by
  induction m with
  | nil => simp [find] at h
  | cons p rest ih =>
    obtain ⟨k0, v0⟩ := p
    by_cases h0 : k0 = k
    · subst h0
      simp [find] at h
      subst h
      simp only [erase, if_true, List.countP_cons]
    · simp only [find, h0, if_false] at h
      have := ih h
      simp only [erase, h0, if_false, List.countP_cons]
      omega

end Map

/-- The result of `sim_send` once the chunk id is known: the send callback is registered
in the entry of the key, which is created when absent; the assertion of
`register_send_callback` fails on an entry that has a send callback. -/
theorem ApiState.sim_send_eq (s : ApiState) (rank : Int) (count : Nat) (dst tag : Int)
    (h a : Nat) (g1 : ChunkIdGenerator) (c : Int)
    (hok : args_ok tag rank dst count = true) (hc : 0 ≤ c)
    (hg : s.chunk_id_generator.create_send_chunk_id tag rank dst count = some (g1, c)) :
    s.sim_send rank count dst tag h a =
      match s.callback_tracker.tracker.find (tag, rank, dst, count, c) with
      | none =>
        some { s with
          chunk_id_generator := g1
          callback_tracker :=
            ⟨((tag, rank, dst, count, c), ⟨some ⟨h, a⟩, none, false⟩) ::
              s.callback_tracker.tracker⟩
          in_flight := s.in_flight ++ [(tag, rank, dst, count, c)] }
      | some e =>
        if e.send_event.isSome then none
        else
          some { s with
            chunk_id_generator := g1
            callback_tracker :=
              ⟨s.callback_tracker.tracker.set (tag, rank, dst, count, c)
                { e with send_event := some ⟨h, a⟩ }⟩
            in_flight := s.in_flight ++ [(tag, rank, dst, count, c)] } := by
  have hk : CallbackTracker.key_ok tag rank dst count c = true := by
    simp [CallbackTracker.key_ok, hok, hc]
  cases hf : s.callback_tracker.tracker.find (tag, rank, dst, count, c) with
  | none =>
    simp [ApiState.sim_send, hg, CallbackTracker.search_entry, hk, hf,
      CallbackTracker.create_new_entry, Map.find_emplace, CallbackTrackerEntry.ctor,
      CallbackTrackerEntry.register_send_callback, CallbackTracker.write,
      Map.set_emplace]
  | some e =>
    cases hs : e.send_event <;>
      simp [ApiState.sim_send, hg, CallbackTracker.search_entry, hk, hf,
        CallbackTrackerEntry.register_send_callback, CallbackTracker.write, hs]

/-- The result of `sim_recv` once the chunk id is known: an entry marked
transmission-finished is removed and the handler is passed to `sim_schedule` with a delay
of 0 ns; otherwise the recv callback is registered in the entry of the key, which is
created when absent; the assertion of `register_recv_callback` fails on an entry that has
a recv callback. -/
theorem ApiState.sim_recv_eq (s : ApiState) (rank : Int) (count : Nat) (src tag : Int)
    (h a : Nat) (g1 : ChunkIdGenerator) (c : Int)
    (hok : args_ok tag src rank count = true) (hc : 0 ≤ c)
    (hg : s.chunk_id_generator.create_recv_chunk_id tag src rank count = some (g1, c)) :
    s.sim_recv rank count src tag h a =
      match s.callback_tracker.tracker.find (tag, src, rank, count, c) with
      | none =>
        some { s with
          chunk_id_generator := g1
          callback_tracker :=
            ⟨((tag, src, rank, count, c), ⟨none, some ⟨h, a⟩, false⟩) ::
              s.callback_tracker.tracker⟩ }
      | some e =>
        if e.transmission_finished = true then
          some { s with
            chunk_id_generator := g1
            callback_tracker :=
              ⟨s.callback_tracker.tracker.erase (tag, src, rank, count, c)⟩
            log := s.log ++ [Effect.sim_schedule ⟨time_type_e.NS, 0⟩ ⟨h, a⟩] }
        else if e.recv_event.isSome then none
        else
          some { s with
            chunk_id_generator := g1
            callback_tracker :=
              ⟨s.callback_tracker.tracker.set (tag, src, rank, count, c)
                { e with recv_event := some ⟨h, a⟩ }⟩ } := by
  have hk : CallbackTracker.key_ok tag src rank count c = true := by
    simp [CallbackTracker.key_ok, hok, hc]
  cases hf : s.callback_tracker.tracker.find (tag, src, rank, count, c) with
  | none =>
    simp [ApiState.sim_recv, hg, CallbackTracker.search_entry, hk, hf,
      CallbackTracker.create_new_entry, Map.find_emplace, CallbackTrackerEntry.ctor,
      CallbackTrackerEntry.register_recv_callback, CallbackTracker.write,
      Map.set_emplace]
  | some e =>
    cases hfin : e.transmission_finished <;> cases hs : e.recv_event <;>
      simp [ApiState.sim_recv, hg, CallbackTracker.search_entry, hk, hf,
        CallbackTrackerEntry.register_recv_callback, CallbackTracker.write, hs, hfin,
        CallbackTrackerEntry.is_transmission_finished, CallbackTracker.pop_entry]

/-- The result of `process_chunk_arrival` on a key that passes the assertions at the head
of the tracker methods: the lookup must succeed and the entry must have a send callback;
with both callbacks the two handlers are invoked, send first, and the entry is removed;
with the send callback only it is invoked and the entry is marked. -/
theorem ApiState.process_chunk_arrival_eq (s : ApiState) (args : ChunkKey)
    (hk : CallbackTracker.key_ok args.1 args.2.1 args.2.2.1 args.2.2.2.1 args.2.2.2.2 = true) :
    s.process_chunk_arrival args =
      match s.callback_tracker.tracker.find args with
      | none => none
      | some e =>
        match e.send_event, e.recv_event with
        | some hs, some hr =>
          some { s with
            callback_tracker := ⟨s.callback_tracker.tracker.erase args⟩
            log := s.log ++ [Effect.send_handler hs, Effect.recv_handler hr] }
        | some hs, none =>
          some { s with
            callback_tracker :=
              ⟨s.callback_tracker.tracker.set args { e with transmission_finished := true }⟩
            log := s.log ++ [Effect.send_handler hs] }
        | none, _ => none := by
  obtain ⟨tag, src, dst, count, c⟩ := args
  simp only at hk
  cases hf : s.callback_tracker.tracker.find (tag, src, dst, count, c) with
  | none =>
    simp [ApiState.process_chunk_arrival, CallbackTracker.search_entry, hk, hf]
  | some e =>
    cases hs : e.send_event <;> cases hr : e.recv_event <;>
      simp [ApiState.process_chunk_arrival, CallbackTracker.search_entry, hk, hf, hs, hr,
        CallbackTrackerEntry.both_callbacks_registered,
        CallbackTrackerEntry.invoke_send_handler, CallbackTrackerEntry.invoke_recv_handler,
        CallbackTracker.pop_entry, CallbackTracker.write,
        CallbackTrackerEntry.set_transmission_finished]


/-! ## Rendezvous matcher: the two orders of arrival -/

/-- C4 (out-of-order rendezvous), for a key (tag, src, dst, size, c) with admissible
arguments.  (a) A `sim_recv` that gets chunk id c while the tracker has no entry for the
key creates an entry holding only the recv handler and fires nothing.  (b) A `sim_send`
that gets chunk id c while the entry holds only a recv handler registers its send
handler in that same entry, creating none, fires nothing and hands the chunk to the
network.  (c) The arrival of the chunk, the entry holding both handlers, invokes the send
handler first, then the recv handler, and removes the entry. -/
theorem out_of_order_rendezvous (tag src dst : Int) (size : Nat) (c : Int)
    (hok : args_ok tag src dst size = true) (hc : 0 ≤ c) :
    (∀ (s : ApiState) (g1 : ChunkIdGenerator) (hr ar : Nat),
      s.chunk_id_generator.create_recv_chunk_id tag src dst size = some (g1, c) →
      s.callback_tracker.tracker.find (tag, src, dst, size, c) = none →
      ∃ s1, s.sim_recv dst size src tag hr ar = some s1 ∧
        s1.callback_tracker.tracker =
          ((tag, src, dst, size, c), ⟨none, some ⟨hr, ar⟩, false⟩) ::
            s.callback_tracker.tracker ∧
        s1.callback_tracker.tracker.find (tag, src, dst, size, c)
          = some ⟨none, some ⟨hr, ar⟩, false⟩ ∧
        s1.log = s.log ∧ s1.in_flight = s.in_flight ∧ s1.chunk_id_generator = g1) ∧
    (∀ (s : ApiState) (g1 : ChunkIdGenerator) (hs as : Nat) (recv_ev : Event),
      s.chunk_id_generator.create_send_chunk_id tag src dst size = some (g1, c) →
      s.callback_tracker.tracker.find (tag, src, dst, size, c)
        = some ⟨none, some recv_ev, false⟩ →
      ∃ s1, s.sim_send src size dst tag hs as = some s1 ∧
        s1.callback_tracker.tracker.find (tag, src, dst, size, c)
          = some ⟨some ⟨hs, as⟩, some recv_ev, false⟩ ∧
        s1.callback_tracker.tracker.map Prod.fst = s.callback_tracker.tracker.map Prod.fst ∧
        s1.log = s.log ∧ s1.in_flight = s.in_flight ++ [(tag, src, dst, size, c)] ∧
        s1.chunk_id_generator = g1) ∧
    (∀ (s : ApiState) (send_ev recv_ev : Event),
      s.callback_tracker.tracker.find (tag, src, dst, size, c)
        = some ⟨some send_ev, some recv_ev, false⟩ →
      s.callback_tracker.tracker.NodupKeys →
      ∃ s1, s.process_chunk_arrival (tag, src, dst, size, c) = some s1 ∧
        s1.log = s.log ++ [Effect.send_handler send_ev, Effect.recv_handler recv_ev] ∧
        s1.callback_tracker.tracker = s.callback_tracker.tracker.erase (tag, src, dst, size, c) ∧
        s1.callback_tracker.tracker.find (tag, src, dst, size, c) = none) := by
  refine ⟨?_, ?_, ?_⟩
  · intro s g1 hr ar hg hf
    rw [ApiState.sim_recv_eq s dst size src tag hr ar g1 c hok hc hg, hf]
    exact ⟨_, rfl, rfl, by simp [Map.find], rfl, rfl, rfl⟩
  · intro s g1 hs as recv_ev hg hf
    rw [ApiState.sim_send_eq s src size dst tag hs as g1 c hok hc hg, hf]
    simp only [Option.isSome_none, Bool.false_eq_true, if_false]
    refine ⟨_, rfl, ?_, ?_, rfl, rfl, rfl⟩
    · simp [Map.find_set, hf]
    · simp [Map.keys_set]
  · intro s send_ev recv_ev hf hnd
    have hk : CallbackTracker.key_ok tag src dst size c = true := by
      simp [CallbackTracker.key_ok, hok, hc]
    rw [ApiState.process_chunk_arrival_eq s (tag, src, dst, size, c) hk, hf]
    refine ⟨_, rfl, rfl, rfl, ?_⟩
    simp [Map.find_erase _ _ _ hnd]

/-- Witness of C4: tag = 1, src = 0, dst = 1, size = 64, from the start state; the recv
handler is (200, 0) and the send handler (100, 0). -/
theorem out_of_order_rendezvous_witness :
    ApiState.init.run [Op.sim_recv 1 64 0 1 200 0] = some (ApiState.init.runD
      [Op.sim_recv 1 64 0 1 200 0]) ∧
    (ApiState.init.runD [Op.sim_recv 1 64 0 1 200 0]).callback_tracker.tracker
      = [((1, 0, 1, 64, 0), ⟨none, some ⟨200, 0⟩, false⟩)] ∧
    (ApiState.init.runD [Op.sim_recv 1 64 0 1 200 0]).log = [] ∧
    ∃ s2 s3, (ApiState.init.runD [Op.sim_recv 1 64 0 1 200 0]).sim_send 0 64 1 1 100 0
        = some s2 ∧
      s2.callback_tracker.tracker.find (1, 0, 1, 64, 0)
        = some ⟨some ⟨100, 0⟩, some ⟨200, 0⟩, false⟩ ∧
      (ApiState.init.runD [Op.sim_recv 1 64 0 1 200 0, Op.sim_send 0 64 1 1 100 0]
        ).process_chunk_arrival (1, 0, 1, 64, 0) = some s3 ∧
      s3.log = [Effect.send_handler ⟨100, 0⟩, Effect.recv_handler ⟨200, 0⟩] ∧
      s3.callback_tracker.tracker.find (1, 0, 1, 64, 0) = none := by
  have h := out_of_order_rendezvous 1 0 1 64 0 (by decide) (by decide)
  refine ⟨by decide, by decide, by decide, ?_⟩
  obtain ⟨s2, h2, h2f, _, _, _, _⟩ :=
    h.2.1 (ApiState.init.runD [Op.sim_recv 1 64 0 1 200 0])
      ((ApiState.init.runD [Op.sim_recv 1 64 0 1 200 0, Op.sim_send 0 64 1 1 100 0]
        ).chunk_id_generator) 100 0 ⟨200, 0⟩ (by decide) (by decide)
  obtain ⟨s3, h3, h3l, _, h3f⟩ :=
    h.2.2 (ApiState.init.runD [Op.sim_recv 1 64 0 1 200 0, Op.sim_send 0 64 1 1 100 0])
      ⟨100, 0⟩ ⟨200, 0⟩ (by decide) (by unfold Map.NodupKeys; decide)
  refine ⟨s2, s3, h2, h2f, h3, ?_, h3f⟩
  rw [h3l]
  decide

/-- C5, for a key (tag, src, dst, size, c) with admissible arguments.  (a) When the chunk
arrives while the entry holds only the send handler, `process_chunk_arrival` invokes the
send handler, keeps the entry and marks it transmission-finished.  (b) A `sim_recv` that
gets chunk id c while the entry is marked transmission-finished removes the entry and
passes its handler to `sim_schedule` with a delay of exactly 0 ns; the tracker it leaves
is the old one without the entry, so the handler is registered nowhere. -/
theorem arrival_before_recv (tag src dst : Int) (size : Nat) (c : Int)
    (hok : args_ok tag src dst size = true) (hc : 0 ≤ c) :
    (∀ (s : ApiState) (send_ev : Event) (fin : Bool),
      s.callback_tracker.tracker.find (tag, src, dst, size, c)
        = some ⟨some send_ev, none, fin⟩ →
      ∃ s1, s.process_chunk_arrival (tag, src, dst, size, c) = some s1 ∧
        s1.log = s.log ++ [Effect.send_handler send_ev] ∧
        s1.callback_tracker.tracker.find (tag, src, dst, size, c)
          = some ⟨some send_ev, none, true⟩ ∧
        s1.callback_tracker.tracker.map Prod.fst = s.callback_tracker.tracker.map Prod.fst) ∧
    (∀ (s : ApiState) (g1 : ChunkIdGenerator) (hr ar : Nat) (e : CallbackTrackerEntry),
      s.chunk_id_generator.create_recv_chunk_id tag src dst size = some (g1, c) →
      s.callback_tracker.tracker.find (tag, src, dst, size, c) = some e →
      e.transmission_finished = true →
      s.callback_tracker.tracker.NodupKeys →
      ∃ s1, s.sim_recv dst size src tag hr ar = some s1 ∧
        s1.log = s.log ++ [Effect.sim_schedule ⟨time_type_e.NS, 0⟩ ⟨hr, ar⟩] ∧
        s1.callback_tracker.tracker = s.callback_tracker.tracker.erase (tag, src, dst, size, c) ∧
        s1.callback_tracker.tracker.find (tag, src, dst, size, c) = none ∧
        (∀ k e1, s1.callback_tracker.tracker.find k = some e1 →
          s.callback_tracker.tracker.find k = some e1)) := by
  refine ⟨?_, ?_⟩
  · intro s send_ev fin hf
    have hk : CallbackTracker.key_ok tag src dst size c = true := by
      simp [CallbackTracker.key_ok, hok, hc]
    rw [ApiState.process_chunk_arrival_eq s (tag, src, dst, size, c) hk, hf]
    refine ⟨_, rfl, rfl, ?_, ?_⟩
    · simp [Map.find_set, hf]
    · simp [Map.keys_set]
  · intro s g1 hr ar e hg hf hfin hnd
    rw [ApiState.sim_recv_eq s dst size src tag hr ar g1 c hok hc hg, hf]
    simp only [hfin, if_true]
    refine ⟨_, rfl, rfl, rfl, ?_, ?_⟩
    · simp [Map.find_erase _ _ _ hnd]
    · intro k e1
      simp only [Map.find_erase _ _ _ hnd]
      by_cases hkk : k = (tag, src, dst, size, c)
      · simp [hkk]
      · simp [hkk]

/-- Witness of C5: tag = 1, src = 0, dst = 1, size = 64, from the start state; the send
handler is (100, 0) and the recv handler (200, 0). -/
theorem arrival_before_recv_witness :
    ∃ s2 s3,
      (ApiState.init.runD [Op.sim_send 0 64 1 1 100 0]).process_chunk_arrival (1, 0, 1, 64, 0)
        = some s2 ∧
      s2.log = [Effect.send_handler ⟨100, 0⟩] ∧
      s2.callback_tracker.tracker.find (1, 0, 1, 64, 0) = some ⟨some ⟨100, 0⟩, none, true⟩ ∧
      (ApiState.init.runD [Op.sim_send 0 64 1 1 100 0, Op.chunk_arrival (1, 0, 1, 64, 0)]
        ).sim_recv 1 64 0 1 200 0 = some s3 ∧
      s3.log = [Effect.send_handler ⟨100, 0⟩,
        Effect.sim_schedule ⟨time_type_e.NS, 0⟩ ⟨200, 0⟩] ∧
      s3.callback_tracker.tracker = [] := by
  have h := arrival_before_recv 1 0 1 64 0 (by decide) (by decide)
  obtain ⟨s2, h2, h2l, h2f, _⟩ :=
    h.1 (ApiState.init.runD [Op.sim_send 0 64 1 1 100 0]) ⟨100, 0⟩ false (by decide)
  obtain ⟨s3, h3, h3l, h3t, _, _⟩ :=
    h.2 (ApiState.init.runD [Op.sim_send 0 64 1 1 100 0, Op.chunk_arrival (1, 0, 1, 64, 0)])
      ((ApiState.init.runD [Op.sim_send 0 64 1 1 100 0, Op.chunk_arrival (1, 0, 1, 64, 0),
        Op.sim_recv 1 64 0 1 200 0]).chunk_id_generator) 200 0 ⟨some ⟨100, 0⟩, none, true⟩
      (by decide) (by decide) rfl (by unfold Map.NodupKeys; decide)
  refine ⟨s2, s3, h2, ?_, h2f, h3, ?_, ?_⟩
  · rw [h2l]; decide
  · rw [h3l]; decide
  · rw [h3t]; decide


/-! ## Runs of the rendezvous matcher: the invariant -/

/-- An index is outside a list of handlers exactly when it is out of range. -/
theorem nth_eq_none_iff (l : List Event) (c : Int) :
    nth l c = none ↔ c < 0 ∨ (l.length : Int) ≤ c := by
  unfold nth
  by_cases hc : c < 0
  · simp [hc]
  · simp only [hc, if_false, List.getElem?_eq_none_iff, false_or]
    omega

/-- An index is in a list of handlers exactly when it is in range. -/
theorem nth_isSome_iff (l : List Event) (c : Int) :
    (nth l c).isSome = true ↔ 0 ≤ c ∧ c < (l.length : Int) := by
  rw [Option.isSome_iff_ne_none, Ne, nth_eq_none_iff]
  omega

/-- Indexing a list of handlers extended by one handler. -/
theorem nth_append_singleton (l : List Event) (e : Event) (c : Int) :
    nth (l ++ [e]) c = if c = (l.length : Int) then some e else nth l c := by
  unfold nth
  by_cases hc : c < 0
  · have : ¬ c = (l.length : Int) := by omega
    simp [hc, this]
  · simp only [hc, if_false]
    by_cases hl : c = (l.length : Int)
    · have : c.toNat = l.length := by omega
      simp [hl]
    · simp only [hl, if_false]
      rw [List.getElem?_append]
      by_cases hlt : c.toNat < l.length
      · simp [hlt]
      · have h1 : l.length ≤ c.toNat := by omega
        have h2 : c.toNat - l.length ≠ 0 := by omega
        simp only [hlt, if_false]
        rw [List.getElem?_eq_none_iff.mpr h1]
        cases h : c.toNat - l.length with
        | zero => exact absurd h h2
        | succ n => simp

/-- The sends on a stream after one more operation. -/
theorem sendsOn_append (hist : List Op) (op : Op) (key : StreamKey) :
    sendsOn (hist ++ [op]) key =
      match op with
      | Op.sim_send rank count dst tag h a =>
        if (tag, rank, dst, count) = key then sendsOn hist key ++ [⟨h, a⟩]
        else sendsOn hist key
      | _ => sendsOn hist key := by
  cases op with
  | sim_send rank count dst tag h a =>
    by_cases hk : (tag, rank, dst, count) = key <;> simp [sendsOn, hk]
  | sim_recv rank count src tag h a => simp [sendsOn]
  | chunk_arrival args => simp [sendsOn]

/-- The recvs on a stream after one more operation. -/
theorem recvsOn_append (hist : List Op) (op : Op) (key : StreamKey) :
    recvsOn (hist ++ [op]) key =
      match op with
      | Op.sim_recv rank count src tag h a =>
        if (tag, src, rank, count) = key then recvsOn hist key ++ [⟨h, a⟩]
        else recvsOn hist key
      | _ => recvsOn hist key := by
  cases op with
  | sim_send rank count dst tag h a => simp [recvsOn]
  | sim_recv rank count src tag h a =>
    by_cases hk : (tag, src, rank, count) = key <;> simp [recvsOn, hk]
  | chunk_arrival args => simp [recvsOn]

/-- The arrived chunks after one more operation. -/
theorem arrived_append (hist : List Op) (op : Op) (k : ChunkKey) :
    arrived (hist ++ [op]) k = (arrived hist k || decide (op = Op.chunk_arrival k)) := by
  simp only [arrived, List.mem_append, List.mem_singleton]
  by_cases h1 : Op.chunk_arrival k ∈ hist <;> by_cases h2 : op = Op.chunk_arrival k
  · simp [h1, h2]
  · have : ¬ Op.chunk_arrival k = op := fun h => h2 h.symm
    simp [h1, h2, this]
  · simp [h1, h2]
  · have : ¬ Op.chunk_arrival k = op := fun h => h2 h.symm
    simp [h1, h2, this]

/-- The registered send handlers after one more operation. -/
theorem sendRegistered_append (hist : List Op) (op : Op) (ev : Event) :
    sendRegistered (hist ++ [op]) ev = sendRegistered hist ev +
      match op with
      | Op.sim_send _ _ _ _ h a => if (⟨h, a⟩ : Event) = ev then 1 else 0
      | _ => 0 := by
  cases op <;> simp [sendRegistered, List.countP_cons]

/-- The registered recv handlers after one more operation. -/
theorem recvRegistered_append (hist : List Op) (op : Op) (ev : Event) :
    recvRegistered (hist ++ [op]) ev = recvRegistered hist ev +
      match op with
      | Op.sim_recv _ _ _ _ h a => if (⟨h, a⟩ : Event) = ev then 1 else 0
      | _ => 0 := by
  cases op <;> simp [recvRegistered, List.countP_cons]

/-- The start state satisfies the invariant for the empty sequence. -/
theorem inv_init : Inv [] ApiState.init := by
  refine ⟨ChunkIdGenerator.wf_ctor, ?_, ?_, ?_, ?_, ?_, ?_, ?_, ?_, ?_, ?_⟩
  · intro key; simp [ApiState.init, ChunkIdGenerator.sendCount, ChunkIdGenerator.ctor,
      Map.find, sendsOn]
  · intro key; simp [ApiState.init, ChunkIdGenerator.recvCount, ChunkIdGenerator.ctor,
      Map.find, recvsOn]
  · intro key h; simp [sendsOn] at h
  · simp [ApiState.init]
  · intro k; simp [ApiState.init, sendsOn, nth]
  · intro k h; simp [arrived] at h
  · simp [ApiState.init, CallbackTracker.ctor, Map.NodupKeys]
  · intro k; simp [ApiState.init, CallbackTracker.ctor, Map.find, sendsOn, recvsOn, nth,
      expectedEntry]
  · intro ev; simp [ApiState.init, CallbackTracker.ctor, sendRegistered]
  · intro ev; simp [ApiState.init, CallbackTracker.ctor, recvRegistered]


/-- A key that is not found is not among the keys. -/
theorem Map.not_mem_keys_of_find_none {κ ν : Type} [DecidableEq κ] (m : Map κ ν) (k : κ)
    (h : m.find k = none) : k ∉ m.map Prod.fst := by
  induction m with
  | nil => simp
  | cons p rest ih =>
    obtain ⟨k0, v0⟩ := p
    by_cases h0 : k0 = k
    · simp [Map.find, h0] at h
    · simp only [Map.find, h0, if_false] at h
      simp only [List.map_cons, List.mem_cons, not_or]
      exact ⟨fun e => h0 e.symm, ih h⟩

/-- The handler of the k-th send on the stream of a key after one more `sim_send`. -/
theorem nth_sendsOn_append_send (hist : List Op) (rank : Int) (count : Nat) (dst tag : Int)
    (h a : Nat) (k : ChunkKey) :
    nth (sendsOn (hist ++ [Op.sim_send rank count dst tag h a]) k.stream) k.id =
      if k = (tag, rank, dst, count, ((sendsOn hist (tag, rank, dst, count)).length : Int))
      then some ⟨h, a⟩ else nth (sendsOn hist k.stream) k.id := by
  obtain ⟨t, s, d, c, i⟩ := k
  rw [sendsOn_append]
  simp only [ChunkKey.stream, ChunkKey.id]
  by_cases hk : (tag, rank, dst, count) = (t, s, d, c)
  · simp only [hk, if_true, nth_append_singleton]
    simp only [Prod.mk.injEq] at hk
    obtain ⟨rfl, rfl, rfl, rfl⟩ := hk
    by_cases hi : i = ((sendsOn hist (tag, rank, dst, count)).length : Int)
    · simp [hi]
    · simp [hi]
  · simp only [hk, if_false]
    have : ¬ (t, s, d, c, i)
        = (tag, rank, dst, count, ((sendsOn hist (tag, rank, dst, count)).length : Int)) := by
      intro e
      simp only [Prod.mk.injEq] at e hk
      exact hk ⟨e.1.symm, e.2.1.symm, e.2.2.1.symm, e.2.2.2.1.symm⟩
    simp [this]

/-- The handler of the k-th recv on the stream of a key after one more `sim_recv`. -/
theorem nth_recvsOn_append_recv (hist : List Op) (rank : Int) (count : Nat) (src tag : Int)
    (h a : Nat) (k : ChunkKey) :
    nth (recvsOn (hist ++ [Op.sim_recv rank count src tag h a]) k.stream) k.id =
      if k = (tag, src, rank, count, ((recvsOn hist (tag, src, rank, count)).length : Int))
      then some ⟨h, a⟩ else nth (recvsOn hist k.stream) k.id := by
  obtain ⟨t, s, d, c, i⟩ := k
  rw [recvsOn_append]
  simp only [ChunkKey.stream, ChunkKey.id]
  by_cases hk : (tag, src, rank, count) = (t, s, d, c)
  · simp only [hk, if_true, nth_append_singleton]
    simp only [Prod.mk.injEq] at hk
    obtain ⟨rfl, rfl, rfl, rfl⟩ := hk
    by_cases hi : i = ((recvsOn hist (tag, src, rank, count)).length : Int)
    · simp [hi]
    · simp [hi]
  · simp only [hk, if_false]
    have : ¬ (t, s, d, c, i)
        = (tag, src, rank, count, ((recvsOn hist (tag, src, rank, count)).length : Int)) := by
      intro e
      simp only [Prod.mk.injEq] at e hk
      exact hk ⟨e.1.symm, e.2.1.symm, e.2.2.1.symm, e.2.2.2.1.symm⟩
    simp [this]


/-- An admissible `sim_send` from a state satisfying the invariant succeeds and keeps the
invariant. -/
theorem inv_sim_send (hist : List Op) (s : ApiState) (hinv : Inv hist s) (rank : Int)
    (count : Nat) (dst tag : Int) (h a : Nat) (hok : args_ok tag rank dst count = true) :
    ∃ s1, s.sim_send rank count dst tag h a = some s1 ∧
      Inv (hist ++ [Op.sim_send rank count dst tag h a]) s1 := by
  obtain ⟨g1, hg, hwf1, hsc, hrc⟩ :=
    s.chunk_id_generator.create_send_chunk_id_spec (tag, rank, dst, count) hok hinv.wf
  simp only at hg
  rw [hinv.sendCount] at hg
  have hns : nth (sendsOn hist (tag, rank, dst, count))
      ((sendsOn hist (tag, rank, dst, count)).length : Int) = none :=
    (nth_eq_none_iff _ _).mpr (Or.inr (le_refl _))
  have harr : arrived hist
      (tag, rank, dst, count, ((sendsOn hist (tag, rank, dst, count)).length : Int)) = false := by
    cases harr : arrived hist
      (tag, rank, dst, count, ((sendsOn hist (tag, rank, dst, count)).length : Int)) with
    | false => rfl
    | true =>
      have := hinv.sent _ harr
      simp [ChunkKey.stream, ChunkKey.id, hns] at this
  have hnf : (tag, rank, dst, count, ((sendsOn hist (tag, rank, dst, count)).length : Int))
      ∉ s.in_flight := by
    intro hmem
    have := ((hinv.in_flight _).mp hmem).1
    simp [ChunkKey.stream, ChunkKey.id, hns] at this
  have htab := hinv.table
    (tag, rank, dst, count, ((sendsOn hist (tag, rank, dst, count)).length : Int))
  simp only [ChunkKey.stream, ChunkKey.id, hns, harr] at htab
  rw [ApiState.sim_send_eq s rank count dst tag h a g1 _ hok (Int.natCast_nonneg _) hg]
  -- facts that do not depend on the shape of the entry
  have hsendCount : ∀ key, g1.sendCount key
      = ((sendsOn (hist ++ [Op.sim_send rank count dst tag h a]) key).length : Int) := by
    intro key
    rw [hsc key, hinv.sendCount key, sendsOn_append]
    by_cases hk : key = (tag, rank, dst, count)
    · subst hk; simp
    · have : ¬ (tag, rank, dst, count) = key := fun e => hk e.symm
      simp [hk, this]
  have hrecvCount : ∀ key, g1.recvCount key
      = ((recvsOn (hist ++ [Op.sim_send rank count dst tag h a]) key).length : Int) := by
    intro key
    rw [hrc key, hinv.recvCount key, recvsOn_append]
  have hvalid : ∀ key : StreamKey,
      sendsOn (hist ++ [Op.sim_send rank count dst tag h a]) key ≠ [] →
      args_ok key.1 key.2.1 key.2.2.1 key.2.2.2 = true := by
    intro key hne
    by_cases hk : (tag, rank, dst, count) = key
    · subst hk; exact hok
    · rw [sendsOn_append] at hne
      simp only [hk, if_false] at hne
      exact hinv.valid key hne
  have hnodup : (s.in_flight ++
      [(tag, rank, dst, count, ((sendsOn hist (tag, rank, dst, count)).length : Int))]).Nodup := by
    rw [List.nodup_append]
    refine ⟨hinv.nodup, by simp, ?_⟩
    intro x hx hy
    simp only [List.mem_singleton] at hy
    subst hy
    exact hnf hx
  have hflight : ∀ k, k ∈ s.in_flight ++
      [(tag, rank, dst, count, ((sendsOn hist (tag, rank, dst, count)).length : Int))] ↔
      ((nth (sendsOn (hist ++ [Op.sim_send rank count dst tag h a]) k.stream) k.id).isSome
        = true ∧ arrived (hist ++ [Op.sim_send rank count dst tag h a]) k = false) := by
    intro k
    rw [nth_sendsOn_append_send, arrived_append]
    by_cases hk : k
        = (tag, rank, dst, count, ((sendsOn hist (tag, rank, dst, count)).length : Int))
    · subst hk; simp [harr]
    · simp [hk, hinv.in_flight k]
  have hsent : ∀ k, arrived (hist ++ [Op.sim_send rank count dst tag h a]) k = true →
      (nth (sendsOn (hist ++ [Op.sim_send rank count dst tag h a]) k.stream) k.id).isSome
        = true := by
    intro k hk
    rw [arrived_append] at hk
    simp only [reduceCtorEq, decide_False, Bool.or_false] at hk
    rw [nth_sendsOn_append_send]
    by_cases hkk : k
        = (tag, rank, dst, count, ((sendsOn hist (tag, rank, dst, count)).length : Int))
    · simp [hkk]
    · simp only [hkk, if_false]
      exact hinv.sent k hk
  cases hr : nth (recvsOn hist (tag, rank, dst, count))
      ((sendsOn hist (tag, rank, dst, count)).length : Int) with
  | none =>
    rw [hr] at htab
    simp only [expectedEntry] at htab
    rw [htab]
    refine ⟨_, rfl, ⟨hwf1, hsendCount, hrecvCount, hvalid, hnodup, hflight, hsent, ?_, ?_, ?_, ?_⟩⟩
    · simp only [Map.NodupKeys, List.map_cons, List.nodup_cons]
      exact ⟨Map.not_mem_keys_of_find_none _ _ htab, hinv.keys⟩
    · intro k
      rw [nth_sendsOn_append_send, recvsOn_append, arrived_append]
      by_cases hk : k
          = (tag, rank, dst, count, ((sendsOn hist (tag, rank, dst, count)).length : Int))
      · subst hk
        simp [Map.find, ChunkKey.stream, ChunkKey.id, hr, harr, expectedEntry]
      · have hk2 : ¬ (tag, rank, dst, count,
            ((sendsOn hist (tag, rank, dst, count)).length : Int)) = k := fun e => hk e.symm
        simp [Map.find, hk, hk2, hinv.table k]
    · intro ev
      rw [sendRegistered_append, ← hinv.sendFired ev]
      by_cases hev : (⟨h, a⟩ : Event) = ev
      · simp [List.countP_cons, sendPending, hev]
        omega
      · simp [List.countP_cons, sendPending, hev]
    · intro ev
      rw [recvRegistered_append, ← hinv.recvFired ev]
      simp [List.countP_cons, recvPending]
  | some hrv =>
    rw [hr] at htab
    simp only [expectedEntry] at htab
    rw [htab]
    simp only [Option.isSome_none, Bool.false_eq_true, if_false]
    refine ⟨_, rfl, ⟨hwf1, hsendCount, hrecvCount, hvalid, hnodup, hflight, hsent, ?_, ?_, ?_, ?_⟩⟩
    · exact Map.nodupKeys_set _ _ _ hinv.keys
    · intro k
      rw [nth_sendsOn_append_send, recvsOn_append, arrived_append]
      by_cases hk : k
          = (tag, rank, dst, count, ((sendsOn hist (tag, rank, dst, count)).length : Int))
      · subst hk
        simp [Map.find_set, htab, ChunkKey.stream, ChunkKey.id, hr, harr, expectedEntry]
      · simp [Map.find_set, hk, hinv.table k]
    · intro ev
      rw [sendRegistered_append, ← hinv.sendFired ev]
      have hcnt := Map.countP_set s.callback_tracker.tracker _ _
        ⟨some ⟨h, a⟩, some hrv, false⟩ (sendPending ev) htab
      by_cases hev : (⟨h, a⟩ : Event) = ev
      · simp [sendPending, hev] at hcnt ⊢
        omega
      · simp [sendPending, hev] at hcnt ⊢
        omega
    · intro ev
      rw [recvRegistered_append, ← hinv.recvFired ev]
      have hcnt := Map.countP_set s.callback_tracker.tracker _ _
        ⟨some ⟨h, a⟩, some hrv, false⟩ (recvPending ev) htab
      simp [recvPending] at hcnt ⊢
      omega


/-- An admissible `sim_recv` from a state satisfying the invariant succeeds and keeps the
invariant. -/
theorem inv_sim_recv (hist : List Op) (s : ApiState) (hinv : Inv hist s) (rank : Int)
    (count : Nat) (src tag : Int) (h a : Nat) (hok : args_ok tag src rank count = true) :
    ∃ s1, s.sim_recv rank count src tag h a = some s1 ∧
      Inv (hist ++ [Op.sim_recv rank count src tag h a]) s1 := by
  obtain ⟨g1, hg, hwf1, hrc, hsc⟩ :=
    s.chunk_id_generator.create_recv_chunk_id_spec (tag, src, rank, count) hok hinv.wf
  simp only at hg
  rw [hinv.recvCount] at hg
  have hnr : nth (recvsOn hist (tag, src, rank, count))
      ((recvsOn hist (tag, src, rank, count)).length : Int) = none :=
    (nth_eq_none_iff _ _).mpr (Or.inr (le_refl _))
  have htab := hinv.table
    (tag, src, rank, count, ((recvsOn hist (tag, src, rank, count)).length : Int))
  simp only [ChunkKey.stream, ChunkKey.id, hnr] at htab
  rw [ApiState.sim_recv_eq s rank count src tag h a g1 _ hok (Int.natCast_nonneg _) hg]
  have hsendCount : ∀ key, g1.sendCount key
      = ((sendsOn (hist ++ [Op.sim_recv rank count src tag h a]) key).length : Int) := by
    intro key
    rw [hsc key, hinv.sendCount key, sendsOn_append]
  have hrecvCount : ∀ key, g1.recvCount key
      = ((recvsOn (hist ++ [Op.sim_recv rank count src tag h a]) key).length : Int) := by
    intro key
    rw [hrc key, hinv.recvCount key, recvsOn_append]
    by_cases hk : key = (tag, src, rank, count)
    · subst hk; simp
    · have : ¬ (tag, src, rank, count) = key := fun e => hk e.symm
      simp [hk, this]
  have hvalid : ∀ key : StreamKey,
      sendsOn (hist ++ [Op.sim_recv rank count src tag h a]) key ≠ [] →
      args_ok key.1 key.2.1 key.2.2.1 key.2.2.2 = true := by
    intro key hne
    rw [sendsOn_append] at hne
    exact hinv.valid key hne
  have hflight : ∀ k, k ∈ s.in_flight ↔
      ((nth (sendsOn (hist ++ [Op.sim_recv rank count src tag h a]) k.stream) k.id).isSome
        = true ∧ arrived (hist ++ [Op.sim_recv rank count src tag h a]) k = false) := by
    intro k
    rw [sendsOn_append, arrived_append]
    simpa using hinv.in_flight k
  have hsent : ∀ k, arrived (hist ++ [Op.sim_recv rank count src tag h a]) k = true →
      (nth (sendsOn (hist ++ [Op.sim_recv rank count src tag h a]) k.stream) k.id).isSome
        = true := by
    intro k hk
    rw [arrived_append] at hk
    simp only [reduceCtorEq, decide_False, Bool.or_false] at hk
    rw [sendsOn_append]
    exact hinv.sent k hk
  cases hs : nth (sendsOn hist (tag, src, rank, count))
      ((recvsOn hist (tag, src, rank, count)).length : Int) with
  | none =>
    rw [hs] at htab
    simp only [expectedEntry] at htab
    rw [htab]
    refine ⟨_, rfl, ⟨hwf1, hsendCount, hrecvCount, hvalid, hinv.nodup, hflight, hsent,
      ?_, ?_, ?_, ?_⟩⟩
    · simp only [Map.NodupKeys, List.map_cons, List.nodup_cons]
      exact ⟨Map.not_mem_keys_of_find_none _ _ htab, hinv.keys⟩
    · intro k
      rw [nth_recvsOn_append_recv, sendsOn_append, arrived_append]
      by_cases hk : k
          = (tag, src, rank, count, ((recvsOn hist (tag, src, rank, count)).length : Int))
      · subst hk
        simp [Map.find, ChunkKey.stream, ChunkKey.id, hs, expectedEntry]
      · have hk2 : ¬ (tag, src, rank, count,
            ((recvsOn hist (tag, src, rank, count)).length : Int)) = k := fun e => hk e.symm
        simp [Map.find, hk, hk2, hinv.table k]
    · intro ev
      rw [sendRegistered_append, ← hinv.sendFired ev]
      simp [List.countP_cons, sendPending]
    · intro ev
      rw [recvRegistered_append, ← hinv.recvFired ev]
      by_cases hev : (⟨h, a⟩ : Event) = ev
      · simp [List.countP_cons, recvPending, hev]
        omega
      · simp [List.countP_cons, recvPending, hev]
  | some hsv =>
    rw [hs] at htab
    simp only [expectedEntry] at htab
    rw [htab]
    cases hfin : arrived hist
        (tag, src, rank, count, ((recvsOn hist (tag, src, rank, count)).length : Int)) with
    | true =>
      rw [hfin] at htab
      simp only [if_true]
      refine ⟨_, rfl, ⟨hwf1, hsendCount, hrecvCount, hvalid, hinv.nodup, hflight, hsent,
        ?_, ?_, ?_, ?_⟩⟩
      · exact Map.nodupKeys_erase _ _ hinv.keys
      · intro k
        rw [nth_recvsOn_append_recv, sendsOn_append, arrived_append]
        by_cases hk : k
            = (tag, src, rank, count, ((recvsOn hist (tag, src, rank, count)).length : Int))
        · subst hk
          simp [Map.find_erase _ _ _ hinv.keys, ChunkKey.stream, ChunkKey.id, hs, hfin,
            expectedEntry]
        · simp [Map.find_erase _ _ _ hinv.keys, hk, hinv.table k]
      · intro ev
        rw [sendRegistered_append, ← hinv.sendFired ev]
        have hcnt := Map.countP_erase s.callback_tracker.tracker _ _ (sendPending ev) htab
        simp [sendPending] at hcnt ⊢
        omega
      · intro ev
        rw [recvRegistered_append, ← hinv.recvFired ev]
        have hcnt := Map.countP_erase s.callback_tracker.tracker _ _ (recvPending ev) htab
        by_cases hev : (⟨h, a⟩ : Event) = ev
        · simp [recvPending, hev, List.count_cons] at hcnt ⊢
          omega
        · simp [recvPending, hev, List.count_cons] at hcnt ⊢
          omega
    | false =>
      rw [hfin] at htab
      simp only [Bool.false_eq_true, if_false, Option.isSome_none]
      refine ⟨_, rfl, ⟨hwf1, hsendCount, hrecvCount, hvalid, hinv.nodup, hflight, hsent,
        ?_, ?_, ?_, ?_⟩⟩
      · exact Map.nodupKeys_set _ _ _ hinv.keys
      · intro k
        rw [nth_recvsOn_append_recv, sendsOn_append, arrived_append]
        by_cases hk : k
            = (tag, src, rank, count, ((recvsOn hist (tag, src, rank, count)).length : Int))
        · subst hk
          simp [Map.find_set, htab, ChunkKey.stream, ChunkKey.id, hs, hfin, expectedEntry]
        · simp [Map.find_set, hk, hinv.table k]
      · intro ev
        rw [sendRegistered_append, ← hinv.sendFired ev]
        have hcnt := Map.countP_set s.callback_tracker.tracker _ _
          ⟨some hsv, some ⟨h, a⟩, false⟩ (sendPending ev) htab
        simp [sendPending] at hcnt ⊢
        omega
      · intro ev
        rw [recvRegistered_append, ← hinv.recvFired ev]
        have hcnt := Map.countP_set s.callback_tracker.tracker _ _
          ⟨some hsv, some ⟨h, a⟩, false⟩ (recvPending ev) htab
        by_cases hev : (⟨h, a⟩ : Event) = ev
        · simp [recvPending, hev] at hcnt ⊢
          omega
        · simp [recvPending, hev] at hcnt ⊢
          omega


/-- The arrival of a chunk that is in flight, from a state satisfying the invariant,
succeeds and keeps the invariant. -/
theorem inv_chunk_arrival (hist : List Op) (s : ApiState) (hinv : Inv hist s) (k0 : ChunkKey)
    (hmem : k0 ∈ s.in_flight) :
    ∃ s1, s.step (Op.chunk_arrival k0) = some s1 ∧ Inv (hist ++ [Op.chunk_arrival k0]) s1 := by
  obtain ⟨hsome, harr⟩ := (hinv.in_flight k0).mp hmem
  have hrange := (nth_isSome_iff _ _).mp hsome
  obtain ⟨hs, hhs⟩ := Option.isSome_iff_exists.mp hsome
  have hne : sendsOn hist k0.stream ≠ [] := by
    intro e
    rw [e] at hrange
    simp at hrange
    omega
  have hok := hinv.valid k0.stream hne
  have hk : CallbackTracker.key_ok k0.1 k0.2.1 k0.2.2.1 k0.2.2.2.1 k0.2.2.2.2 = true := by
    simp only [ChunkKey.stream] at hok
    simp only [CallbackTracker.key_ok, hok, Bool.true_and, decide_eq_true_eq]
    exact hrange.1
  have htab := hinv.table k0
  rw [hhs, harr] at htab
  simp only [ApiState.step]
  rw [ApiState.process_chunk_arrival_eq _ k0 hk]
  have hflight : ∀ k, k ∈ s.in_flight.erase k0 ↔
      ((nth (sendsOn (hist ++ [Op.chunk_arrival k0]) k.stream) k.id).isSome = true ∧
        arrived (hist ++ [Op.chunk_arrival k0]) k = false) := by
    intro k
    rw [sendsOn_append, arrived_append, hinv.nodup.mem_erase_iff, hinv.in_flight k]
    by_cases hkk : k = k0
    · subst hkk; simp
    · have : ¬ k0 = k := fun e => hkk e.symm
      simp [hkk, this]
  have hsent : ∀ k, arrived (hist ++ [Op.chunk_arrival k0]) k = true →
      (nth (sendsOn (hist ++ [Op.chunk_arrival k0]) k.stream) k.id).isSome = true := by
    intro k hka
    rw [arrived_append] at hka
    rw [sendsOn_append]
    by_cases hkk : k = k0
    · subst hkk; exact hsome
    · have : ¬ k0 = k := fun e => hkk e.symm
      simp [this] at hka
      exact hinv.sent k hka
  have hsendCount : ∀ key, s.chunk_id_generator.sendCount key
      = ((sendsOn (hist ++ [Op.chunk_arrival k0]) key).length : Int) := by
    intro key; rw [sendsOn_append]; exact hinv.sendCount key
  have hrecvCount : ∀ key, s.chunk_id_generator.recvCount key
      = ((recvsOn (hist ++ [Op.chunk_arrival k0]) key).length : Int) := by
    intro key; rw [recvsOn_append]; exact hinv.recvCount key
  have hvalid : ∀ key : StreamKey, sendsOn (hist ++ [Op.chunk_arrival k0]) key ≠ [] →
      args_ok key.1 key.2.1 key.2.2.1 key.2.2.2 = true := by
    intro key hne1
    rw [sendsOn_append] at hne1
    exact hinv.valid key hne1
  cases hr : nth (recvsOn hist k0.stream) k0.id with
  | none =>
    rw [hr] at htab
    simp only [expectedEntry] at htab
    simp only [htab]
    refine ⟨_, rfl, ⟨hinv.wf, hsendCount, hrecvCount, hvalid, hinv.nodup.erase k0, hflight,
      hsent, ?_, ?_, ?_, ?_⟩⟩
    · exact Map.nodupKeys_set _ _ _ hinv.keys
    · intro k
      rw [sendsOn_append, recvsOn_append, arrived_append]
      by_cases hkk : k = k0
      · subst hkk
        simp [Map.find_set, htab, hhs, hr, expectedEntry]
      · have : ¬ k0 = k := fun e => hkk e.symm
        simp [Map.find_set, hkk, this, hinv.table k]
    · intro ev
      rw [sendRegistered_append, ← hinv.sendFired ev]
      have hcnt := Map.countP_set s.callback_tracker.tracker _ _
        ⟨some hs, none, true⟩ (sendPending ev) htab
      by_cases hev : hs = ev
      · simp [sendPending, hev, List.count_cons] at hcnt ⊢
        omega
      · simp [sendPending, hev, List.count_cons] at hcnt ⊢
        omega
    · intro ev
      rw [recvRegistered_append, ← hinv.recvFired ev]
      have hcnt := Map.countP_set s.callback_tracker.tracker _ _
        ⟨some hs, none, true⟩ (recvPending ev) htab
      simp [recvPending, List.count_cons] at hcnt ⊢
      omega
  | some hrv =>
    rw [hr] at htab
    simp only [expectedEntry] at htab
    simp only [htab]
    refine ⟨_, rfl, ⟨hinv.wf, hsendCount, hrecvCount, hvalid, hinv.nodup.erase k0, hflight,
      hsent, ?_, ?_, ?_, ?_⟩⟩
    · exact Map.nodupKeys_erase _ _ hinv.keys
    · intro k
      rw [sendsOn_append, recvsOn_append, arrived_append]
      by_cases hkk : k = k0
      · subst hkk
        simp [Map.find_erase _ _ _ hinv.keys, hhs, hr, expectedEntry]
      · have : ¬ k0 = k := fun e => hkk e.symm
        simp [Map.find_erase _ _ _ hinv.keys, hkk, this, hinv.table k]
    · intro ev
      rw [sendRegistered_append, ← hinv.sendFired ev]
      have hcnt := Map.countP_erase s.callback_tracker.tracker _ _ (sendPending ev) htab
      by_cases hev : hs = ev
      · simp [sendPending, hev, List.count_cons] at hcnt ⊢
        omega
      · simp [sendPending, hev, List.count_cons] at hcnt ⊢
        omega
    · intro ev
      rw [recvRegistered_append, ← hinv.recvFired ev]
      have hcnt := Map.countP_erase s.callback_tracker.tracker _ _ (recvPending ev) htab
      by_cases hev : hrv = ev
      · simp [recvPending, hev, List.count_cons] at hcnt ⊢
        omega
      · simp [recvPending, hev, List.count_cons] at hcnt ⊢
        omega


/-- An admissible operation from a state satisfying the invariant succeeds and keeps the
invariant. -/
theorem inv_step (hist : List Op) (s : ApiState) (hinv : Inv hist s) (op : Op)
    (hop : op.ok s = true) :
    ∃ s1, s.step op = some s1 ∧ Inv (hist ++ [op]) s1 := by
  cases op with
  | sim_send rank count dst tag h a => exact inv_sim_send hist s hinv rank count dst tag h a hop
  | sim_recv rank count src tag h a => exact inv_sim_recv hist s hinv rank count src tag h a hop
  | chunk_arrival args =>
    exact inv_chunk_arrival hist s hinv args (by simpa [Op.ok] using hop)

/-- An admissible sequence of operations from a state satisfying the invariant runs to
its end, no assertion failing, and reaches a state satisfying the invariant. -/
theorem inv_run (ops : List Op) :
    ∀ (hist : List Op) (s : ApiState), Inv hist s → Admissible s ops = true →
      ∃ s1, s.run ops = some s1 ∧ Inv (hist ++ ops) s1 := by
  induction ops with
  | nil =>
    intro hist s hinv _
    exact ⟨s, rfl, by simpa using hinv⟩
  | cons op ops ih =>
    intro hist s hinv hadm
    simp only [Admissible, Bool.and_eq_true] at hadm
    obtain ⟨s1, hstep, hinv1⟩ := inv_step hist s hinv op hadm.1
    have hadm2 := hadm.2
    rw [hstep] at hadm2
    obtain ⟨s2, hrun, hinv2⟩ := ih (hist ++ [op]) s1 hinv1 hadm2
    refine ⟨s2, by simp [ApiState.run, hstep, hrun], ?_⟩
    simpa using hinv2

/-- The keys of the chunks that the invariant lets arrive pass the assertions at the head
of the tracker methods. -/
theorem inv_key_ok (hist : List Op) (s : ApiState) (hinv : Inv hist s) (k : ChunkKey)
    (hsome : (nth (sendsOn hist k.stream) k.id).isSome = true) :
    CallbackTracker.key_ok k.1 k.2.1 k.2.2.1 k.2.2.2.1 k.2.2.2.2 = true := by
  have hrange := (nth_isSome_iff _ _).mp hsome
  have hne : sendsOn hist k.stream ≠ [] := by
    intro e
    rw [e] at hrange
    simp at hrange
    omega
  have hok := hinv.valid k.stream hne
  simp only [ChunkKey.stream] at hok
  simp only [CallbackTracker.key_ok, hok, Bool.true_and, decide_eq_true_eq]
  exact hrange.1

/-! ## Rendezvous matcher: the claims on runs -/

/-- C2: after every admissible sequence of sends, recvs and arrivals (which runs to its
end), for every (tag, src, dst, size) and every k >= 1, with c = k-1: the tracker entry
under the key (tag, src, dst, size, c) is fixed by the handler of the k-th `sim_send` of
rank src, the handler of the k-th `sim_recv` of rank dst and the arrival of the chunk,
so both calls are bound to that one key; the chunk in flight under that key is the one
of the k-th send; its arrival after the k-th recv invokes the handler of the k-th send
and then the handler of the k-th recv; and when it has arrived before, the k-th
`sim_recv` finds the entry of the key marked and has its own handler scheduled. -/
theorem kth_send_meets_kth_recv (ops : List Op) (hadm : Admissible ApiState.init ops = true) :
    ∃ s, ApiState.init.run ops = some s ∧
      (∀ (tag src dst : Int) (size : Nat) (c : Int),
        s.callback_tracker.tracker.find (tag, src, dst, size, c) =
          expectedEntry (nth (sendsOn ops (tag, src, dst, size)) c)
            (nth (recvsOn ops (tag, src, dst, size)) c)
            (arrived ops (tag, src, dst, size, c))) ∧
      (∀ (tag src dst : Int) (size : Nat) (c : Int),
        (tag, src, dst, size, c) ∈ s.in_flight ↔
          ((nth (sendsOn ops (tag, src, dst, size)) c).isSome = true ∧
            arrived ops (tag, src, dst, size, c) = false)) ∧
      (∀ (tag src dst : Int) (size : Nat) (c : Int) (hs hr : Event),
        nth (sendsOn ops (tag, src, dst, size)) c = some hs →
        nth (recvsOn ops (tag, src, dst, size)) c = some hr →
        arrived ops (tag, src, dst, size, c) = false →
        ∃ s1, s.step (Op.chunk_arrival (tag, src, dst, size, c)) = some s1 ∧
          s1.log = s.log ++ [Effect.send_handler hs, Effect.recv_handler hr]) ∧
      (∀ (tag src dst : Int) (size : Nat) (hs : Event) (h a : Nat),
        nth (sendsOn ops (tag, src, dst, size))
          ((recvsOn ops (tag, src, dst, size)).length : Int) = some hs →
        arrived ops (tag, src, dst, size, ((recvsOn ops (tag, src, dst, size)).length : Int))
          = true →
        ∃ s1, s.sim_recv dst size src tag h a = some s1 ∧
          s1.log = s.log ++ [Effect.sim_schedule ⟨time_type_e.NS, 0⟩ ⟨h, a⟩] ∧
          s1.callback_tracker.tracker.find
            (tag, src, dst, size, ((recvsOn ops (tag, src, dst, size)).length : Int)) = none) := by
  obtain ⟨s, hrun, hinv⟩ := inv_run ops [] ApiState.init inv_init hadm
  simp only [List.nil_append] at hinv
  refine ⟨s, hrun, ?_, ?_, ?_, ?_⟩
  · intro tag src dst size c
    exact hinv.table (tag, src, dst, size, c)
  · intro tag src dst size c
    exact hinv.in_flight (tag, src, dst, size, c)
  · intro tag src dst size c hs hr hsend hrecv harr
    have hsome : (nth (sendsOn ops (ChunkKey.stream (tag, src, dst, size, c)))
        (ChunkKey.id (tag, src, dst, size, c))).isSome = true := by
      simp [ChunkKey.stream, ChunkKey.id, hsend]
    have hk := inv_key_ok ops s hinv (tag, src, dst, size, c) hsome
    have htab := hinv.table (tag, src, dst, size, c)
    simp only [ChunkKey.stream, ChunkKey.id, hsend, hrecv, harr, expectedEntry] at htab
    simp only [ApiState.step]
    rw [ApiState.process_chunk_arrival_eq _ _ hk]
    simp only [htab]
    exact ⟨_, rfl, rfl⟩
  · intro tag src dst size hs h a hsend harr
    have hsome : (nth (sendsOn ops (ChunkKey.stream (tag, src, dst, size,
        ((recvsOn ops (tag, src, dst, size)).length : Int))))
        (ChunkKey.id (tag, src, dst, size,
          ((recvsOn ops (tag, src, dst, size)).length : Int)))).isSome = true := by
      simp [ChunkKey.stream, ChunkKey.id, hsend]
    have hk := inv_key_ok ops s hinv _ hsome
    have hok : args_ok tag src dst size = true := by
      simp only [CallbackTracker.key_ok, Bool.and_eq_true] at hk
      exact hk.1
    obtain ⟨g1, hg, _, _, _⟩ :=
      s.chunk_id_generator.create_recv_chunk_id_spec (tag, src, dst, size) hok hinv.wf
    simp only at hg
    rw [hinv.recvCount] at hg
    have hnr : nth (recvsOn ops (tag, src, dst, size))
        ((recvsOn ops (tag, src, dst, size)).length : Int) = none :=
      (nth_eq_none_iff _ _).mpr (Or.inr (le_refl _))
    have htab := hinv.table
      (tag, src, dst, size, ((recvsOn ops (tag, src, dst, size)).length : Int))
    simp only [ChunkKey.stream, ChunkKey.id, hsend, hnr, harr, expectedEntry] at htab
    rw [ApiState.sim_recv_eq s dst size src tag h a g1 _ hok (Int.natCast_nonneg _) hg, htab]
    simp only [if_true]
    refine ⟨_, rfl, rfl, ?_⟩
    simp [Map.find_erase _ _ _ hinv.keys]

/-- Witness of C2: the sample run is admissible; at its end nothing is left in the
tracker. -/
theorem kth_send_meets_kth_recv_witness :
    Admissible ApiState.init sampleOps = true ∧
    ∃ s, ApiState.init.run sampleOps = some s ∧
      s.callback_tracker.tracker.find (1, 0, 1, 64, 1) = none ∧
      nth (sendsOn sampleOps (1, 0, 1, 64)) 1 = some ⟨101, 0⟩ ∧
      nth (recvsOn sampleOps (1, 0, 1, 64)) 1 = some ⟨201, 0⟩ := by
  have hadm : Admissible ApiState.init sampleOps = true := by decide
  obtain ⟨s, hrun, htab, _, _, _⟩ := kth_send_meets_kth_recv sampleOps hadm
  refine ⟨hadm, s, hrun, ?_, by decide, by decide⟩
  rw [htab 1 0 1 64 1]
  decide

/-- C3: for every admissible sequence of `sim_send`, `sim_recv` and chunk-arrival
operations (arguments in the asserted ranges, each arrival that of a chunk in flight)
after which no chunk is left in flight and in which each (tag, src, dst, size) has as
many `sim_recv` as `sim_send` calls, the run reaches its end, the callback tracker is
empty there, and every handler has been fired as often as it was registered: the
invocations of a send handler equal the `sim_send` calls that passed it, and the
invocations of a recv handler plus its `sim_schedule` calls with delay 0 equal the
`sim_recv` calls that passed it (exactly once for each registration). -/
theorem handlers_fire_once (ops : List Op) (hadm : Admissible ApiState.init ops = true)
    (harrive : (ApiState.init.runD ops).in_flight = [])
    (hbalance : ∀ key, (recvsOn ops key).length = (sendsOn ops key).length) :
    ∃ s, ApiState.init.run ops = some s ∧ s.callback_tracker.tracker = [] ∧
      ∀ ev, s.log.count (Effect.send_handler ev) = sendRegistered ops ev ∧
        s.log.count (Effect.recv_handler ev) +
          s.log.count (Effect.sim_schedule ⟨time_type_e.NS, 0⟩ ev) = recvRegistered ops ev := by
  obtain ⟨s, hrun, hinv⟩ := inv_run ops [] ApiState.init inv_init hadm
  simp only [List.nil_append] at hinv
  have hs : ApiState.init.runD ops = s := by simp [ApiState.runD, hrun]
  rw [hs] at harrive
  have hempty : s.callback_tracker.tracker = [] := by
    apply Map.eq_nil_of_find_none
    intro k
    rw [hinv.table k]
    have hfl := hinv.in_flight k
    rw [harrive] at hfl
    cases hsend : nth (sendsOn ops k.stream) k.id with
    | none =>
      have hr : nth (recvsOn ops k.stream) k.id = none := by
        rw [nth_eq_none_iff] at hsend ⊢
        rw [hbalance]
        exact hsend
      rw [hr]
      rfl
    | some hsv =>
      have hr : (nth (recvsOn ops k.stream) k.id).isSome = true := by
        rw [nth_isSome_iff, hbalance, ← nth_isSome_iff, hsend]
        rfl
      obtain ⟨hrv, hhr⟩ := Option.isSome_iff_exists.mp hr
      have harr : arrived ops k = true := by
        cases ha : arrived ops k with
        | true => rfl
        | false =>
          have := hfl.mpr ⟨by simp [hsend], ha⟩
          simp at this
      rw [hhr, harr]
      rfl
  refine ⟨s, hrun, hempty, ?_⟩
  intro ev
  have h1 := hinv.sendFired ev
  have h2 := hinv.recvFired ev
  rw [hempty] at h1 h2
  simp only [List.countP_nil, Nat.add_zero] at h1 h2
  exact ⟨h1, h2⟩

/-- Witness of C3: the sample run satisfies the hypotheses; its log is the list of the
seven firings of its seven handlers. -/
theorem handlers_fire_once_witness :
    Admissible ApiState.init sampleOps = true ∧
    (ApiState.init.runD sampleOps).in_flight = [] ∧
    (∀ key, (recvsOn sampleOps key).length = (sendsOn sampleOps key).length) ∧
    ∃ s, ApiState.init.run sampleOps = some s ∧ s.callback_tracker.tracker = [] ∧
      s.log.count (Effect.send_handler ⟨101, 0⟩) = 1 ∧
      s.log.count (Effect.recv_handler ⟨200, 0⟩) +
        s.log.count (Effect.sim_schedule ⟨time_type_e.NS, 0⟩ ⟨200, 0⟩) = 1 := by
  have hadm : Admissible ApiState.init sampleOps = true := by decide
  have harrive : (ApiState.init.runD sampleOps).in_flight = [] := by decide
  have hbalance : ∀ key, (recvsOn sampleOps key).length = (sendsOn sampleOps key).length := by
    intro key
    by_cases h1 : ((1 : Int), (0 : Int), (1 : Int), (64 : Nat)) = key
    · subst h1; decide
    · by_cases h2 : ((7 : Int), (1 : Int), (0 : Int), (32 : Nat)) = key
      · subst h2; decide
      · simp [sampleOps, recvsOn, sendsOn, h1, h2]
  obtain ⟨s, hrun, hempty, hcount⟩ := handlers_fire_once sampleOps hadm harrive hbalance
  refine ⟨hadm, harrive, hbalance, s, hrun, hempty, ?_, ?_⟩
  · rw [(hcount ⟨101, 0⟩).1]; decide
  · rw [(hcount ⟨200, 0⟩).2]; decide

end AstraSimAnalytical


namespace AstraSim

/-! ## Ring constructor: injection policy and `max_count` -/

/-- Counterexample to C11: a Ring constructed for All_Reduce over 4 ranks with injection
policy Aggressive has parallel_reduce = 1, not n-1 = 3. -/
theorem ring_ctor_parallel_reduce_counterexample :
    (Ring.ctor Ring.sampleStorage ComType.All_Reduce 0 (RingTopology.ofSize 4 Dimension.Local)
        4096 Direction.Clockwise InjectionPolicy.Aggressive).parallel_reduce = 1 ∧
    (Ring.ctor Ring.sampleStorage ComType.All_Reduce 0 (RingTopology.ofSize 4 Dimension.Local)
        4096 Direction.Clockwise InjectionPolicy.Aggressive).parallel_reduce ≠ 4 - 1 := by
  decide

/-- C11 as amended: for every ring size n, a Ring constructed for All_to_All with injection
policy Aggressive has parallel_reduce = n-1; a Ring constructed for any other collective
type, or for All_to_All with any other injection policy, has parallel_reduce = 1. -/
theorem ring_ctor_parallel_reduce (storage : Ring) (type : ComType) (id : Int)
    (topo : RingTopology) (data_size : Nat) (direction : Direction)
    (policy : InjectionPolicy) :
    (Ring.ctor storage type id topo data_size direction policy).parallel_reduce =
      if type = ComType.All_to_All ∧ policy = InjectionPolicy.Aggressive then
        topo.get_nodes_in_ring - 1
      else 1 := by
  cases type <;> cases policy <;>
    simp [Ring.ctor, Ring.ctor_stream_count, Ring.ctor_max_count, Ring.ctor_sizes]

/-- Counterexample to C12: a Ring constructed for All_Gather over 4 ranks has
max_count = 0, not n-1 = 3. -/
theorem ring_ctor_max_count_counterexample :
    (Ring.ctor Ring.sampleStorage ComType.All_Gather 0 (RingTopology.ofSize 4 Dimension.Local)
        4096 Direction.Clockwise InjectionPolicy.Normal).max_count = 0 ∧
    (Ring.ctor Ring.sampleStorage ComType.All_Gather 0 (RingTopology.ofSize 4 Dimension.Local)
        4096 Direction.Clockwise InjectionPolicy.Normal).max_count ≠ 4 - 1 := by
  decide

/-- C12 as amended: for every ring size n, a Ring constructed for Reduce_Scatter or
All_Reduce (or any type other than the next two) has max_count = n-1, and a Ring
constructed for All_to_All or for All_Gather has max_count = 0. -/
theorem ring_ctor_max_count (storage : Ring) (type : ComType) (id : Int)
    (topo : RingTopology) (data_size : Nat) (direction : Direction)
    (policy : InjectionPolicy) :
    (Ring.ctor storage type id topo data_size direction policy).max_count =
      if type = ComType.All_to_All ∨ type = ComType.All_Gather then 0
      else topo.get_nodes_in_ring - 1 := by
  cases type <;> cases policy <;>
    simp [Ring.ctor, Ring.ctor_stream_count, Ring.ctor_max_count, Ring.ctor_sizes]

end AstraSim

namespace Ns3Frontend

/-! ## Completion tracker -/

/-- Marking one more rank removes it from the unmarked ranks, once. -/
theorem unmarked_cons_length (n : Nat) (marked : List Int) (r : Nat) (hr : r < n)
    (hnew : (r : Int) ∉ marked) :
    (unmarked n ((r : Int) :: marked)).length + 1 = (unmarked n marked).length := by
  unfold unmarked
  rw [← List.countP_eq_length_filter, ← List.countP_eq_length_filter]
  induction n with
  | zero => omega
  | succ m ih =>
    rw [List.range_succ, List.countP_append, List.countP_append]
    by_cases hrm : r = m
    · subst hrm
      have h0 : List.countP (fun i : Nat => decide ((i : Int) ∉ (r : Int) :: marked))
          (List.range r)
          = List.countP (fun i : Nat => decide ((i : Int) ∉ marked)) (List.range r) := by
        apply List.countP_congr
        intro i hi
        have hlt : i < r := List.mem_range.mp hi
        have hne : (i : Int) ≠ (r : Int) := by omega
        simp [hne]
      rw [h0]
      simp [hnew]
    · have hlt : r < m := by omega
      have := ih hlt
      have hne : (m : Int) ≠ (r : Int) := by omega
      have hm : decide ((m : Int) ∉ (r : Int) :: marked) = decide ((m : Int) ∉ marked) := by
        simp [hne]
      simp only [List.countP_cons, List.countP_nil, hm]
      omega

/-- Marking a rank again changes nothing among the unmarked ranks. -/
theorem unmarked_cons_of_mem (n : Nat) (marked : List Int) (r : Int) (hold : r ∈ marked) :
    unmarked n (r :: marked) = unmarked n marked := by
  unfold unmarked
  apply List.filter_congr
  intro i _
  by_cases hi : (i : Int) = r
  · simp [hi, hold]
  · simp [hi]

/-- The flags after marking a rank that was not marked. -/
theorem flags_set (n : Nat) (marked : List Int) (r : Nat) :
    ((List.range n).map (fun (i : Nat) => if (i : Int) ∈ marked then (1 : Int) else 0)).set r 1
      = (List.range n).map
          (fun (i : Nat) => if (i : Int) ∈ (r : Int) :: marked then (1 : Int) else 0) := by
  apply List.ext_getElem
  · simp
  · intro i h1 h2
    simp only [List.length_set, List.length_map, List.length_range] at h1
    by_cases hi : r = i
    · subst hi
      simp
    · have hne : ¬ i = r := fun e => hi e.symm
      simp [List.getElem_set, hi, hne]

/-- One call on the tracker left by the calls `marked`. -/
theorem mark_rank_as_finished_trackerOf (n : Nat) (marked : List Int) (r : Int)
    (h0 : 0 ≤ r) (hn : r < (n : Int)) :
    (trackerOf n marked).mark_rank_as_finished r =
      some (trackerOf n (r :: marked), decide ((unmarked n (r :: marked)).length = 0)) := by
  obtain ⟨k, rfl⟩ : ∃ k : Nat, r = (k : Int) := ⟨r.toNat, by omega⟩
  have hk : k < n := by omega
  by_cases hold : (k : Int) ∈ marked
  · have hflags : (List.range n).map
          (fun (i : Nat) => if (i : Int) ∈ (k : Int) :: marked then (1 : Int) else 0)
        = (List.range n).map (fun (i : Nat) => if (i : Int) ∈ marked then (1 : Int) else 0) := by
      apply List.map_congr_left
      intro i _
      by_cases hik : (i : Int) = (k : Int)
      · simp [hik, hold]
      · simp [hik]
    simp only [NS3BackendCompletionTracker.mark_rank_as_finished, trackerOf, h0, if_true,
      Int.toNat_ofNat, List.getElem?_map, List.getElem?_range hk, Option.map_some',
      hold, hflags, unmarked_cons_of_mem n marked (k : Int) hold]
    simp
  · have hlen := unmarked_cons_length n marked k hk hold
    have hcast : ((unmarked n marked).length : Int) - 1
        = ((unmarked n ((k : Int) :: marked)).length : Int) := by omega
    simp only [NS3BackendCompletionTracker.mark_rank_as_finished, trackerOf, h0, if_true,
      Int.toNat_ofNat, List.getElem?_map, List.getElem?_range hk, Option.map_some',
      hold, if_false, flags_set n marked k, hcast]
    simp

/-- The calls applied to the tracker left by earlier calls. -/
theorem mark_all_trackerOf (n : Nat) (ranks : List Int) :
    ∀ marked : List Int, (∀ r ∈ ranks, 0 ≤ r ∧ r < (n : Int)) →
      ∃ halts, (trackerOf n marked).mark_all ranks
          = some (trackerOf n (ranks.reverse ++ marked), halts) ∧
        halts.length = ranks.length ∧
        ∀ i, i < ranks.length →
          halts[i]? = some (decide
            ((unmarked n ((ranks.take (i + 1)).reverse ++ marked)).length = 0)) := by
  induction ranks with
  | nil =>
    intro marked _
    exact ⟨[], rfl, rfl, by simp⟩
  | cons r ranks ih =>
    intro marked hall
    have hr := hall r (List.mem_cons_self _ _)
    obtain ⟨halts, hrun, hlen, hflag⟩ :=
      ih (r :: marked) (fun x hx => hall x (List.mem_cons_of_mem _ hx))
    refine ⟨decide ((unmarked n (r :: marked)).length = 0) :: halts, ?_, by simp [hlen], ?_⟩
    · simp [NS3BackendCompletionTracker.mark_all,
        mark_rank_as_finished_trackerOf n marked r hr.1 hr.2, hrun]
    · intro i hi
      cases i with
      | zero => simp
      | succ j =>
        have hj : j < ranks.length := by simpa using hi
        simpa using hflag j hj

/-- The unmarked ranks depend on which ranks were marked, not on the order. -/
theorem unmarked_congr (n : Nat) (a b : List Int) (h : ∀ r, r ∈ a ↔ r ∈ b) :
    unmarked n a = unmarked n b := by
  unfold unmarked
  apply List.filter_congr
  intro i _
  simp [h]

/-- No rank is unmarked exactly when every rank has been marked. -/
theorem unmarked_length_eq_zero (n : Nat) (marked : List Int) :
    (unmarked n marked).length = 0 ↔ ∀ r : Nat, r < n → (r : Int) ∈ marked := by
  rw [List.length_eq_zero]
  unfold unmarked
  rw [List.filter_eq_nil_iff]
  constructor
  · intro h r hr
    have := h r (List.mem_range.mpr hr)
    simpa using this
  · intro h r hr
    simpa using h r (List.mem_range.mp hr)

/-- The freshly constructed tracker is the one left by no call. -/
theorem ctor_eq_trackerOf (n : Nat) : NS3BackendCompletionTracker.ctor n = trackerOf n [] := by
  have h1 : unmarked n [] = List.range n := by
    unfold unmarked
    simp
  have h2 : (List.range n).map (fun (i : Nat) => if (i : Int) ∈ ([] : List Int) then (1 : Int) else 0)
      = List.replicate n 0 := by
    apply List.ext_getElem
    · simp
    · intro i h1 h2
      simp
  simp [NS3BackendCompletionTracker.ctor, trackerOf, h1, h2]

/-- C20: for a NS3BackendCompletionTracker built for N ranks and any sequence of
`mark_rank_as_finished(r)` calls with 0 <= r < N, after the sequence
`num_unfinished_ranks_` equals the number of ranks among 0 .. N-1 that no call has marked
(a rank marked twice counts once), and a call halts the simulator if and only if after
it every one of the N ranks has been marked. -/
theorem completion_tracker_counts (n : Nat) (ranks : List Int)
    (hrange : ∀ r ∈ ranks, 0 ≤ r ∧ r < (n : Int)) :
    ∃ t halts, (NS3BackendCompletionTracker.ctor n).mark_all ranks = some (t, halts) ∧
      t.num_unfinished_ranks_ = ((unmarked n ranks).length : Int) ∧
      halts.length = ranks.length ∧
      ∀ i, i < ranks.length →
        (halts[i]? = some true ↔ ∀ r : Nat, r < n → (r : Int) ∈ ranks.take (i + 1)) := by
  obtain ⟨halts, hrun, hlen, hflag⟩ := mark_all_trackerOf n ranks [] hrange
  rw [← ctor_eq_trackerOf] at hrun
  refine ⟨_, halts, hrun, ?_, hlen, ?_⟩
  · have := unmarked_congr n (ranks.reverse ++ []) ranks (by simp)
    simp only [trackerOf, this]
  · intro i hi
    rw [hflag i hi]
    have := unmarked_congr n ((ranks.take (i + 1)).reverse ++ []) (ranks.take (i + 1)) (by simp)
    rw [this]
    simp only [Option.some.injEq, decide_eq_true_eq]
    exact unmarked_length_eq_zero n _

/-- Witness of C20: three ranks, marked in the order 1, 1, 0, 2; only the last call
halts the simulator. -/
theorem completion_tracker_counts_witness :
    ∃ t, (NS3BackendCompletionTracker.ctor 3).mark_all [1, 1, 0, 2]
        = some (t, [false, false, false, true]) ∧ t.num_unfinished_ranks_ = 0 := by
  obtain ⟨t, halts, hrun, hnum, _, _⟩ :=
    completion_tracker_counts 3 [1, 1, 0, 2] (by decide)
  have h2 : ((NS3BackendCompletionTracker.ctor 3).mark_all [1, 1, 0, 2]).map Prod.snd
      = some [false, false, false, true] := by decide
  rw [hrun] at h2
  simp only [Option.map_some', Option.some.injEq] at h2
  subst h2
  exact ⟨t, hrun, by rw [hnum]; decide⟩

end Ns3Frontend

namespace AstraSimAnalytical

/-- Lookup after the assignment `map[k] = v`. -/
theorem Map.find_assign {κ ν : Type} [DecidableEq κ] (m : Map κ ν) (k k1 : κ) (v : ν) :
    (m.assign k v).find k1 = if k1 = k then some v else m.find k1 := by
  unfold Map.assign
  cases h : m.find k with
  | none =>
    by_cases h1 : k1 = k
    · subst h1; simp [Map.find]
    · have : ¬ k = k1 := fun e => h1 e.symm
      simp [Map.find, h1, this]
  | some e =>
    simp only [Map.find_set, h, Option.map_some']

/-- The assignment `map[k] = v` keeps the keys pairwise different. -/
theorem Map.nodupKeys_assign {κ ν : Type} [DecidableEq κ] (m : Map κ ν) (k : κ) (v : ν)
    (hm : m.NodupKeys) : (m.assign k v).NodupKeys := by
  unfold Map.assign
  cases h : m.find k with
  | none =>
    have := Map.not_mem_keys_of_find_none m k h
    simp only [Map.NodupKeys, List.map_cons, List.nodup_cons]
    exact ⟨this, hm⟩
  | some e => exact Map.nodupKeys_set m k v hm

end AstraSimAnalytical

namespace Ns3Frontend

open AstraSimAnalytical

/-! ## The ns3 frontend: arrivals and `sim_recv` -/

/-- The byte count of `node_to_bytes_sent_map` touches no other map and no handler. -/
theorem count_received_fields (st : Ns3State) (dst_id message_size : Int) :
    (st.count_received dst_id message_size).sim_recv_waiting_hash = st.sim_recv_waiting_hash ∧
    (st.count_received dst_id message_size).received_msg_standby_hash
      = st.received_msg_standby_hash ∧
    (st.count_received dst_id message_size).calls = st.calls := by
  unfold Ns3State.count_received
  cases st.node_to_bytes_sent_map.find (dst_id, 1) <;> exact ⟨rfl, rfl, rfl⟩

/-- Counterexample to C14: no recv waits on the key (7, 0, 1) and 2147483647 B are standby
on it after a first arrival; a second arrival of 2147483647 B does not leave the sum
4294967294 standby: the `int` count of `received_msg_standby_hash` overflows and holds
-2. -/
theorem partial_size_arrival_counterexample :
    (Ns3State.init.notify_receiver_receive_data 0 1 2147483647 7).sim_recv_waiting_hash.find
        (7, (0, 1)) = none ∧
    (Ns3State.init.notify_receiver_receive_data 0 1 2147483647 7
        ).received_msg_standby_hash.find (7, (0, 1)) = some 2147483647 ∧
    ((Ns3State.init.notify_receiver_receive_data 0 1 2147483647 7
        ).notify_receiver_receive_data 0 1 2147483647 7).received_msg_standby_hash.find
        (7, (0, 1)) = some (-2) ∧
    ((Ns3State.init.notify_receiver_receive_data 0 1 2147483647 7
        ).notify_receiver_receive_data 0 1 2147483647 7).received_msg_standby_hash.find
        (7, (0, 1)) ≠ some (2147483647 + 2147483647) := by
  decide

/-- C14 (amended): partial-size arrival in the ns3 frontend.  When
`notify_receiver_receive_data` delivers `k` bytes for the key (tag, src, dst) on which a
recv waits for `m` remaining bytes: if k = m the waiting entry is removed and its handler
is called once; if k > m the waiting entry is removed, its handler is called once and,
when k - m fits `int`, exactly k - m bytes are left in `received_msg_standby_hash`; if
k < m no handler is called and, when m - k fits `int`, the remaining bytes of the waiting
entry become m - k.  When no recv waits on the key, no handler is called and, when the sum
fits `int`, k is added to the standby bytes of the key (an absent entry counting as 0). -/
theorem partial_size_arrival (st : Ns3State) (src_id dst_id k tag : Int)
    (hnodup : st.sim_recv_waiting_hash.NodupKeys) :
    (∀ e, st.sim_recv_waiting_hash.find (tag, (src_id, dst_id)) = some e →
      (k = e.remaining_msg_bytes →
        (st.notify_receiver_receive_data src_id dst_id k tag).sim_recv_waiting_hash.find
            (tag, (src_id, dst_id)) = none ∧
        (st.notify_receiver_receive_data src_id dst_id k tag).calls
          = st.calls ++ [{ msg_handler := e.msg_handler, fun_arg := e.fun_arg }] ∧
        (st.notify_receiver_receive_data src_id dst_id k tag).received_msg_standby_hash
          = st.received_msg_standby_hash) ∧
      (k > e.remaining_msg_bytes →
        (st.notify_receiver_receive_data src_id dst_id k tag).sim_recv_waiting_hash.find
            (tag, (src_id, dst_id)) = none ∧
        (st.notify_receiver_receive_data src_id dst_id k tag).calls
          = st.calls ++ [{ msg_handler := e.msg_handler, fun_arg := e.fun_arg }] ∧
        (k - e.remaining_msg_bytes < 2 ^ 31 →
          (st.notify_receiver_receive_data src_id dst_id k tag).received_msg_standby_hash.find
              (tag, (src_id, dst_id)) = some (k - e.remaining_msg_bytes))) ∧
      (k < e.remaining_msg_bytes →
        (e.remaining_msg_bytes - k < 2 ^ 31 →
          (st.notify_receiver_receive_data src_id dst_id k tag).sim_recv_waiting_hash.find
              (tag, (src_id, dst_id))
            = some { e with remaining_msg_bytes := e.remaining_msg_bytes - k }) ∧
        (st.notify_receiver_receive_data src_id dst_id k tag).calls = st.calls ∧
        (st.notify_receiver_receive_data src_id dst_id k tag).received_msg_standby_hash
          = st.received_msg_standby_hash)) ∧
    (st.sim_recv_waiting_hash.find (tag, (src_id, dst_id)) = none →
      ((∀ bytes, st.received_msg_standby_hash.find (tag, (src_id, dst_id)) = some bytes →
          -(2 ^ 31) ≤ bytes + k ∧ bytes + k < 2 ^ 31) →
        (st.notify_receiver_receive_data src_id dst_id k tag).received_msg_standby_hash.find
            (tag, (src_id, dst_id))
          = some ((st.received_msg_standby_hash.find (tag, (src_id, dst_id))).getD 0 + k)) ∧
      (st.notify_receiver_receive_data src_id dst_id k tag).calls = st.calls ∧
      (st.notify_receiver_receive_data src_id dst_id k tag).sim_recv_waiting_hash
        = st.sim_recv_waiting_hash) := by
  refine ⟨?_, ?_⟩
  · intro e he
    refine ⟨?_, ?_, ?_⟩
    · intro hk
      simp only [Ns3State.notify_receiver_receive_data, he, hk, if_true]
      obtain ⟨h1, h2, h3⟩ := count_received_fields
        (Ns3State.callHandler
          { st with sim_recv_waiting_hash :=
              st.sim_recv_waiting_hash.erase (tag, (src_id, dst_id)) } e)
        dst_id e.remaining_msg_bytes
      rw [h1, h2, h3]
      refine ⟨?_, rfl, rfl⟩
      simp [Ns3State.callHandler, Map.find_erase _ _ _ hnodup]
    · intro hk
      have hne : ¬ k = e.remaining_msg_bytes := by omega
      simp only [Ns3State.notify_receiver_receive_data, he, hne, if_false, hk, if_true]
      obtain ⟨h1, h2, h3⟩ := count_received_fields
        (Ns3State.callHandler
          { st with
            received_msg_standby_hash :=
              (st.received_msg_standby_hash.assign (tag, (src_id, dst_id))
                (AstraSim.int32 (k - e.remaining_msg_bytes)))
            sim_recv_waiting_hash :=
              st.sim_recv_waiting_hash.erase (tag, (src_id, dst_id)) } e)
        dst_id k
      rw [h1, h2, h3]
      refine ⟨?_, rfl, ?_⟩
      · simp [Ns3State.callHandler, Map.find_erase _ _ _ hnodup]
      · intro hfit
        simp [Ns3State.callHandler, Map.find_assign,
          AstraSim.int32_of_range (k - e.remaining_msg_bytes) (by omega) hfit]
    · intro hk
      have hne : ¬ k = e.remaining_msg_bytes := by omega
      have hngt : ¬ k > e.remaining_msg_bytes := by omega
      simp only [Ns3State.notify_receiver_receive_data, he, hne, if_false, hngt]
      obtain ⟨h1, h2, h3⟩ := count_received_fields
        { st with
          sim_recv_waiting_hash :=
            (st.sim_recv_waiting_hash.assign (tag, (src_id, dst_id))
              { e with
                remaining_msg_bytes := AstraSim.int32 (e.remaining_msg_bytes - k) }) }
        dst_id k
      rw [h1, h2, h3]
      refine ⟨?_, rfl, rfl⟩
      intro hfit
      simp [Map.find_assign,
        AstraSim.int32_of_range (e.remaining_msg_bytes - k) (by omega) hfit]
  · intro hnone
    simp only [Ns3State.notify_receiver_receive_data, hnone]
    cases hs : st.received_msg_standby_hash.find (tag, (src_id, dst_id)) with
    | none =>
      obtain ⟨h1, h2, h3⟩ := count_received_fields
        { st with received_msg_standby_hash :=
            (st.received_msg_standby_hash.assign (tag, (src_id, dst_id)) k) }
        dst_id k
      simp only [h1, h2, h3]
      refine ⟨?_, trivial, trivial⟩
      intro _
      simp [Map.find_assign]
    | some bytes =>
      obtain ⟨h1, h2, h3⟩ := count_received_fields
        { st with received_msg_standby_hash :=
            (st.received_msg_standby_hash.assign (tag, (src_id, dst_id))
              (AstraSim.int32 (bytes + k))) }
        dst_id k
      simp only [h1, h2, h3]
      refine ⟨?_, trivial, trivial⟩
      intro hfit
      obtain ⟨hlo, hhi⟩ := hfit bytes rfl
      simp [Map.find_assign, AstraSim.int32_of_range (bytes + k) hlo hhi]

/-- Witness of C14 (amended): rank 1 waits for 64 B from rank 0 under tag 7 (handler 3,
argument 4); 100 B arrive: the handler is called once, no recv waits any more and 36 B are
left in `received_msg_standby_hash`. -/
theorem partial_size_arrival_witness :
    ((Ns3State.init.sim_recv 1 64 0 7 3 4).notify_receiver_receive_data 0 1 100 7
        ).sim_recv_waiting_hash.find (7, (0, 1)) = none ∧
    ((Ns3State.init.sim_recv 1 64 0 7 3 4).notify_receiver_receive_data 0 1 100 7).calls
      = [{ msg_handler := 3, fun_arg := 4 }] ∧
    ((Ns3State.init.sim_recv 1 64 0 7 3 4).notify_receiver_receive_data 0 1 100 7
        ).received_msg_standby_hash.find (7, (0, 1)) = some 36 :=
  ⟨(((partial_size_arrival (Ns3State.init.sim_recv 1 64 0 7 3 4) 0 1 100 7
        (by unfold Map.NodupKeys; decide)).1
      { src_id := 0, dst_id := 1, type := 1, remaining_msg_bytes := 64, fun_arg := 4,
        msg_handler := 3 } (by decide)).2.1 (by decide)).1,
   (((partial_size_arrival (Ns3State.init.sim_recv 1 64 0 7 3 4) 0 1 100 7
        (by unfold Map.NodupKeys; decide)).1
      { src_id := 0, dst_id := 1, type := 1, remaining_msg_bytes := 64, fun_arg := 4,
        msg_handler := 3 } (by decide)).2.1 (by decide)).2.1,
   (((partial_size_arrival (Ns3State.init.sim_recv 1 64 0 7 3 4) 0 1 100 7
        (by unfold Map.NodupKeys; decide)).1
      { src_id := 0, dst_id := 1, type := 1, remaining_msg_bytes := 64, fun_arg := 4,
        msg_handler := 3 } (by decide)).2.1 (by decide)).2.2 (by decide)⟩

end Ns3Frontend

namespace Ns3Frontend

open AstraSimAnalytical

/-- A `uint64_t` below `2^31` keeps its value when converted to `int`. -/
theorem uint64ToInt_of_lt (x : Nat) (h : x < 2 ^ 31) : uint64ToInt x = (x : Int) := by
  unfold uint64ToInt
  have h1 : x % 2 ^ 32 = x := Nat.mod_eq_of_lt (by omega)
  rw [h1, if_pos h]

/-- The `uint64_t` difference of two values, the first not below the second. -/
theorem uint64Sub_of_le (a b : Nat) (ha : a < 2 ^ 64) (hba : b ≤ a) : uint64Sub a b = a - b := by
  unfold uint64Sub
  have hb : b % 2 ^ 64 = b := Nat.mod_eq_of_lt (by omega)
  rw [hb]
  have : a + (2 ^ 64 - b) = (a - b) + 2 ^ 64 := by omega
  rw [this, Nat.add_mod_right]
  exact Nat.mod_eq_of_lt (by omega)

/-- C15 (what the code does): in the ns3 frontend, `sim_recv` of m bytes by rank `rank` on
a key that has s standby bytes, 0 <= s < 2^31.  If s = m the handler is called immediately
and the standby entry is removed; if s > m the handler is called immediately and s - m
standby bytes are left.  If s < m all s standby bytes are consumed, no handler is called
and a recv is registered as waiting for the `int` that the `MsgEvent` constructor made of
the `uint64_t` size m, less s.  For m below 2^31 that is the m - s missing bytes.  For a
size m from 2^31 up to 2^32 - 1 the constructor leaves m - 2^32, and the registered count
is the negative number m - 2^32 - s (for s up to m - 2^31, where the subtraction stays in
`int`). -/
theorem sim_recv_standby (st : Ns3State) (rank : Int) (m : Nat) (src_id tag : Int)
    (msg_handler fun_arg : Nat) (s : Int)
    (hnodup : st.received_msg_standby_hash.NodupKeys)
    (hs : st.received_msg_standby_hash.find (tag, (src_id, rank)) = some s)
    (hs0 : 0 ≤ s) (hs31 : s < 2 ^ 31) :
    (s = (m : Int) →
      (st.sim_recv rank m src_id tag msg_handler fun_arg).calls
        = st.calls ++ [{ msg_handler := msg_handler, fun_arg := fun_arg }] ∧
      (st.sim_recv rank m src_id tag msg_handler fun_arg).received_msg_standby_hash.find
          (tag, (src_id, rank)) = none ∧
      (st.sim_recv rank m src_id tag msg_handler fun_arg).sim_recv_waiting_hash
        = st.sim_recv_waiting_hash) ∧
    (s > (m : Int) →
      (st.sim_recv rank m src_id tag msg_handler fun_arg).calls
        = st.calls ++ [{ msg_handler := msg_handler, fun_arg := fun_arg }] ∧
      (st.sim_recv rank m src_id tag msg_handler fun_arg).received_msg_standby_hash.find
          (tag, (src_id, rank)) = some (s - (m : Int)) ∧
      (st.sim_recv rank m src_id tag msg_handler fun_arg).sim_recv_waiting_hash
        = st.sim_recv_waiting_hash) ∧
    (s < (m : Int) →
      (st.sim_recv rank m src_id tag msg_handler fun_arg).calls = st.calls ∧
      (st.sim_recv rank m src_id tag msg_handler fun_arg).received_msg_standby_hash.find
          (tag, (src_id, rank)) = none ∧
      (st.sim_recv rank m src_id tag msg_handler fun_arg).sim_recv_waiting_hash.find
          (tag, (src_id, rank))
        = some { src_id := src_id, dst_id := rank, type := 1
                 remaining_msg_bytes := AstraSim.int32 (uint64ToInt m - s)
                 fun_arg := fun_arg, msg_handler := msg_handler }) ∧
    (m < 2 ^ 31 → AstraSim.int32 (uint64ToInt m - s) = (m : Int) - s) ∧
    (2 ^ 31 ≤ m → m < 2 ^ 32 → s ≤ (m : Int) - 2 ^ 31 →
      AstraSim.int32 (uint64ToInt m - s) = (m : Int) - 2 ^ 32 - s ∧
      (m : Int) - 2 ^ 32 - s < 0) := by
  obtain ⟨n, rfl⟩ := Int.eq_ofNat_of_zero_le hs0
  have hn : n < 2 ^ 31 := by exact_mod_cast hs31
  have hconv : AstraSim.intToUInt64 (n : Int) = n :=
    AstraSim.intToUInt64_natCast n (by omega)
  refine ⟨?_, ?_, ?_, ?_, ?_⟩
  · intro h
    have hnm : n = m := by exact_mod_cast h
    subst hnm
    simp only [Ns3State.sim_recv, hs, hconv, if_true, Ns3State.callHandler]
    refine ⟨trivial, ?_, trivial⟩
    simp [Map.find_erase _ _ _ hnodup]
  · intro h
    have hgt : n > m := by exact_mod_cast h
    have hne : ¬ n = m := by omega
    have hsub : uint64ToInt (uint64Sub n m) = (n : Int) - (m : Int) := by
      rw [uint64Sub_of_le n m (by omega) (by omega), uint64ToInt_of_lt _ (by omega)]
      omega
    simp only [Ns3State.sim_recv, hs, hconv, hne, if_false, hgt, if_true,
      Ns3State.callHandler, hsub]
    refine ⟨trivial, ?_, trivial⟩
    simp [Map.find_assign]
  · intro h
    have hlt : n < m := by exact_mod_cast h
    have hne : ¬ n = m := by omega
    have hngt : ¬ n > m := by omega
    simp only [Ns3State.sim_recv, hs, hconv, hne, if_false, hngt]
    refine ⟨trivial, ?_, ?_⟩
    · simp [Map.find_erase _ _ _ hnodup]
    · simp [Map.find_assign]
  · intro hm
    rw [uint64ToInt_of_lt m hm]
    exact AstraSim.int32_of_range _ (by omega) (by omega)
  · intro hlo hhi hsm
    have hmod : m % 2 ^ 32 = m := Nat.mod_eq_of_lt hhi
    have hconvm : uint64ToInt m = (m : Int) - 2 ^ 32 := by
      unfold uint64ToInt
      rw [hmod, if_neg (by omega)]
    rw [hconvm]
    refine ⟨AstraSim.int32_of_range _ (by omega) (by omega), by omega⟩

/-- Witness of C15.  With 5 B standby on the key (7, 0, 1), `sim_recv` of 3 GiB
(3221225472 B) registers a recv waiting for -1073741829 bytes, not for the 3221225467
missing ones, and the arrival of one more byte calls its handler.  With 36 B standby,
`sim_recv` of 64 B consumes them, calls no handler and waits for 28 more. -/
theorem sim_recv_standby_witness :
    ((Ns3State.init.notify_receiver_receive_data 0 1 5 7).sim_recv 1 3221225472 0 7 3 4
        ).sim_recv_waiting_hash.find (7, (0, 1))
      = some { src_id := 0, dst_id := 1, type := 1, remaining_msg_bytes := -1073741829
               fun_arg := 4, msg_handler := 3 } ∧
    (((Ns3State.init.notify_receiver_receive_data 0 1 5 7).sim_recv 1 3221225472 0 7 3 4
        ).notify_receiver_receive_data 0 1 1 7).calls = [{ msg_handler := 3, fun_arg := 4 }] ∧
    (((Ns3State.init.sim_recv 1 64 0 7 3 4).notify_receiver_receive_data 0 1 100 7
        ).sim_recv 1 64 0 7 5 6).calls = [{ msg_handler := 3, fun_arg := 4 }] ∧
    (((Ns3State.init.sim_recv 1 64 0 7 3 4).notify_receiver_receive_data 0 1 100 7
        ).sim_recv 1 64 0 7 5 6).sim_recv_waiting_hash.find (7, (0, 1))
      = some { src_id := 0, dst_id := 1, type := 1, remaining_msg_bytes := 28
               fun_arg := 6, msg_handler := 5 } :=
  ⟨((sim_recv_standby (Ns3State.init.notify_receiver_receive_data 0 1 5 7)
      1 3221225472 0 7 3 4 5 (by unfold Map.NodupKeys; decide) (by decide) (by decide)
      (by decide)).2.2.1 (by decide)).2.2.trans (by decide),
   by decide,
   ((sim_recv_standby
      ((Ns3State.init.sim_recv 1 64 0 7 3 4).notify_receiver_receive_data 0 1 100 7)
      1 64 0 7 5 6 36 (by unfold Map.NodupKeys; decide) (by decide) (by decide)
      (by decide)).2.2.1 (by decide)).1,
   ((sim_recv_standby
      ((Ns3State.init.sim_recv 1 64 0 7 3 4).notify_receiver_receive_data 0 1 100 7)
      1 64 0 7 5 6 36 (by unfold Map.NodupKeys; decide) (by decide) (by decide)
      (by decide)).2.2.1 (by decide)).2.2.trans (by decide)⟩

end Ns3Frontend

namespace AstraSim

/-! ## The workload engine: how a node is issued -/

namespace Workload

variable {F : Type}

/-- The log after `occupy` is the log before. -/
theorem occupy_eq (w : Workload F) (node : ETNode) (hw : HardwareResource)
    (hocc : w.hw_resource.occupy node.toETFeederNode = some hw) :
    w.occupy node = Except.ok { w with hw_resource := hw } := by
  simp [occupy, hocc]

/-- The log that `issue_replay` leaves. -/
theorem issue_replay_log (w : Workload F) (node : ETNode) :
    (w.issue_replay node).log = w.log ++
      [WorkloadEffect.register_event CallableRef.workload EventType.General
        (CallData.wlhd node.id) (if node.runtime = 0 then 1 else node.runtime * 1000 % 2 ^ 64)] := by
  unfold issue_replay add_tics replay_runtime
  by_cases h0 : node.runtime = 0 <;> cases hc : node.is_cpu_op <;> simp [h0]

end Workload

/-- Counterexample to C16: in replay-only mode a node with recorded runtime 0 is given a
completion event with a delay of 1 ns, not of 0 * 1000 = 0 ns. -/
theorem replay_delay_counterexample :
    ((Workload.issue SampleFeeder.ops (Workload.ctor (Sys.sample true false) (SampleFeeder.ofNodes []))
        (ETNode.sample 1 false ChakraNodeType.COMP_NODE 0 ChakraCollectiveCommType.ALL_REDUCE)
      ).toOption.map (fun (w : Workload SampleFeeder) => w.log))
      = some [WorkloadEffect.register_event CallableRef.workload EventType.General
          (CallData.wlhd 1) 1] ∧
    ((Workload.issue SampleFeeder.ops (Workload.ctor (Sys.sample true false) (SampleFeeder.ofNodes []))
        (ETNode.sample 1 false ChakraNodeType.COMP_NODE 0 ChakraCollectiveCommType.ALL_REDUCE)
      ).toOption.map (fun (w : Workload SampleFeeder) => w.log))
      ≠ some [WorkloadEffect.register_event CallableRef.workload EventType.General
          (CallData.wlhd 1) (0 * 1000)] := by
  decide

/-- C16 (amended): whenever the workload engine replays a node by its recorded runtime
(in replay-only mode; for a CPU or compute node without roofline that is not skipped as
invalid; for a Broadcast collective), and the hardware resource of the node is free, the
completion event is registered with a delay of `runtime * 1000` ns (modulo 2^64) when the
recorded runtime is not 0, and with a delay of 1 ns when it is 0. -/
theorem replay_delay {F : Type} (E : ETFeeder F) (w : Workload F) (node : ETNode)
    (hw : HardwareResource) (hocc : w.hw_resource.occupy node.toETFeederNode = some hw) :
    (w.sys.replay_only = true →
      ∃ w1, Workload.issue E w node = Except.ok w1 ∧
        w1.log = w.log ++
          [WorkloadEffect.register_event CallableRef.workload EventType.General
            (CallData.wlhd node.id)
            (if node.runtime = 0 then 1 else node.runtime * 1000 % 2 ^ 64)]) ∧
    (w.sys.replay_only = false → w.sys.roofline_enabled = false →
      node.type ≠ ChakraNodeType.MEM_LOAD_NODE → node.type ≠ ChakraNodeType.MEM_STORE_NODE →
      (node.is_cpu_op = true ∨ node.type = ChakraNodeType.COMP_NODE) →
      ¬ (node.runtime = 0 ∧ node.num_ops = 0) →
      ∃ w1, Workload.issue E w node = Except.ok w1 ∧
        w1.log = w.log ++
          [WorkloadEffect.register_event CallableRef.workload EventType.General
            (CallData.wlhd node.id)
            (if node.runtime = 0 then 1 else node.runtime * 1000 % 2 ^ 64)]) ∧
    (w.sys.replay_only = false → node.is_cpu_op = false →
      node.type = ChakraNodeType.COMM_COLL_NODE →
      node.comm_type = ChakraCollectiveCommType.BROADCAST →
      node.involved_dim ≠ InvolvedDimAttr.other_type →
      ∃ w1, Workload.issue E w node = Except.ok w1 ∧
        w1.log = w.log ++
          [WorkloadEffect.new_DataSet 1 (w.sys.dataset_id w.datasets_created),
           WorkloadEffect.set_notifier (w.sys.dataset_id w.datasets_created)
             EventType.CollectiveCommunicationFinished,
           WorkloadEffect.register_event
             (CallableRef.data_set (w.sys.dataset_id w.datasets_created)) EventType.General
             CallData.null (if node.runtime = 0 then 1 else node.runtime * 1000 % 2 ^ 64),
           WorkloadEffect.set_notifier (w.sys.dataset_id w.datasets_created)
             EventType.CollectiveCommunicationFinished]) := by
  have hoc := Workload.occupy_eq w node hw hocc
  refine ⟨?_, ?_, ?_⟩
  · intro hr
    refine ⟨({ w with hw_resource := hw } : Workload F).issue_replay node, ?_,
      Workload.issue_replay_log _ node⟩
    simp [Workload.issue, hr, hoc]
  · intro hr hroof hl hs hcomp hvalid
    refine ⟨({ w with hw_resource := hw } : Workload F).issue_replay node, ?_,
      Workload.issue_replay_log _ node⟩
    have hcomp2 : node.is_cpu_op = true ∨ node.is_cpu_op = false ∧ node.type = ChakraNodeType.COMP_NODE := by
      rcases hcomp with h | h
      · exact Or.inl h
      · cases hc : node.is_cpu_op
        · exact Or.inr ⟨rfl, h⟩
        · exact Or.inl rfl
    have hmem : ¬ (node.type = ChakraNodeType.MEM_LOAD_NODE ∨ node.type = ChakraNodeType.MEM_STORE_NODE) := by
      rintro (h | h)
      · exact hl h
      · exact hs h
    simp only [Workload.issue, hr, Bool.false_eq_true, if_false, hmem, hcomp2, if_true, hvalid,
      Workload.issue_comp, hoc, hroof]
  · intro hr hcpu htype hbc hattr
    have hdim : ∃ dims, Workload.involved_dim_of node = Except.ok dims := by
      unfold Workload.involved_dim_of
      cases h : node.involved_dim with
      | absent => exact ⟨_, rfl⟩
      | bool_list values => exact ⟨_, rfl⟩
      | other_type => exact absurd h hattr
    obtain ⟨dims, hdims⟩ := hdim
    refine ⟨({ w with hw_resource := hw } : Workload F).issue_broadcast node, ?_, ?_⟩
    · simp [Workload.issue, hr, hcpu, htype, Workload.issue_comm, hoc, hdims, hbc]
    · unfold Workload.issue_broadcast Workload.replay_runtime
      by_cases h0 : node.runtime = 0 <;> simp [h0]

/-- Witness of C16 (amended): a GPU compute node of 5 us replayed in replay-only mode and
without roofline gets a delay of 5000 ns; a Broadcast of recorded runtime 0 is completed
by an event on its `DataSet` after 1 ns. -/
theorem replay_delay_witness :
    (∃ w1, Workload.issue SampleFeeder.ops
        (Workload.ctor (Sys.sample true false) (SampleFeeder.ofNodes []))
        (ETNode.sample 1 false ChakraNodeType.COMP_NODE 5 ChakraCollectiveCommType.ALL_REDUCE)
          = Except.ok w1 ∧
      w1.log = [WorkloadEffect.register_event CallableRef.workload EventType.General
        (CallData.wlhd 1) 5000]) ∧
    (∃ w1, Workload.issue SampleFeeder.ops
        (Workload.ctor (Sys.sample false false) (SampleFeeder.ofNodes []))
        (ETNode.sample 1 false ChakraNodeType.COMP_NODE 5 ChakraCollectiveCommType.ALL_REDUCE)
          = Except.ok w1 ∧
      w1.log = [WorkloadEffect.register_event CallableRef.workload EventType.General
        (CallData.wlhd 1) 5000]) ∧
    (∃ w1, Workload.issue SampleFeeder.ops
        (Workload.ctor (Sys.sample false false) (SampleFeeder.ofNodes []))
        (ETNode.sample 2 false ChakraNodeType.COMM_COLL_NODE 0 ChakraCollectiveCommType.BROADCAST)
          = Except.ok w1 ∧
      w1.log = [WorkloadEffect.new_DataSet 1 100,
        WorkloadEffect.set_notifier 100 EventType.CollectiveCommunicationFinished,
        WorkloadEffect.register_event (CallableRef.data_set 100) EventType.General
          CallData.null 1,
        WorkloadEffect.set_notifier 100 EventType.CollectiveCommunicationFinished]) :=
  ⟨(replay_delay SampleFeeder.ops
      (Workload.ctor (Sys.sample true false) (SampleFeeder.ofNodes []))
      (ETNode.sample 1 false ChakraNodeType.COMP_NODE 5 ChakraCollectiveCommType.ALL_REDUCE)
      _ rfl).1 rfl,
   (replay_delay SampleFeeder.ops
      (Workload.ctor (Sys.sample false false) (SampleFeeder.ofNodes []))
      (ETNode.sample 1 false ChakraNodeType.COMP_NODE 5 ChakraCollectiveCommType.ALL_REDUCE)
      _ rfl).2.1 rfl rfl (by decide) (by decide) (by decide) (by decide),
   (replay_delay SampleFeeder.ops
      (Workload.ctor (Sys.sample false false) (SampleFeeder.ofNodes []))
      (ETNode.sample 2 false ChakraNodeType.COMM_COLL_NODE 0 ChakraCollectiveCommType.BROADCAST)
      _ rfl).2.2 rfl rfl rfl rfl (by decide)⟩

end AstraSim

namespace AstraSim

/-- Counterexample to C17: with roofline enabled and replay-only off, a CPU op of 5 us
(10 operations) is given the delay of the roofline estimate (7 ns in the sample system),
not its recorded runtime 5 * 1000 ns. -/
theorem roofline_cpu_op_counterexample :
    ((Workload.issue SampleFeeder.ops (Workload.ctor (Sys.sample false true) (SampleFeeder.ofNodes []))
        (ETNode.sample 1 true ChakraNodeType.COMP_NODE 5 ChakraCollectiveCommType.ALL_REDUCE)
      ).toOption.map (fun (w : Workload SampleFeeder) => w.log))
      = some [WorkloadEffect.register_event CallableRef.workload EventType.General
          (CallData.wlhd 1) 7] ∧
    ((Workload.issue SampleFeeder.ops (Workload.ctor (Sys.sample false true) (SampleFeeder.ofNodes []))
        (ETNode.sample 1 true ChakraNodeType.COMP_NODE 5 ChakraCollectiveCommType.ALL_REDUCE)
      ).toOption.map (fun (w : Workload SampleFeeder) => w.log))
      ≠ some [WorkloadEffect.register_event CallableRef.workload EventType.General
          (CallData.wlhd 1) (5 * 1000)] := by
  decide

/-- C17 (amended): with roofline enabled and replay-only off, the roofline estimate is
the delay of the completion event of every node that `issue` hands to `issue_comp`: every
CPU op and every non-CPU COMP node that is not a memory node and not skipped as invalid
(runtime 0 and 0 operations), provided its hardware resource is free.  CPU ops are not
replayed by their recorded runtime.  A non-CPU node of another type gets no completion
event of the workload from `issue`, so no roofline estimate either. -/
theorem roofline_for_comp {F : Type} (E : ETFeeder F) (w : Workload F) (node : ETNode)
    (hr : w.sys.replay_only = false) (hroof : w.sys.roofline_enabled = true) :
    (∀ hw, w.hw_resource.occupy node.toETFeederNode = some hw →
      node.type ≠ ChakraNodeType.MEM_LOAD_NODE → node.type ≠ ChakraNodeType.MEM_STORE_NODE →
      (node.is_cpu_op = true ∨ node.type = ChakraNodeType.COMP_NODE) →
      ¬ (node.runtime = 0 ∧ node.num_ops = 0) →
      ∃ w1, Workload.issue E w node = Except.ok w1 ∧
        w1.log = w.log ++
          [WorkloadEffect.register_event CallableRef.workload EventType.General
            (CallData.wlhd node.id) (w.sys.roofline_runtime node.num_ops node.tensor_size)]) ∧
    (node.is_cpu_op = false → node.type ≠ ChakraNodeType.COMP_NODE →
      ∀ w1, Workload.issue E w node = Except.ok w1 →
        ∃ suffix, w1.log = w.log ++ suffix ∧
          ∀ data delta, WorkloadEffect.register_event CallableRef.workload EventType.General
            data delta ∉ suffix) := by
  refine ⟨?_, ?_⟩
  · intro hw hocc hl hs hcomp hvalid
    have hoc := Workload.occupy_eq w node hw hocc
    have hcomp2 : node.is_cpu_op = true ∨
        node.is_cpu_op = false ∧ node.type = ChakraNodeType.COMP_NODE := by
      rcases hcomp with h | h
      · exact Or.inl h
      · cases hc : node.is_cpu_op
        · exact Or.inr ⟨rfl, h⟩
        · exact Or.inl rfl
    have hmem : ¬ (node.type = ChakraNodeType.MEM_LOAD_NODE ∨
        node.type = ChakraNodeType.MEM_STORE_NODE) := by
      rintro (h | h)
      · exact hl h
      · exact hs h
    simp only [Workload.issue, hr, Bool.false_eq_true, if_false, hmem, hcomp2, if_true,
      hvalid, Workload.issue_comp, hoc, hroof]
    refine ⟨_, rfl, ?_⟩
    unfold Workload.add_tics
    cases hc : node.is_cpu_op <;> simp
  · intro hcpu hncomp w1 hissue
    have hcomp : ¬ (node.is_cpu_op = true ∨
        node.is_cpu_op = false ∧ node.type = ChakraNodeType.COMP_NODE) := by
      rw [hcpu]
      simp [hncomp]
    simp only [Workload.issue, hr, Bool.false_eq_true, if_false, hcomp] at hissue
    by_cases hmem : node.type = ChakraNodeType.MEM_LOAD_NODE ∨
        node.type = ChakraNodeType.MEM_STORE_NODE
    · rw [if_pos hmem] at hissue
      unfold Workload.issue_remote_mem Workload.occupy at hissue
      cases hocc : w.hw_resource.occupy node.toETFeederNode with
      | none => simp [hocc] at hissue
      | some hw =>
        simp only [hocc] at hissue
        cases hissue
        exact ⟨_, rfl, by simp⟩
    · rw [if_neg hmem] at hissue
      by_cases hcomm : node.is_cpu_op = false ∧
          (node.type = ChakraNodeType.COMM_COLL_NODE ∨
            node.type = ChakraNodeType.COMM_SEND_NODE ∨
            node.type = ChakraNodeType.COMM_RECV_NODE)
      · rw [if_pos hcomm] at hissue
        unfold Workload.issue_comm Workload.occupy at hissue
        cases hocc : w.hw_resource.occupy node.toETFeederNode with
        | none => simp [hocc] at hissue
        | some hw =>
          simp only [hocc] at hissue
          cases hdim : Workload.involved_dim_of node with
          | error e => simp [hdim] at hissue
          | ok dims =>
            simp only [hdim] at hissue
            by_cases hcoll : node.is_cpu_op = false ∧ node.type = ChakraNodeType.COMM_COLL_NODE
            · rw [if_pos hcoll] at hissue
              cases hct : node.comm_type <;> simp only [hct] at hissue <;> cases hissue
              · exact ⟨_, rfl, by simp⟩
              · exact ⟨_, rfl, by simp⟩
              · exact ⟨_, rfl, by simp⟩
              · exact ⟨_, rfl, by simp⟩
              · exact ⟨_, rfl, by simp⟩
              · exact ⟨[], by simp, by simp⟩
            · rw [if_neg hcoll] at hissue
              by_cases hsend : node.type = ChakraNodeType.COMM_SEND_NODE
              · rw [if_pos hsend] at hissue
                cases hissue
                exact ⟨_, rfl, by simp⟩
              · rw [if_neg hsend] at hissue
                by_cases hrecv : node.type = ChakraNodeType.COMM_RECV_NODE
                · rw [if_pos hrecv] at hissue
                  cases hissue
                  exact ⟨_, rfl, by simp⟩
                · rw [if_neg hrecv] at hissue
                  cases hissue
      · rw [if_neg hcomm] at hissue
        by_cases hinv : node.type = ChakraNodeType.INVALID_NODE
        · rw [if_pos hinv] at hissue
          cases hissue
          exact ⟨[], by simp [Workload.skip_invalid], by simp⟩
        · rw [if_neg hinv] at hissue
          cases hissue
          exact ⟨[], by simp, by simp⟩

/-- Witness of C17 (amended): in the sample system, whose roofline estimate is 7 ns, a CPU
op and a GPU compute node of 5 us both complete after 7 ns. -/
theorem roofline_for_comp_witness :
    (∃ w1, Workload.issue SampleFeeder.ops
        (Workload.ctor (Sys.sample false true) (SampleFeeder.ofNodes []))
        (ETNode.sample 1 true ChakraNodeType.COMP_NODE 5 ChakraCollectiveCommType.ALL_REDUCE)
          = Except.ok w1 ∧
      w1.log = [WorkloadEffect.register_event CallableRef.workload EventType.General
        (CallData.wlhd 1) 7]) ∧
    (∃ w1, Workload.issue SampleFeeder.ops
        (Workload.ctor (Sys.sample false true) (SampleFeeder.ofNodes []))
        (ETNode.sample 2 false ChakraNodeType.COMP_NODE 5 ChakraCollectiveCommType.ALL_REDUCE)
          = Except.ok w1 ∧
      w1.log = [WorkloadEffect.register_event CallableRef.workload EventType.General
        (CallData.wlhd 2) 7]) :=
  ⟨(roofline_for_comp SampleFeeder.ops
      (Workload.ctor (Sys.sample false true) (SampleFeeder.ofNodes []))
      (ETNode.sample 1 true ChakraNodeType.COMP_NODE 5 ChakraCollectiveCommType.ALL_REDUCE)
      rfl rfl).1 _ rfl (by decide) (by decide) (by decide) (by decide),
   (roofline_for_comp SampleFeeder.ops
      (Workload.ctor (Sys.sample false true) (SampleFeeder.ofNodes []))
      (ETNode.sample 2 false ChakraNodeType.COMP_NODE 5 ChakraCollectiveCommType.ALL_REDUCE)
      rfl rfl).1 _ rfl (by decide) (by decide) (by decide) (by decide)⟩

end AstraSim

namespace AstraSim

/-- C18: what the code does for a non-CPU COMM_COLL node whose collective type is none of
All-Reduce, All-to-All, All-Gather, Reduce-Scatter and Broadcast (Reduce, Gather, Barrier,
...), with replay-only off and the GPU communication resource free: `issue` occupies the
resource, so one GPU communication is in flight, and returns without registering any
event and without creating a `DataSet`; nothing will complete the node and release the
resource.  The fallback to replay-by-runtime that the claim describes exists for
Broadcast only. -/
theorem other_collective_not_completed {F : Type} (E : ETFeeder F) (w : Workload F)
    (node : ETNode) (hw : HardwareResource) (value : Nat)
    (hocc : w.hw_resource.occupy node.toETFeederNode = some hw)
    (hr : w.sys.replay_only = false) (hcpu : node.is_cpu_op = false)
    (htype : node.type = ChakraNodeType.COMM_COLL_NODE)
    (hct : node.comm_type = ChakraCollectiveCommType.other value)
    (hattr : node.involved_dim ≠ InvolvedDimAttr.other_type) :
    Workload.issue E w node = Except.ok { w with hw_resource := hw } ∧
    hw.num_in_flight_gpu_comm_ops = 1 ∧
    ({ w with hw_resource := hw } : Workload F).log = w.log := by
  have hoc := Workload.occupy_eq w node hw hocc
  have hdim : ∃ dims, Workload.involved_dim_of node = Except.ok dims := by
    unfold Workload.involved_dim_of
    cases h : node.involved_dim with
    | absent => exact ⟨_, rfl⟩
    | bool_list values => exact ⟨_, rfl⟩
    | other_type => exact absurd h hattr
  obtain ⟨dims, hdims⟩ := hdim
  refine ⟨?_, ?_, rfl⟩
  · simp [Workload.issue, hr, hcpu, htype, Workload.issue_comm, hoc, hdims, hct]
  · have hcpu2 : node.toETFeederNode.is_cpu_op = false := hcpu
    have htype2 : node.toETFeederNode.type = ChakraNodeType.COMM_COLL_NODE := htype
    unfold HardwareResource.occupy at hocc
    simp only [hcpu2, htype2, Bool.false_eq_true, if_false] at hocc
    by_cases h0 : w.hw_resource.num_in_flight_gpu_comm_ops = 0
    · simp [h0] at hocc
      rw [← hocc]
    · simp [h0] at hocc

/-- Evaluation of C18 on a node: `issue` of a non-CPU COMM_COLL node of another
collective type (value 1) by a fresh workload logs no effect and leaves one GPU
communication in flight. -/
theorem other_collective_not_completed_witness :
    Workload.issue SampleFeeder.ops
        (Workload.ctor (Sys.sample false false) (SampleFeeder.ofNodes []))
        (ETNode.sample 3 false ChakraNodeType.COMM_COLL_NODE 5 (ChakraCollectiveCommType.other 1))
      = Except.ok
        { Workload.ctor (Sys.sample false false) (SampleFeeder.ofNodes []) with
          hw_resource :=
            { HardwareResource.ctor 1 with
              num_in_flight_gpu_comm_ops := 1
              num_gpu_comms := 1
              gpu_comms_node := some (ETNode.sample 3 false ChakraNodeType.COMM_COLL_NODE 5
                (ChakraCollectiveCommType.other 1)).toETFeederNode } } :=
  (other_collective_not_completed SampleFeeder.ops
    (Workload.ctor (Sys.sample false false) (SampleFeeder.ofNodes []))
    (ETNode.sample 3 false ChakraNodeType.COMM_COLL_NODE 5 (ChakraCollectiveCommType.other 1))
    _ 1 rfl rfl rfl rfl rfl (by decide)).1

end AstraSim

namespace AstraSim

/-! ## The workload engine: completion -/

namespace Workload

variable {F : Type}

theorem Continues.trans {w w1 w2 : Workload F} (h1 : Continues w w1) (h2 : Continues w1 w2) :
    Continues w w2 := by
  obtain ⟨hf1, s1, hl1, hq1⟩ := h1
  obtain ⟨hf2, s2, hl2, hq2⟩ := h2
  refine ⟨hf2.trans hf1, s1 ++ s2, by rw [hl2, hl1, List.append_assoc], ?_⟩
  intro e he
  rcases List.mem_append.mp he with h | h
  · exact hq1 e h
  · exact hq2 e h

theorem notifications_append (l s : List WorkloadEffect) :
    notifications (l ++ s) = notifications l + notifications s := by
  simp [notifications, List.countP_append]

theorem notifications_quiet (s : List WorkloadEffect) (h : quiet s) : notifications s = 0 := by
  unfold notifications
  rw [List.countP_eq_zero]
  intro e he
  simpa using (h e he).2

theorem Continues.notifications {w w1 : Workload F} (h : Continues w w1) :
    Workload.notifications w1.log = Workload.notifications w.log := by
  obtain ⟨_, s, hl, hq⟩ := h
  rw [hl, notifications_append, notifications_quiet s hq, Nat.add_zero]

/-! ### The fetch loop ends -/

/-- More fuel does not change a result of the fetch loop. -/
theorem issue_loop_mono (E : ETFeeder F) :
    ∀ (fuel : Nat) (w : Workload F) (q : List ETNode),
      issue_loop E fuel w q ≠ Except.error Stop.nontermination →
      issue_loop E (fuel + 1) w q = issue_loop E fuel w q := by
  intro fuel
  induction fuel with
  | zero =>
    intro w q h
    exact absurd rfl h
  | succ n ih =>
    intro w q h
    rw [issue_loop] at h
    rw [issue_loop]
    conv_rhs => rw [issue_loop]
    cases hget : E.getNextIssuableNode w.et_feeder with
    | mk next f =>
      cases next with
      | none => rfl
      | some node =>
        simp only [hget] at h
        simp only
        split
        · rename_i hav
          simp only [hav, if_true] at h
          cases hiss : issue E ({ w with et_feeder := f } : Workload F) node with
          | error e => rfl
          | ok w2 =>
            simp only [hiss] at h
            simp only
            exact ih w2 q h
        · rename_i hav
          simp only [hav, if_false] at h
          exact ih _ _ h

end Workload

end AstraSim

namespace AstraSim

/-! ## The chunk-count law of `Ring` -/

namespace Ring

/-- The members that the constructor sets independently of the collective type. -/
theorem ctor_counters (storage : Ring) (type : ComType) (id : Int) (topo : RingTopology)
    (S : Nat) (direction : Direction) (policy : InjectionPolicy) :
    (ctor storage type id topo S direction policy).total_packets_sent = 0 ∧
    (ctor storage type id topo S direction policy).remained_packets_per_message = 1 ∧
    (ctor storage type id topo S direction policy).zero_latency_packets = 0 ∧
    (ctor storage type id topo S direction policy).non_zero_latency_packets = 0 ∧
    (ctor storage type id topo S direction policy).nodes_in_ring = topo.get_nodes_in_ring := by
  cases type <;> cases policy <;>
    simp [ctor, ctor_stream_count, ctor_max_count, ctor_sizes]

end Ring

end AstraSim

namespace Ns3Frontend

open AstraSimAnalytical

/-! ## The ns3 frontend: the end of a send -/

/-- The byte count of the sender touches no other map and no handler; the new total is
the size when the sender had none, and the `int` sum otherwise. -/
theorem count_sent_fields (st : Ns3State) (src_id message_size : Int) :
    (st.count_sent src_id message_size).sim_send_waiting_hash = st.sim_send_waiting_hash ∧
    (st.count_sent src_id message_size).calls = st.calls ∧
    (st.count_sent src_id message_size).node_to_bytes_sent_map.find (src_id, 0)
      = some (match st.node_to_bytes_sent_map.find (src_id, 0) with
          | none => message_size
          | some bytes => AstraSim.int32 (bytes + message_size)) := by
  unfold Ns3State.count_sent
  cases h : st.node_to_bytes_sent_map.find (src_id, 0) <;>
    simp [Map.find_assign]

/-- Counterexample to C21: rank 0 sends two messages of 1 GiB (1073741824 B) to rank 1
under tag 7, from the ports 10000 and 10001.  The report that the first is finished leaves
1073741824 bytes sent by rank 0; the report that the second is finished does not add its
size to that total: the `int` total overflows and holds -2147483648, not 2147483648. -/
theorem sender_finished_counterexample :
    ((((Ns3State.init.send_flow 10000 0 1 1073741824 3 4 7).1.send_flow 10001 0 1 1073741824
          5 6 7).1.notify_sender_sending_finished 0 1 1073741824 7 10000).map
        (fun (st : Ns3State) => st.node_to_bytes_sent_map.find (0, 0)))
      = some (some 1073741824) ∧
    (((((Ns3State.init.send_flow 10000 0 1 1073741824 3 4 7).1.send_flow 10001 0 1 1073741824
          5 6 7).1.notify_sender_sending_finished 0 1 1073741824 7 10000).bind
        (fun (st : Ns3State) => st.notify_sender_sending_finished 0 1 1073741824 7 10001)).map
        (fun (st : Ns3State) => st.node_to_bytes_sent_map.find (0, 0)))
      = some (some (-2147483648)) ∧
    (((((Ns3State.init.send_flow 10000 0 1 1073741824 3 4 7).1.send_flow 10001 0 1 1073741824
          5 6 7).1.notify_sender_sending_finished 0 1 1073741824 7 10000).bind
        (fun (st : Ns3State) => st.notify_sender_sending_finished 0 1 1073741824 7 10001)).map
        (fun (st : Ns3State) => st.node_to_bytes_sent_map.find (0, 0)))
      ≠ some (some (1073741824 + 1073741824)) := by
  decide

/-- C21 (amended): in the ns3 frontend, `notify_sender_sending_finished` ends the process
(`exit(1)`) if and only if no send event is registered under (tag, src, dst, source
port) or the registered message size differs from the reported size; otherwise it removes
that entry, invokes the send handler exactly once and, when the new total fits `int`, adds
the message size to the bytes sent by the sender (an absent total counting as 0). -/
theorem sender_finished (st : Ns3State) (src_id dst_id message_size tag src_port : Int)
    (hnodup : st.sim_send_waiting_hash.NodupKeys) :
    (st.notify_sender_sending_finished src_id dst_id message_size tag src_port = none ↔
      (st.sim_send_waiting_hash.find ((tag, (src_id, dst_id)), src_port) = none ∨
       ∃ e, st.sim_send_waiting_hash.find ((tag, (src_id, dst_id)), src_port) = some e ∧
         e.remaining_msg_bytes ≠ message_size)) ∧
    (∀ e, st.sim_send_waiting_hash.find ((tag, (src_id, dst_id)), src_port) = some e →
      e.remaining_msg_bytes = message_size →
      ∃ st1, st.notify_sender_sending_finished src_id dst_id message_size tag src_port
          = some st1 ∧
        st1.sim_send_waiting_hash.find ((tag, (src_id, dst_id)), src_port) = none ∧
        st1.calls = st.calls ++ [{ msg_handler := e.msg_handler, fun_arg := e.fun_arg }] ∧
        ((∀ bytes, st.node_to_bytes_sent_map.find (src_id, 0) = some bytes →
            -(2 ^ 31) ≤ bytes + message_size ∧ bytes + message_size < 2 ^ 31) →
          st1.node_to_bytes_sent_map.find (src_id, 0)
            = some ((st.node_to_bytes_sent_map.find (src_id, 0)).getD 0 + message_size))) := by
  refine ⟨?_, ?_⟩
  · unfold Ns3State.notify_sender_sending_finished
    cases hfind : st.sim_send_waiting_hash.find ((tag, (src_id, dst_id)), src_port) with
    | none => simp
    | some e =>
      by_cases hsize : e.remaining_msg_bytes = message_size
      · simp [hsize]
      · simp [hsize]
  · intro e hfind hsize
    obtain ⟨h1, h2, h3⟩ := count_sent_fields
      { st with sim_send_waiting_hash :=
          st.sim_send_waiting_hash.erase ((tag, (src_id, dst_id)), src_port) }
      src_id message_size
    simp only [Ns3State.notify_sender_sending_finished, hfind, hsize, ne_eq,
      not_true_eq_false, if_false]
    refine ⟨_, rfl, ?_, ?_, ?_⟩
    · show (Ns3State.count_sent _ src_id message_size).sim_send_waiting_hash.find _ = none
      rw [h1]
      simp [Map.find_erase _ _ _ hnodup]
    · show (Ns3State.count_sent _ src_id message_size).calls ++ _ = _
      rw [h2]
    · intro hfit
      show (Ns3State.count_sent _ src_id message_size).node_to_bytes_sent_map.find _ = _
      rw [h3]
      cases hb : st.node_to_bytes_sent_map.find (src_id, 0) with
      | none => simp
      | some bytes =>
        obtain ⟨hlo, hhi⟩ := hfit bytes hb
        simp [AstraSim.int32_of_range (bytes + message_size) hlo hhi]

/-- Witness of C21 (amended): rank 0 sends 64 B to rank 1 under tag 7 from port 10000
(handler 3, argument 4).  The report of 64 B removes the entry, counts 64 B sent by rank 0
and calls the handler; a report of 32 B, or on port 10001, ends the process. -/
theorem sender_finished_witness :
    (∃ st1, (Ns3State.init.send_flow 10000 0 1 64 3 4 7).1.notify_sender_sending_finished
          0 1 64 7 10000 = some st1 ∧
        st1.sim_send_waiting_hash.find ((7, (0, 1)), 10000) = none ∧
        st1.calls = [{ msg_handler := 3, fun_arg := 4 }] ∧
        st1.node_to_bytes_sent_map.find (0, 0) = some 64) ∧
    (Ns3State.init.send_flow 10000 0 1 64 3 4 7).1.notify_sender_sending_finished
        0 1 32 7 10000 = none ∧
    (Ns3State.init.send_flow 10000 0 1 64 3 4 7).1.notify_sender_sending_finished
        0 1 64 7 10001 = none := by
  refine ⟨?_, ?_, ?_⟩
  · obtain ⟨st1, h1, h2, h3, h4⟩ :=
      (sender_finished (Ns3State.init.send_flow 10000 0 1 64 3 4 7).1 0 1 64 7 10000
        (by unfold Map.NodupKeys; decide)).2
        { src_id := 0, dst_id := 1, type := 0, remaining_msg_bytes := 64, fun_arg := 4,
          msg_handler := 3 } (by decide) (by decide)
    have hnone : (Ns3State.init.send_flow 10000 0 1 64 3 4 7).1.node_to_bytes_sent_map.find
        (0, 0) = none := by decide
    exact ⟨st1, h1, h2, h3, h4 (by intro bytes hb; rw [hnone] at hb; cases hb)⟩
  · exact (sender_finished (Ns3State.init.send_flow 10000 0 1 64 3 4 7).1 0 1 32 7 10000
      (by unfold Map.NodupKeys; decide)).1.mpr
      (Or.inr
        ⟨{ src_id := 0, dst_id := 1, type := 0, remaining_msg_bytes := 64, fun_arg := 4,
           msg_handler := 3 }, by decide, by decide⟩)
  · exact (sender_finished (Ns3State.init.send_flow 10000 0 1 64 3 4 7).1 0 1 64 7 10001
      (by unfold Map.NodupKeys; decide)).1.mpr (Or.inl (by decide))

end Ns3Frontend

namespace AstraSim

/-! ## The workload engine: `involved_dim` -/

/-- C22: when a communication node carries no `involved_dim` attribute,
`Workload::issue_comm` uses involved_dim = [true, true, true, true], exactly four entries,
all true; when the attribute is a bool list, involved_dim is that list, in order.  The
vector is what `issue_comm` passes to `sys->generate_all_reduce`, `generate_all_to_all`,
`generate_all_gather` and `generate_reduce_scatter` for a non-CPU COMM_COLL node whose
hardware resource is free. -/
theorem involved_dim_default {F : Type} (w : Workload F) (node : ETNode) :
    (node.involved_dim = InvolvedDimAttr.absent →
      Workload.involved_dim_of node = Except.ok [true, true, true, true]) ∧
    (∀ values, node.involved_dim = InvolvedDimAttr.bool_list values →
      Workload.involved_dim_of node = Except.ok values) ∧
    (∀ hw dims, w.hw_resource.occupy node.toETFeederNode = some hw →
      Workload.involved_dim_of node = Except.ok dims →
      node.is_cpu_op = false → node.type = ChakraNodeType.COMM_COLL_NODE →
      (node.comm_type = ChakraCollectiveCommType.ALL_REDUCE ∨
        node.comm_type = ChakraCollectiveCommType.ALL_TO_ALL ∨
        node.comm_type = ChakraCollectiveCommType.ALL_GATHER ∨
        node.comm_type = ChakraCollectiveCommType.REDUCE_SCATTER) →
      ∃ w1, w.issue_comm node = Except.ok w1 ∧
        w1.log = w.log ++
          [WorkloadEffect.generate_collective node.comm_type node.comm_size dims
             node.comm_priority (w.sys.dataset_id w.datasets_created),
           WorkloadEffect.set_notifier (w.sys.dataset_id w.datasets_created)
             EventType.CollectiveCommunicationFinished]) := by
  refine ⟨?_, ?_, ?_⟩
  · intro h
    simp [Workload.involved_dim_of, h]
  · intro values h
    simp [Workload.involved_dim_of, h]
  · intro hw dims hocc hdims hcpu htype hct
    have hoc := Workload.occupy_eq w node hw hocc
    rcases hct with h | h | h | h <;>
      · simp only [Workload.issue_comm, hoc, hdims, hcpu, htype, h, and_self, if_true]
        exact ⟨_, rfl, by simp [Workload.issue_collective, h]⟩

/-- Witness of C22: an All-Reduce node without the attribute is generated over
[true, true, true, true]; with the bool list [true, false] it is generated over
[true, false]. -/
theorem involved_dim_default_witness :
    (∃ w1, (Workload.ctor (Sys.sample false false) (SampleFeeder.ofNodes [])).issue_comm
        (ETNode.sample 4 false ChakraNodeType.COMM_COLL_NODE 5 ChakraCollectiveCommType.ALL_REDUCE)
          = Except.ok w1 ∧
      w1.log = [WorkloadEffect.generate_collective ChakraCollectiveCommType.ALL_REDUCE 1024
          [true, true, true, true] 0 100,
        WorkloadEffect.set_notifier 100 EventType.CollectiveCommunicationFinished]) ∧
    (∃ w1, (Workload.ctor (Sys.sample false false) (SampleFeeder.ofNodes [])).issue_comm
        { ETNode.sample 4 false ChakraNodeType.COMM_COLL_NODE 5
            ChakraCollectiveCommType.ALL_REDUCE with
          involved_dim := InvolvedDimAttr.bool_list [true, false] }
          = Except.ok w1 ∧
      w1.log = [WorkloadEffect.generate_collective ChakraCollectiveCommType.ALL_REDUCE 1024
          [true, false] 0 100,
        WorkloadEffect.set_notifier 100 EventType.CollectiveCommunicationFinished]) :=
  ⟨(involved_dim_default (Workload.ctor (Sys.sample false false) (SampleFeeder.ofNodes []))
      (ETNode.sample 4 false ChakraNodeType.COMM_COLL_NODE 5
        ChakraCollectiveCommType.ALL_REDUCE)).2.2 _ [true, true, true, true] rfl rfl rfl rfl
      (Or.inl rfl),
   (involved_dim_default (Workload.ctor (Sys.sample false false) (SampleFeeder.ofNodes []))
      { ETNode.sample 4 false ChakraNodeType.COMM_COLL_NODE 5
          ChakraCollectiveCommType.ALL_REDUCE with
        involved_dim := InvolvedDimAttr.bool_list [true, false] }).2.2 _ [true, false] rfl rfl
      rfl rfl (Or.inl rfl)⟩

end AstraSim

namespace AstraSimAnalytical

/-! ## The rendezvous matcher: no assertion fails -/

/-- A run of a sequence is the run of a first part followed by the run of the rest. -/
theorem run_append (ops1 ops2 : List Op) :
    ∀ s : ApiState, s.run (ops1 ++ ops2) = (s.run ops1).bind (fun s1 => s1.run ops2) := by
  induction ops1 with
  | nil =>
    intro s
    rfl
  | cons op rest ih =>
    intro s
    simp only [List.cons_append, ApiState.run]
    cases s.step op with
    | none => rfl
    | some s1 => exact ih s1

/-- C23: under the precondition that a chunk arrives only after its `sim_send` and at
most once, and that tag, src, dst >= 0 and size > 0 in every `sim_send` and `sim_recv`,
no assertion of the analytical rendezvous matcher fails, for any interleaving of
`sim_send`, `sim_recv` and arrivals: the run reaches its end, and every operation of the
sequence returns from the state that the operations before it leave (in the model every
failed assertion of `process_chunk_arrival`, `register_send_callback`,
`register_recv_callback`, `invoke_send_handler`, `invoke_recv_handler` and `pop_entry`
makes the operation return nothing). -/
theorem no_assertion_fails (ops : List Op) (hadm : Admissible ApiState.init ops = true) :
    (∃ s, ApiState.init.run ops = some s) ∧
    ∀ before op after, ops = before ++ op :: after →
      ∃ s s1, ApiState.init.run before = some s ∧ s.step op = some s1 := by
  obtain ⟨s, hrun, _⟩ := inv_run ops [] ApiState.init inv_init hadm
  refine ⟨⟨s, hrun⟩, ?_⟩
  intro before op after hops
  subst hops
  rw [run_append] at hrun
  cases hb : ApiState.init.run before with
  | none => simp [hb] at hrun
  | some s0 =>
    simp only [hb, Option.bind_eq_bind, Option.some_bind, ApiState.run] at hrun
    cases hstep : s0.step op with
    | none => simp [hstep] at hrun
    | some s1 => exact ⟨s0, s1, rfl, hstep⟩

/-- Witness of C23: the sample run, with out-of-order arrivals and a recv before its
send, is admissible and runs to its end. -/
theorem no_assertion_fails_witness :
    Admissible ApiState.init sampleOps = true ∧ ∃ s, ApiState.init.run sampleOps = some s :=
  ⟨by decide, (no_assertion_fails sampleOps (by decide)).1⟩

end AstraSimAnalytical

namespace AstraSim

/-! ## `Ring::ready` and the neighbours of a `Ring` -/

namespace Ring

theorem start_executing_fields (r : Ring) :
    (start_executing r).packets = r.packets ∧
    (start_executing r).stream_count = r.stream_count ∧
    (start_executing r).free_packets = r.free_packets ∧
    (start_executing r).total_packets_sent = r.total_packets_sent ∧
    (start_executing r).msg_size = r.msg_size ∧
    (start_executing r).stream_id = r.stream_id ∧
    (start_executing r).curr_sender = r.curr_sender ∧
    (start_executing r).curr_receiver = r.curr_receiver := by
  unfold start_executing
  split <;> exact ⟨rfl, rfl, rfl, rfl, rfl, rfl, rfl, rfl⟩

theorem process_stream_count_fields (r : Ring) :
    (process_stream_count r).packets = r.packets ∧
    (process_stream_count r).free_packets = r.free_packets ∧
    (process_stream_count r).total_packets_sent = r.total_packets_sent ∧
    (process_stream_count r).curr_sender = r.curr_sender ∧
    (process_stream_count r).curr_receiver = r.curr_receiver ∧
    ((process_stream_count r).stream_state = StreamState.Zombie ∨
      (process_stream_count r).stream_state = r.stream_state) := by
  unfold process_stream_count
  dsimp only
  split_ifs <;> simp

end Ring

/-- Counterexample to C24.  An All-Reduce ring of 2 ranks after StreamInit, General and
PacketReceived is Executing, with one pending packet; with a free packet `ready` issues
a chunk, although the stream is neither Created nor Ready.  And a Created stream of a
ring of 1 rank, whose stream count is 0, with a pending packet and a free packet issues
nothing. -/
theorem ready_state_counterexample :
    ((Ring.ctor Ring.sampleStorage ComType.All_Reduce 0 (RingTopology.ofSize 2 Dimension.Local)
        1024 Direction.Clockwise InjectionPolicy.Normal).runsD
      [EventType.StreamInit, EventType.General, EventType.PacketReceived]).stream_state
        = StreamState.Executing ∧
    (Ring.ready
      { (Ring.ctor Ring.sampleStorage ComType.All_Reduce 0
          (RingTopology.ofSize 2 Dimension.Local) 1024 Direction.Clockwise
          InjectionPolicy.Normal).runsD
          [EventType.StreamInit, EventType.General, EventType.PacketReceived] with
        free_packets := 1 }).1 = true ∧
    ((Ring.ctor Ring.sampleStorage ComType.All_Reduce 0 (RingTopology.ofSize 1 Dimension.Local)
        1024 Direction.Clockwise InjectionPolicy.Normal).runsD
      [EventType.StreamInit]).stream_state = StreamState.Created ∧
    ((Ring.ctor Ring.sampleStorage ComType.All_Reduce 0 (RingTopology.ofSize 1 Dimension.Local)
        1024 Direction.Clockwise InjectionPolicy.Normal).runsD
      [EventType.StreamInit]).packets ≠ [] ∧
    (Ring.ready
      { (Ring.ctor Ring.sampleStorage ComType.All_Reduce 0
          (RingTopology.ofSize 1 Dimension.Local) 1024 Direction.Clockwise
          InjectionPolicy.Normal).runsD [EventType.StreamInit] with
        free_packets := 1 }).1 = false := by
  decide

/-- C24 (amended): `Ring::ready` issues a chunk (returns true) exactly when, on entry, the
pending packet list is non-empty, `stream_count` is not 0 and `free_packets` is not 0,
whatever the state of the stream.  A stream that is Created or Ready becomes Executing
at the start of the call, whether a chunk is issued or not.  A call that issues nothing
changes nothing else.  Issuing emits exactly one front-end send to the destination of the
front packet and one front-end recv from its source, both of `msg_size` bytes, removes
the front packet, decrements `free_packets` by one and increments `total_packets_sent` by
one; it leaves the stream state of the start of the call, or Zombie. -/
theorem ready_issues_iff (r : Ring) :
    ((Ring.ready r).1 = true ↔
      r.packets ≠ [] ∧ r.stream_count ≠ 0 ∧ r.free_packets ≠ 0) ∧
    ((r.stream_state = StreamState.Created ∨ r.stream_state = StreamState.Ready) →
      (Ring.start_executing r).stream_state = StreamState.Executing) ∧
    ((Ring.ready r).1 = false →
      (Ring.ready r).2.1 = Ring.start_executing r ∧ (Ring.ready r).2.2 = []) ∧
    (∀ packet rest, r.packets = packet :: rest → r.stream_count ≠ 0 → r.free_packets ≠ 0 →
      (Ring.ready r).2.2 =
        [RingEffect.front_end_sim_send r.msg_size packet.preferred_dest r.stream_id,
         RingEffect.front_end_sim_recv r.msg_size packet.preferred_src r.stream_id] ∧
      (Ring.ready r).2.1.packets = rest ∧
      (Ring.ready r).2.1.free_packets = r.free_packets - 1 ∧
      (Ring.ready r).2.1.total_packets_sent = r.total_packets_sent + 1 ∧
      ((Ring.ready r).2.1.stream_state = StreamState.Zombie ∨
        (Ring.ready r).2.1.stream_state = (Ring.start_executing r).stream_state)) := by
  obtain ⟨h1, h2, h3, h4, h5, h6, _, _⟩ := Ring.start_executing_fields r
  obtain ⟨g1, g2, g3, _, _, g6⟩ := Ring.process_stream_count_fields (Ring.start_executing r)
  refine ⟨?_, ?_, ?_, ?_⟩
  · unfold Ring.ready
    rw [h1, h2, h3]
    cases hp : r.packets with
    | nil => simp
    | cons packet rest =>
      by_cases hz : r.stream_count = 0 ∨ r.free_packets = 0
      · simp only [hz, if_true]
        rcases hz with hz | hz <;> simp [hz]
      · simp only [hz, if_false]
        simp only [not_or] at hz
        simp [hz.1, hz.2]
  · intro hs
    unfold Ring.start_executing
    rw [if_pos hs]
  · unfold Ring.ready
    rw [h1, h2, h3]
    cases hp : r.packets with
    | nil => simp
    | cons packet rest =>
      by_cases hz : r.stream_count = 0 ∨ r.free_packets = 0
      · simp only [hz, if_true]
        simp
      · simp only [hz, if_false]
        simp
  · intro packet rest hp hsc hfp
    have hz : ¬ (r.stream_count = 0 ∨ r.free_packets = 0) := by
      simp [hsc, hfp]
    unfold Ring.ready
    rw [h1, h2, h3, hp]
    simp only [hz, if_false, h5, h6]
    refine ⟨trivial, ?_, ?_, ?_, ?_⟩
    · show (Ring.process_stream_count (Ring.start_executing r)).packets.tail = rest
      rw [g1, h1, hp]
      rfl
    · show (Ring.process_stream_count (Ring.start_executing r)).free_packets - 1 = _
      rw [g2, h3]
    · show (Ring.process_stream_count (Ring.start_executing r)).total_packets_sent + 1 = _
      rw [g3, h4]
    · exact g6

/-- Witness of C24 (amended): the Executing ring of the counterexample issues one send and
one recv of 512 bytes to and from rank 1. -/
theorem ready_issues_iff_witness :
    (Ring.ready
      { (Ring.ctor Ring.sampleStorage ComType.All_Reduce 0
          (RingTopology.ofSize 2 Dimension.Local) 1024 Direction.Clockwise
          InjectionPolicy.Normal).runsD
          [EventType.StreamInit, EventType.General, EventType.PacketReceived] with
        free_packets := 1 }).2.2 =
      [RingEffect.front_end_sim_send 512 1 0, RingEffect.front_end_sim_recv 512 1 0] :=
  ((ready_issues_iff
      { (Ring.ctor Ring.sampleStorage ComType.All_Reduce 0
          (RingTopology.ofSize 2 Dimension.Local) 1024 Direction.Clockwise
          InjectionPolicy.Normal).runsD
          [EventType.StreamInit, EventType.General, EventType.PacketReceived] with
        free_packets := 1 }).2.2.2
    { preferred_vnet := 0, preferred_src := 1, preferred_dest := 1 } [] (by decide)
    (by decide) (by decide)).1

end AstraSim

namespace AstraSim

namespace Ring

/-- `Ring::process_max_count` leaves the neighbours and the pending list as they are. -/
theorem process_max_count_fields (r : Ring) :
    (process_max_count r).1.curr_sender = r.curr_sender ∧
    (process_max_count r).1.curr_receiver = r.curr_receiver ∧
    (process_max_count r).1.packets = r.packets := by
  unfold process_max_count release_packets
  dsimp only
  split_ifs <;> exact ⟨rfl, rfl, rfl⟩

theorem start_pass_fields (r : Ring) :
    (start_pass r).curr_sender = r.curr_sender ∧
    (start_pass r).curr_receiver = r.curr_receiver ∧
    (start_pass r).packets = r.packets ∧
    (start_pass r).current_queue_id = r.current_queue_id := by
  unfold start_pass
  split <;> exact ⟨rfl, rfl, rfl, rfl⟩

/-- What `Ring::insert_packet` does to the neighbours and the pending list. -/
theorem insert_packet_fields (r r1 : Ring) (es : List RingEffect)
    (h : insert_packet r = some (r1, es)) :
    r1.curr_sender = r.curr_sender ∧ r1.curr_receiver = r.curr_receiver ∧
    r1.packets = r.packets ++
      [{ preferred_vnet := r.current_queue_id, preferred_src := r.curr_sender
         preferred_dest := r.curr_receiver }] := by
  obtain ⟨s1, s2, s3, s4⟩ := start_pass_fields r
  unfold insert_packet at h
  dsimp only at h
  generalize start_pass r = r2 at h s1 s2 s3 s4
  split at h
  · simp only [Option.some.injEq, Prod.mk.injEq] at h
    obtain ⟨h1, _⟩ := h
    subst h1
    refine ⟨((process_max_count_fields _).1).trans s1,
      ((process_max_count_fields _).2.1).trans s2, ?_⟩
    refine ((process_max_count_fields _).2.2).trans ?_
    show r2.packets ++ [_] = _
    rw [s3, s4, s1, s2]
  · split at h
    · simp only [Option.some.injEq, Prod.mk.injEq] at h
      obtain ⟨h1, _⟩ := h
      subst h1
      refine ⟨((process_max_count_fields _).1).trans s1,
        ((process_max_count_fields _).2.1).trans s2, ?_⟩
      refine ((process_max_count_fields _).2.2).trans ?_
      show r2.packets ++ [_] = _
      rw [s3, s4, s1, s2]
    · cases h

theorem insert_packet_neighbours (s d : Int) (r r1 : Ring) (es : List RingEffect)
    (hK : r.curr_sender = s ∧ r.curr_receiver = d ∧
      ∀ p ∈ r.packets, p.preferred_src = s ∧ p.preferred_dest = d)
    (h : insert_packet r = some (r1, es)) :
    r1.curr_sender = s ∧ r1.curr_receiver = d ∧
      ∀ p ∈ r1.packets, p.preferred_src = s ∧ p.preferred_dest = d := by
  obtain ⟨h1, h2, h3⟩ := insert_packet_fields r r1 es h
  obtain ⟨k1, k2, k3⟩ := hK
  refine ⟨h1.trans k1, h2.trans k2, ?_⟩
  intro p hp
  rw [h3] at hp
  rcases List.mem_append.mp hp with hp | hp
  · exact k3 p hp
  · simp only [List.mem_singleton] at hp
    subst hp
    exact ⟨k1, k2⟩

theorem insert_packets_neighbours (s d : Int) :
    ∀ (k : Nat) (r r1 : Ring) (es : List RingEffect),
      (r.curr_sender = s ∧ r.curr_receiver = d ∧
        ∀ p ∈ r.packets, p.preferred_src = s ∧ p.preferred_dest = d) →
      insert_packets k r = some (r1, es) →
      r1.curr_sender = s ∧ r1.curr_receiver = d ∧
        ∀ p ∈ r1.packets, p.preferred_src = s ∧ p.preferred_dest = d := by
  intro k
  induction k with
  | zero =>
    intro r r1 es hK h
    simp only [insert_packets, Option.some.injEq, Prod.mk.injEq] at h
    obtain ⟨h1, _⟩ := h
    subst h1
    exact hK
  | succ k ih =>
    intro r r1 es hK h
    unfold insert_packets at h
    cases h1 : insert_packet r with
    | none => simp [h1] at h
    | some p1 =>
      obtain ⟨r2, es2⟩ := p1
      simp only [h1] at h
      cases h2 : insert_packets k r2 with
      | none => simp [h2] at h
      | some p2 =>
        obtain ⟨r3, es3⟩ := p2
        simp only [h2, Option.some.injEq, Prod.mk.injEq] at h
        obtain ⟨h3, _⟩ := h
        subst h3
        exact ih r2 r3 es3 (insert_packet_neighbours s d r r2 es2 hK h1) h2

theorem ready_neighbours (s d : Int) (r : Ring)
    (hK : r.curr_sender = s ∧ r.curr_receiver = d ∧
      ∀ p ∈ r.packets, p.preferred_src = s ∧ p.preferred_dest = d) :
    (ready r).2.1.curr_sender = s ∧ (ready r).2.1.curr_receiver = d ∧
      ∀ p ∈ (ready r).2.1.packets, p.preferred_src = s ∧ p.preferred_dest = d := by
  obtain ⟨k1, k2, k3⟩ := hK
  obtain ⟨h1, _, _, _, _, _, h7, h8⟩ := start_executing_fields r
  obtain ⟨g1, _, _, g4, g5, _⟩ := process_stream_count_fields (start_executing r)
  have hstart : (start_executing r).curr_sender = s ∧ (start_executing r).curr_receiver = d ∧
      ∀ p ∈ (start_executing r).packets, p.preferred_src = s ∧ p.preferred_dest = d :=
    ⟨h7.trans k1, h8.trans k2, by rw [h1]; exact k3⟩
  unfold ready
  split
  · exact hstart
  · split
    · exact hstart
    · refine ⟨g4.trans (h7.trans k1), g5.trans (h8.trans k2), ?_⟩
      intro p hp
      have hp2 : p ∈ (process_stream_count (start_executing r)).packets.tail := hp
      rw [g1, h1] at hp2
      exact k3 p (List.mem_of_mem_tail hp2)

theorem iteratable_neighbours (s d : Int) (r : Ring)
    (hK : r.curr_sender = s ∧ r.curr_receiver = d ∧
      ∀ p ∈ r.packets, p.preferred_src = s ∧ p.preferred_dest = d) :
    (iteratable r).2.1.curr_sender = s ∧ (iteratable r).2.1.curr_receiver = d ∧
      ∀ p ∈ (iteratable r).2.1.packets, p.preferred_src = s ∧ p.preferred_dest = d := by
  unfold iteratable exit
  split
  · exact ⟨hK.1, hK.2.1, by intro p hp; cases hp⟩
  · exact hK

theorem run_neighbours (s d : Int) (r r1 : Ring) (es : List RingEffect) (event : EventType)
    (hK : r.curr_sender = s ∧ r.curr_receiver = d ∧
      ∀ p ∈ r.packets, p.preferred_src = s ∧ p.preferred_dest = d)
    (h : run r event = some (r1, es)) :
    r1.curr_sender = s ∧ r1.curr_receiver = d ∧
      ∀ p ∈ r1.packets, p.preferred_src = s ∧ p.preferred_dest = d := by
  unfold run at h
  split at h
  · simp only [Option.some.injEq, Prod.mk.injEq] at h
    obtain ⟨h1, _⟩ := h
    subst h1
    exact iteratable_neighbours s d _ (ready_neighbours s d _ hK)
  · split at h
    · exact insert_packet_neighbours s d
        { r with total_packets_received := r.total_packets_received + 1 } r1 es hK h
    · split at h
      · exact insert_packets_neighbours s d _ r r1 es hK h
      · simp only [Option.some.injEq, Prod.mk.injEq] at h
        obtain ⟨h1, _⟩ := h
        subst h1
        exact hK

theorem runs_neighbours (s d : Int) :
    ∀ (events : List EventType) (r r1 : Ring) (es : List RingEffect),
      (r.curr_sender = s ∧ r.curr_receiver = d ∧
        ∀ p ∈ r.packets, p.preferred_src = s ∧ p.preferred_dest = d) →
      runs r events = some (r1, es) →
      r1.curr_sender = s ∧ r1.curr_receiver = d ∧
        ∀ p ∈ r1.packets, p.preferred_src = s ∧ p.preferred_dest = d := by
  intro events
  induction events with
  | nil =>
    intro r r1 es hK h
    simp only [runs, Option.some.injEq, Prod.mk.injEq] at h
    obtain ⟨h1, _⟩ := h
    subst h1
    exact hK
  | cons event rest ih =>
    intro r r1 es hK h
    unfold runs at h
    cases h1 : run r event with
    | none => simp [h1] at h
    | some p1 =>
      obtain ⟨r2, es2⟩ := p1
      simp only [h1] at h
      cases h2 : runs r2 rest with
      | none => simp [h2] at h
      | some p2 =>
        obtain ⟨r3, es3⟩ := p2
        simp only [h2, Option.some.injEq, Prod.mk.injEq] at h
        obtain ⟨h3, _⟩ := h
        subst h3
        exact ih r2 r3 es3 (run_neighbours s d r r2 es2 event hK h1) h2

theorem ctor_neighbours (storage : Ring) (type : ComType) (id : Int) (topo : RingTopology)
    (S : Nat) (direction : Direction) (policy : InjectionPolicy) :
    (ctor storage type id topo S direction policy).curr_sender
      = topo.get_sender id direction ∧
    (ctor storage type id topo S direction policy).curr_receiver
      = topo.get_receiver id direction ∧
    (ctor storage type id topo S direction policy).packets = [] := by
  cases type <;> cases policy <;>
    simp [ctor, ctor_stream_count, ctor_max_count, ctor_sizes]

end Ring

/-- Counterexample to C25: in an All-Reduce `Ring` of 4 ranks, rank 0, the packets of two
consecutive insertions (StreamInit, then PacketReceived) carry the same neighbour pair,
sender 3 and receiver 1. -/
theorem ring_neighbours_counterexample :
    (((Ring.ctor Ring.sampleStorage ComType.All_Reduce 0 (RingTopology.ofSize 4 Dimension.Local)
        4096 Direction.Clockwise InjectionPolicy.Normal).runsD
      [EventType.StreamInit, EventType.PacketReceived]).packets.map
        (fun (p : MyPacket) => (p.preferred_src, p.preferred_dest))) = [(3, 1), (3, 1)] ∧
    (2 : Int) < (RingTopology.ofSize 4 Dimension.Local).get_nodes_in_ring := by
  decide

/-- C25 (amended): in the Ring algorithm (class `Ring` itself, not its `AllToAll`
subclass) `insert_packet` never changes `curr_sender` and `curr_receiver`: a call appends
one packet that carries the pair (`curr_sender`, `curr_receiver`) and leaves the pair as it
is.  Through every sequence of events delivered to `Ring::run` the pair stays the one set
by the constructor, `get_sender(id, direction)` and `get_receiver(id, direction)`, and
every pending packet carries it, for every ring size. -/
theorem ring_neighbours_fixed (storage : Ring) (type : ComType) (id : Int)
    (topo : RingTopology) (S : Nat) (direction : Direction) (policy : InjectionPolicy) :
    (∀ (r r1 : Ring) es, Ring.insert_packet r = some (r1, es) →
      r1.curr_sender = r.curr_sender ∧ r1.curr_receiver = r.curr_receiver ∧
      r1.packets = r.packets ++
        [{ preferred_vnet := r.current_queue_id, preferred_src := r.curr_sender
           preferred_dest := r.curr_receiver }]) ∧
    (∀ events r1 es,
      Ring.runs (Ring.ctor storage type id topo S direction policy) events = some (r1, es) →
      r1.curr_sender = topo.get_sender id direction ∧
      r1.curr_receiver = topo.get_receiver id direction ∧
      ∀ p ∈ r1.packets, p.preferred_src = topo.get_sender id direction ∧
        p.preferred_dest = topo.get_receiver id direction) := by
  refine ⟨fun r r1 es h => Ring.insert_packet_fields r r1 es h, ?_⟩
  intro events r1 es h
  obtain ⟨c1, c2, c3⟩ := Ring.ctor_neighbours storage type id topo S direction policy
  refine Ring.runs_neighbours _ _ events _ r1 es ⟨c1, c2, ?_⟩ h
  rw [c3]
  intro p hp
  cases hp

/-- Witness of C25 (amended): rank 0 of a ring of 4 ranks, after StreamInit and two
PacketReceived events: sender 3, receiver 1, and the 3 pending packets carry them. -/
theorem ring_neighbours_fixed_witness :
    ∃ r1 es, Ring.runs
        (Ring.ctor Ring.sampleStorage ComType.All_Reduce 0 (RingTopology.ofSize 4 Dimension.Local)
          4096 Direction.Clockwise InjectionPolicy.Normal)
        [EventType.StreamInit, EventType.PacketReceived, EventType.PacketReceived]
          = some (r1, es) ∧
      r1.packets.length = 3 ∧ r1.curr_sender = 3 ∧ r1.curr_receiver = 1 ∧
      ∀ p ∈ r1.packets, p.preferred_src = 3 ∧ p.preferred_dest = 1 := by
  have hlen : (Ring.runs
        (Ring.ctor Ring.sampleStorage ComType.All_Reduce 0 (RingTopology.ofSize 4 Dimension.Local)
          4096 Direction.Clockwise InjectionPolicy.Normal)
        [EventType.StreamInit, EventType.PacketReceived, EventType.PacketReceived]).map
        (fun (p : Ring × List RingEffect) => p.1.packets.length) = some 3 := by decide
  cases hc : Ring.runs
      (Ring.ctor Ring.sampleStorage ComType.All_Reduce 0 (RingTopology.ofSize 4 Dimension.Local)
        4096 Direction.Clockwise InjectionPolicy.Normal)
      [EventType.StreamInit, EventType.PacketReceived, EventType.PacketReceived] with
  | none =>
    rw [hc] at hlen
    cases hlen
  | some p =>
    obtain ⟨r1, es⟩ := p
    rw [hc] at hlen
    simp only [Option.map_some', Option.some.injEq] at hlen
    exact ⟨r1, es, rfl, hlen,
      (ring_neighbours_fixed Ring.sampleStorage ComType.All_Reduce 0
        (RingTopology.ofSize 4 Dimension.Local) 4096 Direction.Clockwise
        InjectionPolicy.Normal).2 _ r1 es hc⟩

end AstraSim

namespace AstraSim

namespace AllToAll

end AllToAll

end AstraSim

namespace AstraSim

namespace AllToAll

end AllToAll

end AstraSim

namespace AstraSim

namespace AllToAll

end AllToAll

end AstraSim

namespace AstraSim

namespace AllToAll

end AllToAll

end AstraSim

namespace AstraSim

namespace AllToAll

end AllToAll

end AstraSim

namespace AstraSim

/-- C27: a Double-Binary-Tree Intermediate rank in state Begin with `reductions = 0`
receives an initial event and then two PacketReceived and two General events, the j-th
General after the j-th PacketReceived (PacketReceived, General, PacketReceived, General,
or PacketReceived, PacketReceived, General, General).  In both orders the calls are: the
two receives from the children at the initial event, one reduce bundle at each
PacketReceived, nothing at the first General, which only sets `reductions` to 1, and the
send to the parent (with the receive from it) at the second General, the fourth event
after the initial one: it is issued once, after the two reduce bundles. -/
theorem intermediate_parent_send_once (t : DoubleBinaryTreeAllReduce) (e0 : EventType)
    (hstate : t.state = TreeState.Begin) (htype : t.type = BinaryTreeType.Intermediate)
    (hred : t.reductions = 0) :
    (t.trace [e0, EventType.PacketReceived, EventType.General, EventType.PacketReceived,
        EventType.General]).2
      = [[t.recv_effect t.left_child, t.recv_effect t.right_child],
         [TreeEffect.send_to_NPU true false t.data_size Transmition.Usual],
         [],
         [TreeEffect.send_to_NPU true true t.data_size Transmition.Usual],
         [t.send_effect t.parent t.parent, t.recv_effect t.parent]] ∧
    (t.trace [e0, EventType.PacketReceived, EventType.PacketReceived, EventType.General,
        EventType.General]).2
      = [[t.recv_effect t.left_child, t.recv_effect t.right_child],
         [TreeEffect.send_to_NPU true false t.data_size Transmition.Usual],
         [TreeEffect.send_to_NPU true true t.data_size Transmition.Usual],
         [],
         [t.send_effect t.parent t.parent, t.recv_effect t.parent]] ∧
    (t.trace [e0, EventType.PacketReceived, EventType.General]).1
      = { t with state := TreeState.WaitingForOneChildData, reductions := 1 } ∧
    (t.trace [e0, EventType.PacketReceived, EventType.PacketReceived, EventType.General]).1
      = { t with state := TreeState.SendingDataToParent, reductions := 1 } ∧
    (∀ events, events = [EventType.PacketReceived, EventType.General,
          EventType.PacketReceived, EventType.General] ∨
        events = [EventType.PacketReceived, EventType.PacketReceived, EventType.General,
          EventType.General] →
      ((t.trace (e0 :: events)).2.take 4).flatten.countP (fun e => t.is_parent_send e) = 0 ∧
      ((t.trace (e0 :: events)).2.take 4).flatten.countP
        (fun e => DoubleBinaryTreeAllReduce.is_reduce_bundle e) = 2 ∧
      ((t.trace (e0 :: events)).2.drop 4).flatten.countP (fun e => t.is_parent_send e) = 1) := by
  have hA : (t.trace [e0, EventType.PacketReceived, EventType.General,
        EventType.PacketReceived, EventType.General]).2
      = [[t.recv_effect t.left_child, t.recv_effect t.right_child],
         [TreeEffect.send_to_NPU true false t.data_size Transmition.Usual],
         [],
         [TreeEffect.send_to_NPU true true t.data_size Transmition.Usual],
         [t.send_effect t.parent t.parent, t.recv_effect t.parent]] := by
    simp [DoubleBinaryTreeAllReduce.trace, DoubleBinaryTreeAllReduce.run, hstate, htype, hred,
      DoubleBinaryTreeAllReduce.send_effect, DoubleBinaryTreeAllReduce.recv_effect]
  have hB : (t.trace [e0, EventType.PacketReceived, EventType.PacketReceived,
        EventType.General, EventType.General]).2
      = [[t.recv_effect t.left_child, t.recv_effect t.right_child],
         [TreeEffect.send_to_NPU true false t.data_size Transmition.Usual],
         [TreeEffect.send_to_NPU true true t.data_size Transmition.Usual],
         [],
         [t.send_effect t.parent t.parent, t.recv_effect t.parent]] := by
    simp [DoubleBinaryTreeAllReduce.trace, DoubleBinaryTreeAllReduce.run, hstate, htype, hred,
      DoubleBinaryTreeAllReduce.send_effect, DoubleBinaryTreeAllReduce.recv_effect]
  refine ⟨hA, hB, ?_, ?_, ?_⟩
  · simp [DoubleBinaryTreeAllReduce.trace, DoubleBinaryTreeAllReduce.run, hstate, htype, hred]
  · simp [DoubleBinaryTreeAllReduce.trace, DoubleBinaryTreeAllReduce.run, hstate, htype, hred]
  · intro events hev
    rcases hev with hev | hev
    · subst hev
      rw [hA]
      simp [DoubleBinaryTreeAllReduce.is_parent_send, DoubleBinaryTreeAllReduce.is_reduce_bundle,
        DoubleBinaryTreeAllReduce.send_effect, DoubleBinaryTreeAllReduce.recv_effect]
    · subst hev
      rw [hB]
      simp [DoubleBinaryTreeAllReduce.is_parent_send, DoubleBinaryTreeAllReduce.is_reduce_bundle,
        DoubleBinaryTreeAllReduce.send_effect, DoubleBinaryTreeAllReduce.recv_effect]

/-- Witness of C27: the intermediate rank 1 with parent 3 and children 0 and 2. -/
theorem intermediate_parent_send_once_witness :
    ((DoubleBinaryTreeAllReduce.sample BinaryTreeType.Intermediate).trace
        [EventType.StreamInit, EventType.PacketReceived, EventType.General,
          EventType.PacketReceived, EventType.General]).2
      = [[TreeEffect.front_end_sim_recv 1024 0 5 0, TreeEffect.front_end_sim_recv 1024 2 5 0],
         [TreeEffect.send_to_NPU true false 1024 Transmition.Usual],
         [],
         [TreeEffect.send_to_NPU true true 1024 Transmition.Usual],
         [TreeEffect.front_end_sim_send 1024 3 5 1 3 5 0,
          TreeEffect.front_end_sim_recv 1024 3 5 0]] :=
  (intermediate_parent_send_once (DoubleBinaryTreeAllReduce.sample BinaryTreeType.Intermediate)
    EventType.StreamInit rfl rfl rfl).1

end AstraSim

namespace AstraSim

namespace Ring

end Ring

end AstraSim

namespace AstraSim

namespace Workload

variable {F : Type}

/-- The issue of a non-CPU COMP node with a recorded runtime while the GPU compute class is
free: the class is occupied and one completion event is registered. -/
theorem issue_gpu_comp_fields (E : ETFeeder F) (w : Workload F) (node : ETNode)
    (hcpu : node.is_cpu_op = false) (htype : node.type = ChakraNodeType.COMP_NODE)
    (hrt : node.runtime ≠ 0) (hfree : w.hw_resource.num_in_flight_gpu_comp_ops = 0) :
    ∃ w1, issue E w node = Except.ok w1 ∧
      w1.log = w.log ++
        [WorkloadEffect.register_event CallableRef.workload EventType.General
          (CallData.wlhd node.id)
          (if w.sys.replay_only = false ∧ w.sys.roofline_enabled = true then
            w.sys.roofline_runtime node.num_ops node.tensor_size
          else replay_runtime node)] ∧
      w1.et_feeder = w.et_feeder ∧ w1.hw_resource.num_in_flight_gpu_comp_ops = 1 ∧
      w1.sys = w.sys ∧ w1.is_finished = w.is_finished := by
  cases hr : w.sys.replay_only <;> cases hl : w.sys.roofline_enabled <;>
    simp [issue, issue_comp, occupy, HardwareResource.occupy, issue_replay, add_tics, hcpu,
      htype, hrt, hfree, hr, hl]

/-- One call of `issue_dep_free_nodes` on a feeder that hands out the non-CPU COMP nodes
`a` and `b` and then nothing, while the GPU compute class is free: `a` is issued, `b` is
parked and pushed back after the loop. -/
theorem issue_dep_free_nodes_first (E : ETFeeder F) (w : Workload F) (a b : ETNode)
    (f1 f2 f3 : F) (fuel : Nat)
    (h1 : E.getNextIssuableNode w.et_feeder = (some a, f1))
    (h2 : E.getNextIssuableNode f1 = (some b, f2))
    (h3 : E.getNextIssuableNode f2 = (none, f3))
    (hacpu : a.is_cpu_op = false) (hatype : a.type = ChakraNodeType.COMP_NODE)
    (hart : a.runtime ≠ 0)
    (hbcpu : b.is_cpu_op = false) (hbtype : b.type = ChakraNodeType.COMP_NODE)
    (hfree : w.hw_resource.num_in_flight_gpu_comp_ops = 0) :
    ∃ w1, issue_dep_free_nodes E (fuel + 3) w = Except.ok w1 ∧
      w1.log = w.log ++
        [WorkloadEffect.register_event CallableRef.workload EventType.General
          (CallData.wlhd a.id)
          (if w.sys.replay_only = false ∧ w.sys.roofline_enabled = true then
            w.sys.roofline_runtime a.num_ops a.tensor_size
          else replay_runtime a)] ∧
      w1.et_feeder = E.pushBackIssuableNode f3 b.id ∧
      w1.hw_resource.num_in_flight_gpu_comp_ops = 1 ∧
      w1.sys = w.sys ∧ w1.is_finished = w.is_finished := by
  obtain ⟨wa, hwa, hlog, hfeed, hcnt, hsys, hfin⟩ :=
    issue_gpu_comp_fields E ({ w with et_feeder := f1 } : Workload F) a hacpu hatype hart hfree
  have hfeed1 : wa.et_feeder = f1 := hfeed
  simp only [issue_dep_free_nodes, issue_loop, h1, HardwareResource.is_available, hacpu,
    hatype, hfree, hwa, hfeed1, h2, hbcpu, hbtype, hcnt, h3, push_back]
  simp
  exact ⟨hlog, hcnt, hsys, hfin⟩

/-- One call of `issue_dep_free_nodes` on a feeder that hands out the non-CPU COMP node
`b` and then nothing, while the GPU compute class is free: `b` is issued. -/
theorem issue_dep_free_nodes_single (E : ETFeeder F) (w : Workload F) (b : ETNode)
    (f5 f6 : F) (fuel : Nat)
    (h5 : E.getNextIssuableNode w.et_feeder = (some b, f5))
    (h6 : E.getNextIssuableNode f5 = (none, f6))
    (hbcpu : b.is_cpu_op = false) (hbtype : b.type = ChakraNodeType.COMP_NODE)
    (hbrt : b.runtime ≠ 0)
    (hfree : w.hw_resource.num_in_flight_gpu_comp_ops = 0) :
    ∃ w1, issue_dep_free_nodes E (fuel + 2) w = Except.ok w1 ∧
      w1.log = w.log ++
        [WorkloadEffect.register_event CallableRef.workload EventType.General
          (CallData.wlhd b.id)
          (if w.sys.replay_only = false ∧ w.sys.roofline_enabled = true then
            w.sys.roofline_runtime b.num_ops b.tensor_size
          else replay_runtime b)] ∧
      w1.et_feeder = f6 ∧
      w1.hw_resource.num_in_flight_gpu_comp_ops = 1 ∧
      w1.sys = w.sys ∧ w1.is_finished = w.is_finished := by
  obtain ⟨wb, hwb, hlog, hfeed, hcnt, hsys, hfin⟩ :=
    issue_gpu_comp_fields E ({ w with et_feeder := f5 } : Workload F) b hbcpu hbtype hbrt hfree
  have hfeed1 : wb.et_feeder = f5 := hfeed
  simp only [issue_dep_free_nodes, issue_loop, h5, HardwareResource.is_available, hbcpu,
    hbtype, hfree, hwb, hfeed1, h6, push_back]
  simp
  exact ⟨hlog, hcnt, hsys, hfin⟩

/-- The release of a non-CPU COMP node that occupies the GPU compute class. -/
theorem release_gpu_comp (hw : HardwareResource) (node : ETFeederNode)
    (hcpu : node.is_cpu_op = false) (htype : node.type = ChakraNodeType.COMP_NODE)
    (hbusy : hw.num_in_flight_gpu_comp_ops = 1) :
    ∃ hw1, hw.release node = some hw1 ∧ hw1.num_in_flight_gpu_comp_ops = 0 := by
  simp [HardwareResource.release, hcpu, htype, hbusy, HardwareResource.dec32]

/-- The call of `Workload::call` for the completion of the non-CPU COMP node `a` while it
occupies the GPU compute class, on a feeder that then hands out the non-CPU COMP node `b`
and nothing else: `a` is released, `b` is issued, and the workload is not finished. -/
theorem call_second (E : ETFeeder F) (w : Workload F) (a b : ETNode) (f5 f6 : F) (fuel : Nat)
    (hfin : w.is_finished = false)
    (hbusy : w.hw_resource.num_in_flight_gpu_comp_ops = 1)
    (h4 : E.lookupNode w.et_feeder a.id = some a)
    (h5 : E.getNextIssuableNode (E.freeChildrenNodes w.et_feeder a.id) = (some b, f5))
    (h6 : E.getNextIssuableNode f5 = (none, f6))
    (hacpu : a.is_cpu_op = false) (hatype : a.type = ChakraNodeType.COMP_NODE)
    (hbcpu : b.is_cpu_op = false) (hbtype : b.type = ChakraNodeType.COMP_NODE)
    (hbrt : b.runtime ≠ 0) :
    ∃ w2, call E (fuel + 2) w EventType.General (CallData.wlhd a.id) = Except.ok w2 ∧
      w2.log = w.log ++
        [WorkloadEffect.register_event CallableRef.workload EventType.General
          (CallData.wlhd b.id)
          (if w.sys.replay_only = false ∧ w.sys.roofline_enabled = true then
            w.sys.roofline_runtime b.num_ops b.tensor_size
          else replay_runtime b)] ∧
      w2.et_feeder = E.removeNode f6 a.id ∧
      w2.hw_resource.num_in_flight_gpu_comp_ops = 1 ∧
      w2.is_finished = false := by
  obtain ⟨hw1, hrel, hzero⟩ := release_gpu_comp w.hw_resource a.toETFeederNode hacpu hatype hbusy
  obtain ⟨wb, hwb, hlog, hfeed, hcnt, hsys, hfinb⟩ :=
    issue_dep_free_nodes_single E
      ({ w with hw_resource := hw1, et_feeder := E.freeChildrenNodes w.et_feeder a.id } :
        Workload F) b f5 f6 fuel h5 h6 hbcpu hbtype hbrt hzero
  have hfin1 : wb.is_finished = false := hfinb.trans hfin
  simp only [hfin] at hwb
  simp only [call, hfin, call_body, h4, complete_node, hrel]
  rw [hwb]
  simp [check_finished, all_done, hcnt]
  exact ⟨hlog, by rw [hfeed], hfin1⟩

end Workload

/-- C29: in `Workload::issue_dep_free_nodes` a fetched node is issued exactly when
`hw_resource->is_available(node)` holds at its fetch: then `issue(node)` runs and the loop
goes on with the same queue; otherwise nothing but the feeder changes and the node is
appended to the push-back queue.  The loop ends at the first null fetch, and only then the
queue is pushed back into the feeder, first parked first.  On a feeder that hands out two
non-CPU COMP nodes `a` and `b` with recorded runtimes while the GPU compute class is free,
the call registers the completion event of `a` only and pushes `b` back, and the call of
`Workload::call` for the completion of `a` releases `a` and registers the event of `b`. -/
theorem issue_dep_free_nodes_parks {F : Type} (E : ETFeeder F) :
    (∀ (fuel : Nat) (w : Workload F) (q : List ETNode) (node : ETNode) (f : F),
      E.getNextIssuableNode w.et_feeder = (some node, f) →
      Workload.issue_loop E (fuel + 1) w q =
        if w.hw_resource.is_available node.toETFeederNode = true then
          (match Workload.issue E { w with et_feeder := f } node with
            | Except.error e => Except.error e
            | Except.ok w2 => Workload.issue_loop E fuel w2 q)
        else Workload.issue_loop E fuel { w with et_feeder := f } (q ++ [node])) ∧
    (∀ (fuel : Nat) (w : Workload F) (q : List ETNode) (f : F),
      E.getNextIssuableNode w.et_feeder = (none, f) →
      Workload.issue_loop E (fuel + 1) w q = Except.ok ({ w with et_feeder := f }, q)) ∧
    (∀ (fuel : Nat) (w w1 : Workload F),
      Workload.issue_dep_free_nodes E fuel w = Except.ok w1 ↔
        ∃ w0 q, Workload.issue_loop E fuel w [] = Except.ok (w0, q) ∧
          w1 = { w0 with et_feeder := Workload.push_back E w0.et_feeder q }) ∧
    (∀ (f : F) (q : List ETNode) (node : ETNode),
      Workload.push_back E f [] = f ∧
      Workload.push_back E f (q ++ [node])
        = E.pushBackIssuableNode (Workload.push_back E f q) node.id) ∧
    (∀ (w : Workload F) (a b : ETNode) (f1 f2 f3 f5 f6 : F) (fuel fuel2 : Nat),
      a.is_cpu_op = false → a.type = ChakraNodeType.COMP_NODE → a.runtime ≠ 0 →
      b.is_cpu_op = false → b.type = ChakraNodeType.COMP_NODE → b.runtime ≠ 0 →
      w.is_finished = false → w.hw_resource.num_in_flight_gpu_comp_ops = 0 →
      E.getNextIssuableNode w.et_feeder = (some a, f1) →
      E.getNextIssuableNode f1 = (some b, f2) →
      E.getNextIssuableNode f2 = (none, f3) →
      E.lookupNode (E.pushBackIssuableNode f3 b.id) a.id = some a →
      E.getNextIssuableNode (E.freeChildrenNodes (E.pushBackIssuableNode f3 b.id) a.id)
        = (some b, f5) →
      E.getNextIssuableNode f5 = (none, f6) →
      ∃ w1 w2,
        Workload.issue_dep_free_nodes E (fuel + 3) w = Except.ok w1 ∧
        w1.log = w.log ++
          [WorkloadEffect.register_event CallableRef.workload EventType.General
            (CallData.wlhd a.id)
            (if w.sys.replay_only = false ∧ w.sys.roofline_enabled = true then
              w.sys.roofline_runtime a.num_ops a.tensor_size
            else Workload.replay_runtime a)] ∧
        w1.et_feeder = E.pushBackIssuableNode f3 b.id ∧
        w1.hw_resource.num_in_flight_gpu_comp_ops = 1 ∧
        Workload.call E (fuel2 + 2) w1 EventType.General (CallData.wlhd a.id) = Except.ok w2 ∧
        w2.log = w1.log ++
          [WorkloadEffect.register_event CallableRef.workload EventType.General
            (CallData.wlhd b.id)
            (if w.sys.replay_only = false ∧ w.sys.roofline_enabled = true then
              w.sys.roofline_runtime b.num_ops b.tensor_size
            else Workload.replay_runtime b)] ∧
        w2.et_feeder = E.removeNode f6 a.id ∧
        w2.hw_resource.num_in_flight_gpu_comp_ops = 1 ∧
        w2.is_finished = false) := by
  refine ⟨?_, ?_, ?_, ?_, ?_⟩
  · intro fuel w q node f h
    by_cases hav : w.hw_resource.is_available node.toETFeederNode = true
    · simp only [Workload.issue_loop, h, hav, if_true]
    · simp only [Workload.issue_loop, h, hav, if_false]
  · intro fuel w q f h
    simp only [Workload.issue_loop, h]
  · intro fuel w w1
    unfold Workload.issue_dep_free_nodes
    cases hloop : Workload.issue_loop E fuel w [] with
    | error e => simp
    | ok r =>
      obtain ⟨w0, q⟩ := r
      simp only [Except.ok.injEq, Prod.mk.injEq]
      constructor
      · intro h
        exact ⟨w0, q, ⟨rfl, rfl⟩, h.symm⟩
      · rintro ⟨w0a, qa, ⟨h1, h2⟩, h3⟩
        subst h1 h2
        exact h3.symm
  · intro f q node
    simp [Workload.push_back]
  · intro w a b f1 f2 f3 f5 f6 fuel fuel2 hacpu hatype hart hbcpu hbtype hbrt hfin hfree
      h1 h2 h3 h4 h5 h6
    obtain ⟨w1, hw1, hlog1, hfeed1, hcnt1, hsys1, hfin1⟩ :=
      Workload.issue_dep_free_nodes_first E w a b f1 f2 f3 fuel h1 h2 h3 hacpu hatype hart
        hbcpu hbtype hfree
    rw [← hfeed1] at h4 h5
    obtain ⟨w2, hw2, hlog2, hfeed2, hcnt2, hfin2⟩ :=
      Workload.call_second E w1 a b f5 f6 fuel2 (hfin1.trans hfin) hcnt1 h4 h5 h6 hacpu hatype
        hbcpu hbtype hbrt
    rw [hsys1] at hlog2
    exact ⟨w1, w2, hw1, hlog1, hfeed1, hcnt1, hw2, hlog2, hfeed2, hcnt2, hfin2⟩

/-- Witness of C29: the GPU compute nodes 1 (5 us) and 2 (7 us), both ready: the first
call registers the event of node 1 only, the call for its completion that of node 2. -/
theorem issue_dep_free_nodes_parks_witness :
    ∃ w1 w2,
      Workload.issue_dep_free_nodes SampleFeeder.ops 3
        (Workload.ctor (Sys.sample false false)
          (SampleFeeder.ofNodes
            [ETNode.sample 1 false ChakraNodeType.COMP_NODE 5
               ChakraCollectiveCommType.ALL_REDUCE,
             ETNode.sample 2 false ChakraNodeType.COMP_NODE 7
               ChakraCollectiveCommType.ALL_REDUCE])) = Except.ok w1 ∧
      w1.log = [WorkloadEffect.register_event CallableRef.workload EventType.General
        (CallData.wlhd 1) 5000] ∧
      w1.et_feeder.issuable = [ETNode.sample 2 false ChakraNodeType.COMP_NODE 7
        ChakraCollectiveCommType.ALL_REDUCE] ∧
      Workload.call SampleFeeder.ops 2 w1 EventType.General (CallData.wlhd 1) = Except.ok w2 ∧
      w2.log = w1.log ++ [WorkloadEffect.register_event CallableRef.workload EventType.General
        (CallData.wlhd 2) 7000] := by
  obtain ⟨w1, w2, h1, h2, h3, _, h5, h6, _⟩ :=
    (issue_dep_free_nodes_parks SampleFeeder.ops).2.2.2.2
      (Workload.ctor (Sys.sample false false)
        (SampleFeeder.ofNodes
          [ETNode.sample 1 false ChakraNodeType.COMP_NODE 5
             ChakraCollectiveCommType.ALL_REDUCE,
           ETNode.sample 2 false ChakraNodeType.COMP_NODE 7
             ChakraCollectiveCommType.ALL_REDUCE]))
      (ETNode.sample 1 false ChakraNodeType.COMP_NODE 5 ChakraCollectiveCommType.ALL_REDUCE)
      (ETNode.sample 2 false ChakraNodeType.COMP_NODE 7 ChakraCollectiveCommType.ALL_REDUCE)
      { issuable :=
          [ETNode.sample 2 false ChakraNodeType.COMP_NODE 7 ChakraCollectiveCommType.ALL_REDUCE]
        graph :=
          [ETNode.sample 1 false ChakraNodeType.COMP_NODE 5 ChakraCollectiveCommType.ALL_REDUCE,
           ETNode.sample 2 false ChakraNodeType.COMP_NODE 7
             ChakraCollectiveCommType.ALL_REDUCE] }
      { issuable := []
        graph :=
          [ETNode.sample 1 false ChakraNodeType.COMP_NODE 5 ChakraCollectiveCommType.ALL_REDUCE,
           ETNode.sample 2 false ChakraNodeType.COMP_NODE 7
             ChakraCollectiveCommType.ALL_REDUCE] }
      { issuable := []
        graph :=
          [ETNode.sample 1 false ChakraNodeType.COMP_NODE 5 ChakraCollectiveCommType.ALL_REDUCE,
           ETNode.sample 2 false ChakraNodeType.COMP_NODE 7
             ChakraCollectiveCommType.ALL_REDUCE] }
      { issuable := []
        graph :=
          [ETNode.sample 1 false ChakraNodeType.COMP_NODE 5 ChakraCollectiveCommType.ALL_REDUCE,
           ETNode.sample 2 false ChakraNodeType.COMP_NODE 7
             ChakraCollectiveCommType.ALL_REDUCE] }
      { issuable := []
        graph :=
          [ETNode.sample 1 false ChakraNodeType.COMP_NODE 5 ChakraCollectiveCommType.ALL_REDUCE,
           ETNode.sample 2 false ChakraNodeType.COMP_NODE 7
             ChakraCollectiveCommType.ALL_REDUCE] }
      0 0 rfl rfl (by decide) rfl rfl (by decide) rfl rfl rfl rfl rfl (by decide) (by decide)
      rfl
  refine ⟨w1, w2, h1, h2, ?_, h5, h6⟩
  rw [h3]
  decide

end AstraSim

namespace AstraSim

/-- C30 (what the code does): `ChakraImpl::issue_dep_free_nodes` issues every node that
the feeder hands out, without a test of a hardware resource: a fetched node is passed to
`issue` whatever has been issued before, and the loop goes on.  So when the feeder yields
two COMM_SEND nodes `a` and `b` and then a null pointer, one call of `run` makes the
`front_end_sim_send` of `a` and then that of `b`, with no completion in between: both
sends are in flight together. -/
theorem chakra_impl_issues_both_sends {F : Type} (E : ETFeeder F) :
    (∀ (fuel : Nat) (c : ChakraImpl F) (node : ETNode) (f : F),
      E.getNextIssuableNode c.et_feeder = (some node, f) →
      ChakraImpl.issue_dep_free_nodes E (fuel + 1) c
        = ChakraImpl.issue_dep_free_nodes E fuel
            (ChakraImpl.issue { c with et_feeder := f } node)) ∧
    (∀ (c : ChakraImpl F) (a b : ETNode) (f1 f2 f3 : F) (fuel : Nat),
      E.getNextIssuableNode c.et_feeder = (some a, f1) →
      E.getNextIssuableNode f1 = (some b, f2) →
      E.getNextIssuableNode f2 = (none, f3) →
      a.type = ChakraNodeType.COMM_SEND_NODE →
      b.type = ChakraNodeType.COMM_SEND_NODE →
      ChakraImpl.run E (fuel + 3) c EventType.StreamInit
        = Except.ok
            { id := c.id
              et_feeder := f3
              log := c.log ++
                [ChakraImplEffect.front_end_sim_send a.comm_size a.comm_dst a.comm_tag
                   a.comm_src a.comm_dst a.id,
                 ChakraImplEffect.front_end_sim_send b.comm_size b.comm_dst b.comm_tag
                   b.comm_src b.comm_dst b.id] }) := by
  constructor
  · intro fuel c node f h
    simp only [ChakraImpl.issue_dep_free_nodes, h]
  · intro c a b f1 f2 f3 fuel h1 h2 h3 ha hb
    have hia : ChakraImpl.issue ({ c with et_feeder := f1 } : ChakraImpl F) a
        = { id := c.id
            et_feeder := f1
            log := c.log ++
              [ChakraImplEffect.front_end_sim_send a.comm_size a.comm_dst a.comm_tag
                 a.comm_src a.comm_dst a.id] } := by
      simp [ChakraImpl.issue, ha]
    unfold ChakraImpl.run
    simp only [ChakraImpl.issue_dep_free_nodes, h1, hia, h2]
    simp [ChakraImpl.issue, hb, h3]

/-- Witness of C30: a trace of two independent COMM_SEND nodes 1 and 2; the first call of
`run` sends both, while the workload engine on the same trace sends only node 1. -/
theorem chakra_impl_issues_both_sends_witness :
    ChakraImpl.run SampleFeeder.ops 3
        { id := 0
          et_feeder := SampleFeeder.ofNodes
            [ETNode.sample 1 false ChakraNodeType.COMM_SEND_NODE 0
               ChakraCollectiveCommType.ALL_REDUCE,
             ETNode.sample 2 false ChakraNodeType.COMM_SEND_NODE 0
               ChakraCollectiveCommType.ALL_REDUCE]
          log := [] } EventType.StreamInit
      = Except.ok
          { id := 0
            et_feeder :=
              { issuable := []
                graph :=
                  [ETNode.sample 1 false ChakraNodeType.COMM_SEND_NODE 0
                     ChakraCollectiveCommType.ALL_REDUCE,
                   ETNode.sample 2 false ChakraNodeType.COMM_SEND_NODE 0
                     ChakraCollectiveCommType.ALL_REDUCE] }
            log :=
              [ChakraImplEffect.front_end_sim_send 1024 1 0 0 1 1,
               ChakraImplEffect.front_end_sim_send 1024 1 0 0 1 2] } ∧
    ((Workload.issue_dep_free_nodes SampleFeeder.ops 3
        (Workload.ctor (Sys.sample false false)
          (SampleFeeder.ofNodes
            [ETNode.sample 1 false ChakraNodeType.COMM_SEND_NODE 0
               ChakraCollectiveCommType.ALL_REDUCE,
             ETNode.sample 2 false ChakraNodeType.COMM_SEND_NODE 0
               ChakraCollectiveCommType.ALL_REDUCE]))).toOption.map
        (fun (w : Workload SampleFeeder) => w.log))
      = some [WorkloadEffect.front_end_sim_send 1024 1 0 0 1 1] :=
  ⟨(chakra_impl_issues_both_sends SampleFeeder.ops).2
      { id := 0
        et_feeder := SampleFeeder.ofNodes
          [ETNode.sample 1 false ChakraNodeType.COMM_SEND_NODE 0
             ChakraCollectiveCommType.ALL_REDUCE,
           ETNode.sample 2 false ChakraNodeType.COMM_SEND_NODE 0
             ChakraCollectiveCommType.ALL_REDUCE]
        log := [] }
      (ETNode.sample 1 false ChakraNodeType.COMM_SEND_NODE 0 ChakraCollectiveCommType.ALL_REDUCE)
      (ETNode.sample 2 false ChakraNodeType.COMM_SEND_NODE 0 ChakraCollectiveCommType.ALL_REDUCE)
      { issuable :=
          [ETNode.sample 2 false ChakraNodeType.COMM_SEND_NODE 0
             ChakraCollectiveCommType.ALL_REDUCE]
        graph :=
          [ETNode.sample 1 false ChakraNodeType.COMM_SEND_NODE 0
             ChakraCollectiveCommType.ALL_REDUCE,
           ETNode.sample 2 false ChakraNodeType.COMM_SEND_NODE 0
             ChakraCollectiveCommType.ALL_REDUCE] }
      { issuable := []
        graph :=
          [ETNode.sample 1 false ChakraNodeType.COMM_SEND_NODE 0
             ChakraCollectiveCommType.ALL_REDUCE,
           ETNode.sample 2 false ChakraNodeType.COMM_SEND_NODE 0
             ChakraCollectiveCommType.ALL_REDUCE] }
      { issuable := []
        graph :=
          [ETNode.sample 1 false ChakraNodeType.COMM_SEND_NODE 0
             ChakraCollectiveCommType.ALL_REDUCE,
           ETNode.sample 2 false ChakraNodeType.COMM_SEND_NODE 0
             ChakraCollectiveCommType.ALL_REDUCE] }
      0 rfl rfl rfl rfl rfl,
    by decide⟩

end AstraSim

namespace Ns3Frontend

open AstraSimAnalytical

/-! ## The receiving side of the ns3 frontend: the byte balance of a key -/

/-- The two maps and the handler log after an arrival, at every key. -/
theorem notify_maps (st : Ns3State) (src_id dst_id m tag : Int)
    (hw : st.sim_recv_waiting_hash.NodupKeys) (k : MsgEventKey) :
    (st.notify_receiver_receive_data src_id dst_id m tag).sim_recv_waiting_hash.find k
      = (if k = (tag, (src_id, dst_id)) then
          (match st.sim_recv_waiting_hash.find (tag, (src_id, dst_id)) with
            | some e =>
              if m < e.remaining_msg_bytes then
                some { e with
                  remaining_msg_bytes := AstraSim.int32 (e.remaining_msg_bytes - m) }
              else none
            | none => none)
        else st.sim_recv_waiting_hash.find k) ∧
    (st.notify_receiver_receive_data src_id dst_id m tag).received_msg_standby_hash.find k
      = (if k = (tag, (src_id, dst_id)) then
          (match st.sim_recv_waiting_hash.find (tag, (src_id, dst_id)) with
            | some e =>
              if m > e.remaining_msg_bytes then
                some (AstraSim.int32 (m - e.remaining_msg_bytes))
              else st.received_msg_standby_hash.find (tag, (src_id, dst_id))
            | none =>
              (match st.received_msg_standby_hash.find (tag, (src_id, dst_id)) with
                | some bytes => some (AstraSim.int32 (bytes + m))
                | none => some m))
        else st.received_msg_standby_hash.find k) ∧
    (st.notify_receiver_receive_data src_id dst_id m tag).calls
      = (match st.sim_recv_waiting_hash.find (tag, (src_id, dst_id)) with
          | some e =>
            if m < e.remaining_msg_bytes then st.calls
            else st.calls ++ [{ msg_handler := e.msg_handler, fun_arg := e.fun_arg }]
          | none => st.calls) := by
  unfold Ns3State.notify_receiver_receive_data
  dsimp only
  rw [(count_received_fields _ _ _).1, (count_received_fields _ _ _).2.1,
    (count_received_fields _ _ _).2.2]
  cases hfw : st.sim_recv_waiting_hash.find (tag, (src_id, dst_id)) with
  | some e =>
    dsimp only
    by_cases h1 : m = e.remaining_msg_bytes
    · have h2 : ¬ m < e.remaining_msg_bytes := by omega
      have h3 : ¬ m > e.remaining_msg_bytes := by omega
      simp only [h1, if_true, Ns3State.callHandler, Map.find_erase _ _ _ hw, lt_self_iff_false,
        if_false, gt_iff_lt]
      by_cases hk : k = (tag, (src_id, dst_id)) <;> simp [hk]
    · by_cases h4 : m > e.remaining_msg_bytes
      · have h2 : ¬ m < e.remaining_msg_bytes := by omega
        simp only [h1, if_false, h4, if_true, Ns3State.callHandler, Map.find_erase _ _ _ hw,
          Map.find_assign, h2]
        by_cases hk : k = (tag, (src_id, dst_id)) <;> simp [hk]
      · have h2 : m < e.remaining_msg_bytes := by omega
        simp only [h1, if_false, h4, Map.find_assign, h2, if_true]
        by_cases hk : k = (tag, (src_id, dst_id)) <;> simp [hk]
  | none =>
    dsimp only
    cases hfs : st.received_msg_standby_hash.find (tag, (src_id, dst_id)) with
    | none =>
      simp only [Map.find_assign, hfw]
      by_cases hk : k = (tag, (src_id, dst_id)) <;> simp [hk, hfw]
    | some bytes =>
      simp only [Map.find_assign, hfw]
      by_cases hk : k = (tag, (src_id, dst_id)) <;> simp [hk, hfw]

/-- An arrival keeps the keys of both maps pairwise different. -/
theorem notify_nodup (st : Ns3State) (src_id dst_id m tag : Int)
    (hw : st.sim_recv_waiting_hash.NodupKeys) (hs : st.received_msg_standby_hash.NodupKeys) :
    (st.notify_receiver_receive_data src_id dst_id m tag).sim_recv_waiting_hash.NodupKeys ∧
    (st.notify_receiver_receive_data src_id dst_id m tag).received_msg_standby_hash.NodupKeys := by
  unfold Ns3State.notify_receiver_receive_data
  dsimp only
  rw [(count_received_fields _ _ _).1, (count_received_fields _ _ _).2.1]
  cases hfw : st.sim_recv_waiting_hash.find (tag, (src_id, dst_id)) with
  | some e =>
    dsimp only
    split_ifs
    · exact ⟨Map.nodupKeys_erase _ _ hw, hs⟩
    · exact ⟨Map.nodupKeys_erase _ _ hw, Map.nodupKeys_assign _ _ _ hs⟩
    · exact ⟨Map.nodupKeys_assign _ _ _ hw, hs⟩
  | none =>
    dsimp only
    cases hfs : st.received_msg_standby_hash.find (tag, (src_id, dst_id)) with
    | none => exact ⟨hw, Map.nodupKeys_assign _ _ _ hs⟩
    | some bytes => exact ⟨hw, Map.nodupKeys_assign _ _ _ hs⟩

/-- A `sim_recv` keeps the keys of both maps pairwise different. -/
theorem sim_recv_nodup (st : Ns3State) (rank : Int) (m : Nat) (src_id tag : Int)
    (msg_handler fun_arg : Nat)
    (hw : st.sim_recv_waiting_hash.NodupKeys) (hs : st.received_msg_standby_hash.NodupKeys) :
    (st.sim_recv rank m src_id tag msg_handler fun_arg).sim_recv_waiting_hash.NodupKeys ∧
    (st.sim_recv rank m src_id tag msg_handler fun_arg).received_msg_standby_hash.NodupKeys := by
  unfold Ns3State.sim_recv
  dsimp only
  cases hfs : st.received_msg_standby_hash.find (tag, (src_id, rank)) with
  | some s =>
    dsimp only
    split_ifs
    · exact ⟨hw, Map.nodupKeys_erase _ _ hs⟩
    · exact ⟨hw, Map.nodupKeys_assign _ _ _ hs⟩
    · exact ⟨Map.nodupKeys_assign _ _ _ hw, Map.nodupKeys_erase _ _ hs⟩
  | none =>
    dsimp only
    cases hfw : st.sim_recv_waiting_hash.find (tag, (src_id, rank)) with
    | none => exact ⟨Map.nodupKeys_assign _ _ _ hw, hs⟩
    | some e => exact ⟨Map.nodupKeys_assign _ _ _ hw, hs⟩

/-- The `int` that the `MsgEvent` constructor makes of a `uint64_t` size `m`, less an `int`
`s`, reduced to 32 bits, is `m - s` when that fits `int`. -/
theorem int32_uint64ToInt_sub (m : Nat) (s : Int) (h1 : -(2 ^ 31) ≤ (m : Int) - s)
    (h2 : (m : Int) - s < 2 ^ 31) : AstraSim.int32 (uint64ToInt m - s) = (m : Int) - s := by
  unfold AstraSim.int32 uint64ToInt
  split_ifs <;> omega

/-- The two maps and the handler log after a `sim_recv` of `m` bytes on a key whose standby
bytes, if any, are not negative and below `2^31`, at every key. -/
theorem sim_recv_maps (st : Ns3State) (rank : Int) (m : Nat) (src_id tag : Int)
    (msg_handler fun_arg : Nat) (hs : st.received_msg_standby_hash.NodupKeys)
    (hbound : ∀ s, st.received_msg_standby_hash.find (tag, (src_id, rank)) = some s →
      0 ≤ s ∧ s < 2 ^ 31)
    (k : MsgEventKey) :
    (st.sim_recv rank m src_id tag msg_handler fun_arg).sim_recv_waiting_hash.find k
      = (if k = (tag, (src_id, rank)) then
          (match st.received_msg_standby_hash.find (tag, (src_id, rank)) with
            | some s =>
              if s < (m : Int) then
                some { src_id := src_id, dst_id := rank, type := 1
                       remaining_msg_bytes := AstraSim.int32 (uint64ToInt m - s)
                       fun_arg := fun_arg, msg_handler := msg_handler }
              else st.sim_recv_waiting_hash.find (tag, (src_id, rank))
            | none =>
              some { src_id := src_id, dst_id := rank, type := 1
                     remaining_msg_bytes :=
                       (match st.sim_recv_waiting_hash.find (tag, (src_id, rank)) with
                         | some e => AstraSim.int32 (uint64ToInt m + e.remaining_msg_bytes)
                         | none => uint64ToInt m)
                     fun_arg := fun_arg, msg_handler := msg_handler })
        else st.sim_recv_waiting_hash.find k) ∧
    (st.sim_recv rank m src_id tag msg_handler fun_arg).received_msg_standby_hash.find k
      = (if k = (tag, (src_id, rank)) then
          (match st.received_msg_standby_hash.find (tag, (src_id, rank)) with
            | some s => if s > (m : Int) then some (s - (m : Int)) else none
            | none => none)
        else st.received_msg_standby_hash.find k) ∧
    (st.sim_recv rank m src_id tag msg_handler fun_arg).calls
      = (match st.received_msg_standby_hash.find (tag, (src_id, rank)) with
          | some s =>
            if s < (m : Int) then st.calls
            else st.calls ++ [{ msg_handler := msg_handler, fun_arg := fun_arg }]
          | none => st.calls) := by
  unfold Ns3State.sim_recv
  dsimp only
  cases hfs : st.received_msg_standby_hash.find (tag, (src_id, rank)) with
  | some s =>
    obtain ⟨hs0, hs31⟩ := hbound s hfs
    obtain ⟨n, rfl⟩ := Int.eq_ofNat_of_zero_le hs0
    have hn : n < 2 ^ 31 := by exact_mod_cast hs31
    have hconv : AstraSim.intToUInt64 (n : Int) = n :=
      AstraSim.intToUInt64_natCast n (by omega)
    dsimp only
    rw [hconv]
    by_cases h1 : n = m
    · have h2 : ¬ ((n : Int) < (m : Int)) := by omega
      have h3 : ¬ ((n : Int) > (m : Int)) := by omega
      simp only [h1, if_true, Ns3State.callHandler, Map.find_erase _ _ _ hs,
        lt_self_iff_false, if_false, gt_iff_lt]
      by_cases hk : k = (tag, (src_id, rank)) <;> simp [hk]
    · by_cases h4 : n > m
      · have h2 : ¬ ((n : Int) < (m : Int)) := by omega
        have h3 : (n : Int) > (m : Int) := by omega
        have hsub : uint64ToInt (uint64Sub n m) = (n : Int) - (m : Int) := by
          rw [uint64Sub_of_le n m (by omega) (by omega), uint64ToInt_of_lt _ (by omega)]
          omega
        simp only [h1, if_false, h4, if_true, Ns3State.callHandler, Map.find_assign, hsub,
          h2, h3]
        by_cases hk : k = (tag, (src_id, rank)) <;> simp [hk]
      · have h2 : (n : Int) < (m : Int) := by omega
        have h3 : ¬ ((n : Int) > (m : Int)) := by omega
        simp only [h1, if_false, h4, Map.find_assign, Map.find_erase _ _ _ hs, h2, h3,
          if_true]
        by_cases hk : k = (tag, (src_id, rank)) <;> simp [hk]
  | none =>
    dsimp only
    cases hfw : st.sim_recv_waiting_hash.find (tag, (src_id, rank)) with
    | none =>
      simp only [Map.find_assign, hfs]
      by_cases hk : k = (tag, (src_id, rank)) <;> simp [hk, hfs, hfw]
    | some e =>
      simp only [Map.find_assign, hfs]
      by_cases hk : k = (tag, (src_id, rank)) <;> simp [hk, hfs, hfw]

end Ns3Frontend

namespace Ns3Frontend

open AstraSimAnalytical

/-- A `sim_recv` of `m > 0` bytes keeps the balance of every key, with `m` more bytes
requested on its own key, when the balance of that key fits `int` before and after the
call. -/
theorem sim_recv_balance (st : Ns3State) (rank : Int) (m : Nat) (src_id tag : Int)
    (msg_handler fun_arg : Nat) (B : MsgEventKey → Int)
    (hs : st.received_msg_standby_hash.NodupKeys)
    (hpos : 0 < m)
    (hlo : -(2 ^ 31) < B (tag, (src_id, rank)) - (m : Int))
    (hhi : B (tag, (src_id, rank)) < 2 ^ 31)
    (hall : ∀ k, st.Balance k (B k)) (k : MsgEventKey) :
    (st.sim_recv rank m src_id tag msg_handler fun_arg).Balance k
      (B k - (if (tag, (src_id, rank)) = k then (m : Int) else 0)) := by
  obtain ⟨a0, b0, c0, d0⟩ := hall (tag, (src_id, rank))
  have hbound : ∀ s, st.received_msg_standby_hash.find (tag, (src_id, rank)) = some s →
      0 ≤ s ∧ s < 2 ^ 31 := by
    intro s hs1
    have hp := c0 s hs1
    rcases a0 with hwn | hsn
    · simp only [Ns3State.standbyBytes, Ns3State.waitingBytes, hs1, hwn, Option.map_none',
        Option.getD_none, Option.getD_some] at d0
      omega
    · rw [hsn] at hs1
      cases hs1
  obtain ⟨m1, m2, _⟩ :=
    sim_recv_maps st rank m src_id tag msg_handler fun_arg hs hbound k
  obtain ⟨a1, b1, c1, d1⟩ := hall k
  unfold Ns3State.Balance Ns3State.standbyBytes Ns3State.waitingBytes
  rw [m1, m2]
  by_cases hk : k = (tag, (src_id, rank))
  · subst hk
    simp only [if_true]
    cases hfs : st.received_msg_standby_hash.find (tag, (src_id, rank)) with
    | some s =>
      have hsp := c1 s hfs
      have hwn : st.sim_recv_waiting_hash.find (tag, (src_id, rank)) = none := by
        rcases a1 with hwn | hsn
        · exact hwn
        · rw [hsn] at hfs
          cases hfs
      simp only [Ns3State.standbyBytes, Ns3State.waitingBytes, hfs, hwn, Option.map_none',
        Option.getD_none, Option.getD_some] at d1
      dsimp only
      by_cases hlt : s < (m : Int)
      · have hgt : ¬ s > (m : Int) := by omega
        have h32 : AstraSim.int32 (uint64ToInt m - s) = (m : Int) - s :=
          int32_uint64ToInt_sub m s (by omega) (by omega)
        simp only [hlt, hgt, if_true, if_false, h32]
        refine ⟨Or.inr trivial, ?_, ?_, ?_⟩
        · intro e he
          simp only [Option.some.injEq] at he
          rw [← he]
          show 0 < (m : Int) - s
          omega
        · intro s1 hs1
          cases hs1
        · simp only [Option.map_some', Option.getD_some, Option.getD_none]
          omega
      · by_cases hgt : s > (m : Int)
        · simp only [hlt, hgt, if_true, if_false, hwn]
          refine ⟨Or.inl trivial, ?_, ?_, ?_⟩
          · intro e he
            cases he
          · intro s1 hs1
            simp only [Option.some.injEq] at hs1
            omega
          · simp only [Option.map_none', Option.getD_some, Option.getD_none]
            omega
        · simp only [hlt, hgt, if_false, hwn]
          refine ⟨Or.inl trivial, ?_, ?_, ?_⟩
          · intro e he
            cases he
          · intro s1 hs1
            cases hs1
          · simp only [Option.map_none', Option.getD_none]
            omega
    | none =>
      simp only [Ns3State.standbyBytes, hfs, Option.getD_none] at d1
      dsimp only
      cases hfw : st.sim_recv_waiting_hash.find (tag, (src_id, rank)) with
      | none =>
        simp only [Ns3State.waitingBytes, hfw, Option.map_none', Option.getD_none] at d1
        have hconvm : uint64ToInt m = (m : Int) := uint64ToInt_of_lt m (by omega)
        dsimp only
        rw [hconvm]
        refine ⟨Or.inr rfl, ?_, ?_, ?_⟩
        · intro e he
          simp only [Option.some.injEq] at he
          rw [← he]
          show 0 < (m : Int)
          omega
        · intro s1 hs1
          cases hs1
        · simp only [Option.map_some', Option.getD_some, Option.getD_none]
          omega
      | some e0 =>
        have hep := b1 e0 hfw
        simp only [Ns3State.waitingBytes, hfw, Option.map_some', Option.getD_some] at d1
        have h32 : AstraSim.int32 (uint64ToInt m + e0.remaining_msg_bytes)
            = (m : Int) + e0.remaining_msg_bytes := by
          have h := int32_uint64ToInt_sub m (-e0.remaining_msg_bytes) (by omega) (by omega)
          rwa [sub_neg_eq_add, sub_neg_eq_add] at h
        dsimp only
        rw [h32]
        refine ⟨Or.inr rfl, ?_, ?_, ?_⟩
        · intro e he
          simp only [Option.some.injEq] at he
          rw [← he]
          show 0 < (m : Int) + e0.remaining_msg_bytes
          omega
        · intro s1 hs1
          cases hs1
        · simp only [Option.map_some', Option.getD_some, Option.getD_none]
          omega
  · have hk2 : ¬ (tag, (src_id, rank)) = k := fun h => hk h.symm
    simp only [hk, hk2, if_false, sub_zero]
    exact ⟨a1, b1, c1, d1⟩

/-- An arrival of `m > 0` bytes keeps the balance of every key, with `m` more bytes arrived
on its own key, when the balance of that key fits `int` before and after the call. -/
theorem notify_balance (st : Ns3State) (src_id dst_id m tag : Int)
    (B : MsgEventKey → Int)
    (hw : st.sim_recv_waiting_hash.NodupKeys) (hpos : 0 < m)
    (hlo : -(2 ^ 31) < B (tag, (src_id, dst_id)))
    (hhi : B (tag, (src_id, dst_id)) + m < 2 ^ 31)
    (hall : ∀ k, st.Balance k (B k)) (k : MsgEventKey) :
    (st.notify_receiver_receive_data src_id dst_id m tag).Balance k
      (B k + (if (tag, (src_id, dst_id)) = k then m else 0)) := by
  obtain ⟨m1, m2, _⟩ := notify_maps st src_id dst_id m tag hw k
  obtain ⟨a1, b1, c1, d1⟩ := hall k
  unfold Ns3State.Balance Ns3State.standbyBytes Ns3State.waitingBytes
  rw [m1, m2]
  by_cases hk : k = (tag, (src_id, dst_id))
  · subst hk
    simp only [if_true]
    cases hfw : st.sim_recv_waiting_hash.find (tag, (src_id, dst_id)) with
    | some e =>
      have hep := b1 e hfw
      have hsn : st.received_msg_standby_hash.find (tag, (src_id, dst_id)) = none := by
        rcases a1 with hwn | hsn
        · rw [hwn] at hfw
          cases hfw
        · exact hsn
      simp only [Ns3State.standbyBytes, Ns3State.waitingBytes, hfw, hsn, Option.map_some',
        Option.getD_none, Option.getD_some] at d1
      dsimp only
      by_cases hlt : m < e.remaining_msg_bytes
      · have hgt : ¬ m > e.remaining_msg_bytes := by omega
        have h32 : AstraSim.int32 (e.remaining_msg_bytes - m) = e.remaining_msg_bytes - m :=
          AstraSim.int32_of_range _ (by omega) (by omega)
        simp only [hlt, hgt, if_true, if_false, hsn, h32]
        refine ⟨Or.inr trivial, ?_, ?_, ?_⟩
        · intro e1 he
          simp only [Option.some.injEq] at he
          rw [← he]
          show 0 < e.remaining_msg_bytes - m
          omega
        · intro s1 hs1
          cases hs1
        · simp only [Option.map_some', Option.getD_some, Option.getD_none]
          omega
      · by_cases hgt : m > e.remaining_msg_bytes
        · have h32 : AstraSim.int32 (m - e.remaining_msg_bytes) = m - e.remaining_msg_bytes :=
            AstraSim.int32_of_range _ (by omega) (by omega)
          simp only [hlt, hgt, if_true, if_false, h32]
          refine ⟨Or.inl trivial, ?_, ?_, ?_⟩
          · intro e1 he
            cases he
          · intro s1 hs1
            simp only [Option.some.injEq] at hs1
            omega
          · simp only [Option.map_none', Option.getD_some, Option.getD_none]
            omega
        · simp only [hlt, hgt, if_false, hsn]
          refine ⟨Or.inl trivial, ?_, ?_, ?_⟩
          · intro e1 he
            cases he
          · intro s1 hs1
            cases hs1
          · simp only [Option.map_none', Option.getD_none]
            omega
    | none =>
      simp only [Ns3State.waitingBytes, Ns3State.standbyBytes, hfw, Option.map_none',
        Option.getD_none] at d1
      dsimp only
      cases hfs : st.received_msg_standby_hash.find (tag, (src_id, dst_id)) with
      | none =>
        simp only [hfs, Option.getD_none] at d1
        dsimp only
        refine ⟨Or.inl rfl, ?_, ?_, ?_⟩
        · intro e1 he
          cases he
        · intro s1 hs1
          simp only [Option.some.injEq] at hs1
          omega
        · simp only [Option.map_none', Option.getD_some, Option.getD_none]
          omega
      | some bytes =>
        have hbp := c1 bytes hfs
        simp only [hfs, Option.getD_some] at d1
        have h32 : AstraSim.int32 (bytes + m) = bytes + m :=
          AstraSim.int32_of_range _ (by omega) (by omega)
        dsimp only
        rw [h32]
        refine ⟨Or.inl rfl, ?_, ?_, ?_⟩
        · intro e1 he
          cases he
        · intro s1 hs1
          simp only [Option.some.injEq] at hs1
          omega
        · simp only [Option.map_none', Option.getD_some, Option.getD_none]
          omega
  · have hk2 : ¬ (tag, (src_id, dst_id)) = k := fun h => hk h.symm
    simp only [hk, hk2, if_false, add_zero]
    exact ⟨a1, b1, c1, d1⟩

/-- The balance of a key after one more call. -/
theorem balanceOn_append (k : MsgEventKey) (l : List RecvOp) (a : RecvOp) :
    balanceOn k (l ++ [a]) = balanceOn k l + (RecvOp.arrived k a - RecvOp.requested k a) := by
  simp only [balanceOn, arrivedOn, requestedOn, List.map_append, List.sum_append,
    List.map_cons, List.map_nil, List.sum_cons, List.sum_nil, add_zero]
  omega

/-- After every prefix of a sequence of calls whose sizes are positive and whose byte
counts fit `int`, started from the empty maps, both maps have pairwise different keys and
every key has its balance. -/
theorem run_balance (ops : List RecvOp) (hpos : PositiveSizes ops = true)
    (hfit : CountsFitInt ops = true) (p : List RecvOp) :
    p <+: ops →
      (Ns3State.init.run p).sim_recv_waiting_hash.NodupKeys ∧
      (Ns3State.init.run p).received_msg_standby_hash.NodupKeys ∧
      ∀ k, (Ns3State.init.run p).Balance k (balanceOn k p) := by
  have hposall : ∀ op ∈ ops, 0 < op.size := by
    simpa [PositiveSizes] using hpos
  have hcnt : ∀ q, q <+: ops → ∀ op ∈ ops,
      -(2 ^ 31) < balanceOn op.key q ∧ balanceOn op.key q < 2 ^ 31 := by
    simpa [CountsFitInt, List.mem_inits] using hfit
  induction p using List.reverseRecOn with
  | nil =>
    intro _
    refine ⟨by unfold Map.NodupKeys; decide, by unfold Map.NodupKeys; decide, ?_⟩
    intro k
    refine ⟨Or.inl rfl, ?_, ?_, rfl⟩
    · intro e he
      cases he
    · intro s hs
      cases hs
  | append_singleton l a ih =>
    intro hpre
    have hl : l <+: ops := (List.prefix_append l [a]).trans hpre
    have ha : a ∈ ops := hpre.subset (by simp)
    obtain ⟨hw, hs, hall⟩ := ih hl
    have hrun : Ns3State.init.run (l ++ [a]) = (Ns3State.init.run l).step a := by
      simp [Ns3State.run, List.foldl_append]
    have hb0 := hcnt l hl a ha
    have hb1 := hcnt (l ++ [a]) hpre a ha
    rw [balanceOn_append] at hb1
    have hpa := hposall a ha
    rw [hrun]
    cases a with
    | sim_recv rank m src_id tag msg_handler fun_arg =>
      simp only [RecvOp.size] at hpa
      simp only [RecvOp.key, RecvOp.arrived, RecvOp.requested, RecvOp.size, if_true,
        zero_sub] at hb0 hb1
      have hnd := sim_recv_nodup (Ns3State.init.run l) rank m src_id tag msg_handler fun_arg
        hw hs
      refine ⟨hnd.1, hnd.2, ?_⟩
      intro k
      have hlo : -(2 ^ 31) < balanceOn (tag, (src_id, rank)) l - (m : Int) := by omega
      have hstep := sim_recv_balance (Ns3State.init.run l) rank m src_id tag msg_handler
        fun_arg (fun k => balanceOn k l) hs (by omega) hlo hb0.2 hall k
      rw [balanceOn_append]
      simp only [Ns3State.step, RecvOp.key, RecvOp.arrived, RecvOp.requested, RecvOp.size,
        zero_sub]
      have hsub : ∀ (x y : Int), x + -y = x - y := fun x y => by omega
      by_cases hk : (tag, (src_id, rank)) = k
      · simp only [hk, if_true] at hstep ⊢
        rw [hsub]
        exact hstep
      · simp only [hk, if_false, sub_zero] at hstep ⊢
        simpa using hstep
    | notify_receiver_receive_data src_id dst_id m tag =>
      simp only [RecvOp.size] at hpa
      simp only [RecvOp.key, RecvOp.arrived, RecvOp.requested, RecvOp.size, if_true,
        sub_zero] at hb0 hb1
      have hnd := notify_nodup (Ns3State.init.run l) src_id dst_id m tag hw hs
      refine ⟨hnd.1, hnd.2, ?_⟩
      intro k
      have hstep := notify_balance (Ns3State.init.run l) src_id dst_id m tag
        (fun k => balanceOn k l) hw hpa hb0.1 hb1.2 hall k
      rw [balanceOn_append]
      simp only [Ns3State.step, RecvOp.key, RecvOp.arrived, RecvOp.requested, RecvOp.size,
        sub_zero]
      exact hstep

/-- Counterexample to C31.  Two arrivals of 2147483647 B on the key (7, 0, 1), with no
`sim_recv`: both sizes are positive, but the standby count of the key is an `int`, it
overflows and holds -2, which is not strictly positive and is not the 4294967294 bytes
that arrived.  And `sim_recv` of 4 GiB (4294967296 B) on the empty maps: the size is
positive, but the recv is registered as waiting for 0 bytes. -/
theorem recv_byte_balance_counterexample :
    PositiveSizes [RecvOp.notify_receiver_receive_data 0 1 2147483647 7,
      RecvOp.notify_receiver_receive_data 0 1 2147483647 7] = true ∧
    (Ns3State.init.run [RecvOp.notify_receiver_receive_data 0 1 2147483647 7,
      RecvOp.notify_receiver_receive_data 0 1 2147483647 7]).received_msg_standby_hash.find
        (7, (0, 1)) = some (-2) ∧
    arrivedOn (7, (0, 1)) [RecvOp.notify_receiver_receive_data 0 1 2147483647 7,
        RecvOp.notify_receiver_receive_data 0 1 2147483647 7]
        - requestedOn (7, (0, 1)) [RecvOp.notify_receiver_receive_data 0 1 2147483647 7,
          RecvOp.notify_receiver_receive_data 0 1 2147483647 7]
      ≠ (Ns3State.init.run [RecvOp.notify_receiver_receive_data 0 1 2147483647 7,
          RecvOp.notify_receiver_receive_data 0 1 2147483647 7]).standbyBytes (7, (0, 1))
        - (Ns3State.init.run [RecvOp.notify_receiver_receive_data 0 1 2147483647 7,
          RecvOp.notify_receiver_receive_data 0 1 2147483647 7]).waitingBytes (7, (0, 1)) ∧
    PositiveSizes [RecvOp.sim_recv 1 4294967296 0 7 3 4] = true ∧
    (((Ns3State.init.run [RecvOp.sim_recv 1 4294967296 0 7 3 4]).sim_recv_waiting_hash.find
        (7, (0, 1))).map MsgEvent.remaining_msg_bytes) = some 0 ∧
    arrivedOn (7, (0, 1)) [RecvOp.sim_recv 1 4294967296 0 7 3 4]
        - requestedOn (7, (0, 1)) [RecvOp.sim_recv 1 4294967296 0 7 3 4]
      ≠ (Ns3State.init.run [RecvOp.sim_recv 1 4294967296 0 7 3 4]).standbyBytes (7, (0, 1))
        - (Ns3State.init.run [RecvOp.sim_recv 1 4294967296 0 7 3 4]).waitingBytes
            (7, (0, 1)) := by
  decide

/-- C31 (amended): in the ns3 frontend, after every sequence of `sim_recv` calls and
arrivals (`notify_receiver_receive_data`) from the empty maps whose sizes are all positive
and in which, after every call, the bytes arrived on a key and the bytes requested on it
differ by less than 2^31 (the count that the frontend has to store for the key fits
`int`), for every key: the key is not in both `sim_recv_waiting_hash` and
`received_msg_standby_hash`, the stored remaining bytes and standby bytes are strictly
positive, and the bytes arrived on the key minus the bytes requested on it are its standby
bytes minus its remaining bytes, an absent entry counting as 0. -/
theorem recv_byte_balance (ops : List RecvOp) (hpos : PositiveSizes ops = true)
    (hfit : CountsFitInt ops = true) (k : MsgEventKey) :
    ((Ns3State.init.run ops).sim_recv_waiting_hash.find k = none ∨
      (Ns3State.init.run ops).received_msg_standby_hash.find k = none) ∧
    (∀ e, (Ns3State.init.run ops).sim_recv_waiting_hash.find k = some e →
      0 < e.remaining_msg_bytes) ∧
    (∀ s, (Ns3State.init.run ops).received_msg_standby_hash.find k = some s → 0 < s) ∧
    arrivedOn k ops - requestedOn k ops
      = (Ns3State.init.run ops).standbyBytes k - (Ns3State.init.run ops).waitingBytes k :=
  ((run_balance ops hpos hfit ops (List.prefix_refl ops)).2.2 k)

/-- Witness of C31 (amended): two rounds of 1 GiB (1073741824 B) on the key (7, 0, 1), each an
arrival followed by the `sim_recv` that takes it, fit `int` on the key (the count is 1 GiB
or 0 throughout) and leave it with no standby bytes and no waiting recv. -/
theorem recv_byte_balance_witness :
    CountsFitInt [RecvOp.notify_receiver_receive_data 0 1 1073741824 7,
      RecvOp.sim_recv 1 1073741824 0 7 3 4,
      RecvOp.notify_receiver_receive_data 0 1 1073741824 7,
      RecvOp.sim_recv 1 1073741824 0 7 5 6] = true ∧
    arrivedOn (7, (0, 1)) [RecvOp.notify_receiver_receive_data 0 1 1073741824 7,
        RecvOp.sim_recv 1 1073741824 0 7 3 4,
        RecvOp.notify_receiver_receive_data 0 1 1073741824 7,
        RecvOp.sim_recv 1 1073741824 0 7 5 6]
      - requestedOn (7, (0, 1)) [RecvOp.notify_receiver_receive_data 0 1 1073741824 7,
        RecvOp.sim_recv 1 1073741824 0 7 3 4,
        RecvOp.notify_receiver_receive_data 0 1 1073741824 7,
        RecvOp.sim_recv 1 1073741824 0 7 5 6]
      = (Ns3State.init.run [RecvOp.notify_receiver_receive_data 0 1 1073741824 7,
          RecvOp.sim_recv 1 1073741824 0 7 3 4,
          RecvOp.notify_receiver_receive_data 0 1 1073741824 7,
          RecvOp.sim_recv 1 1073741824 0 7 5 6]).standbyBytes (7, (0, 1))
        - (Ns3State.init.run [RecvOp.notify_receiver_receive_data 0 1 1073741824 7,
          RecvOp.sim_recv 1 1073741824 0 7 3 4,
          RecvOp.notify_receiver_receive_data 0 1 1073741824 7,
          RecvOp.sim_recv 1 1073741824 0 7 5 6]).waitingBytes (7, (0, 1)) :=
  ⟨by decide,
    (recv_byte_balance [RecvOp.notify_receiver_receive_data 0 1 1073741824 7,
      RecvOp.sim_recv 1 1073741824 0 7 3 4,
      RecvOp.notify_receiver_receive_data 0 1 1073741824 7,
      RecvOp.sim_recv 1 1073741824 0 7 5 6] (by decide) (by decide) (7, (0, 1))).2.2.2⟩

end Ns3Frontend

namespace Ns3Frontend

open AstraSimAnalytical

/-- C32: in the ns3 frontend two `sim_recv` calls of `m1` and `m2` bytes on a key that has
no waiting recv and no standby bytes, followed by the arrival of all `m1 + m2` bytes, invoke
the handler of the second call only: the second call stores its own event over the waiting
one, so when the arrived bytes cover all requested bytes and both maps are empty on the key
again, the handler of the first call has not been invoked.  When the same bytes arrive
before the two calls, each handler is invoked once, in order. -/
theorem outstanding_recv_handlers (st : Ns3State) (rank src_id tag : Int) (m1 m2 : Nat)
    (h1 a1 h2 a2 : Nat)
    (hw : st.sim_recv_waiting_hash.NodupKeys) (hs : st.received_msg_standby_hash.NodupKeys)
    (hfw : st.sim_recv_waiting_hash.find (tag, (src_id, rank)) = none)
    (hfs : st.received_msg_standby_hash.find (tag, (src_id, rank)) = none)
    (hm1 : 0 < m1) (hm2 : 0 < m2) (hsum : m1 + m2 < 2 ^ 31) :
    (((st.sim_recv rank m1 src_id tag h1 a1).sim_recv rank m2 src_id tag h2 a2
        ).notify_receiver_receive_data src_id rank ((m1 : Int) + (m2 : Int)) tag).calls
      = st.calls ++ [{ msg_handler := h2, fun_arg := a2 }] ∧
    (((st.sim_recv rank m1 src_id tag h1 a1).sim_recv rank m2 src_id tag h2 a2
        ).notify_receiver_receive_data src_id rank ((m1 : Int) + (m2 : Int)) tag
        ).sim_recv_waiting_hash.find (tag, (src_id, rank)) = none ∧
    (((st.sim_recv rank m1 src_id tag h1 a1).sim_recv rank m2 src_id tag h2 a2
        ).notify_receiver_receive_data src_id rank ((m1 : Int) + (m2 : Int)) tag
        ).received_msg_standby_hash.find (tag, (src_id, rank)) = none ∧
    (((st.notify_receiver_receive_data src_id rank ((m1 : Int) + (m2 : Int)) tag
        ).sim_recv rank m1 src_id tag h1 a1).sim_recv rank m2 src_id tag h2 a2).calls
      = st.calls ++ [{ msg_handler := h1, fun_arg := a1 }, { msg_handler := h2, fun_arg := a2 }] ∧
    (((st.notify_receiver_receive_data src_id rank ((m1 : Int) + (m2 : Int)) tag
        ).sim_recv rank m1 src_id tag h1 a1).sim_recv rank m2 src_id tag h2 a2
        ).sim_recv_waiting_hash.find (tag, (src_id, rank)) = none ∧
    (((st.notify_receiver_receive_data src_id rank ((m1 : Int) + (m2 : Int)) tag
        ).sim_recv rank m1 src_id tag h1 a1).sim_recv rank m2 src_id tag h2 a2
        ).received_msg_standby_hash.find (tag, (src_id, rank)) = none := by
  have hm1b : m1 < 2 ^ 31 := by omega
  have hm2b : m2 < 2 ^ 31 := by omega
  have c1 : uint64ToInt m1 = (m1 : Int) := uint64ToInt_of_lt m1 hm1b
  have c2 : uint64ToInt m2 = (m2 : Int) := uint64ToInt_of_lt m2 hm2b
  have w2 : AstraSim.int32 ((m2 : Int) + (m1 : Int)) = (m2 : Int) + (m1 : Int) :=
    AstraSim.int32_of_range _ (by omega) (by omega)
  -- the two calls first
  obtain ⟨r1w, r1s, r1c⟩ := sim_recv_maps st rank m1 src_id tag h1 a1 hs
    (by intro s h; rw [hfs] at h; cases h) (tag, (src_id, rank))
  have r1n := sim_recv_nodup st rank m1 src_id tag h1 a1 hw hs
  simp only [if_true, hfs, hfw, c1] at r1w r1s r1c
  obtain ⟨r2w, r2s, r2c⟩ := sim_recv_maps (st.sim_recv rank m1 src_id tag h1 a1) rank m2
    src_id tag h2 a2 r1n.2 (by intro s h; rw [r1s] at h; cases h) (tag, (src_id, rank))
  have r2n := sim_recv_nodup (st.sim_recv rank m1 src_id tag h1 a1) rank m2 src_id tag h2 a2
    r1n.1 r1n.2
  simp only [if_true, r1s, r1w, r1c, c2, w2] at r2w r2s r2c
  obtain ⟨r3w, r3s, r3c⟩ := notify_maps
    ((st.sim_recv rank m1 src_id tag h1 a1).sim_recv rank m2 src_id tag h2 a2) src_id rank
    ((m1 : Int) + (m2 : Int)) tag r2n.1 (tag, (src_id, rank))
  have e1 : ¬ ((m1 : Int) + (m2 : Int) < (m2 : Int) + (m1 : Int)) := by omega
  have e2 : ¬ ((m1 : Int) + (m2 : Int) > (m2 : Int) + (m1 : Int)) := by omega
  simp only [if_true, r2w, r2s, r2c, e1, e2, if_false] at r3w r3s r3c
  -- the arrival first
  obtain ⟨d1w, d1s, d1c⟩ := notify_maps st src_id rank ((m1 : Int) + (m2 : Int)) tag hw
    (tag, (src_id, rank))
  have d1n := notify_nodup st src_id rank ((m1 : Int) + (m2 : Int)) tag hw hs
  simp only [if_true, hfw, hfs] at d1w d1s d1c
  obtain ⟨d2w, d2s, d2c⟩ := sim_recv_maps
    (st.notify_receiver_receive_data src_id rank ((m1 : Int) + (m2 : Int)) tag) rank m1
    src_id tag h1 a1 d1n.2
    (by intro s h; rw [d1s] at h; simp only [Option.some.injEq] at h; omega)
    (tag, (src_id, rank))
  have d2n := sim_recv_nodup
    (st.notify_receiver_receive_data src_id rank ((m1 : Int) + (m2 : Int)) tag) rank m1
    src_id tag h1 a1 d1n.1 d1n.2
  have e3 : ¬ ((m1 : Int) + (m2 : Int) < (m1 : Int)) := by omega
  have e4 : (m1 : Int) + (m2 : Int) > (m1 : Int) := by omega
  have e5 : (m1 : Int) + (m2 : Int) - (m1 : Int) = (m2 : Int) := by omega
  simp only [if_true, d1w, d1s, d1c, e3, e4, e5, if_false] at d2w d2s d2c
  obtain ⟨d3w, d3s, d3c⟩ := sim_recv_maps
    ((st.notify_receiver_receive_data src_id rank ((m1 : Int) + (m2 : Int)) tag).sim_recv
      rank m1 src_id tag h1 a1) rank m2 src_id tag h2 a2 d2n.2
    (by intro s h; rw [d2s] at h; simp only [Option.some.injEq] at h; omega)
    (tag, (src_id, rank))
  simp only [if_true, d2w, d2s, d2c, lt_self_iff_false, gt_iff_lt, if_false,
    List.append_assoc, List.singleton_append] at d3w d3s d3c
  exact ⟨r3c, r3w, r3s, d3c, d3w, d3s⟩

/-- Witness of C32 on the empty maps: rank 1 posts a recv of 64 B with handler 3 and one of
36 B with handler 5 on the key (7, 0, 1), then 100 B arrive. -/
theorem outstanding_recv_handlers_witness :
    (((Ns3State.init.sim_recv 1 64 0 7 3 4).sim_recv 1 36 0 7 5 6
        ).notify_receiver_receive_data 0 1 100 7).calls
      = [{ msg_handler := 5, fun_arg := 6 }] ∧
    (((Ns3State.init.notify_receiver_receive_data 0 1 100 7
        ).sim_recv 1 64 0 7 3 4).sim_recv 1 36 0 7 5 6).calls
      = [{ msg_handler := 3, fun_arg := 4 }, { msg_handler := 5, fun_arg := 6 }] := by
  have h := outstanding_recv_handlers Ns3State.init 1 0 7 64 36 3 4 5 6
    (by unfold Map.NodupKeys; decide) (by unfold Map.NodupKeys; decide) (by decide)
    (by decide) (by decide) (by decide) (by decide)
  exact ⟨h.1, h.2.2.2.1⟩

end Ns3Frontend
namespace AstraSim

/-! ## `Ring`: Zombie and the exit -/

namespace Ring

/-- The bundle launch of `process_max_count` is not the exit. -/
theorem process_max_count_no_exit (r : Ring) :
    RingEffect.proceed_to_next_vnet_baseline ∉ (process_max_count r).2 := by
  unfold process_max_count release_packets
  dsimp only
  split_ifs <;> simp

theorem insert_packet_no_exit (r r1 : Ring) (es : List RingEffect)
    (h : insert_packet r = some (r1, es)) :
    RingEffect.proceed_to_next_vnet_baseline ∉ es := by
  unfold insert_packet at h
  dsimp only at h
  split_ifs at h
  · simp only [Option.some.injEq, Prod.mk.injEq] at h
    rw [← h.2]
    exact process_max_count_no_exit _
  · simp only [Option.some.injEq, Prod.mk.injEq] at h
    rw [← h.2]
    exact process_max_count_no_exit _

theorem insert_packets_no_exit :
    ∀ (k : Nat) (r r1 : Ring) (es : List RingEffect),
      insert_packets k r = some (r1, es) →
      RingEffect.proceed_to_next_vnet_baseline ∉ es := by
  intro k
  induction k with
  | zero =>
    intro r r1 es h
    simp only [insert_packets, Option.some.injEq, Prod.mk.injEq] at h
    rw [← h.2]
    simp
  | succ k ih =>
    intro r r1 es h
    unfold insert_packets at h
    cases h1 : insert_packet r with
    | none => simp [h1] at h
    | some p1 =>
      obtain ⟨r2, es2⟩ := p1
      simp only [h1] at h
      cases h2 : insert_packets k r2 with
      | none => simp [h2] at h
      | some p2 =>
        obtain ⟨r3, es3⟩ := p2
        simp only [h2, Option.some.injEq, Prod.mk.injEq] at h
        rw [← h.2]
        intro hmem
        rcases List.mem_append.mp hmem with hm | hm
        · exact insert_packet_no_exit r r2 es2 h1 hm
        · exact ih r2 r3 es3 h2 hm

/-- The send and the recv of `ready` are not the exit. -/
theorem ready_no_exit (r : Ring) :
    RingEffect.proceed_to_next_vnet_baseline ∉ (ready r).2.2 := by
  unfold ready
  split
  · simp
  · split_ifs <;> simp

/-- The calls of `iteratable`: the exit, exactly when `stream_count` is 0 and
`free_packets` is `parallel_reduce`. -/
theorem iteratable_effects (r : Ring) :
    (iteratable r).2.2
      = (if r.stream_count = 0 ∧ r.free_packets = r.parallel_reduce then
          [RingEffect.proceed_to_next_vnet_baseline] else []) ∧
    (iteratable r).1 = !decide (r.stream_count = 0 ∧ r.free_packets = r.parallel_reduce) := by
  unfold iteratable exit
  rw [Int.mul_one]
  split_ifs with h <;> simp [h]

/-- What `process_stream_count` does to the stream state when at most one packet of the
message is left. -/
theorem process_stream_count_zombie (r : Ring)
    (hrem : 0 ≤ r.remained_packets_per_message ∧ r.remained_packets_per_message ≤ 1) :
    (process_stream_count r).stream_state
      = (if (process_stream_count r).stream_count = 0 ∧ r.stream_state ≠ StreamState.Dead
          then StreamState.Zombie else r.stream_state) ∧
    0 ≤ (process_stream_count r).remained_packets_per_message ∧
    (process_stream_count r).remained_packets_per_message ≤ 1 := by
  have h01 : r.remained_packets_per_message = 0 ∨ r.remained_packets_per_message = 1 := by
    omega
  unfold process_stream_count
  by_cases hsc : r.stream_count > 0
  · by_cases hsc1 : r.stream_count - 1 > 0
    · have hne : ¬ (r.stream_count - 1 = 0) := by omega
      rcases h01 with h0 | h1
      · simp [h0, hsc, hsc1, hne]
      · simp [h1, hsc, hsc1, hne]
    · have he : r.stream_count - 1 = 0 := by omega
      rcases h01 with h0 | h1 <;>
        by_cases hd : r.stream_state = StreamState.Dead
      · simp [h0, hsc, he, hd]
      · simp [h0, hsc, he, hd]
      · simp [h1, hsc, he, hd]
      · simp [h1, hsc, he, hd]
  · rcases h01 with h0 | h1 <;>
      by_cases hd : r.stream_state = StreamState.Dead <;>
      by_cases hz : r.stream_count = 0
    · simp [h0, hd, hz]
    · simp [h0, hsc, hd, hz]
    · simp [h0, hd, hz]
    · simp [h0, hsc, hd, hz]
    · simp [h1, hd, hz]
    · simp [h1, hsc, hd, hz]
    · simp [h1, hd, hz]
    · simp [h1, hsc, hd, hz]

/-- The functions of `ready` and `insert_packet` other than `process_stream_count` do not
write `remained_packets_per_message`. -/
theorem remained_per_message_frame (r : Ring) :
    (start_executing r).remained_packets_per_message = r.remained_packets_per_message ∧
    (iteratable r).2.1.remained_packets_per_message = r.remained_packets_per_message ∧
    (start_pass r).remained_packets_per_message = r.remained_packets_per_message ∧
    (process_max_count r).1.remained_packets_per_message = r.remained_packets_per_message := by
  refine ⟨?_, ?_, ?_, ?_⟩
  · unfold start_executing
    split <;> rfl
  · unfold iteratable exit
    split <;> rfl
  · unfold start_pass
    split <;> rfl
  · unfold process_max_count release_packets
    dsimp only
    split_ifs <;> rfl

theorem ready_remained (r : Ring)
    (hrem : 0 ≤ r.remained_packets_per_message ∧ r.remained_packets_per_message ≤ 1) :
    0 ≤ (ready r).2.1.remained_packets_per_message ∧
    (ready r).2.1.remained_packets_per_message ≤ 1 := by
  have hs : 0 ≤ (start_executing r).remained_packets_per_message ∧
      (start_executing r).remained_packets_per_message ≤ 1 := by
    rw [(remained_per_message_frame r).1]
    exact hrem
  unfold ready
  split
  · exact hs
  · split
    · exact hs
    · exact (process_stream_count_zombie (start_executing r) hs).2

theorem insert_packet_remained (r r1 : Ring) (es : List RingEffect)
    (h : insert_packet r = some (r1, es)) :
    r1.remained_packets_per_message = r.remained_packets_per_message := by
  have hs := (remained_per_message_frame r).2.2.1
  unfold insert_packet at h
  dsimp only at h
  generalize start_pass r = r2 at h hs
  split_ifs at h
  · simp only [Option.some.injEq, Prod.mk.injEq] at h
    rw [← h.1]
    exact ((remained_per_message_frame _).2.2.2).trans hs
  · simp only [Option.some.injEq, Prod.mk.injEq] at h
    rw [← h.1]
    exact ((remained_per_message_frame _).2.2.2).trans hs

theorem insert_packets_remained :
    ∀ (k : Nat) (r r1 : Ring) (es : List RingEffect),
      insert_packets k r = some (r1, es) →
      r1.remained_packets_per_message = r.remained_packets_per_message := by
  intro k
  induction k with
  | zero =>
    intro r r1 es h
    simp only [insert_packets, Option.some.injEq, Prod.mk.injEq] at h
    rw [← h.1]
  | succ k ih =>
    intro r r1 es h
    unfold insert_packets at h
    cases h1 : insert_packet r with
    | none => simp [h1] at h
    | some p1 =>
      obtain ⟨r2, es2⟩ := p1
      simp only [h1] at h
      cases h2 : insert_packets k r2 with
      | none => simp [h2] at h
      | some p2 =>
        obtain ⟨r3, es3⟩ := p2
        simp only [h2, Option.some.injEq, Prod.mk.injEq] at h
        rw [← h.1]
        exact (ih r2 r3 es3 h2).trans (insert_packet_remained r r2 es2 h1)

theorem run_remained (r r1 : Ring) (es : List RingEffect) (event : EventType)
    (hrem : 0 ≤ r.remained_packets_per_message ∧ r.remained_packets_per_message ≤ 1)
    (h : run r event = some (r1, es)) :
    0 ≤ r1.remained_packets_per_message ∧ r1.remained_packets_per_message ≤ 1 := by
  unfold run at h
  split at h
  · simp only [Option.some.injEq, Prod.mk.injEq] at h
    rw [← h.1, (remained_per_message_frame _).2.1]
    exact ready_remained { r with free_packets := r.free_packets + 1 } hrem
  · split at h
    · rw [insert_packet_remained _ r1 es h]
      exact hrem
    · split at h
      · rw [insert_packets_remained _ r r1 es h]
        exact hrem
      · simp only [Option.some.injEq, Prod.mk.injEq] at h
        rw [← h.1]
        exact hrem

theorem runs_remained :
    ∀ (events : List EventType) (r r1 : Ring) (es : List RingEffect),
      (0 ≤ r.remained_packets_per_message ∧ r.remained_packets_per_message ≤ 1) →
      runs r events = some (r1, es) →
      0 ≤ r1.remained_packets_per_message ∧ r1.remained_packets_per_message ≤ 1 := by
  intro events
  induction events with
  | nil =>
    intro r r1 es hrem h
    simp only [runs, Option.some.injEq, Prod.mk.injEq] at h
    rw [← h.1]
    exact hrem
  | cons event rest ih =>
    intro r r1 es hrem h
    unfold runs at h
    cases h1 : run r event with
    | none => simp [h1] at h
    | some p1 =>
      obtain ⟨r2, es2⟩ := p1
      simp only [h1] at h
      cases h2 : runs r2 rest with
      | none => simp [h2] at h
      | some p2 =>
        obtain ⟨r3, es3⟩ := p2
        simp only [h2, Option.some.injEq, Prod.mk.injEq] at h
        rw [← h.1]
        exact ih r2 r3 es3 (run_remained r r2 es2 event hrem h1) h2

/-- The exit among the calls of one `run`. -/
theorem run_exit_iff (r r1 : Ring) (es : List RingEffect) (event : EventType)
    (h : run r event = some (r1, es)) :
    RingEffect.proceed_to_next_vnet_baseline ∈ es ↔
      event = EventType.General ∧
      (ready { r with free_packets := r.free_packets + 1 }).2.1.stream_count = 0 ∧
      (ready { r with free_packets := r.free_packets + 1 }).2.1.free_packets
        = (ready { r with free_packets := r.free_packets + 1 }).2.1.parallel_reduce := by
  unfold run at h
  split at h
  · rename_i he
    simp only [Option.some.injEq, Prod.mk.injEq] at h
    rw [← h.2, List.mem_append, (iteratable_effects _).1]
    constructor
    · intro hm
      rcases hm with hm | hm
      · exact absurd hm (ready_no_exit _)
      · split_ifs at hm with hc
        · exact ⟨he, hc⟩
        · cases hm
    · intro ⟨_, hc⟩
      right
      rw [if_pos hc]
      simp
  · rename_i he
    split at h
    · constructor
      · intro hm
        exact absurd hm (insert_packet_no_exit _ r1 es h)
      · intro ⟨hg, _⟩
        exact absurd hg he
    · split at h
      · constructor
        · intro hm
          exact absurd hm (insert_packets_no_exit _ r r1 es h)
        · intro ⟨hg, _⟩
          exact absurd hg he
      · simp only [Option.some.injEq, Prod.mk.injEq] at h
        rw [← h.2]
        constructor
        · intro hm
          cases hm
        · intro ⟨hg, _⟩
          exact absurd hg he

end Ring

/-- C33: `Ring::process_stream_count` on a ring with at most one packet of the current
message left (`remained_packets_per_message` is 0 or 1, which the constructor establishes
and every `run` keeps) moves the stream to Zombie exactly when `stream_count` is 0 after
the call and the stream is not Dead; otherwise the state stays.  `iteratable` calls `exit`
exactly when `stream_count == 0` and `free_packets == parallel_reduce`, and among the
calls of a `run` the exit (`proceed_to_next_vnet_baseline`) occurs exactly when the event
is General and `iteratable` finds that condition after `ready`. -/
theorem zombie_and_exit (r : Ring)
    (hrem : 0 ≤ r.remained_packets_per_message ∧ r.remained_packets_per_message ≤ 1) :
    (Ring.process_stream_count r).stream_state
      = (if (Ring.process_stream_count r).stream_count = 0 ∧
            r.stream_state ≠ StreamState.Dead
          then StreamState.Zombie else r.stream_state) ∧
    (Ring.iteratable r).2.2
      = (if r.stream_count = 0 ∧ r.free_packets = r.parallel_reduce then
          [RingEffect.proceed_to_next_vnet_baseline] else []) ∧
    (Ring.iteratable r).1
      = !decide (r.stream_count = 0 ∧ r.free_packets = r.parallel_reduce) ∧
    (∀ event r1 es, Ring.run r event = some (r1, es) →
      (RingEffect.proceed_to_next_vnet_baseline ∈ es ↔
        event = EventType.General ∧
        (Ring.ready { r with free_packets := r.free_packets + 1 }).2.1.stream_count = 0 ∧
        (Ring.ready { r with free_packets := r.free_packets + 1 }).2.1.free_packets
          = (Ring.ready { r with free_packets := r.free_packets + 1 }).2.1.parallel_reduce)) ∧
    (∀ events r1 es, Ring.runs r events = some (r1, es) →
      0 ≤ r1.remained_packets_per_message ∧ r1.remained_packets_per_message ≤ 1) ∧
    (∀ (storage : Ring) (type : ComType) (id : Int) (topo : RingTopology) (S : Nat)
        (direction : Direction) (policy : InjectionPolicy),
      (Ring.ctor storage type id topo S direction policy).remained_packets_per_message = 1) :=
  ⟨(Ring.process_stream_count_zombie r hrem).1, (Ring.iteratable_effects r).1,
    (Ring.iteratable_effects r).2,
    fun event r1 es h => Ring.run_exit_iff r r1 es event h,
    fun events r1 es h => Ring.runs_remained events r r1 es hrem h,
    fun storage type id topo S direction policy =>
      (Ring.ctor_counters storage type id topo S direction policy).2.1⟩

/-- Witness of C33: rank 0 of an All_Reduce ring of 2 ranks after StreamInit, General and
PacketReceived has `stream_count = 1` and one pending packet; the next General event
issues the last chunk, `process_stream_count` brings `stream_count` to 0 and the stream
becomes Zombie. -/
theorem zombie_and_exit_witness :
    (Ring.process_stream_count
      ((Ring.ctor Ring.sampleStorage ComType.All_Reduce 0
          (RingTopology.ofSize 2 Dimension.Local) 1024 Direction.Clockwise
          InjectionPolicy.Normal).runsD
        [EventType.StreamInit, EventType.General, EventType.PacketReceived])).stream_state
      = StreamState.Zombie :=
  (zombie_and_exit
    ((Ring.ctor Ring.sampleStorage ComType.All_Reduce 0
        (RingTopology.ofSize 2 Dimension.Local) 1024 Direction.Clockwise
        InjectionPolicy.Normal).runsD
      [EventType.StreamInit, EventType.General, EventType.PacketReceived])
    (by decide)).1.trans (by decide)

end AstraSim
namespace AstraSim

/-! ## Double binary tree: leaf, root and the requests of the sends -/

/-- C34: a Double-Binary-Tree Leaf rank in state Begin, for every four events delivered to
`run`: the first call launches one bundle to the MA and goes to SendingDataToParent, the
second issues one send to and one recv from the parent, both of `data_size` bytes and
tagged with the stream id, and goes to WaitingDataFromParent, the third launches one
bundle to the NPU and goes to End, and the fourth exits; nothing else is issued. -/
theorem leaf_schedule (t : DoubleBinaryTreeAllReduce) (e1 e2 e3 e4 : EventType)
    (hstate : t.state = TreeState.Begin) (htype : t.type = BinaryTreeType.Leaf) :
    (t.trace [e1, e2, e3, e4]).2
      = [[TreeEffect.send_to_MA false false t.data_size Transmition.Usual],
         [TreeEffect.front_end_sim_send t.data_size t.parent t.stream_id
            (intToUInt32 t.owner_id) (intToUInt32 t.parent) (intToUInt32 t.stream_id)
            (intToUInt32 t.current_queue_id),
          TreeEffect.front_end_sim_recv t.data_size t.parent t.stream_id
            (intToUInt32 t.current_queue_id)],
         [TreeEffect.send_to_NPU false false t.data_size Transmition.Usual],
         [TreeEffect.proceed_to_next_vnet_baseline]] ∧
    (t.trace [e1]).1.state = TreeState.SendingDataToParent ∧
    (t.trace [e1, e2]).1.state = TreeState.WaitingDataFromParent ∧
    (t.trace [e1, e2, e3]).1.state = TreeState.End ∧
    (t.trace [e1, e2, e3, e4]).1.state = TreeState.End := by
  refine ⟨?_, ?_, ?_, ?_, ?_⟩ <;>
    simp [DoubleBinaryTreeAllReduce.trace, DoubleBinaryTreeAllReduce.run, hstate, htype,
      DoubleBinaryTreeAllReduce.send_effect, DoubleBinaryTreeAllReduce.recv_effect]

/-- Witness of C34: the leaf rank 1 with parent 3 on stream 5, 1024 bytes. -/
theorem leaf_schedule_witness :
    ((DoubleBinaryTreeAllReduce.sample BinaryTreeType.Leaf).trace
        [EventType.StreamInit, EventType.General, EventType.PacketReceived,
          EventType.General]).2
      = [[TreeEffect.send_to_MA false false 1024 Transmition.Usual],
         [TreeEffect.front_end_sim_send 1024 3 5 1 3 5 0,
          TreeEffect.front_end_sim_recv 1024 3 5 0],
         [TreeEffect.send_to_NPU false false 1024 Transmition.Usual],
         [TreeEffect.proceed_to_next_vnet_baseline]] :=
  (leaf_schedule (DoubleBinaryTreeAllReduce.sample BinaryTreeType.Leaf) EventType.StreamInit
    EventType.General EventType.PacketReceived EventType.General rfl rfl).1

/-- C35: a Double-Binary-Tree Root rank in state Begin, for every three events delivered
to `run`: the first call posts one recv from the child `c`, `left_child` if
`left_child >= 0` and `right_child` otherwise, the second launches one reduce bundle, and
the third issues one send to `c` and exits; nothing else is issued. -/
theorem root_schedule (t : DoubleBinaryTreeAllReduce) (e1 e2 e3 : EventType)
    (hstate : t.state = TreeState.Begin) (htype : t.type = BinaryTreeType.Root) :
    (t.trace [e1, e2, e3]).2
      = [[TreeEffect.front_end_sim_recv t.data_size
            (if t.left_child ≥ 0 then t.left_child else t.right_child) t.stream_id
            (intToUInt32 t.current_queue_id)],
         [TreeEffect.send_to_NPU true true t.data_size Transmition.Usual],
         [TreeEffect.front_end_sim_send t.data_size
            (if t.left_child ≥ 0 then t.left_child else t.right_child) t.stream_id
            (intToUInt32 t.owner_id)
            (intToUInt32 (if t.left_child ≥ 0 then t.left_child else t.right_child))
            (intToUInt32 t.stream_id) (intToUInt32 t.current_queue_id),
          TreeEffect.proceed_to_next_vnet_baseline]] ∧
    (t.trace [e1]).1.state = TreeState.WaitingForOneChildData ∧
    (t.trace [e1, e2]).1.state = TreeState.SendingDataToChilds := by
  refine ⟨?_, ?_, ?_⟩ <;>
    simp [DoubleBinaryTreeAllReduce.trace, DoubleBinaryTreeAllReduce.run, hstate, htype,
      DoubleBinaryTreeAllReduce.send_effect, DoubleBinaryTreeAllReduce.recv_effect,
      DoubleBinaryTreeAllReduce.only_child_id]

/-- Witness of C35: a root without a left child (`left_child = -1`) and with the right
child 2 receives from rank 2 and sends to rank 2. -/
theorem root_schedule_witness :
    (({ DoubleBinaryTreeAllReduce.sample BinaryTreeType.Root with left_child := -1 } :
        DoubleBinaryTreeAllReduce).trace
        [EventType.StreamInit, EventType.PacketReceived, EventType.General]).2
      = [[TreeEffect.front_end_sim_recv 1024 2 5 0],
         [TreeEffect.send_to_NPU true true 1024 Transmition.Usual],
         [TreeEffect.front_end_sim_send 1024 2 5 1 2 5 0,
          TreeEffect.proceed_to_next_vnet_baseline]] :=
  (root_schedule
    ({ DoubleBinaryTreeAllReduce.sample BinaryTreeType.Root with left_child := -1 } :
      DoubleBinaryTreeAllReduce)
    EventType.StreamInit EventType.PacketReceived EventType.General rfl rfl).1

namespace DoubleBinaryTreeAllReduce

/-- The request of a send agrees with the send exactly when its `dstRank` is the
destination. -/
theorem send_effect_agrees (t : DoubleBinaryTreeAllReduce) (dst req_dst : Int) :
    TreeEffect.request_agrees t.owner_id t.stream_id (t.send_effect dst req_dst) = true ↔
      intToUInt32 req_dst = intToUInt32 dst := by
  simp only [TreeEffect.request_agrees, send_effect, Bool.and_eq_true, decide_eq_true_eq,
    and_true]

theorem recv_effect_agrees (t : DoubleBinaryTreeAllReduce) (src : Int) :
    TreeEffect.request_agrees t.owner_id t.stream_id (t.recv_effect src) = true := rfl

theorem bundle_agrees (owner_id stream_id : Int) (processed send_back : Bool) (size : Nat)
    (transmition : Transmition) :
    TreeEffect.request_agrees owner_id stream_id
        (TreeEffect.send_to_MA processed send_back size transmition) = true ∧
    TreeEffect.request_agrees owner_id stream_id
        (TreeEffect.send_to_NPU processed send_back size transmition) = true ∧
    TreeEffect.request_agrees owner_id stream_id TreeEffect.proceed_to_next_vnet_baseline
      = true :=
  ⟨rfl, rfl, rfl⟩

/-- The calls of `run` in the branch of an Intermediate rank in SendingDataToChilds. -/
theorem run_sending_to_childs (t : DoubleBinaryTreeAllReduce) (event : EventType)
    (hs : t.state = TreeState.SendingDataToChilds) (ht : t.type = BinaryTreeType.Intermediate)
    (hne : ¬ (t.reductions < 1 ∧ event = EventType.General)) :
    (t.run event).2
      = [t.send_effect t.left_child t.left_child, t.send_effect t.right_child t.left_child,
         TreeEffect.proceed_to_next_vnet_baseline] := by
  simp only [run, hs, ht, true_and, false_and, if_true, if_false, reduceCtorEq]
  rw [if_neg hne]

/-- The calls of `run` in every other branch: each is a bundle, a recv, the exit, or a send
whose request names its destination. -/
theorem run_other_branches (t : DoubleBinaryTreeAllReduce) (event : EventType)
    (h : ¬ (t.state = TreeState.SendingDataToChilds ∧ t.type = BinaryTreeType.Intermediate ∧
      ¬ (t.reductions < 1 ∧ event = EventType.General))) :
    ∀ e ∈ (t.run event).2, TreeEffect.request_agrees t.owner_id t.stream_id e = true := by
  cases hs : t.state <;> cases ht : t.type <;>
    simp only [hs, ht, true_and, false_and, not_false_eq_true, not_not] at h <;>
    simp only [run, hs, ht, true_and, false_and, if_true, if_false, reduceCtorEq] <;>
    (try split_ifs) <;>
    simp [send_effect_agrees, recv_effect_agrees, bundle_agrees]
  all_goals rfl

end DoubleBinaryTreeAllReduce

/-- C38 (what the code does): the `sim_request` of every send of
`DoubleBinaryTreeAllReduce::run` names the destination of the send, the owner and the
stream, except in one branch: an Intermediate rank in SendingDataToChilds sends to
`left_child` and then to `right_child`, and the request of the second send carries
`dstRank = left_child`.  So the requests of a call agree with its sends exactly when that
branch is not taken or both children convert to the same `uint32_t`. -/
theorem request_dstRank (t : DoubleBinaryTreeAllReduce) (event : EventType) :
    ((∀ e ∈ (t.run event).2, TreeEffect.request_agrees t.owner_id t.stream_id e = true) ↔
      ¬ (t.state = TreeState.SendingDataToChilds ∧ t.type = BinaryTreeType.Intermediate ∧
          ¬ (t.reductions < 1 ∧ event = EventType.General) ∧
          intToUInt32 t.left_child ≠ intToUInt32 t.right_child)) ∧
    ((t.state = TreeState.SendingDataToChilds ∧ t.type = BinaryTreeType.Intermediate ∧
        ¬ (t.reductions < 1 ∧ event = EventType.General)) →
      (t.run event).2
        = [TreeEffect.front_end_sim_send t.data_size t.left_child t.stream_id
             (intToUInt32 t.owner_id) (intToUInt32 t.left_child) (intToUInt32 t.stream_id)
             (intToUInt32 t.current_queue_id),
           TreeEffect.front_end_sim_send t.data_size t.right_child t.stream_id
             (intToUInt32 t.owner_id) (intToUInt32 t.left_child) (intToUInt32 t.stream_id)
             (intToUInt32 t.current_queue_id),
           TreeEffect.proceed_to_next_vnet_baseline]) := by
  constructor
  · by_cases hB : t.state = TreeState.SendingDataToChilds ∧
        t.type = BinaryTreeType.Intermediate ∧
        ¬ (t.reductions < 1 ∧ event = EventType.General)
    · obtain ⟨hs, ht, hne⟩ := hB
      rw [DoubleBinaryTreeAllReduce.run_sending_to_childs t event hs ht hne]
      constructor
      · intro h ⟨_, _, _, hdiff⟩
        exact hdiff ((DoubleBinaryTreeAllReduce.send_effect_agrees t _ _).mp
          (h _ (by simp)))
      · intro h e he
        have heq : intToUInt32 t.left_child = intToUInt32 t.right_child := by
          by_contra hdiff
          exact h ⟨hs, ht, hne, hdiff⟩
        simp only [List.mem_cons, List.mem_singleton, List.not_mem_nil, or_false] at he
        rcases he with he | he | he <;> subst he
        · exact (DoubleBinaryTreeAllReduce.send_effect_agrees t _ _).mpr rfl
        · exact (DoubleBinaryTreeAllReduce.send_effect_agrees t _ _).mpr heq
        · rfl
    · constructor
      · intro _ ⟨hs, ht, hne, _⟩
        exact hB ⟨hs, ht, hne⟩
      · intro _
        exact DoubleBinaryTreeAllReduce.run_other_branches t event hB
  · rintro ⟨hs, ht, hne⟩
    exact DoubleBinaryTreeAllReduce.run_sending_to_childs t event hs ht hne

/-- Witness of C38: the intermediate rank 1 with children 0 and 2, in SendingDataToChilds:
the send to rank 2 carries a request with `dstRank = 0`. -/
theorem request_dstRank_witness :
    (({ DoubleBinaryTreeAllReduce.sample BinaryTreeType.Intermediate with
          state := TreeState.SendingDataToChilds, reductions := 1 } :
        DoubleBinaryTreeAllReduce).run EventType.General).2
      = [TreeEffect.front_end_sim_send 1024 0 5 1 0 5 0,
         TreeEffect.front_end_sim_send 1024 2 5 1 0 5 0,
         TreeEffect.proceed_to_next_vnet_baseline] :=
  (request_dstRank
    ({ DoubleBinaryTreeAllReduce.sample BinaryTreeType.Intermediate with
        state := TreeState.SendingDataToChilds, reductions := 1 } :
      DoubleBinaryTreeAllReduce) EventType.General).2 ⟨rfl, rfl, by decide⟩

end AstraSim
namespace AstraSim

/-! ## `AllToAll::run`: the General event -/

/-- C36: `AllToAll::run` on a General event first increments `free_packets`.  For an
All_Reduce with `stream_count <= middle_point`: while `total_packets_received <
middle_point` that is all, no chunk is issued and `iteratable` is not called; once
`total_packets_received >= middle_point`, `ready()` is called `parallel_reduce` times and
then `iteratable()`.  In every other case `ready()` is called once and then
`iteratable()`.  The constructor sets `middle_point = n - 1`. -/
theorem all_to_all_general (topo : RingTopology) (a : AllToAll) :
    (a.comType = ComType.All_Reduce → a.stream_count ≤ a.middle_point →
      a.total_packets_received < a.middle_point →
      AllToAll.run topo a EventType.General
        = some ({ a with free_packets := a.free_packets + 1 }, [])) ∧
    (a.comType = ComType.All_Reduce → a.stream_count ≤ a.middle_point →
      a.middle_point ≤ a.total_packets_received →
      AllToAll.run topo a EventType.General
        = some
            ({ a with
                toRing :=
                  (Ring.iteratable
                    (Ring.readys a.parallel_reduce.toNat
                      { a.toRing with free_packets := a.free_packets + 1 }).1).2.1 },
              (Ring.readys a.parallel_reduce.toNat
                  { a.toRing with free_packets := a.free_packets + 1 }).2 ++
                (Ring.iteratable
                  (Ring.readys a.parallel_reduce.toNat
                    { a.toRing with free_packets := a.free_packets + 1 }).1).2.2)) ∧
    (¬ (a.comType = ComType.All_Reduce ∧ a.stream_count ≤ a.middle_point) →
      AllToAll.run topo a EventType.General
        = some
            ({ a with
                toRing :=
                  (Ring.iteratable
                    (Ring.ready { a.toRing with free_packets := a.free_packets + 1 }).2.1).2.1 },
              (Ring.ready { a.toRing with free_packets := a.free_packets + 1 }).2.2 ++
                (Ring.iteratable
                  (Ring.ready
                    { a.toRing with free_packets := a.free_packets + 1 }).2.1).2.2)) ∧
    (∀ (k : Nat) (r : Ring),
      Ring.readys 0 r = (r, []) ∧
      Ring.readys (k + 1) r
        = ((Ring.readys k (Ring.ready r).2.1).1,
            (Ring.ready r).2.2 ++ (Ring.readys k (Ring.ready r).2.1).2)) ∧
    (∀ (storage : AllToAll) (type : ComType) (window id : Int) (topo1 : RingTopology)
        (S : Nat) (direction : Direction) (policy : InjectionPolicy),
      (AllToAll.ctor storage type window id topo1 S direction policy).middle_point
        = topo1.get_nodes_in_ring - 1) := by
  refine ⟨?_, ?_, ?_, ?_, ?_⟩
  · intro h1 h2 h3
    simp [AllToAll.run, h1, h2, h3]
  · intro h1 h2 h3
    have h4 : ¬ a.total_packets_received < a.middle_point := by omega
    simp [AllToAll.run, h1, h2, h4]
  · intro h
    simp only [not_and] at h
    by_cases h1 : a.comType = ComType.All_Reduce
    · have h2 := h h1
      simp [AllToAll.run, h1, h2]
    · simp [AllToAll.run, h1]
  · intro k r
    exact ⟨rfl, rfl⟩
  · intro storage type window id topo1 S direction policy
    have hn : (Ring.ctor storage.toRing type id topo1 S direction policy).nodes_in_ring
        = topo1.get_nodes_in_ring :=
      (Ring.ctor_counters storage.toRing type id topo1 S direction policy).2.2.2.2
    unfold AllToAll.ctor
    dsimp only
    split_ifs <;> simp [hn]

/-- Witness of C36: an All_Reduce `AllToAll` of 3 ranks (`middle_point = 2`) whose
`stream_count` has come down to 2 and that has received no packet yet: a General event
only increments `free_packets`. -/
theorem all_to_all_general_witness :
    AllToAll.run (RingTopology.ofSize 3 Dimension.Local)
        { AllToAll.ctor AllToAll.sampleStorage ComType.All_Reduce (-1) 0
            (RingTopology.ofSize 3 Dimension.Local) 1024 Direction.Clockwise
            InjectionPolicy.Normal with
          stream_count := 2 } EventType.General
      = some
          ({ ({ AllToAll.ctor AllToAll.sampleStorage ComType.All_Reduce (-1) 0
                  (RingTopology.ofSize 3 Dimension.Local) 1024 Direction.Clockwise
                  InjectionPolicy.Normal with
                stream_count := 2 } : AllToAll) with
              free_packets := 0 + 1 }, []) :=
  (all_to_all_general (RingTopology.ofSize 3 Dimension.Local)
    { AllToAll.ctor AllToAll.sampleStorage ComType.All_Reduce (-1) 0
        (RingTopology.ofSize 3 Dimension.Local) 1024 Direction.Clockwise
        InjectionPolicy.Normal with
      stream_count := 2 }).1 (by decide) (by decide) (by decide)

end AstraSim
namespace AstraSim

/-! ## The constructor of `AllToAll` -/

end AstraSim
namespace AstraSim

/-! ## `Ring::insert_packet`: the panic -/

namespace Ring

end Ring

namespace AllToAll

end AllToAll

end AstraSim
namespace AstraSim

/-! ## `UsageTracker::report_percentage` -/

/-- C40 (what the code does): `report_percentage` leaves the tracker that
`decrease_usage(); increase_usage();` leaves.  With `c = current_level` and
`L = levels` on entry, `current_level` is `c` again exactly when `0 < c < L`, or when
both calls do nothing (`L - 1 <= c <= 0`).  An idle tracker (`c <= 0`) with
`c < L - 1` leaves with `c + 1`: `decrease_usage` does nothing and `increase_usage`
raises the level.  A tracker with `0 < c` and `L <= c` leaves with `c - 1`. -/
theorem report_percentage_level (now cycles fuel : Nat) (t : UsageTracker) :
    (∀ t1 result, UsageTracker.report_percentage now cycles fuel t = Except.ok (t1, result) →
      t1 = UsageTracker.increase_usage now (UsageTracker.decrease_usage now t)) ∧
    ((UsageTracker.increase_usage now (UsageTracker.decrease_usage now t)).current_level
        = t.current_level ↔
      (0 < t.current_level ∧ t.current_level < t.levels) ∨
        (t.levels - 1 ≤ t.current_level ∧ t.current_level ≤ 0)) ∧
    (t.current_level ≤ 0 → t.current_level < t.levels - 1 →
      (UsageTracker.increase_usage now (UsageTracker.decrease_usage now t)).current_level
        = t.current_level + 1) ∧
    (0 < t.current_level → t.levels ≤ t.current_level →
      (UsageTracker.increase_usage now (UsageTracker.decrease_usage now t)).current_level
        = t.current_level - 1) := by
  have key : (UsageTracker.increase_usage now (UsageTracker.decrease_usage now t)).current_level
      = (if t.current_level > 0 then
          (if t.current_level - 1 < t.levels - 1 then t.current_level
            else t.current_level - 1)
        else (if t.current_level < t.levels - 1 then t.current_level + 1
          else t.current_level)) := by
    unfold UsageTracker.increase_usage UsageTracker.decrease_usage
    by_cases h1 : t.current_level > 0
    · by_cases h2 : t.current_level - 1 < t.levels - 1
      · simp only [h1, h2, if_true]
        omega
      · simp only [h1, h2, if_true, if_false]
    · by_cases h2 : t.current_level < t.levels - 1
      · simp only [h1, h2, if_true, if_false]
      · simp only [h1, h2, if_false]
  refine ⟨?_, ?_, ?_, ?_⟩
  · intro t1 result h
    unfold UsageTracker.report_percentage at h
    dsimp only at h
    split at h
    · cases h
    · simp only [Except.ok.injEq, Prod.mk.injEq] at h
      exact h.1.symm
  · rw [key]
    split_ifs <;> constructor <;> intro h <;> omega
  · intro h1 h2
    rw [key]
    split_ifs <;> omega
  · intro h1 h2
    rw [key]
    split_ifs <;> omega

/-- Witness of C40: a fresh tracker of 2 levels (idle, level 0) at tick 25, reported with
periods of 10 ticks: the call returns the two periods and leaves `current_level = 1`. -/
theorem report_percentage_level_witness :
    UsageTracker.report_percentage 25 10 4 (UsageTracker.ctor 2)
      = Except.ok
          ({ levels := 2, current_level := 1, last_tick := 25
             usage := [{ level := 0, start := 0, end_ := 25 }] },
            [(10, 0), (20, 0)]) ∧
    (UsageTracker.increase_usage 25 (UsageTracker.decrease_usage 25 (UsageTracker.ctor 2))
      ).current_level = (UsageTracker.ctor 2).current_level + 1 :=
  ⟨rfl,
    (report_percentage_level 25 10 4 (UsageTracker.ctor 2)).2.2.1 (by decide) (by decide)⟩

end AstraSim
